import Mathlib

/-! CherryTree XML storage (`src/ct/ct_storage_xml.cc`)

A shallow embedding of the XML backend of the document storage engine:
`CtStorageXml::populate_treestore`, `save_treestore`, `import_nodes`,
`get_parser`, and the helper `CtStorageXmlHelper` (`node_to_xml`,
`node_from_xml`, `create_buffer_and_widgets_from_xml`, ...).

Conventions of the embedding.

* The libxml++ DOM is the inductive type `XmlNode`; writing a document to a
  file and parsing it back is the business of libxml++, which is reached only
  through the capabilities of `CtEnv`.
* C++ exceptions are values of `CtError.exn`; an operation the C++ standard
  leaves undefined (dereferencing a null pointer, `back()` of an empty
  vector) is `CtError.undefined`.
* `gint64` and `int` are `Int`, `guint32` is `Nat` reduced modulo `2^32`
  where the source casts.
* Everything the source file calls but does not define (string utilities,
  constants, GTK text buffers, the tree store, the file system) is either a
  field of `CtEnv` or a definition marked as modelled from the specification.
-/

namespace CherryTree

/-! ## libxml++ DOM -/

/-- An `xmlpp::Node`: an element with attributes and children, or a text node. -/
inductive XmlNode where
  | element (name : String) (attrs : List (String × String)) (children : List XmlNode)
  | text (content : String)

namespace XmlNode

/-- The method `xmlpp::Node::get_name`; a text node is called `text`. -/
def get_name : XmlNode → String
  | element n _ _ => n
  | text _ => "text"

/-- The attribute list of an element (a text node has none). -/
def get_attributes : XmlNode → List (String × String)
  | element _ a _ => a
  | text _ => []

/-- The method `xmlpp::Node::get_children()` without a name filter. -/
def get_children_all : XmlNode → List XmlNode
  | element _ _ cs => cs
  | text _ => []

/-- The method `xmlpp::Node::get_children(name)`: the children called `name`, in order. -/
def get_children (e : XmlNode) (name : String) : List XmlNode :=
  e.get_children_all.filter (fun c => c.get_name == name)

/-- Lookup in an attribute list; the empty string when the attribute is absent. -/
def attr_value : List (String × String) → String → String
  | [], _ => ""
  | (k, v) :: rest, name => if k == name then v else attr_value rest name

/-- The method `xmlpp::Element::get_attribute_value`: empty when absent. -/
def get_attribute_value (e : XmlNode) (name : String) : String :=
  attr_value e.get_attributes name

/-- Replace the value of `k` when present, else append `(k, v)`. -/
def set_attr (attrs : List (String × String)) (k v : String) : List (String × String) :=
  if attrs.any (fun p => p.1 == k) then attrs.map (fun p => if p.1 == k then (k, v) else p)
  else attrs ++ [(k, v)]

/-- The method `xmlpp::Element::set_attribute`. -/
def set_attribute : XmlNode → String → String → XmlNode
  | element n a cs, k, v => element n (set_attr a k v) cs
  | text c, _, _ => text c

/-- Append one child to an element (`add_child`, `add_child_text`, `import_node`). -/
def add_child : XmlNode → XmlNode → XmlNode
  | element n a cs, c => element n a (cs ++ [c])
  | text t, _ => text t

/-- Append several children in order. -/
def add_children : XmlNode → List XmlNode → XmlNode
  | element n a cs, l => element n a (cs ++ l)
  | text t, _ => text t

/-- The content of the first text child in a list of children. -/
def first_text : List XmlNode → Option String
  | [] => none
  | text c :: _ => some c
  | element _ _ _ :: rest => first_text rest

/-- The method `xmlpp::Element::get_child_text`: the first text child, if any. -/
def get_child_text (e : XmlNode) : Option String :=
  first_text e.get_children_all

end XmlNode

/-- An `xmlpp::Document`; `get_root_node()` may be null. -/
structure XmlDocument where
  root : Option XmlNode

/-- What `xmlpp::DomParser` throws: `xmlpp::parse_error` or another `xmlpp::exception`. -/
structure XmlppException where
  what : String
  is_parse_error : Bool

/-! ## Errors, enumerations, widgets, buffers -/

/-- A C++ exception derived from `std::exception`, or undefined behaviour. -/
inductive CtError where
  | exn (what : String)
  | undefined (what : String)
deriving DecidableEq

/-- The enumeration `CtExporting` (`ct_types.h`). -/
inductive CtExporting where
  | NONESAVEAS
  | NONESAVE
  | SELECTED_TEXT
  | CURRENT_NODE
  | CURRENT_NODE_AND_SUBNODES
  | ALL_TREE
deriving DecidableEq

/-- The enumeration `CtAnchorExpCollState`. -/
inductive CtAnchorExpCollState where
  | None
  | Expanded
  | Collapsed
deriving DecidableEq

/-- The anchored widgets this file constructs, with the constructor arguments it passes
(the process-global counter `CtImageEmbFile::get_next_unique_id()` is not recorded). -/
inductive CtAnchoredWidget where
  | CtImageAnchor (anchorName : String) (expCollState : CtAnchorExpCollState)
      (charOffset : Int) (justification : String)
  | CtImageLatex (encodedBlob : String) (charOffset : Int) (justification : String)
  | CtImageEmbFile (fileName rawBlob : String) (timeInt : Int) (charOffset : Int)
      (justification : String) (pathOnDisk : String)
  | CtImagePng (rawBlob link : String) (charOffset : Int) (justification : String)
  | CtCodebox (textContent syntaxHighlighting : String) (frameWidth frameHeight : Int)
      (charOffset : Int) (justification : String)
      (widthInPixels highlightBrackets showLineNumbers : Bool)
  | CtTableLight (tableMatrix : List (List String)) (colWidthDefault charOffset : Int)
      (justification : String) (tableColWidths : List Int)
  | CtTableHeavy (tableMatrix : List (List String)) (colWidthDefault charOffset : Int)
      (justification : String) (tableColWidths : List Int)
deriving DecidableEq

/-- One mutation of a `Gtk::TextBuffer` performed by this file. -/
inductive BufferOp where
  | insert (pos : Option Nat) (text : String) (tags : List String)
  | insert_widget (widget : CtAnchoredWidget)
deriving DecidableEq

/-- A `Gtk::TextBuffer`, as the sequence of mutations applied to a new buffer. -/
structure CtTextBuffer where
  ops : List BufferOp
deriving DecidableEq

/-- The struct `CtNodeData` (`ct_types.h`): what `append_node` receives. -/
structure CtNodeData where
  nodeId : Int
  sharedNodesMasterId : Int
  name : String
  pTextBuffer : Option CtTextBuffer
  syntaxHighlighting : String
  tags : String
  isReadOnly : Bool
  customIconId : Nat
  isBold : Bool
  foregroundRgb24 : String
  tsCreation : Int
  tsLastSave : Int
  sequence : Int
  excludeMeFromSearch : Bool
  excludeChildrenFromSearch : Bool
  anchoredWidgets : List CtAnchoredWidget
deriving DecidableEq

/-- Modelled from the spec: the default member initialisers of `CtNodeData` are not in
the source given. `CtNodeData node_data{}` is the data of a node that "carries no local
metadata or content": every text is empty, every flag false, every number zero (the id
and the sequence, which `node_from_xml` always assigns, start at -1). -/
def CtNodeData.init : CtNodeData where
  nodeId := -1
  sharedNodesMasterId := 0
  name := ""
  pTextBuffer := none
  syntaxHighlighting := ""
  tags := ""
  isReadOnly := false
  customIconId := 0
  isBold := false
  foregroundRgb24 := ""
  tsCreation := 0
  tsLastSave := 0
  sequence := -1
  excludeMeFromSearch := false
  excludeChildrenFromSearch := false
  anchoredWidgets := []

/-! ## Capabilities the source file uses but does not define -/

/-- The functions and constants `ct_storage_xml.cc` calls but does not define:
`CtStrUtil`, `CtConst`, `str::`, GLib, libxml++, the file system, the blob store of the
multi-file backend, the tag table of the main window and the id allocator of the tree
store. Every theorem holds for all of them, under the hypotheses it states. -/
structure CtEnv where
  /-- `CtStrUtil::gint64_from_gstring` -/
  gint64_from_gstring : String → Int
  /-- `CtStrUtil::is_str_true` -/
  is_str_true : String → Bool
  /-- `CtStrUtil::gstring_split_to_int64(csv, ",")` -/
  gstring_split_to_int64 : String → List Int
  /-- `CtStrUtil::gstring_split_to_int(csv, ",")` -/
  gstring_split_to_int : String → List Int
  /-- `CtStrUtil::is_header_anchor_name(name) != 0` -/
  is_header_anchor_name : String → Bool
  /-- `std::stoi`; `none` when it throws -/
  stoi : String → Option Int
  /-- `std::stoll`; `none` when it throws -/
  stoll : String → Option Int
  /-- `CtConst::APP_NAME` -/
  APP_NAME : String
  /-- `CtConst::TAG_JUSTIFICATION` -/
  TAG_JUSTIFICATION : String
  /-- `CtConst::TAG_PROP_VAL_LEFT` -/
  TAG_PROP_VAL_LEFT : String
  /-- `CtConst::TAG_PROPERTIES` -/
  TAG_PROPERTIES : List String
  /-- `CtImageLatex::LatexSpecialFilename` -/
  LatexSpecialFilename : String
  /-- `CtMainWin::get_text_tag_name_exist_or_create(name, value)` -/
  get_text_tag_name_exist_or_create : String → String → String
  /-- `Glib::Base64::decode` -/
  base64_decode : String → String
  /-- `CtStorageMultiFile::read_blob(dir, sha256sum, out)`; `none` when it returns false -/
  read_blob : String → String → Option String
  /-- `fs::path{dir} / file_name` -/
  path_join : String → String → String
  /-- `CtTreeStore::node_id_get()`, from the ids of the nodes now in the tree -/
  node_id_get : List Int → Int
  /-- `fs::exists` -/
  fs_exists : String → Bool
  /-- `DomParser::parse_file`; an error is a thrown `xmlpp::exception`, a result is
  `parser->get_document()` afterwards -/
  parse_file : String → Except XmlppException (Option XmlDocument)
  /-- `DomParser::parse_memory`, likewise -/
  parse_memory : String → Except XmlppException (Option XmlDocument)
  /-- `Glib::file_get_contents` -/
  file_get_contents : String → String
  /-- `CtStrUtil::convert_if_not_utf8(buffer, true)`: the buffer afterwards -/
  convert_if_not_utf8 : String → String
  /-- `g_utf8_make_valid` -/
  g_utf8_make_valid : String → String
  /-- `str::sanitize_bad_symbols` -/
  sanitize_bad_symbols : String → String
  /-- `CtTextIterUtil::generic_process_slot(config, start, end, buffer, f)`: the spans on
  which it calls `f`, each with the text between the two iterators and `curr_attributes` -/
  generic_process_slot : Int → Int → CtTextBuffer → List (String × List (String × String))
  /-- `Glib::ustring::lowercase` -/
  lowercase : String → String
  /-- `Glib::ustring::uppercase` -/
  uppercase : String → String
  /-- `str::swapcase` -/
  swapcase : String → String
  /-- `CtTreeIter::get_anchored_widgets(start_offset, end_offset)` on the node's widgets -/
  get_anchored_widgets : List CtAnchoredWidget → Int → Int → List CtAnchoredWidget
  /-- `CtAnchoredWidget::to_xml(parent, offset_adjustment, cache, multifile_dir)`: the
  elements it adds to `parent` -/
  widget_to_xml : CtAnchoredWidget → Int → String → List XmlNode
  /-- `xmlpp::Document::write_to_file_formatted(path)` on the document with this root:
  `none` when the file is written, the `what()` of the exception when it throws -/
  write_to_file_formatted : String → XmlNode → Option String

/-- The function `std::to_string` on integers: decimal digits, `-` for negatives. -/
def to_string (n : Int) : String := toString n

/-- The function `std::to_string` on a `bool`, promoted to `int`. -/
def bool_to_string (b : Bool) : String := to_string (if b then 1 else 0)

/-- Modelled from the spec: `str::join_numbers` (`ct_misc_utils.h`) is not in the source
given; the `bookmarks` element carries "a comma-separated id list". -/
def join_numbers (l : List Int) (delimiter : String) : String :=
  delimiter.intercalate (l.map to_string)

/-- A `std::map<gint64, V>` as an association list with unique keys. -/
abbrev CtMap (V : Type) := List (Int × V)

namespace CtMap

/-- The method `std::map::count(k) != 0`. -/
def has {V : Type} (m : CtMap V) (k : Int) : Bool := m.any (fun p => p.1 == k)

/-- The method `std::map::find`. -/
def find {V : Type} : CtMap V → Int → Option V
  | [], _ => none
  | (k, v) :: rest, key => if k == key then some v else find rest key

/-- The assignment `m[k] = v`: the value of the key is replaced, or the pair is added. -/
def set {V : Type} : CtMap V → Int → V → CtMap V
  | [], key, value => [(key, value)]
  | (k, v) :: rest, key, value =>
    if k == key then (key, value) :: rest else (k, v) :: set rest key value

/-- The method `std::map::erase(k)`. -/
def erase {V : Type} (m : CtMap V) (k : Int) : CtMap V := m.filter (fun p => !(p.1 == k))

end CtMap

/-- The type `CtDelayedTextBufferMap`: node id to the document holding a copy of its element. -/
abbrev CtDelayedTextBufferMap := CtMap XmlDocument

/-! ## Decoding the content of a node (`create_buffer_and_widgets_from_xml`) -/

/-- The method `CtStorageXmlHelper::_add_rich_text_from_xml`. -/
def _add_rich_text_from_xml (U : CtEnv) (buffer : CtTextBuffer) (xml_element : XmlNode)
    (text_insert_pos : Option Nat) : CtTextBuffer :=
  match xml_element.get_child_text with
  | none => buffer
  | some text_content =>
    if text_content == "" then buffer
    else
      let tags := (xml_element.get_attributes.filter
        (fun a => U.TAG_PROPERTIES.contains a.1)).map
        (fun a => U.get_text_tag_name_exist_or_create a.1 a.2)
      { ops := buffer.ops ++ [BufferOp.insert text_insert_pos text_content tags] }

/-- The method `CtStorageXmlHelper::_create_image_from_xml`; `none` is the null pointer. -/
def _create_image_from_xml (U : CtEnv) (xml_element : XmlNode) (charOffset : Int)
    (justification : String) (multifile_dir : String) :
    Except CtError (Option CtAnchoredWidget) :=
  let anchorName := xml_element.get_attribute_value "anchor"
  if anchorName != "" then
    let expCollState :=
      if U.is_header_anchor_name anchorName then
        (if xml_element.get_attribute_value "state" == "coll"
          then CtAnchorExpCollState.Collapsed else CtAnchorExpCollState.Expanded)
      else CtAnchorExpCollState.None
    .ok (some (.CtImageAnchor anchorName expCollState charOffset justification))
  else
    let file_name := xml_element.get_attribute_value "filename"
    let encodedBlob := (xml_element.get_child_text).getD ""
    if file_name == U.LatexSpecialFilename then
      .ok (some (.CtImageLatex encodedBlob charOffset justification))
    else
      let rawBlob : Option String :=
        if multifile_dir == "" then
          (if encodedBlob == "" then some "" else some (U.base64_decode encodedBlob))
        else
          let sha256sum := xml_element.get_attribute_value "sha256sum"
          if sha256sum == "" then (if file_name == "" then none else some "")
          else U.read_blob multifile_dir sha256sum
      match rawBlob with
      | none => .ok none
      | some rawBlob =>
        if file_name != "" then
          let timeStr := xml_element.get_attribute_value "time"
          let timeStr := if timeStr == "" then "0" else timeStr
          match U.stoll timeStr with
          | none => .error (.exn "stoll")
          | some timeInt =>
            .ok (some (.CtImageEmbFile file_name rawBlob timeInt charOffset justification
              (U.path_join multifile_dir file_name)))
        else
          .ok (some (.CtImagePng rawBlob (xml_element.get_attribute_value "link")
            charOffset justification))

/-- The method `CtStorageXmlHelper::_create_codebox_from_xml`. -/
def _create_codebox_from_xml (U : CtEnv) (xml_element : XmlNode) (charOffset : Int)
    (justification : String) : Except CtError CtAnchoredWidget :=
  let textContent := (xml_element.get_child_text).getD ""
  let syntaxHighlighting := xml_element.get_attribute_value "syntax_highlighting"
  match U.stoi (xml_element.get_attribute_value "frame_width") with
  | none => .error (.exn "stoi")
  | some frameWidth =>
    match U.stoi (xml_element.get_attribute_value "frame_height") with
    | none => .error (.exn "stoi")
    | some frameHeight =>
      .ok (.CtCodebox textContent syntaxHighlighting frameWidth frameHeight charOffset
        justification
        (U.is_str_true (xml_element.get_attribute_value "width_in_pixels"))
        (U.is_str_true (xml_element.get_attribute_value "highlight_brackets"))
        (U.is_str_true (xml_element.get_attribute_value "show_line_numbers")))

/-- The row loop of `populate_table_matrix`: one matrix row per `row` child, one cell per
`cell` child, holding the cell's text or the empty string. -/
def table_rows_from_xml (xml_element : XmlNode) : List (List String) :=
  (xml_element.get_children "row").map
    (fun pNodeRow => (pNodeRow.get_children "cell").map
      (fun pNodeCell => (pNodeCell.get_child_text).getD ""))

/-- The method `CtStorageXmlHelper::populate_table_matrix(tableMatrix, xml_element,
tableColWidths, is_light)`: the three reference arguments afterwards. `back()` of an
empty matrix is undefined. -/
def populate_table_matrix (U : CtEnv) (tableMatrix : List (List String))
    (xml_element : XmlNode) (tableColWidths : List Int) (is_light : Bool) :
    Except CtError (List (List String) × List Int × Bool) :=
  let isLightStr := xml_element.get_attribute_value "is_light"
  let is_light := if isLightStr != "" then U.is_str_true isLightStr else is_light
  let filled := tableMatrix ++ table_rows_from_xml xml_element
  match filled.getLast? with
  | none => .error (.undefined "back() of an empty table matrix")
  | some last =>
    let colWidthsStr := xml_element.get_attribute_value "col_widths"
    .ok ((last :: filled).dropLast,
      (if colWidthsStr != "" then U.gstring_split_to_int colWidthsStr else tableColWidths),
      is_light)

/-- The method `CtStorageXmlHelper::_create_table_from_xml`. -/
def _create_table_from_xml (U : CtEnv) (xml_element : XmlNode) (charOffset : Int)
    (justification : String) : Except CtError CtAnchoredWidget :=
  match U.stoi (xml_element.get_attribute_value "col_max") with
  | none => .error (.exn "stoi")
  | some colWidthDefault =>
    match populate_table_matrix U [] xml_element [] false with
    | .error e => .error e
    | .ok (tableMatrix, tableColWidths, is_light) =>
      if is_light then
        .ok (.CtTableLight tableMatrix colWidthDefault charOffset justification tableColWidths)
      else
        .ok (.CtTableHeavy tableMatrix colWidthDefault charOffset justification tableColWidths)

/-- The method `CtStorageXmlHelper::get_text_buffer_one_slot_from_xml`: its return value,
and the buffer and the widget list afterwards. -/
def get_text_buffer_one_slot_from_xml (U : CtEnv) (buffer : CtTextBuffer)
    (slot_node : XmlNode) (widgets : List CtAnchoredWidget) (text_insert_pos : Option Nat)
    (force_offset : Int) (multifile_dir : String) :
    Except CtError (Bool × CtTextBuffer × List CtAnchoredWidget) :=
  let slot_element_name := slot_node.get_name
  if slot_element_name == "rich_text" then
    .ok (true, _add_rich_text_from_xml U buffer slot_node text_insert_pos, widgets)
  else if slot_element_name == "encoded_png" || slot_element_name == "table"
      || slot_element_name == "codebox" then
    match (if force_offset != -1 then some force_offset
           else U.stoi (slot_node.get_attribute_value "char_offset")) with
    | none => .error (.exn "stoi")
    | some char_offset =>
      let justification := slot_node.get_attribute_value U.TAG_JUSTIFICATION
      let justification := if justification == "" then U.TAG_PROP_VAL_LEFT else justification
      if slot_element_name == "encoded_png" then
        match _create_image_from_xml U slot_node char_offset justification multifile_dir with
        | .error e => .error e
        | .ok none => .ok (false, buffer, widgets)
        | .ok (some widget) =>
          .ok (true, { ops := buffer.ops ++ [BufferOp.insert_widget widget] },
            widgets ++ [widget])
      else if slot_element_name == "table" then
        match _create_table_from_xml U slot_node char_offset justification with
        | .error e => .error e
        | .ok widget =>
          .ok (true, { ops := buffer.ops ++ [BufferOp.insert_widget widget] },
            widgets ++ [widget])
      else
        match _create_codebox_from_xml U slot_node char_offset justification with
        | .error e => .error e
        | .ok widget =>
          .ok (true, { ops := buffer.ops ++ [BufferOp.insert_widget widget] },
            widgets ++ [widget])
  else .ok (true, buffer, widgets)

/-- The slot loop of `create_buffer_and_widgets_from_xml`: the flag `error`, and the
buffer and the widget list when the loop ends or breaks. -/
def slots_from_xml (U : CtEnv) (text_insert_pos : Option Nat) (force_offset : Int)
    (multifile_dir : String) :
    List XmlNode → CtTextBuffer → List CtAnchoredWidget →
    Except CtError (Bool × CtTextBuffer × List CtAnchoredWidget)
  | [], buffer, widgets => .ok (false, buffer, widgets)
  | xml_slot :: rest, buffer, widgets =>
    match get_text_buffer_one_slot_from_xml U buffer xml_slot widgets text_insert_pos
        force_offset multifile_dir with
    | .error e => .error e
    | .ok (false, buffer, widgets) => .ok (true, buffer, widgets)
    | .ok (true, buffer, widgets) =>
      slots_from_xml U text_insert_pos force_offset multifile_dir rest buffer widgets

/-- The method `CtStorageXmlHelper::create_buffer_and_widgets_from_xml`: the returned
buffer (`none` is the null `RefPtr`) and the widget list afterwards. The argument
`syntax` is unused by the source. -/
def create_buffer_and_widgets_from_xml (U : CtEnv) (parent_xml_element : XmlNode)
    (widgets : List CtAnchoredWidget) (text_insert_pos : Option Nat) (force_offset : Int)
    (multifile_dir : String) : Except CtError (Option CtTextBuffer × List CtAnchoredWidget) :=
  match slots_from_xml U text_insert_pos force_offset multifile_dir
      parent_xml_element.get_children_all { ops := [] } widgets with
  | .error e => .error e
  | .ok (error, pBuffer, widgets) => .ok (if error then none else some pBuffer, widgets)

/-! ## The tree store -/

/-- One row of the tree store: the node data and the row of the parent node. -/
structure CtTreeRow where
  data : CtNodeData
  parent : Option Nat
deriving DecidableEq

/-- Modelled from the spec: `CtTreeStore` (`ct_treestore.cc`) is not in the source given.
The spec gives a node an `id`, a `parent` and `children` in insertion order, which is
display order, and a document-global ordered set of bookmarks. The rows are kept in the
order in which `append_node` created them; a handle is the position of a row. -/
structure CtTreeStore where
  rows : List CtTreeRow
  bookmarks : List Int
deriving DecidableEq

/-- A `Gtk::TreeModel::iterator` or `CtTreeIter`; `none` is the invalid iterator `{}`. -/
abbrev TreeIter := Option Nat

namespace CtTreeStore

/-- The store of a new document. -/
def empty : CtTreeStore := { rows := [], bookmarks := [] }

/-- The ids of the nodes now in the tree. -/
def node_ids (s : CtTreeStore) : List Int := s.rows.map (fun r => r.data.nodeId)

/-- Modelled from the spec: `append_node(data, parent) -> new node handle`; the node
becomes the last child of `parent` (a top-level node for the invalid iterator). -/
def append_node (s : CtTreeStore) (data : CtNodeData) (parent_iter : TreeIter) :
    CtTreeStore × TreeIter :=
  ({ s with rows := s.rows ++ [{ data := data, parent := parent_iter }] }, some s.rows.length)

/-- Modelled from the spec: `bookmarks_add(id)`; the bookmarks are an ordered set. -/
def bookmarks_add (s : CtTreeStore) (nodeId : Int) : CtTreeStore :=
  if s.bookmarks.contains nodeId then s else { s with bookmarks := s.bookmarks ++ [nodeId] }

/-- The row an iterator points at. -/
def row (s : CtTreeStore) (it : TreeIter) : Option CtTreeRow :=
  match it with
  | none => none
  | some i => s.rows[i]?

/-- Rewrite the data of the row an iterator points at. -/
def modify_data (s : CtTreeStore) (it : TreeIter) (f : CtNodeData → CtNodeData) :
    CtTreeStore :=
  match it with
  | none => s
  | some i => { s with rows := s.rows.modify (fun r => { r with data := f r.data }) i }

/-- Modelled from the spec: `CtTreeIter::set_node_id`. -/
def set_node_id (s : CtTreeStore) (it : TreeIter) (new_id : Int) : CtTreeStore :=
  s.modify_data it (fun d => { d with nodeId := new_id })

/-- Modelled from the spec: `CtTreeIter::get_node_shared_master_id` (0 for no node). -/
def get_node_shared_master_id (s : CtTreeStore) (it : TreeIter) : Int :=
  match s.row it with
  | none => 0
  | some r => r.data.sharedNodesMasterId

/-- Modelled from the spec: `CtTreeIter::set_node_shared_master_id`. -/
def set_node_shared_master_id (s : CtTreeStore) (it : TreeIter) (master_id : Int) :
    CtTreeStore :=
  s.modify_data it (fun d => { d with sharedNodesMasterId := master_id })

/-- The position of the first row whose node id is `id`, counting from `k`. -/
def find_index : List CtTreeRow → Int → Nat → Option Nat
  | [], _, _ => none
  | r :: rest, id, k => if r.data.nodeId == id then some k else find_index rest id (k + 1)

/-- Modelled from the spec: `get_node_from_node_id`, the live node with a given id. -/
def get_node_from_node_id (s : CtTreeStore) (id : Int) : TreeIter :=
  find_index s.rows id 0

/-- The data of a master node in the slot of an alias: the alias keeps its own id,
master id and sequence. -/
def alias_slot (own master : CtNodeData) : CtNodeData :=
  { master with nodeId := own.nodeId, sharedNodesMasterId := own.sharedNodesMasterId,
                sequence := own.sequence }

/-- Modelled from the spec: the node data under which a node with the data `own` is
displayed. For a node with `master_id > 0` "its displayed content is synthesized by
copying the master's current node data into the alias's slot"; when no live node has the
master id the alias has nothing to copy and keeps its own data. -/
def displayed_data (s : CtTreeStore) (own : CtNodeData) : CtNodeData :=
  if own.sharedNodesMasterId > 0 then
    match s.row (s.get_node_from_node_id own.sharedNodesMasterId) with
    | none => own
    | some m => alias_slot own m.data
  else own

/-- Modelled from the spec: `get_node_data(iter, nodeData, false)` is not in the source
given; it fills `nodeData` with the displayed data of the node of `iter` (see
`displayed_data`), and leaves it alone for an iterator that points at no node. With
`loadTextBuffer` false a deferred buffer stays deferred. -/
def get_node_data (s : CtTreeStore) (it : TreeIter) (nodeData : CtNodeData) : CtNodeData :=
  match s.row it with
  | none => nodeData
  | some r => s.displayed_data r.data

/-- Modelled from the spec: `update_node_data(iter, nodeData)` writes the node data into
the row of `iter`. -/
def update_node_data (s : CtTreeStore) (it : TreeIter) (nodeData : CtNodeData) :
    CtTreeStore :=
  s.modify_data it (fun _ => nodeData)

end CtTreeStore

/-! ## Decoding one node element (`node_from_xml`) -/

/-- The `guint32` cast of a `gint64`. -/
def to_guint32 (x : Int) : Nat := (x % 4294967296).toNat

/-- The node data `node_from_xml` fills in before it looks at `isDryRun`
(the part of the function that ends with the test of `pIsSharedNonMaster`). -/
def read_node_data (U : CtEnv) (xml_element : XmlNode) (sequence new_id : Int) :
    CtNodeData :=
  let readNodeId := U.gint64_from_gstring (xml_element.get_attribute_value "unique_id")
  let node_data : CtNodeData :=
    { CtNodeData.init with
      nodeId := if new_id == -1 then readNodeId else new_id
      sharedNodesMasterId := U.gint64_from_gstring (xml_element.get_attribute_value "master_id")
      sequence := sequence }
  if node_data.sharedNodesMasterId <= 0 then
    { node_data with
      name := xml_element.get_attribute_value "name"
      syntaxHighlighting := xml_element.get_attribute_value "prog_lang"
      tags := xml_element.get_attribute_value "tags"
      isReadOnly := U.is_str_true (xml_element.get_attribute_value "readonly")
      excludeMeFromSearch := U.is_str_true (xml_element.get_attribute_value "nosearch_me")
      excludeChildrenFromSearch := U.is_str_true (xml_element.get_attribute_value "nosearch_ch")
      customIconId :=
        to_guint32 (U.gint64_from_gstring (xml_element.get_attribute_value "custom_icon_id"))
      isBold := U.is_str_true (xml_element.get_attribute_value "is_bold")
      foregroundRgb24 := xml_element.get_attribute_value "foreground"
      tsCreation := U.gint64_from_gstring (xml_element.get_attribute_value "ts_creation")
      tsLastSave := U.gint64_from_gstring (xml_element.get_attribute_value "ts_lastsave") }
  else node_data

/-- What `node_from_xml` returns and leaves behind: the new iterator, the three
out-parameters (`none` for a null pointer), the delayed-buffer map and the tree store. -/
structure NodeFromXmlOut where
  iter : TreeIter
  pHasDuplicatedId : Option Bool
  pIsSharedNonMaster : Option Bool
  pImportedIdsRemap : Option (CtMap Int)
  delayed_text_buffers : CtDelayedTextBufferMap
  store : CtTreeStore

/-- The node data when the buffer is created at once: `node_data.pTextBuffer =
create_buffer_and_widgets_from_xml(xml_element, node_data.syntax,
node_data.anchoredWidgets, nullptr, -1, multifile_dir)`. -/
def eager_node_data (U : CtEnv) (xml_element : XmlNode) (sequence new_id : Int)
    (multifile_dir : String) : Except CtError CtNodeData :=
  match create_buffer_and_widgets_from_xml U xml_element
      (read_node_data U xml_element sequence new_id).anchoredWidgets none (-1)
      multifile_dir with
  | .error e => .error e
  | .ok (pTextBuffer, anchoredWidgets) =>
    .ok { read_node_data U xml_element sequence new_id with
          pTextBuffer := pTextBuffer, anchoredWidgets := anchoredWidgets }

/-- The document kept for a node whose buffer is deferred:
`node_buffer->create_root_node("root")->import_node(xml_element)`. -/
def delayed_document (xml_element : XmlNode) : XmlDocument :=
  { root := some ((XmlNode.element "root" [] []).add_child xml_element) }

/-- The method `CtStorageXmlHelper::node_from_xml`. An exception leaves the store and the
delayed-buffer map of the caller as they were. -/
def node_from_xml (U : CtEnv) (store : CtTreeStore) (xml_element : XmlNode) (sequence : Int)
    (parent_iter : TreeIter) (new_id : Int) (pHasDuplicatedId pIsSharedNonMaster : Option Bool)
    (pImportedIdsRemap : Option (CtMap Int)) (delayed_text_buffers : CtDelayedTextBufferMap)
    (isDryRun : Bool) (multifile_dir : String) : Except CtError NodeFromXmlOut :=
  let readNodeId := U.gint64_from_gstring (xml_element.get_attribute_value "unique_id")
  let node_data := read_node_data U xml_element sequence new_id
  let pImportedIdsRemap :=
    if new_id == -1 then pImportedIdsRemap
    else pImportedIdsRemap.map (fun m => m.set readNodeId new_id)
  let pIsSharedNonMaster :=
    if node_data.sharedNodesMasterId <= 0 then pIsSharedNonMaster
    else pIsSharedNonMaster.map (fun _ => true)
  if isDryRun then
    .ok { iter := none, pHasDuplicatedId := pHasDuplicatedId,
          pIsSharedNonMaster := pIsSharedNonMaster, pImportedIdsRemap := pImportedIdsRemap,
          delayed_text_buffers := delayed_text_buffers, store := store }
  else if new_id == -1 then
    if delayed_text_buffers.has node_data.nodeId then
      match eager_node_data U xml_element sequence new_id multifile_dir with
      | .error e => .error e
      | .ok node_data =>
        .ok { iter := (store.append_node node_data parent_iter).2,
              pHasDuplicatedId := pHasDuplicatedId.map (fun _ => true),
              pIsSharedNonMaster := pIsSharedNonMaster,
              pImportedIdsRemap := pImportedIdsRemap,
              delayed_text_buffers := delayed_text_buffers,
              store := (store.append_node node_data parent_iter).1 }
    else
      .ok { iter := (store.append_node node_data parent_iter).2,
            pHasDuplicatedId := pHasDuplicatedId,
            pIsSharedNonMaster := pIsSharedNonMaster, pImportedIdsRemap := pImportedIdsRemap,
            delayed_text_buffers :=
              delayed_text_buffers.set node_data.nodeId (delayed_document xml_element),
            store := (store.append_node node_data parent_iter).1 }
  else
    match eager_node_data U xml_element sequence new_id multifile_dir with
    | .error e => .error e
    | .ok node_data =>
      .ok { iter := (store.append_node node_data parent_iter).2,
            pHasDuplicatedId := pHasDuplicatedId,
            pIsSharedNonMaster := pIsSharedNonMaster, pImportedIdsRemap := pImportedIdsRemap,
            delayed_text_buffers := delayed_text_buffers,
            store := (store.append_node node_data parent_iter).1 }

/-! ## Opening a document (`safe_parse_memory`, `get_parser`) -/

/-- The last line of `safe_parse_memory`: the parser has a document and it has a root. -/
def has_document_and_root (document : Option XmlDocument) : Bool :=
  match document with
  | none => false
  | some doc => doc.root.isSome

/-- One `try { parser.parse_memory(...) } catch (xmlpp::parse_error&)`: `none` when the
parse error was caught, an error when another exception escapes. -/
def try_parse_memory (U : CtEnv) (xml_content : String) :
    Except CtError (Option (Option XmlDocument)) :=
  match U.parse_memory xml_content with
  | .ok document => .ok (some document)
  | .error e => if e.is_parse_error then .ok none else .error (.exn e.what)

/-- The function `CtXmlHelper::safe_parse_memory`: its return value and the document the
parser holds afterwards. -/
def safe_parse_memory (U : CtEnv) (xml_content : String) :
    Except CtError (Bool × Option XmlDocument) :=
  match try_parse_memory U xml_content with
  | .error e => .error e
  | .ok (some document) => .ok (has_document_and_root document, document)
  | .ok none =>
    let pMadeValid := U.g_utf8_make_valid xml_content
    match try_parse_memory U pMadeValid with
    | .error e => .error e
    | .ok (some document) => .ok (has_document_and_root document, document)
    | .ok none =>
      let sanitised := U.sanitize_bad_symbols pMadeValid
      match try_parse_memory U sanitised with
      | .error e => .error e
      | .ok (some document) => .ok (has_document_and_root document, document)
      | .ok none => .ok (false, none)

/-- The `try`/`catch` of `get_parser`: the flag `parseOk` and the document the parser
holds afterwards. When `parse_file` throws, the file is read, converted and handed to
`safe_parse_memory`. -/
def parse_file_or_fallback (U : CtEnv) (file_path : String) :
    Except CtError (Bool × Option XmlDocument) :=
  match U.parse_file file_path with
  | .ok document => .ok (true, document)
  | .error _ => safe_parse_memory U (U.convert_if_not_utf8 (U.file_get_contents file_path))

/-- The function `CtStorageXml::get_parser` (the name ends in a word Lean reserves): the
root node of the document of the parser it returns, the only thing its callers use. The source reads the name of the root node
without testing the pointer. -/
def get_parser_root_node (U : CtEnv) (file_path : String) : Except CtError XmlNode :=
  if !U.fs_exists file_path then .error (.exn (file_path ++ " missing"))
  else
    match parse_file_or_fallback U file_path with
    | .error e => .error e
    | .ok (parseOk, document) =>
      if !parseOk then .error (.exn "xml parse fail")
      else
        match document with
        | none => .error (.exn "document is null")
        | some doc =>
          match doc.root with
          | none => .error (.undefined "get_root_node() is null")
          | some root =>
            if root.get_name != U.APP_NAME then
              .error (.exn "document contains the wrong node root")
            else .ok root

/-! ## The walk over the node elements -/

mutual
/-- The recursion of the two lambdas called `f_nodes_from_xml` (in `populate_treestore`
and in `import_nodes`); `node` is the body of the lambda before its loop: it decodes one
element under `parent_iter` and returns `new_iter`. The children are then walked under
`new_iter` with `child_sequence` starting from 0. -/
def walk_node_elements {σ : Type} (node : XmlNode → Int → TreeIter → σ → σ × TreeIter) :
    XmlNode → Int → TreeIter → σ → σ
  | .element name attrs children, sequence, parent_iter, st =>
    walk_children node children 0
      (node (.element name attrs children) sequence parent_iter st).2
      (node (.element name attrs children) sequence parent_iter st).1
  | .text content, sequence, parent_iter, st =>
    (node (.text content) sequence parent_iter st).1
/-- The loop `for (xml_node : xml_element->get_children("node"))
f_nodes_from_xml(xml_node, ++child_sequence, new_iter)`: the children that are not called
`node` are passed over. -/
def walk_children {σ : Type} (node : XmlNode → Int → TreeIter → σ → σ × TreeIter) :
    List XmlNode → Int → TreeIter → σ → σ
  | [], _, _, st => st
  | xml_node :: rest, child_sequence, new_iter, st =>
    if xml_node.get_name == "node" then
      walk_children node rest (child_sequence + 1) new_iter
        (walk_node_elements node xml_node (child_sequence + 1) new_iter st)
    else walk_children node rest child_sequence new_iter st
end

/-- One call of the lambda: the element, its sequence number and its parent iterator. -/
structure WalkItem where
  xml_element : XmlNode
  sequence : Int
  parent_iter : TreeIter

mutual
/-- The number of calls of the lambda that the walk of one element makes. -/
def count_nodes : XmlNode → Nat
  | .element _ _ children => 1 + count_nodes_children children
  | .text _ => 1
/-- The number of calls of the lambda that the walk of a list of children makes. -/
def count_nodes_children : List XmlNode → Nat
  | [] => 0
  | xml_node :: rest =>
    if xml_node.get_name == "node" then count_nodes xml_node + count_nodes_children rest
    else count_nodes_children rest
end

mutual
/-- The calls of the lambda in the walk of one element, in order, when every call
appends one row to a tree store that has `n` rows (`appends`), or none (dry run). -/
def walk_items (appends : Bool) : Nat → XmlNode → Int → TreeIter → List WalkItem
  | n, .element name attrs children, sequence, parent_iter =>
    { xml_element := .element name attrs children, sequence := sequence,
      parent_iter := parent_iter } ::
      walk_items_children appends (if appends then n + 1 else n) children 0
        (if appends then some n else none)
  | _, .text content, sequence, parent_iter =>
    [{ xml_element := .text content, sequence := sequence, parent_iter := parent_iter }]
/-- The calls of the lambda in the walk of a list of children, in order. -/
def walk_items_children (appends : Bool) :
    Nat → List XmlNode → Int → TreeIter → List WalkItem
  | _, [], _, _ => []
  | n, xml_node :: rest, child_sequence, new_iter =>
    if xml_node.get_name == "node" then
      walk_items appends n xml_node (child_sequence + 1) new_iter ++
        walk_items_children appends (if appends then n + count_nodes xml_node else n) rest
          (child_sequence + 1) new_iter
    else walk_items_children appends n rest child_sequence new_iter
end

/-- The node elements of a document in document order, each with the sequence number and
the parent row that a load into a store with `n` rows gives it. -/
def document_items (n : Nat) (root : XmlNode) (parent_iter : TreeIter) : List WalkItem :=
  walk_items_children true n root.get_children_all 0 parent_iter

/-- The node elements of a document, in document order. -/
def node_elements (root : XmlNode) : List XmlNode :=
  (document_items 0 root none).map (fun item => item.xml_element)

/-- One call of the lambda on a walk item: the state afterwards. -/
def walk_step {σ : Type} (node : XmlNode → Int → TreeIter → σ → σ × TreeIter)
    (st : σ) (item : WalkItem) : σ :=
  (node item.xml_element item.sequence item.parent_iter st).1

/-! ## Loading a document (`populate_treestore`) -/

/-- The objects `populate_treestore` mutates while it walks the node elements: the tree
store, the member `_delayed_text_buffers`, its two local lists, and the exception in
flight, if any. -/
structure PopulateState where
  store : CtTreeStore
  delayed_text_buffers : CtDelayedTextBufferMap
  nodes_with_duplicated_id : List TreeIter
  nodes_shared_non_master : List TreeIter
  thrown : Option CtError

/-- The body of the lambda `f_nodes_from_xml` of `populate_treestore`, before its loop
over the children; `new_iter` is returned with the state. -/
def populate_node (U : CtEnv) (isDryRun : Bool) (xml_element : XmlNode) (sequence : Int)
    (parent_iter : TreeIter) (st : PopulateState) : PopulateState × TreeIter :=
  match st.thrown with
  | some _ => (st, none)
  | none =>
    match node_from_xml U st.store xml_element sequence parent_iter (-1) (some false)
        (some false) none st.delayed_text_buffers isDryRun "" with
    | .error e => ({ st with thrown := some e }, none)
    | .ok out =>
      let has_duplicated_id := out.pHasDuplicatedId.getD false
      let is_shared_non_master := out.pIsSharedNonMaster.getD false
      ({ store := out.store
         delayed_text_buffers := out.delayed_text_buffers
         nodes_with_duplicated_id :=
           if has_duplicated_id && !isDryRun then st.nodes_with_duplicated_id ++ [out.iter]
           else st.nodes_with_duplicated_id
         nodes_shared_non_master :=
           if is_shared_non_master && !isDryRun then st.nodes_shared_non_master ++ [out.iter]
           else st.nodes_shared_non_master
         thrown := none }, out.iter)

/-- The lambda `f_nodes_from_xml` of `populate_treestore`: the node is decoded, then
its children called `node` are walked under the new iterator, counted from 1. -/
def f_nodes_from_xml (U : CtEnv) (isDryRun : Bool) :
    XmlNode → Int → TreeIter → PopulateState → PopulateState :=
  walk_node_elements (populate_node U isDryRun)

/-- The loop `for (xml_node : xml_element->get_children("node"))` of `populate_treestore`
with its counter, which starts from `child_sequence`. -/
def f_nodes_from_xml_children (U : CtEnv) (isDryRun : Bool) :
    List XmlNode → Int → TreeIter → PopulateState → PopulateState :=
  walk_children (populate_node U isDryRun)

/-- The loop that loads the bookmarks. -/
def load_bookmarks (U : CtEnv) (isDryRun : Bool) (root : XmlNode) (store : CtTreeStore) :
    CtTreeStore :=
  (root.get_children "bookmarks").foldl
    (fun s xml_node =>
      (U.gstring_split_to_int64 (xml_node.get_attribute_value "list")).foldl
        (fun s nodeId => if !isDryRun then s.bookmarks_add nodeId else s) s)
    store

/-- The loop "fix duplicated ids by allocating new ids". -/
def fix_duplicated_ids (U : CtEnv) (nodes_with_duplicated_id : List TreeIter)
    (store : CtTreeStore) : CtTreeStore :=
  nodes_with_duplicated_id.foldl
    (fun s ctTreeIter => s.set_node_id ctTreeIter (U.node_id_get s.node_ids)) store

/-- The loop "populate shared non master nodes now that the master nodes are in the tree". -/
def populate_shared_non_master (nodes_shared_non_master : List TreeIter)
    (store : CtTreeStore) : CtTreeStore :=
  nodes_shared_non_master.foldl
    (fun s ctTreeIter => s.update_node_data ctTreeIter (s.get_node_data ctTreeIter CtNodeData.init))
    store

/-- What `populate_treestore` returns and leaves behind; `error` is its out-parameter. -/
structure PopulateResult where
  ret : Bool
  error : String
  store : CtTreeStore
  delayed_text_buffers : CtDelayedTextBufferMap

/-- The body of `populate_treestore` after `get_parser` returned the root node. -/
def populate_from_root (U : CtEnv) (isDryRun : Bool) (store : CtTreeStore)
    (delayed_text_buffers : CtDelayedTextBufferMap) (root : XmlNode) (error : String) :
    Except CtError PopulateResult :=
  let st := f_nodes_from_xml_children U isDryRun root.get_children_all 0 none
    { store := load_bookmarks U isDryRun root store
      delayed_text_buffers := delayed_text_buffers
      nodes_with_duplicated_id := []
      nodes_shared_non_master := []
      thrown := none }
  match st.thrown with
  | some (.exn what) =>
    .ok { ret := false, error := what, store := st.store,
          delayed_text_buffers := st.delayed_text_buffers }
  | some (.undefined what) => .error (.undefined what)
  | none =>
    .ok { ret := true, error := error,
          store := populate_shared_non_master st.nodes_shared_non_master
            (fix_duplicated_ids U st.nodes_with_duplicated_id st.store),
          delayed_text_buffers := st.delayed_text_buffers }

/-- The method `CtStorageXml::populate_treestore(file_path, error)` on a storage object
with the members `_isDryRun` and `_delayed_text_buffers` and the tree store of its main
window. A `std::exception` is caught and reported; undefined behaviour is not. -/
def populate_treestore (U : CtEnv) (isDryRun : Bool) (store : CtTreeStore)
    (delayed_text_buffers : CtDelayedTextBufferMap) (file_path : String) (error : String) :
    Except CtError PopulateResult :=
  match get_parser_root_node U file_path with
  | .error (.exn what) =>
    .ok { ret := false, error := what, store := store,
          delayed_text_buffers := delayed_text_buffers }
  | .error (.undefined what) => .error (.undefined what)
  | .ok root => populate_from_root U isDryRun store delayed_text_buffers root error

/-! ## Importing the nodes of another document (`import_nodes`) -/

/-- The records of `CtStorageSyncPending`, as the spec lists them. -/
inductive PendingChange where
  | NodeProps (id : Int)
  | NodeBuffer (id : Int)
  | NodeHierarchy (id : Int)
  | NewNode (id : Int)
  | RemovedNodes (ids : List Int)
  | BookmarksChanged
deriving DecidableEq

/-- Modelled from the spec: `CtTreeIter::pending_new_db_node()` is only declared in the
source given (`CtStorageControl::pending_new_db_node(node_id)`); it records the creation
of the node the iterator points at, and an iterator that points at no node records
nothing. -/
def pending_new_db_node (store : CtTreeStore) (pending : List PendingChange)
    (it : TreeIter) : List PendingChange :=
  match store.row it with
  | none => pending
  | some r => pending ++ [PendingChange.NewNode r.data.nodeId]

/-- The objects `import_nodes` mutates while it walks the node elements. -/
structure ImportState where
  store : CtTreeStore
  delayed_text_buffers : CtDelayedTextBufferMap
  pending : List PendingChange
  nodes_shared_non_master : List TreeIter
  imported_ids_remap : CtMap Int
  thrown : Option CtError

/-- The body of the lambda `f_nodes_from_xml` of `import_nodes`, before its loop over
the children. -/
def import_node (U : CtEnv) (isDryRun : Bool) (xml_element : XmlNode) (sequence : Int)
    (parent_iter : TreeIter) (st : ImportState) : ImportState × TreeIter :=
  match st.thrown with
  | some _ => (st, none)
  | none =>
    match node_from_xml U st.store xml_element sequence parent_iter
        (U.node_id_get st.store.node_ids) none (some false) (some st.imported_ids_remap)
        st.delayed_text_buffers isDryRun "" with
    | .error e => ({ st with thrown := some e }, none)
    | .ok out =>
      let is_shared_non_master := out.pIsSharedNonMaster.getD false
      ({ store := out.store
         delayed_text_buffers := out.delayed_text_buffers
         pending := pending_new_db_node out.store st.pending out.iter
         nodes_shared_non_master :=
           if is_shared_non_master then st.nodes_shared_non_master ++ [out.iter]
           else st.nodes_shared_non_master
         imported_ids_remap := out.pImportedIdsRemap.getD st.imported_ids_remap
         thrown := none }, out.iter)

/-- The lambda `f_nodes_from_xml` of `import_nodes`. -/
def import_f_nodes_from_xml (U : CtEnv) (isDryRun : Bool) :
    XmlNode → Int → TreeIter → ImportState → ImportState :=
  walk_node_elements (import_node U isDryRun)

/-- The loop over `get_children("node")` of `import_nodes`, with its counter. -/
def import_f_nodes_from_xml_children (U : CtEnv) (isDryRun : Bool) :
    List XmlNode → Int → TreeIter → ImportState → ImportState :=
  walk_children (import_node U isDryRun)

/-- One turn of the last loop of `import_nodes`: the master id of an alias is remapped
and its node data refreshed, or the missing master is logged and the alias left alone. -/
def import_remap_shared (imported_ids_remap : CtMap Int) (s : CtTreeStore)
    (ctTreeIter : TreeIter) : CtTreeStore :=
  let origMasterId := s.get_node_shared_master_id ctTreeIter
  match imported_ids_remap.find origMasterId with
  | none => s
  | some new_master_id =>
    let s := s.set_node_shared_master_id ctTreeIter new_master_id
    s.update_node_data ctTreeIter (s.get_node_data ctTreeIter CtNodeData.init)

/-- What `import_nodes` leaves behind, and the exception that left it, if any. -/
structure ImportResult where
  thrown : Option CtError
  store : CtTreeStore
  delayed_text_buffers : CtDelayedTextBufferMap
  pending : List PendingChange
  imported_ids_remap : CtMap Int

/-- The body of `import_nodes` after `get_parser` returned the root node. -/
def import_from_root (U : CtEnv) (isDryRun : Bool) (store : CtTreeStore)
    (delayed_text_buffers : CtDelayedTextBufferMap) (pending : List PendingChange)
    (root : XmlNode) (parent_iter : TreeIter) : ImportResult :=
  let st := import_f_nodes_from_xml_children U isDryRun root.get_children_all 0 parent_iter
    { store := store
      delayed_text_buffers := delayed_text_buffers
      pending := pending
      nodes_shared_non_master := []
      imported_ids_remap := []
      thrown := none }
  match st.thrown with
  | some e =>
    { thrown := some e, store := st.store, delayed_text_buffers := st.delayed_text_buffers,
      pending := st.pending, imported_ids_remap := st.imported_ids_remap }
  | none =>
    { thrown := none
      store := st.nodes_shared_non_master.foldl (import_remap_shared st.imported_ids_remap)
        st.store
      delayed_text_buffers := st.delayed_text_buffers
      pending := st.pending
      imported_ids_remap := st.imported_ids_remap }

/-- The method `CtStorageXml::import_nodes(filepath, parent_iter)`; it catches nothing. -/
def import_nodes (U : CtEnv) (isDryRun : Bool) (store : CtTreeStore)
    (delayed_text_buffers : CtDelayedTextBufferMap) (pending : List PendingChange)
    (filepath : String) (parent_iter : TreeIter) : ImportResult :=
  match get_parser_root_node U filepath with
  | .error e =>
    { thrown := some e, store := store, delayed_text_buffers := delayed_text_buffers,
      pending := pending, imported_ids_remap := [] }
  | .ok root =>
    import_from_root U isDryRun store delayed_text_buffers pending root parent_iter

/-! ## Encoding (`node_to_xml`, `_nodes_to_xml`, `save_treestore`) -/

/-- The tree as the encoder reads it through `CtTreeIter`: the data of a node (with
`pTextBuffer` the result of `get_node_text_buffer()`, `none` when it cannot be
retrieved) and, through `first_child()` and `++`, its children in display order. -/
inductive CtTreeNode where
  | node (data : CtNodeData) (children : List CtTreeNode)

/-- The serializer lambda of `save_buffer_no_widgets_to_xml` for one span. -/
def rich_text_to_xml (U : CtEnv) (change_case : Char)
    (span : String × List (String × String)) : XmlNode :=
  let attrs := span.2.foldl
    (fun a kv => if kv.2 != "" then XmlNode.set_attr a kv.1 kv.2 else a) []
  let slot_text := span.1
  let slot_text :=
    if change_case != 'n' then
      (if change_case == 'l' then U.lowercase slot_text
       else if change_case == 'u' then U.uppercase slot_text
       else if change_case == 't' then U.swapcase slot_text
       else slot_text)
    else slot_text
  XmlNode.element "rich_text" attrs [XmlNode.text slot_text]

/-- The method `CtStorageXmlHelper::save_buffer_no_widgets_to_xml`: the children it adds
to `p_node_parent`. -/
def save_buffer_no_widgets_to_xml (U : CtEnv) (rBuffer : CtTextBuffer)
    (start_offset end_offset : Int) (change_case : Char) : List XmlNode :=
  (U.generic_process_slot start_offset end_offset rBuffer).map (rich_text_to_xml U change_case)

/-- The value of `master_id` that `node_to_xml` writes. -/
def export_master_id (my_node_id master_id : Int) (export_type : CtExporting)
    (pExpoMasterReassign : Option (CtMap Int)) : Int :=
  if export_type = CtExporting.SELECTED_TEXT ∨ export_type = CtExporting.CURRENT_NODE then
    (if master_id ≠ 0 then 0 else master_id)
  else if export_type = CtExporting.CURRENT_NODE_AND_SUBNODES then
    match pExpoMasterReassign with
    | none => master_id
    | some reassign =>
      if master_id > 0 ∧ reassign.has master_id then
        match reassign.find master_id with
        | none => master_id
        | some reassigned_master_id =>
          if reassigned_master_id ≠ my_node_id then reassigned_master_id else 0
      else master_id
  else master_id

/-- The eleven metadata attributes of an owner node, in the order `node_to_xml` sets them. -/
def metadata_to_xml (p_node_node : XmlNode) (data : CtNodeData) : XmlNode :=
  ((((((((((p_node_node.set_attribute "name" data.name).set_attribute
    "prog_lang" data.syntaxHighlighting).set_attribute
    "tags" data.tags).set_attribute
    "readonly" (bool_to_string data.isReadOnly)).set_attribute
    "nosearch_me" (bool_to_string data.excludeMeFromSearch)).set_attribute
    "nosearch_ch" (bool_to_string data.excludeChildrenFromSearch)).set_attribute
    "custom_icon_id" (to_string data.customIconId)).set_attribute
    "is_bold" (bool_to_string data.isBold)).set_attribute
    "foreground" data.foregroundRgb24).set_attribute
    "ts_creation" (to_string data.tsCreation)).set_attribute
    "ts_lastsave" (to_string data.tsLastSave)

/-- The method `CtStorageXmlHelper::node_to_xml`: the element it adds to `p_node_parent`.
Serializing a null buffer is undefined. -/
def node_to_xml (U : CtEnv) (data : CtNodeData) (multifile_dir : String)
    (export_type : CtExporting) (pExpoMasterReassign : Option (CtMap Int))
    (start_offset end_offset : Int) : Except CtError XmlNode :=
  let p_node_node := XmlNode.element "node" [] []
  let my_node_id := data.nodeId
  let p_node_node := p_node_node.set_attribute "unique_id" (to_string my_node_id)
  let master_id :=
    export_master_id my_node_id data.sharedNodesMasterId export_type pExpoMasterReassign
  let p_node_node := p_node_node.set_attribute "master_id" (to_string master_id)
  if master_id ≤ 0 then
    let p_node_node := metadata_to_xml p_node_node data
    match data.pTextBuffer with
    | none => .error (.undefined "null text buffer")
    | some buffer =>
      let p_node_node := p_node_node.add_children
        (save_buffer_no_widgets_to_xml U buffer start_offset end_offset 'n')
      .ok ((U.get_anchored_widgets data.anchoredWidgets start_offset end_offset).foldl
        (fun p pAnchoredWidget => p.add_children
          (U.widget_to_xml pAnchoredWidget (if start_offset > 0 then -start_offset else 0)
            multifile_dir))
        p_node_node)
  else .ok p_node_node

mutual
/-- The method `CtStorageXml::_nodes_to_xml`: the element it adds to `p_node_parent`. -/
def _nodes_to_xml (U : CtEnv) (export_type : CtExporting)
    (pExpoMasterReassign : Option (CtMap Int)) (start_offset end_offset : Int) :
    CtTreeNode → Except CtError XmlNode
  | .node data children =>
    match data.pTextBuffer with
    | none =>
      .error (.exn ("Failed to retrieve the content of the node '" ++ data.name ++ "'"))
    | some _ =>
      match node_to_xml U data "" export_type pExpoMasterReassign start_offset end_offset with
      | .error e => .error e
      | .ok p_node_node =>
        if export_type ≠ CtExporting.CURRENT_NODE ∧ export_type ≠ CtExporting.SELECTED_TEXT then
          match _nodes_to_xml_siblings U export_type pExpoMasterReassign start_offset
              end_offset children with
          | .error e => .error e
          | .ok elements => .ok (p_node_node.add_children elements)
        else .ok p_node_node
/-- The loop `while (iter) { _nodes_to_xml(&iter, ...); ++iter; }` over siblings. -/
def _nodes_to_xml_siblings (U : CtEnv) (export_type : CtExporting)
    (pExpoMasterReassign : Option (CtMap Int)) (start_offset end_offset : Int) :
    List CtTreeNode → Except CtError (List XmlNode)
  | [] => .ok []
  | ct_tree_iter :: rest =>
    match _nodes_to_xml U export_type pExpoMasterReassign start_offset end_offset
        ct_tree_iter with
    | .error e => .error e
    | .ok element =>
      match _nodes_to_xml_siblings U export_type pExpoMasterReassign start_offset
          end_offset rest with
      | .error e => .error e
      | .ok elements => .ok (element :: elements)
end

/-- What `save_treestore` reads from the main window: the top-level nodes from
`get_ct_iter_first()` on, the bookmarks, and the node of `curr_tree_iter()`. -/
structure CtMainWin where
  tree : List CtTreeNode
  bookmarks : List Int
  curr_tree_iter : Option CtTreeNode

/-- What `save_treestore` returns and leaves behind: `error` is its out-parameter,
`written` the file path and the root of the document that `write_to_file_formatted` wrote
to it (`none`: the call was not reached, or it threw). -/
structure SaveResult where
  ret : Bool
  error : String
  written : Option (String × XmlNode)

/-- The test for the three whole-document values of `CtExporting`. -/
def is_whole_document (export_type : CtExporting) : Bool :=
  export_type = CtExporting.NONESAVE ∨ export_type = CtExporting.NONESAVEAS ∨
    export_type = CtExporting.ALL_TREE

/-- The `try` block of `save_treestore` up to `write_to_file_formatted`: the root node of
`xml_doc`. The node of an invalid current iterator has no text buffer. -/
def save_document (U : CtEnv) (win : CtMainWin) (export_type : CtExporting)
    (pExpoMasterReassign : Option (CtMap Int)) (start_offset end_offset : Int) :
    Except CtError XmlNode :=
  let root := XmlNode.element U.APP_NAME [] []
  let root :=
    if is_whole_document export_type then
      root.add_child ((XmlNode.element "bookmarks" [] []).set_attribute "list"
        (join_numbers win.bookmarks ","))
    else root
  if is_whole_document export_type then
    match _nodes_to_xml_siblings U export_type pExpoMasterReassign start_offset end_offset
        win.tree with
    | .error e => .error e
    | .ok elements => .ok (root.add_children elements)
  else
    match win.curr_tree_iter with
    | none => .error (.exn "Failed to retrieve the content of the node ''")
    | some ct_tree_iter =>
      match _nodes_to_xml U export_type pExpoMasterReassign start_offset end_offset
          ct_tree_iter with
      | .error e => .error e
      | .ok element => .ok (root.add_child element)

/-- The method `CtStorageXml::save_treestore`. The `CtStorageSyncPending` argument has no
name in the source and is not read. A `std::exception` is caught and reported, whether
the encoding throws it or `write_to_file_formatted` at the end of the `try` block. -/
def save_treestore (U : CtEnv) (win : CtMainWin) (file_path : String)
    (_pending : List PendingChange) (error : String) (export_type : CtExporting)
    (pExpoMasterReassign : Option (CtMap Int)) (start_offset end_offset : Int) :
    Except CtError SaveResult :=
  match save_document U win export_type pExpoMasterReassign start_offset end_offset with
  | .error (.exn what) => .ok { ret := false, error := what, written := none }
  | .error (.undefined what) => .error (.undefined what)
  | .ok root =>
    match U.write_to_file_formatted file_path root with
    | some what => .ok { ret := false, error := what, written := none }
    | none => .ok { ret := true, error := error, written := some (file_path, root) }

/-! ## A concrete environment, for evaluating the definitions -/

/-- Decimal digits read from the left, up to the first character that is not a digit. -/
def parse_digits : List Char → Int → Int
  | [], acc => acc
  | c :: rest, acc =>
    if c.isDigit then parse_digits rest (acc * 10 + ((c.toNat - 48 : Nat) : Int)) else acc

/-- A decimal integer with an optional minus sign; 0 when there is no digit. -/
def parse_int (s : String) : Int :=
  match s.data with
  | '-' :: rest => - parse_digits rest 0
  | l => parse_digits l 0

/-- The pieces of a list of characters between commas. -/
def split_commas : List Char → List Char → List (List Char)
  | [], cur => [cur]
  | c :: rest, cur => if c == ',' then cur :: split_commas rest [] else split_commas rest (cur ++ [c])

/-- An environment with decimal integer parsing, `"1"` and `"true"` as the true strings,
an allocator that returns one more than the largest id in use (at least 1), an empty file
system and the document marker `cherrytree`. -/
def CtEnv.sample : CtEnv where
  gint64_from_gstring := parse_int
  is_str_true := fun s => s == "1" || s == "true"
  gstring_split_to_int64 := fun s =>
    if s == "" then [] else (split_commas s.data []).map (fun l => parse_int (String.mk l))
  gstring_split_to_int := fun s =>
    if s == "" then [] else (split_commas s.data []).map (fun l => parse_int (String.mk l))
  is_header_anchor_name := fun _ => false
  stoi := fun s => if s == "" then none else some (parse_int s)
  stoll := fun s => if s == "" then none else some (parse_int s)
  APP_NAME := "cherrytree"
  TAG_JUSTIFICATION := "justification"
  TAG_PROP_VAL_LEFT := "left"
  TAG_PROPERTIES := ["weight", "foreground", "background", "style", "underline",
    "strikethrough", "scale", "family", "justification", "link"]
  LatexSpecialFilename := "__ct_special.tex"
  get_text_tag_name_exist_or_create := fun name value => name ++ "_" ++ value
  base64_decode := fun s => s
  read_blob := fun _ _ => none
  path_join := fun dir file => dir ++ "/" ++ file
  node_id_get := fun ids => ids.foldl max 0 + 1
  fs_exists := fun _ => false
  parse_file := fun _ => .error { what := "no such file", is_parse_error := false }
  parse_memory := fun _ => .error { what := "parse error", is_parse_error := true }
  file_get_contents := fun _ => ""
  convert_if_not_utf8 := fun s => s
  g_utf8_make_valid := fun s => s
  sanitize_bad_symbols := fun s => s
  generic_process_slot := fun _ _ buffer =>
    buffer.ops.filterMap (fun op =>
      match op with
      | .insert _ text _ => some (text, [])
      | .insert_widget _ => none)
  lowercase := String.toLower
  uppercase := String.toUpper
  swapcase := fun s => s
  get_anchored_widgets := fun widgets _ _ => widgets
  widget_to_xml := fun _ _ _ => []
  write_to_file_formatted := fun _ _ => none

/-! ## What a normal load makes of a node element -/

/-- The id an element declares: its attribute `unique_id` as `node_from_xml` reads it. -/
def WalkItem.read_id (U : CtEnv) (item : WalkItem) : Int :=
  U.gint64_from_gstring (item.xml_element.get_attribute_value "unique_id")

/-- The master id an element declares: its attribute `master_id` as read. -/
def WalkItem.read_master_id (U : CtEnv) (item : WalkItem) : Int :=
  U.gint64_from_gstring (item.xml_element.get_attribute_value "master_id")

/-- The node data of an element whose buffer is deferred (`new_id` is -1). -/
def WalkItem.deferred_data (U : CtEnv) (item : WalkItem) : CtNodeData :=
  read_node_data U item.xml_element item.sequence (-1)

/-- The node data of an element whose buffer is created at once (`new_id` is -1). -/
def WalkItem.eager_data (U : CtEnv) (item : WalkItem) : Except CtError CtNodeData :=
  eager_node_data U item.xml_element item.sequence (-1) ""

/-- The content of a node element can be decoded: `create_buffer_and_widgets_from_xml`
neither throws (every integer attribute it reads with `std::stoi` or `std::stoll` is
there) nor runs into undefined behaviour (every table has a row). -/
def decodable_content (U : CtEnv) (xml_element : XmlNode) : Prop :=
  ∃ decoded, create_buffer_and_widgets_from_xml U xml_element [] none (-1) "" = .ok decoded

/-- A well-formed exchange document: the content of every node element can be decoded. -/
def well_formed_document (U : CtEnv) (root : XmlNode) : Prop :=
  ∀ xml_element ∈ node_elements root, decodable_content U xml_element

/-- What holds of the state of `populate_treestore` when a normal load into an empty
store has decoded the node elements `items`, in this order. -/
structure PopulateInv (U : CtEnv) (items : List WalkItem) (st : PopulateState) : Prop where
  thrown : st.thrown = none
  length : st.store.rows.length = items.length
  ids : st.store.node_ids = items.map (WalkItem.read_id U)
  rows : ∀ k item row, items[k]? = some item → st.store.rows[k]? = some row →
    row.parent = item.parent_iter ∧
    ((some k ∉ st.nodes_with_duplicated_id ∧ row.data = item.deferred_data U) ∨
     (some k ∈ st.nodes_with_duplicated_id ∧ item.eager_data U = .ok row.data))
  has : ∀ id, st.delayed_text_buffers.has id = true ↔ id ∈ items.map (WalkItem.read_id U)
  dups_valid : ∀ it ∈ st.nodes_with_duplicated_id, ∃ k, it = some k ∧ k < items.length
  dups_iff : ∀ k item, items[k]? = some item →
    (some k ∈ st.nodes_with_duplicated_id ↔
      item.read_id U ∈ (items.take k).map (WalkItem.read_id U))
  aliases_valid : ∀ it ∈ st.nodes_shared_non_master,
    ∃ k item, it = some k ∧ items[k]? = some item ∧ 0 < item.read_master_id U
  aliases_mem : ∀ k item, items[k]? = some item → 0 < item.read_master_id U →
    some k ∈ st.nodes_shared_non_master
  delayed : ∀ k item, items[k]? = some item → some k ∉ st.nodes_with_duplicated_id →
    st.delayed_text_buffers.find (item.read_id U) = some (delayed_document item.xml_element)

/-- The master of a node with master id `M` cannot change while the shared non-master
nodes are populated: `M` is not positive, or no live node has the id `M`, or the live node
with the id `M` owns its content. -/
def stable_master (s : CtTreeStore) (M : Int) : Prop :=
  M ≤ 0 ∨ s.get_node_from_node_id M = none ∨
    ∃ mi m, s.get_node_from_node_id M = some mi ∧ s.rows[mi]? = some m ∧
      m.data.sharedNodesMasterId ≤ 0

/-- The state of `populate_treestore` after the walk of a normal load of the document
`root` into an empty store with an empty delayed-buffer map. -/
def normal_walk (U : CtEnv) (root : XmlNode) : PopulateState :=
  f_nodes_from_xml_children U false root.get_children_all 0 none
    { store := load_bookmarks U false root CtTreeStore.empty
      delayed_text_buffers := []
      nodes_with_duplicated_id := []
      nodes_shared_non_master := []
      thrown := none }

/-- The ids that the node elements of a document declare, in document order. -/
def declared_ids (U : CtEnv) (root : XmlNode) : List Int :=
  (node_elements root).map
    (fun xml_element => U.gint64_from_gstring (xml_element.get_attribute_value "unique_id"))

/-! ## What an import makes of a node element -/

/-- What holds of the state of `import_nodes` when an import into the store `s0` (with
the pending changes `pending0` and the delayed-buffer map `delayed0`) has decoded the node
elements `items`, in this order. The remap sends a declared id to the new id of the last
element that declares it. -/
structure ImportInv (U : CtEnv) (s0 : CtTreeStore) (pending0 : List PendingChange)
    (delayed0 : CtDelayedTextBufferMap) (items : List WalkItem) (st : ImportState) : Prop where
  thrown : st.thrown = none
  length : st.store.rows.length = s0.rows.length + items.length
  old_rows : ∀ k, k < s0.rows.length → st.store.rows[k]? = s0.rows[k]?
  rows : ∀ k item row, items[k]? = some item →
    st.store.rows[s0.rows.length + k]? = some row →
    row.parent = item.parent_iter ∧
    row.data.nodeId = U.node_id_get (st.store.node_ids.take (s0.rows.length + k)) ∧
    eager_node_data U item.xml_element item.sequence row.data.nodeId "" = .ok row.data
  remap_find : ∀ k item row, items[k]? = some item →
    st.store.rows[s0.rows.length + k]? = some row →
    item.read_id U ∉ (items.drop (k + 1)).map (WalkItem.read_id U) →
    st.imported_ids_remap.find (item.read_id U) = some row.data.nodeId
  remap_keys : ∀ id, st.imported_ids_remap.has id = true ↔ id ∈ items.map (WalkItem.read_id U)
  aliases_nodup : st.nodes_shared_non_master.Nodup
  aliases_valid : ∀ it ∈ st.nodes_shared_non_master,
    ∃ k item, it = some (s0.rows.length + k) ∧ items[k]? = some item ∧
      0 < item.read_master_id U
  aliases_mem : ∀ k item, items[k]? = some item → 0 < item.read_master_id U →
    some (s0.rows.length + k) ∈ st.nodes_shared_non_master
  pending : st.pending
    = pending0 ++ (st.store.node_ids.drop s0.rows.length).map PendingChange.NewNode
  delayed : st.delayed_text_buffers = delayed0

/-! ## The cases of a format error -/

/-- The three ways in which a file is not an exchange document: the file is absent; the
document has a root whose tag is not the document marker; there is no root to read,
because the parser holds no document after `parse_file`, or because the fallback
`safe_parse_memory` ended without a document or with a document without a root. -/
def is_format_error (U : CtEnv) (file_path : String) : Prop :=
  U.fs_exists file_path = false ∨
  (U.fs_exists file_path = true ∧
    ∃ parseOk root, parse_file_or_fallback U file_path = .ok (parseOk, some { root := some root })
      ∧ parseOk = true ∧ root.get_name ≠ U.APP_NAME) ∨
  (U.fs_exists file_path = true ∧
    (parse_file_or_fallback U file_path = .ok (true, none) ∨
     ∃ document, parse_file_or_fallback U file_path = .ok (false, document)))

/-! ## What the encoder is expected to emit -/

/-- The two attributes of the element of an alias. -/
def alias_attributes (my_node_id master_id : Int) : List (String × String) :=
  [("unique_id", to_string my_node_id), ("master_id", to_string master_id)]

/-- The thirteen attributes of the element of a node that carries its metadata:
`unique_id`, `master_id` and the eleven metadata attributes. -/
def owner_attributes (data : CtNodeData) (master_id : Int) : List (String × String) :=
  [("unique_id", to_string data.nodeId), ("master_id", to_string master_id),
   ("name", data.name), ("prog_lang", data.syntaxHighlighting), ("tags", data.tags),
   ("readonly", bool_to_string data.isReadOnly),
   ("nosearch_me", bool_to_string data.excludeMeFromSearch),
   ("nosearch_ch", bool_to_string data.excludeChildrenFromSearch),
   ("custom_icon_id", to_string data.customIconId),
   ("is_bold", bool_to_string data.isBold), ("foreground", data.foregroundRgb24),
   ("ts_creation", to_string data.tsCreation), ("ts_lastsave", to_string data.tsLastSave)]

/-- The serialized content of a node: one `rich_text` element per span of the buffer,
then the elements of the anchored widgets in range. -/
def content_to_xml (U : CtEnv) (data : CtNodeData) (buffer : CtTextBuffer)
    (multifile_dir : String) (start_offset end_offset : Int) : List XmlNode :=
  save_buffer_no_widgets_to_xml U buffer start_offset end_offset 'n' ++
    (U.get_anchored_widgets data.anchoredWidgets start_offset end_offset).flatMap
      (fun pAnchoredWidget =>
        U.widget_to_xml pAnchoredWidget (if start_offset > 0 then -start_offset else 0)
          multifile_dir)

mutual
/-- The content of every node of a subtree can be retrieved. -/
def content_available : CtTreeNode → Bool
  | .node data children => data.pTextBuffer.isSome && content_available_all children
/-- The content of every node of a list of subtrees can be retrieved. -/
def content_available_all : List CtTreeNode → Bool
  | [] => true
  | ct_tree_iter :: rest => content_available ct_tree_iter && content_available_all rest
end

/-- The data of the root of a subtree. -/
def CtTreeNode.data : CtTreeNode → CtNodeData
  | .node data _ => data

/-- The children of the root of a subtree. -/
def CtTreeNode.children : CtTreeNode → List CtTreeNode
  | .node _ children => children

mutual
/-- The element expected for a subtree: the element of its root (two attributes for an
alias, else thirteen attributes and the content) and, unless the scope is a single node,
the elements of its children nested in it, in sibling order. -/
def encode_node (U : CtEnv) (export_type : CtExporting)
    (pExpoMasterReassign : Option (CtMap Int)) (start_offset end_offset : Int) :
    CtTreeNode → XmlNode
  | .node data children =>
    .element "node"
      (if 0 < export_master_id data.nodeId data.sharedNodesMasterId export_type
            pExpoMasterReassign then
        alias_attributes data.nodeId
          (export_master_id data.nodeId data.sharedNodesMasterId export_type
            pExpoMasterReassign)
       else
        owner_attributes data
          (export_master_id data.nodeId data.sharedNodesMasterId export_type
            pExpoMasterReassign))
      ((if 0 < export_master_id data.nodeId data.sharedNodesMasterId export_type
            pExpoMasterReassign then []
        else content_to_xml U data (data.pTextBuffer.getD { ops := [] }) "" start_offset
          end_offset) ++
       (if export_type ≠ CtExporting.CURRENT_NODE ∧ export_type ≠ CtExporting.SELECTED_TEXT then
          encode_nodes U export_type pExpoMasterReassign start_offset end_offset children
        else []))
/-- The elements expected for a list of sibling subtrees. -/
def encode_nodes (U : CtEnv) (export_type : CtExporting)
    (pExpoMasterReassign : Option (CtMap Int)) (start_offset end_offset : Int) :
    List CtTreeNode → List XmlNode
  | [] => []
  | ct_tree_iter :: rest =>
    encode_node U export_type pExpoMasterReassign start_offset end_offset ct_tree_iter ::
      encode_nodes U export_type pExpoMasterReassign start_offset end_offset rest
end

/-- The `bookmarks` element of a whole-document save. -/
def bookmarks_element (bookmarks : List Int) : XmlNode :=
  .element "bookmarks" [("list", join_numbers bookmarks ",")] []

/-! ## The tree in display order, for comparing a saved tree with the loaded one -/

/-- A node as the tree shows it: its data, its position among its siblings (from 1), and
the position in display order of its parent (`none` for a top-level node). -/
structure CtTreePlace where
  data : CtNodeData
  sequence : Int
  parent : Option Nat

mutual
/-- The number of nodes of a subtree. -/
def tree_size : CtTreeNode → Nat
  | .node _ children => 1 + tree_size_all children
/-- The number of nodes of a list of subtrees. -/
def tree_size_all : List CtTreeNode → Nat
  | [] => 0
  | ct_tree_iter :: rest => tree_size ct_tree_iter + tree_size_all rest
end

mutual
/-- The nodes of a subtree in display order (a node before its children, the children in
sibling order), the root of the subtree being node number `n` of the whole tree, the
sibling number `sequence` under `parent`. -/
def tree_places : Nat → Int → Option Nat → CtTreeNode → List CtTreePlace
  | n, sequence, parent, .node data children =>
    { data := data, sequence := sequence, parent := parent } ::
      tree_places_all (n + 1) 0 (some n) children
/-- The nodes of a list of sibling subtrees in display order; the first subtree starts at
node number `n` and is the sibling number `sequence + 1`. -/
def tree_places_all : Nat → Int → Option Nat → List CtTreeNode → List CtTreePlace
  | _, _, _, [] => []
  | n, sequence, parent, ct_tree_iter :: rest =>
    tree_places n (sequence + 1) parent ct_tree_iter ++
      tree_places_all (n + tree_size ct_tree_iter) (sequence + 1) parent rest
end

/-- The nodes of the tree of a main window in display order. -/
def CtMainWin.places (win : CtMainWin) : List CtTreePlace :=
  tree_places_all 0 0 none win.tree

/-- The ids of the nodes of the tree of a main window in display order. -/
def CtMainWin.node_ids (win : CtMainWin) : List Int :=
  win.places.map (fun place => place.data.nodeId)

/-- The eleven metadata fields of two node data agree: name, syntax, tags, read-only, the
two search exclusions, custom icon id, bold, foreground, creation and last-save time. -/
def same_metadata (a b : CtNodeData) : Prop :=
  a.name = b.name ∧ a.syntaxHighlighting = b.syntaxHighlighting ∧ a.tags = b.tags ∧
  a.isReadOnly = b.isReadOnly ∧ a.excludeMeFromSearch = b.excludeMeFromSearch ∧
  a.excludeChildrenFromSearch = b.excludeChildrenFromSearch ∧
  a.customIconId = b.customIconId ∧ a.isBold = b.isBold ∧
  a.foregroundRgb24 = b.foregroundRgb24 ∧ a.tsCreation = b.tsCreation ∧
  a.tsLastSave = b.tsLastSave

/-- The numbers of a node are read back as they were printed: `gint64_from_gstring`
inverts `std::to_string` on the id, the master id, the icon id and the two timestamps,
and the icon id is a `guint32`. -/
def numbers_read_back (U : CtEnv) (data : CtNodeData) : Prop :=
  U.gint64_from_gstring (to_string data.nodeId) = data.nodeId ∧
  U.gint64_from_gstring (to_string data.sharedNodesMasterId) = data.sharedNodesMasterId ∧
  U.gint64_from_gstring (to_string data.customIconId) = data.customIconId ∧
  data.customIconId < 4294967296 ∧
  U.gint64_from_gstring (to_string data.tsCreation) = data.tsCreation ∧
  U.gint64_from_gstring (to_string data.tsLastSave) = data.tsLastSave

instance (a b : CtNodeData) : Decidable (same_metadata a b) := by
  unfold same_metadata
  infer_instance

instance (U : CtEnv) (data : CtNodeData) : Decidable (numbers_read_back U data) := by
  unfold numbers_read_back
  infer_instance

mutual
/-- The node elements of an element, without anything else: the element with, of its
children, only those called `node`, reduced in the same way. This is all that the walk of
`populate_treestore` visits. -/
def node_skeleton : XmlNode → XmlNode
  | .element name attrs children => .element name attrs (node_skeleton_children children)
  | .text content => .text content
/-- The children called `node` of a list of children, each reduced to its node elements. -/
def node_skeleton_children : List XmlNode → List XmlNode
  | [] => []
  | xml_node :: rest =>
    if xml_node.get_name == "node" then node_skeleton xml_node :: node_skeleton_children rest
    else node_skeleton_children rest
end

/-- What the walk reads of one of its calls without looking at the content: the
attributes of the element, the sequence number, the parent. -/
def WalkItem.header (item : WalkItem) : List (String × String) × Int × TreeIter :=
  (item.xml_element.get_attributes, item.sequence, item.parent_iter)

/-- The same for a node of a tree saved with a whole-document scope: the attributes of
its element, its sibling number, its parent. -/
def CtTreePlace.header (place : CtTreePlace) : List (String × String) × Int × TreeIter :=
  (if 0 < place.data.sharedNodesMasterId then
     alias_attributes place.data.nodeId place.data.sharedNodesMasterId
   else owner_attributes place.data place.data.sharedNodesMasterId,
   place.sequence, place.parent)

/-! ## Sample data -/

/-- A buffer holding one plain span of text. -/
def sample_buffer (text : String) : CtTextBuffer :=
  { ops := [BufferOp.insert none text []] }

/-- A node that owns its content: id, name and text. -/
def sample_owner (id : Int) (name text : String) : CtNodeData :=
  { CtNodeData.init with nodeId := id, name := name, pTextBuffer := some (sample_buffer text) }

/-- An alias of the node `master_id`, showing the text of its master. -/
def sample_alias (id master_id : Int) (text : String) : CtNodeData :=
  { CtNodeData.init with
    nodeId := id, sharedNodesMasterId := master_id, pTextBuffer := some (sample_buffer text) }

/-- The environment `CtEnv.sample` with a file system in which the file
`no_such_dir/doc.ctd` cannot be written. -/
def CtEnv.sample_unwritable : CtEnv :=
  { CtEnv.sample with
    write_to_file_formatted := fun path _ =>
      if path == "no_such_dir/doc.ctd" then some "Failed to write document" else none }

/-- The environment `CtEnv.sample` with a file system in which every path holds the
document `root`. -/
def CtEnv.sample_with (root : XmlNode) : CtEnv :=
  { CtEnv.sample with
    fs_exists := fun _ => true
    parse_file := fun _ => .ok (some { root := some root }) }

/-- A node element with the three attributes `unique_id`, `master_id`, `name` and one
span of text. -/
def sample_node_element (unique_id master_id name text : String) (children : List XmlNode) :
    XmlNode :=
  .element "node" [("unique_id", unique_id), ("master_id", master_id), ("name", name)]
    (.element "rich_text" [] [.text text] :: children)

/-- A document with two top-level nodes that both declare the id 5. -/
def sample_duplicated_document : XmlNode :=
  .element "cherrytree" []
    [sample_node_element "5" "0" "A" "a" [], sample_node_element "5" "0" "B" "b" []]

/-- A document in which the alias (id 2, `master_id` 1) stands before its master
(id 1, name `A`). -/
def sample_alias_document : XmlNode :=
  .element "cherrytree" []
    [.element "node" [("unique_id", "2"), ("master_id", "1")] [],
     sample_node_element "1" "0" "A" "a" []]

/-- The foreign document of the import scenario: the master 10 and its alias 11. -/
def sample_foreign_document : XmlNode :=
  .element "cherrytree" []
    [sample_node_element "10" "0" "M" "m" [],
     .element "node" [("unique_id", "11"), ("master_id", "10")] []]

/-- A local store whose only node has the id 99, so that the next free id is 100. -/
def sample_local_store : CtTreeStore :=
  { rows := [{ data := sample_owner 99 "local" "l", parent := none }], bookmarks := [] }

/-- The tree of the scenario: node 1 `A`, node 2 an alias of node 1, node 3 `B`. -/
def sample_tree : List CtTreeNode :=
  [.node (sample_owner 1 "A" "A") [], .node (sample_alias 2 1 "A") [],
   .node (sample_owner 3 "B" "B") []]

/-- The main window of the scenario: the sample tree with the bookmark 3. -/
def sample_main_win : CtMainWin :=
  { tree := sample_tree, bookmarks := [3], curr_tree_iter := none }

/-- A tree with nesting: node 1 `A` with the children 2 (an alias of 4) and 3 `C`, then
the top-level node 4 `D`. -/
def sample_nested_tree : List CtTreeNode :=
  [.node (sample_owner 1 "A" "a")
     [.node (sample_alias 2 4 "d") [], .node (sample_owner 3 "C" "c") []],
   .node ({ sample_owner 4 "D" "d" with isBold := true, tsCreation := 1700000000 }) []]

/-- The main window of the round trip: the nested tree with the bookmark 3. -/
def sample_nested_win : CtMainWin :=
  { tree := sample_nested_tree, bookmarks := [3], curr_tree_iter := none }

/-- The document of the nested tree as a parser that keeps blanks may return it from a
formatted file: the elements as `save_treestore` writes them, with text nodes of white
space between some of them. -/
def sample_nested_parsed : XmlNode :=
  .element "cherrytree" []
    [.text "\n  ", .element "bookmarks" [("list", "3")] [], .text "\n  ",
     .element "node" (owner_attributes (sample_owner 1 "A" "a") 0)
       [.text "\n    ", .element "rich_text" [] [.text "a"], .text "\n    ",
        .element "node" (alias_attributes 2 4) [], .text "\n    ",
        .element "node" (owner_attributes (sample_owner 3 "C" "c") 0)
          [.element "rich_text" [] [.text "c"]], .text "\n  "],
     .text "\n  ",
     .element "node"
       (owner_attributes
         ({ sample_owner 4 "D" "d" with isBold := true, tsCreation := 1700000000 }) 0)
       [.element "rich_text" [] [.text "d"]],
     .text "\n"]

/-! ## Materializing a deferred buffer (`get_delayed_text_buffer`) -/

/-- What `get_delayed_text_buffer` returns and leaves behind: the returned buffer (`none`
is the null `RefPtr`), the widget list of the caller and the member
`_delayed_text_buffers`. -/
structure DelayedBufferOut where
  ret_buffer : Option CtTextBuffer
  widgets : List CtAnchoredWidget
  delayed_text_buffers : CtDelayedTextBufferMap

/-- The method `CtStorageXml::get_delayed_text_buffer(node_id, syntax, widgets)`; `syntax`
is only passed on to a function that does not read it. The root of the kept document and
its first child are used without a test: a missing root, a missing first child or a first
child that is not an element (the `dynamic_cast` is then null) is undefined. -/
def get_delayed_text_buffer (U : CtEnv) (delayed_text_buffers : CtDelayedTextBufferMap)
    (node_id : Int) (widgets : List CtAnchoredWidget) : Except CtError DelayedBufferOut :=
  if !delayed_text_buffers.has node_id then
    .ok { ret_buffer := none, widgets := widgets, delayed_text_buffers := delayed_text_buffers }
  else
    match delayed_text_buffers.find node_id with
    | none => .error (.undefined "null node_buffer")
    | some node_buffer =>
      match node_buffer.root with
      | none => .error (.undefined "get_root_node() is null")
      | some root =>
        match root.get_children_all with
        | [] => .error (.undefined "get_first_child() is null")
        | .text _ :: _ => .error (.undefined "the first child is not an element")
        | .element name attrs children :: _ =>
          match create_buffer_and_widgets_from_xml U (.element name attrs children) widgets
              none (-1) "" with
          | .error e => .error e
          | .ok (ret_buffer, widgets) =>
            .ok { ret_buffer := ret_buffer, widgets := widgets,
                  delayed_text_buffers :=
                    if ret_buffer.isSome then delayed_text_buffers.erase node_id
                    else delayed_text_buffers }

/-! ## Encoding a table (`table_to_xml`) -/

/-- The lambda `row_to_xml` of `table_to_xml`: the `row` element it adds, one `cell`
element per cell with the text of the cell as its child text. -/
def row_to_xml (tableRow : List String) : XmlNode :=
  .element "row" [] (tableRow.map (fun cell => XmlNode.element "cell" [] [XmlNode.text cell]))

/-- The function `CtXmlHelper::table_to_xml`: the `table` element it adds to `p_parent`.
The loop passes over the first row, which is written last; `rows[0]` of an empty vector
is undefined. -/
def table_to_xml (U : CtEnv) (rows : List (List String)) (char_offset : Int)
    (justification : String) (defaultWidth : Int) (colWidths : String) (is_light : Bool) :
    Except CtError XmlNode :=
  let p_table_node := XmlNode.element "table" [] []
  let p_table_node := p_table_node.set_attribute "char_offset" (to_string char_offset)
  let p_table_node := p_table_node.set_attribute U.TAG_JUSTIFICATION justification
  let p_table_node := p_table_node.set_attribute "col_min" (to_string defaultWidth)
  let p_table_node := p_table_node.set_attribute "col_max" (to_string defaultWidth)
  let p_table_node := p_table_node.set_attribute "col_widths" colWidths
  let p_table_node :=
    if is_light then p_table_node.set_attribute "is_light" "1" else p_table_node
  let p_table_node := p_table_node.add_children ((rows.drop 1).map row_to_xml)
  match rows with
  | [] => .error (.undefined "rows[0] of an empty vector")
  | header :: _ => .ok (p_table_node.add_child (row_to_xml header))

/-! ## The nodes an export visits -/

mutual
/-- The nodes `_nodes_to_xml` visits from one node, in the order of the visit: the node
and, unless the scope is a single node, its descendants. -/
def visited_nodes (export_type : CtExporting) : CtTreeNode → List CtNodeData
  | .node data children =>
    data :: (if export_type ≠ CtExporting.CURRENT_NODE ∧
        export_type ≠ CtExporting.SELECTED_TEXT then visited_nodes_all export_type children
      else [])
/-- The nodes `_nodes_to_xml` visits from a list of siblings. -/
def visited_nodes_all (export_type : CtExporting) : List CtTreeNode → List CtNodeData
  | [] => []
  | ct_tree_iter :: rest =>
    visited_nodes export_type ct_tree_iter ++ visited_nodes_all export_type rest
end

/-- The nodes in the scope of an export: the whole tree, or the current node with or
without its descendants. -/
def nodes_in_scope (win : CtMainWin) (export_type : CtExporting) : List CtNodeData :=
  if is_whole_document export_type then visited_nodes_all export_type win.tree
  else
    match win.curr_tree_iter with
    | none => []
    | some ct_tree_iter => visited_nodes export_type ct_tree_iter

/-- The message of the exception `_nodes_to_xml` throws for a node without text buffer. -/
def content_unavailable_message (name : String) : String :=
  "Failed to retrieve the content of the node '" ++ name ++ "'"

/-! ## The three texts `safe_parse_memory` hands to the parser -/

/-- The text of the second attempt: the bytes made valid UTF-8. -/
def parse_attempt_2 (U : CtEnv) (xml_content : String) : String :=
  U.g_utf8_make_valid xml_content

/-- The text of the third attempt: the valid bytes without the disallowed symbols. -/
def parse_attempt_3 (U : CtEnv) (xml_content : String) : String :=
  U.sanitize_bad_symbols (U.g_utf8_make_valid xml_content)

/-- An attempt fails: `parse_memory` throws `xmlpp::parse_error`. -/
def parse_attempt_fails (U : CtEnv) (text : String) : Prop :=
  ∃ e, U.parse_memory text = .error e ∧ e.is_parse_error = true

/-! ## More sample data -/

/-- A document with a root and nothing in it. -/
def sample_empty_document : XmlDocument :=
  { root := some (.element "cherrytree" [] []) }

/-- The environment `CtEnv.sample` with a parser that accepts the text `<cherrytree/>`
only, a file `doc.ctd` that `parse_file` rejects, a coercion to UTF-8 that changes
nothing and a filter of bad symbols that removes the character `!`. -/
def CtEnv.sample_fallback : CtEnv :=
  { CtEnv.sample with
    fs_exists := fun _ => true
    parse_file := fun _ => .error { what := "not well-formed", is_parse_error := true }
    file_get_contents := fun _ => "<cherrytree/!>"
    parse_memory := fun text =>
      if text == "<cherrytree/>" then .ok (some sample_empty_document)
      else .error { what := "not well-formed", is_parse_error := true }
    sanitize_bad_symbols := fun text => String.mk (text.data.filter (fun c => c != '!')) }

/-- A tree in which the content of the child 2 of the node 1 cannot be retrieved. -/
def sample_unavailable_tree : List CtTreeNode :=
  [.node (sample_owner 1 "A" "a")
     [.node ({ sample_owner 2 "B" "b" with pTextBuffer := none }) []],
   .node (sample_owner 3 "C" "c") []]

/-- The main window of that tree, the node 1 being the current node. -/
def sample_unavailable_win : CtMainWin :=
  { tree := sample_unavailable_tree, bookmarks := []
    curr_tree_iter := some (.node (sample_owner 1 "A" "a")
      [.node ({ sample_owner 2 "B" "b" with pTextBuffer := none }) []]) }

/-- A codebox element holding `text` at the offset `char_offset`. -/
def sample_codebox_element (char_offset text : String) : XmlNode :=
  .element "codebox"
    [("char_offset", char_offset), ("frame_width", "10"), ("frame_height", "5")] [.text text]

/-- The widget `_create_codebox_from_xml` makes of `sample_codebox_element` in the sample
environment. -/
def sample_codebox (char_offset : Int) (text : String) : CtAnchoredWidget :=
  .CtCodebox text "" 10 5 char_offset "left" false false false

/-- A node element of the multi-file backend: a span, a codebox, an image whose digest
`abc` has no file in the blob store of the sample environment, a span and a codebox. -/
def sample_missing_blob_element : XmlNode :=
  .element "node" [("unique_id", "1"), ("master_id", "0")]
    [.element "rich_text" [] [.text "before"],
     sample_codebox_element "6" "x",
     .element "encoded_png" [("char_offset", "7"), ("sha256sum", "abc")] [],
     .element "rich_text" [] [.text "after"],
     sample_codebox_element "13" "y"]

/-- The same node element without the image. -/
def sample_no_image_element : XmlNode :=
  .element "node" [("unique_id", "1"), ("master_id", "0")]
    [.element "rich_text" [] [.text "before"],
     sample_codebox_element "6" "x",
     .element "rich_text" [] [.text "after"],
     sample_codebox_element "13" "y"]

/-- An image element of the multi-file backend with a file name and no digest. -/
def sample_constant_file_element (filename time : String) : XmlNode :=
  .element "encoded_png" [("char_offset", "0"), ("filename", filename), ("time", time)] []

/-- A delayed-buffer map with the elements of the nodes 5 (`A`) and 6 (`B`), as
`node_from_xml` keeps them. -/
def sample_delayed_map : CtDelayedTextBufferMap :=
  [(5, delayed_document (sample_node_element "5" "0" "A" "a" [])),
   (6, delayed_document (sample_node_element "6" "0" "B" "b" []))]

/-- A foreign document with the master 10, its alias 11, and the alias 12 of a node 77
that the document does not hold. -/
def sample_dangling_document : XmlNode :=
  .element "cherrytree" []
    [.element "node" [("unique_id", "12"), ("master_id", "77")] [],
     sample_node_element "10" "0" "M" "m" [],
     .element "node" [("unique_id", "11"), ("master_id", "10")] []]

/-! ## The shape of an encoded subtree -/

/-- The attributes of the element of a node: two for an alias, thirteen otherwise. -/
def encoded_attributes (data : CtNodeData) (export_type : CtExporting)
    (pExpoMasterReassign : Option (CtMap Int)) : List (String × String) :=
  if 0 < export_master_id data.nodeId data.sharedNodesMasterId export_type
      pExpoMasterReassign then
    alias_attributes data.nodeId
      (export_master_id data.nodeId data.sharedNodesMasterId export_type pExpoMasterReassign)
  else
    owner_attributes data
      (export_master_id data.nodeId data.sharedNodesMasterId export_type pExpoMasterReassign)

mutual
/-- The tree as nested `node` elements, one per node, the elements of the children of a
node nested in its element in sibling order, and nothing else. -/
def tree_skeleton (export_type : CtExporting) (pExpoMasterReassign : Option (CtMap Int)) :
    CtTreeNode → XmlNode
  | .node data children =>
    .element "node" (encoded_attributes data export_type pExpoMasterReassign)
      (tree_skeleton_all export_type pExpoMasterReassign children)
/-- The same for a list of siblings. -/
def tree_skeleton_all (export_type : CtExporting) (pExpoMasterReassign : Option (CtMap Int)) :
    List CtTreeNode → List XmlNode
  | [] => []
  | ct_tree_iter :: rest =>
    tree_skeleton export_type pExpoMasterReassign ct_tree_iter ::
      tree_skeleton_all export_type pExpoMasterReassign rest
end

/-! ## The place of a child element in the walk -/

/-- The number of calls the walk makes for the first `j` children called `node` of an
element, their descendants included: the distance, in calls, from the first child called
`node` to the child number `j` (counted from 0). -/
def child_offset (xml_element : XmlNode) (j : Nat) : Nat :=
  count_nodes_children ((xml_element.get_children "node").take j)

/-! ## Sample data for the scopes -/

/-- The node 1 `A` with its children 2 (an alias of 4) and 3 `C`. -/
def sample_nested_node : CtTreeNode :=
  .node (sample_owner 1 "A" "a")
    [.node (sample_alias 2 4 "d") [], .node (sample_owner 3 "C" "c") []]

/-! ## The payload of an image element -/

/-- The value of `rawBlob` when `_create_image_from_xml` reaches its test of the file
name, for an element without anchor whose file name is not the LaTeX special file name:
the decoded text of the element in the single-file backend, the blob of the digest in the
multi-file backend, empty for a file name without digest; `none` when the function has
returned the null pointer before that test. -/
def image_payload (U : CtEnv) (xml_element : XmlNode) (multifile_dir : String) :
    Option String :=
  let file_name := xml_element.get_attribute_value "filename"
  let encodedBlob := (xml_element.get_child_text).getD ""
  if multifile_dir == "" then
    (if encodedBlob == "" then some "" else some (U.base64_decode encodedBlob))
  else
    let sha256sum := xml_element.get_attribute_value "sha256sum"
    if sha256sum == "" then (if file_name == "" then none else some "")
    else U.read_blob multifile_dir sha256sum

/-! ## Sample data for the sequence numbers, the spans and the images -/

/-- A document with nesting: the node `A` with the children `B` and `C`, `C` with the
child `E`, then the node `D`; a `bookmarks` element stands before them. -/
def sample_family_document : XmlNode :=
  .element "cherrytree" []
    [.element "bookmarks" [("list", "")] [],
     sample_node_element "7" "0" "A" "a"
       [sample_node_element "9" "0" "B" "b" [],
        sample_node_element "3" "0" "C" "c" [sample_node_element "8" "0" "E" "e" []]],
     sample_node_element "1" "0" "D" "d" []]

/-- The environment `CtEnv.sample` with a buffer of two spans: `Hello ` with a weight and
an empty style, and `World` without attributes; the case of a text is changed character
by character. -/
def CtEnv.sample_spans : CtEnv :=
  { CtEnv.sample with
    generic_process_slot := fun _ _ _ =>
      [("Hello ", [("style", ""), ("weight", "heavy")]), ("World", [])]
    lowercase := fun s => String.mk (s.data.map Char.toLower)
    uppercase := fun s => String.mk (s.data.map Char.toUpper)
    swapcase := fun s =>
      String.mk (s.data.map (fun c => if c.isUpper then c.toLower else c.toUpper)) }

/-- The environment `CtEnv.sample` with a `std::stoll` that throws for the text `noon`. -/
def CtEnv.sample_strict : CtEnv :=
  { CtEnv.sample with
    stoll := fun s => if s == "noon" || s == "" then none else some (parse_int s) }

/-- An image element of the single-file backend with a payload, a file name and a time. -/
def sample_file_element (filename time : String) : XmlNode :=
  .element "encoded_png" [("char_offset", "0"), ("filename", filename), ("time", time)]
    [.text "cGF5bG9hZA=="]

/-! ## Lemmas on the DOM and on maps -/

theorem add_children_element (n : String) (a : List (String × String))
    (cs l : List XmlNode) :
    (XmlNode.element n a cs).add_children l = XmlNode.element n a (cs ++ l) := rfl

theorem add_children_foldl (f : CtAnchoredWidget → List XmlNode) (ws : List CtAnchoredWidget)
    (n : String) (a : List (String × String)) (cs : List XmlNode) :
    ws.foldl (fun p w => p.add_children (f w)) (XmlNode.element n a cs)
      = XmlNode.element n a (cs ++ ws.flatMap f) := by
  induction ws generalizing cs with
  | nil => simp
  | cons w ws ih =>
    rw [List.foldl_cons, add_children_element, ih, List.flatMap_cons, List.append_assoc]

theorem CtMap.has_of_find {V : Type} (m : CtMap V) (k : Int) (v : V)
    (h : m.find k = some v) : m.has k = true := by
  induction m with
  | nil => simp [CtMap.find] at h
  | cons p rest ih =>
    obtain ⟨k', v'⟩ := p
    simp only [CtMap.find] at h
    simp only [CtMap.has, List.any_cons]
    by_cases hk : (k' == k) = true
    · simp [hk]
    · simp only [hk] at h
      have := ih h
      simp only [CtMap.has] at this
      simp [this]

theorem CtMap.find_of_has {V : Type} (m : CtMap V) (k : Int)
    (h : m.has k = true) : ∃ v, m.find k = some v := by
  induction m with
  | nil => simp [CtMap.has] at h
  | cons p rest ih =>
    obtain ⟨k', v'⟩ := p
    simp only [CtMap.find]
    by_cases hk : (k' == k) = true
    · exact ⟨v', by simp [hk]⟩
    · simp only [CtMap.has, List.any_cons, hk, Bool.false_or] at h
      obtain ⟨v, hv⟩ := ih h
      exact ⟨v, by simp [hk, hv]⟩

/-! ## Encoding one node -/

theorem node_to_xml_alias (U : CtEnv) (data : CtNodeData) (multifile_dir : String)
    (export_type : CtExporting) (reassign : Option (CtMap Int)) (start_offset end_offset : Int)
    (h : export_master_id data.nodeId data.sharedNodesMasterId export_type reassign > 0) :
    node_to_xml U data multifile_dir export_type reassign start_offset end_offset
      = .ok (.element "node" (alias_attributes data.nodeId
          (export_master_id data.nodeId data.sharedNodesMasterId export_type reassign)) []) := by
  have h' : ¬ export_master_id data.nodeId data.sharedNodesMasterId export_type reassign ≤ 0 := by
    omega
  simp [node_to_xml, h', XmlNode.set_attribute, XmlNode.set_attr, alias_attributes]

theorem node_to_xml_owner (U : CtEnv) (data : CtNodeData) (multifile_dir : String)
    (export_type : CtExporting) (reassign : Option (CtMap Int)) (start_offset end_offset : Int)
    (buffer : CtTextBuffer)
    (h : export_master_id data.nodeId data.sharedNodesMasterId export_type reassign ≤ 0)
    (hbuf : data.pTextBuffer = some buffer) :
    node_to_xml U data multifile_dir export_type reassign start_offset end_offset
      = .ok (.element "node" (owner_attributes data
          (export_master_id data.nodeId data.sharedNodesMasterId export_type reassign))
          (content_to_xml U data buffer multifile_dir start_offset end_offset)) := by
  simp [node_to_xml, h, hbuf, metadata_to_xml, XmlNode.set_attribute, XmlNode.set_attr,
    add_children_element, add_children_foldl, owner_attributes, content_to_xml]

/-! ## Claims on `node_to_xml` -/

/-- C6. Alias versus owner encoding: for every node and export scope, when the
`master_id` that `node_to_xml` writes is positive the element is exactly
`<node unique_id master_id/>` with no children; when it is not positive (and the text
buffer of the node is there) the element carries `unique_id`, `master_id`, the eleven
metadata attributes in the order of the source, and then the serialized content. -/
theorem node_to_xml_alias_versus_owner (U : CtEnv) (data : CtNodeData)
    (multifile_dir : String) (export_type : CtExporting) (reassign : Option (CtMap Int))
    (start_offset end_offset : Int) :
    (0 < export_master_id data.nodeId data.sharedNodesMasterId export_type reassign →
      node_to_xml U data multifile_dir export_type reassign start_offset end_offset
        = .ok (.element "node" (alias_attributes data.nodeId
            (export_master_id data.nodeId data.sharedNodesMasterId export_type reassign)) [])) ∧
    (export_master_id data.nodeId data.sharedNodesMasterId export_type reassign ≤ 0 →
      ∀ buffer, data.pTextBuffer = some buffer →
      node_to_xml U data multifile_dir export_type reassign start_offset end_offset
        = .ok (.element "node" (owner_attributes data
            (export_master_id data.nodeId data.sharedNodesMasterId export_type reassign))
            (content_to_xml U data buffer multifile_dir start_offset end_offset))) :=
  ⟨fun h => node_to_xml_alias U data multifile_dir export_type reassign start_offset end_offset h,
   fun h buffer hbuf =>
    node_to_xml_owner U data multifile_dir export_type reassign start_offset end_offset buffer
      h hbuf⟩

/-- C6 at the nodes of the scenario: node 2, an alias of node 1, is written with its two
ids only; node 1 is written with its thirteen attributes and its text. -/
theorem node_to_xml_alias_versus_owner_witness :
    node_to_xml CtEnv.sample (sample_alias 2 1 "A") "" CtExporting.NONESAVE none 0 (-1)
      = .ok (.element "node" [("unique_id", "2"), ("master_id", "1")] []) ∧
    node_to_xml CtEnv.sample (sample_owner 1 "A" "A") "" CtExporting.NONESAVE none 0 (-1)
      = .ok (.element "node"
          [("unique_id", "1"), ("master_id", "0"), ("name", "A"), ("prog_lang", ""),
           ("tags", ""), ("readonly", "0"), ("nosearch_me", "0"), ("nosearch_ch", "0"),
           ("custom_icon_id", "0"), ("is_bold", "0"), ("foreground", ""),
           ("ts_creation", "0"), ("ts_lastsave", "0")]
          [.element "rich_text" [] [.text "A"]]) :=
  ⟨(node_to_xml_alias_versus_owner CtEnv.sample (sample_alias 2 1 "A") ""
      CtExporting.NONESAVE none 0 (-1)).1 (by decide),
   (node_to_xml_alias_versus_owner CtEnv.sample (sample_owner 1 "A" "A") ""
      CtExporting.NONESAVE none 0 (-1)).2 (by decide) (sample_buffer "A") rfl⟩

/-- C8. Master reassignment on subtree export. The `master_id` attribute that
`node_to_xml` writes is the decimal form of `export_master_id`. For scope
`CURRENT_NODE_AND_SUBNODES` and a node with master id `m > 0` that the map sends to `r`,
it is `r` when `r` differs from the id of the node and `0` when `r` is that id; when the
map is absent, does not contain `m`, or `m <= 0`, it is `m`. For the three
whole-document scopes it is `m` whatever the map. -/
theorem export_master_id_reassignment (U : CtEnv) (data : CtNodeData)
    (multifile_dir : String) (export_type : CtExporting) (reassign : Option (CtMap Int))
    (start_offset end_offset : Int) :
    (∀ buffer, data.pTextBuffer = some buffer →
      ∃ e, node_to_xml U data multifile_dir export_type reassign start_offset end_offset
          = .ok e ∧
        e.get_attribute_value "master_id" = to_string
          (export_master_id data.nodeId data.sharedNodesMasterId export_type reassign)) ∧
    (export_type = CtExporting.CURRENT_NODE_AND_SUBNODES →
      (∀ map r, reassign = some map → data.sharedNodesMasterId > 0 →
        map.find data.sharedNodesMasterId = some r →
        export_master_id data.nodeId data.sharedNodesMasterId export_type reassign
          = if r ≠ data.nodeId then r else 0) ∧
      ((reassign = none ∨
          (∃ map, reassign = some map ∧ map.has data.sharedNodesMasterId = false) ∨
          data.sharedNodesMasterId ≤ 0) →
        export_master_id data.nodeId data.sharedNodesMasterId export_type reassign
          = data.sharedNodesMasterId)) ∧
    (is_whole_document export_type = true →
      export_master_id data.nodeId data.sharedNodesMasterId export_type reassign
        = data.sharedNodesMasterId) := by
  refine ⟨?_, ?_, ?_⟩
  · intro buffer hbuf
    by_cases h : export_master_id data.nodeId data.sharedNodesMasterId export_type reassign ≤ 0
    · exact ⟨_, node_to_xml_owner U data multifile_dir export_type reassign start_offset
        end_offset buffer h hbuf,
        by simp [XmlNode.get_attribute_value, XmlNode.get_attributes, XmlNode.attr_value,
          owner_attributes]⟩
    · exact ⟨_, node_to_xml_alias U data multifile_dir export_type reassign start_offset
        end_offset (by omega),
        by simp [XmlNode.get_attribute_value, XmlNode.get_attributes, XmlNode.attr_value,
          alias_attributes]⟩
  · intro hscope
    subst hscope
    refine ⟨?_, ?_⟩
    · intro map r hmap hm hfind
      subst hmap
      have hhas := CtMap.has_of_find map _ _ hfind
      simp [export_master_id, hm, hhas, hfind]
    · intro h
      rcases h with h | ⟨map, hmap, hhas⟩ | h
      · subst h
        simp [export_master_id]
      · subst hmap
        simp [export_master_id, hhas]
      · cases reassign with
        | none => simp [export_master_id]
        | some map =>
          have : ¬ data.sharedNodesMasterId > 0 := by omega
          simp [export_master_id, this]
  · intro hw
    unfold is_whole_document at hw
    unfold export_master_id
    cases export_type <;> simp at hw ⊢

/-- C8 at node 5, an alias of node 3: a map sending 3 to 9 gives 9, a map sending 3 to 5
promotes the node (0), no map or a map without 3 leaves 3, and a whole-document save
leaves 3 whatever the map. -/
theorem export_master_id_reassignment_witness :
    export_master_id 5 3 CtExporting.CURRENT_NODE_AND_SUBNODES (some [(3, 9)]) = 9 ∧
    export_master_id 5 3 CtExporting.CURRENT_NODE_AND_SUBNODES (some [(3, 5)]) = 0 ∧
    export_master_id 5 3 CtExporting.CURRENT_NODE_AND_SUBNODES none = 3 ∧
    export_master_id 5 3 CtExporting.CURRENT_NODE_AND_SUBNODES (some [(4, 9)]) = 3 ∧
    export_master_id 5 3 CtExporting.ALL_TREE (some [(3, 9)]) = 3 :=
  ⟨((export_master_id_reassignment CtEnv.sample (sample_alias 5 3 "") ""
      CtExporting.CURRENT_NODE_AND_SUBNODES (some [(3, 9)]) 0 (-1)).2.1 rfl).1
      [(3, 9)] 9 rfl (by decide) rfl,
   ((export_master_id_reassignment CtEnv.sample (sample_alias 5 3 "") ""
      CtExporting.CURRENT_NODE_AND_SUBNODES (some [(3, 5)]) 0 (-1)).2.1 rfl).1
      [(3, 5)] 5 rfl (by decide) rfl,
   ((export_master_id_reassignment CtEnv.sample (sample_alias 5 3 "") ""
      CtExporting.CURRENT_NODE_AND_SUBNODES none 0 (-1)).2.1 rfl).2 (Or.inl rfl),
   ((export_master_id_reassignment CtEnv.sample (sample_alias 5 3 "") ""
      CtExporting.CURRENT_NODE_AND_SUBNODES (some [(4, 9)]) 0 (-1)).2.1 rfl).2
      (Or.inr (Or.inl ⟨[(4, 9)], rfl, rfl⟩)),
   (export_master_id_reassignment CtEnv.sample (sample_alias 5 3 "") ""
      CtExporting.ALL_TREE (some [(3, 9)]) 0 (-1)).2.2 rfl⟩

/-! ## Claims on `get_parser` -/

theorem missing_message_ne_empty (file_path : String) : file_path ++ " missing" ≠ "" := by
  intro h
  have := congrArg String.length h
  simp only [String.length_append] at this
  have h8 : " missing".length = 8 := by decide
  rw [h8] at this
  have h0 : "".length = 0 := by decide
  omega

/-- C10. A format error aborts the load without mutation: when the file is absent, when
the tag of the root element is not the document marker, or when there is no root to read,
`populate_treestore` returns false with a non-empty error message, and the tree store
(nodes and bookmarks) and the delayed-buffer map are what they were before the call. -/
theorem populate_treestore_format_error (U : CtEnv) (isDryRun : Bool) (store : CtTreeStore)
    (delayed_text_buffers : CtDelayedTextBufferMap) (file_path error : String)
    (h : is_format_error U file_path) :
    ∃ what, what ≠ "" ∧
      populate_treestore U isDryRun store delayed_text_buffers file_path error
        = .ok { ret := false, error := what, store := store,
                delayed_text_buffers := delayed_text_buffers } := by
  rcases h with h | ⟨hex, parseOk, root, hp, hok, hname⟩ | ⟨hex, hp | ⟨document, hp⟩⟩
  · exact ⟨file_path ++ " missing", missing_message_ne_empty file_path,
      by simp [populate_treestore, get_parser_root_node, h]⟩
  · subst hok
    exact ⟨"document contains the wrong node root", by decide,
      by simp [populate_treestore, get_parser_root_node, hex, hp, hname]⟩
  · exact ⟨"document is null", by decide, by simp [populate_treestore, get_parser_root_node, hex, hp]⟩
  · exact ⟨"xml parse fail", by decide, by simp [populate_treestore, get_parser_root_node, hex, hp]⟩

/-- C10 at a file that does not exist, on a store that already holds a node and a
bookmark: the load fails with the message `nofile.ctd missing` and changes nothing. -/
theorem populate_treestore_format_error_witness :
    ∃ what, what ≠ "" ∧
      populate_treestore CtEnv.sample false
          { rows := [{ data := sample_owner 1 "A" "A", parent := none }], bookmarks := [1] }
          [] "nofile.ctd" ""
        = .ok { ret := false, error := what,
                store := { rows := [{ data := sample_owner 1 "A" "A", parent := none }],
                           bookmarks := [1] },
                delayed_text_buffers := [] } :=
  populate_treestore_format_error CtEnv.sample false
    { rows := [{ data := sample_owner 1 "A" "A", parent := none }], bookmarks := [1] }
    [] "nofile.ctd" "" (Or.inl rfl)

/-! ## The walk as a fold over the node elements in document order -/

theorem foldl_walk_step_stuck {σ : Type} (node : XmlNode → Int → TreeIter → σ → σ × TreeIter)
    (stuck : σ → Prop)
    (hstuck : ∀ el seq p st, stuck st → (node el seq p st).1 = st)
    (items : List WalkItem) (st : σ) (h : stuck st) :
    items.foldl (walk_step node) st = st := by
  induction items with
  | nil => rfl
  | cons item rest ih =>
    rw [List.foldl_cons]
    have : walk_step node st item = st := hstuck _ _ _ _ h
    rw [this, ih]

mutual
theorem walk_node_elements_eq_foldl {σ : Type}
    (node : XmlNode → Int → TreeIter → σ → σ × TreeIter)
    (stuck : σ → Prop) (len : σ → Nat) (appends : Bool)
    (hstuck : ∀ el seq p st, stuck st → (node el seq p st).1 = st)
    (hnode : ∀ el seq p st, ¬ stuck st → stuck (node el seq p st).1 ∨
      ((node el seq p st).2 = (if appends then some (len st) else none) ∧
        len (node el seq p st).1 = if appends then len st + 1 else len st)) :
    ∀ (el : XmlNode) (seq : Int) (p : TreeIter) (st : σ),
      walk_node_elements node el seq p st
          = (walk_items appends (len st) el seq p).foldl (walk_step node) st ∧
      (¬ stuck (walk_node_elements node el seq p st) →
        len (walk_node_elements node el seq p st)
          = if appends then len st + count_nodes el else len st)
  | .element name attrs children, seq, p, st => by
    have ih := walk_children_eq_foldl node stuck len appends hstuck hnode children 0
      (node (.element name attrs children) seq p st).2
      (node (.element name attrs children) seq p st).1
    rw [walk_node_elements, walk_items, List.foldl_cons, count_nodes]
    by_cases hs : stuck st
    · have h1 : (node (.element name attrs children) seq p st).1 = st := hstuck _ _ _ _ hs
      have e1 : walk_step node st
          { xml_element := .element name attrs children, sequence := seq, parent_iter := p }
          = st := h1
      rw [e1, foldl_walk_step_stuck node stuck hstuck _ st hs]
      rw [ih.1, h1, foldl_walk_step_stuck node stuck hstuck _ st hs]
      exact ⟨rfl, fun h => absurd hs h⟩
    · rcases hnode (.element name attrs children) seq p st hs with h | ⟨h2, h3⟩
      · have e1 : walk_step node st
            { xml_element := .element name attrs children, sequence := seq, parent_iter := p }
            = (node (.element name attrs children) seq p st).1 := rfl
        rw [e1, foldl_walk_step_stuck node stuck hstuck _ _ h]
        rw [ih.1, foldl_walk_step_stuck node stuck hstuck _ _ h]
        exact ⟨rfl, fun h' => absurd h h'⟩
      · have e1 : walk_step node st
            { xml_element := .element name attrs children, sequence := seq, parent_iter := p }
            = (node (.element name attrs children) seq p st).1 := rfl
        rw [e1]
        refine ⟨?_, ?_⟩
        · rw [ih.1, h2, h3]
        · intro hns
          rw [ih.2 hns, h3]
          cases appends <;> simp <;> omega
  | .text content, seq, p, st => by
    rw [walk_node_elements, walk_items, count_nodes]
    refine ⟨rfl, ?_⟩
    intro hns
    by_cases hs : stuck st
    · rw [hstuck _ _ _ _ hs] at hns
      exact absurd hs hns
    · rcases hnode (.text content) seq p st hs with h | ⟨_, h3⟩
      · exact absurd h hns
      · rw [h3]
theorem walk_children_eq_foldl {σ : Type}
    (node : XmlNode → Int → TreeIter → σ → σ × TreeIter)
    (stuck : σ → Prop) (len : σ → Nat) (appends : Bool)
    (hstuck : ∀ el seq p st, stuck st → (node el seq p st).1 = st)
    (hnode : ∀ el seq p st, ¬ stuck st → stuck (node el seq p st).1 ∨
      ((node el seq p st).2 = (if appends then some (len st) else none) ∧
        len (node el seq p st).1 = if appends then len st + 1 else len st)) :
    ∀ (cs : List XmlNode) (k : Int) (it : TreeIter) (st : σ),
      walk_children node cs k it st
          = (walk_items_children appends (len st) cs k it).foldl (walk_step node) st ∧
      (¬ stuck (walk_children node cs k it st) →
        len (walk_children node cs k it st)
          = if appends then len st + count_nodes_children cs else len st)
  | [], k, it, st => by
    rw [walk_children, walk_items_children, count_nodes_children]
    exact ⟨rfl, fun _ => by cases appends <;> simp⟩
  | c :: cs, k, it, st => by
    rw [walk_children, walk_items_children, count_nodes_children]
    by_cases hn : (c.get_name == "node") = true
    · simp only [hn, if_true]
      have ihc := walk_node_elements_eq_foldl node stuck len appends hstuck hnode c (k + 1) it st
      have ihcs := walk_children_eq_foldl node stuck len appends hstuck hnode cs (k + 1) it
        (walk_node_elements node c (k + 1) it st)
      rw [List.foldl_append, ← ihc.1]
      by_cases hs2 : stuck (walk_node_elements node c (k + 1) it st)
      · rw [foldl_walk_step_stuck node stuck hstuck _ _ hs2]
        rw [ihcs.1, foldl_walk_step_stuck node stuck hstuck _ _ hs2]
        exact ⟨rfl, fun h => absurd hs2 h⟩
      · have hl := ihc.2 hs2
        refine ⟨?_, ?_⟩
        · rw [ihcs.1, hl]
        · intro hns
          rw [ihcs.2 hns, hl]
          cases appends <;> simp <;> omega
    · simp only [hn]
      exact walk_children_eq_foldl node stuck len appends hstuck hnode cs k it st
end

mutual
theorem walk_items_length (appends : Bool) :
    ∀ (el : XmlNode) (n : Nat) (seq : Int) (p : TreeIter),
      (walk_items appends n el seq p).length = count_nodes el
  | .element name attrs children, n, seq, p => by
    rw [walk_items, count_nodes, List.length_cons,
      walk_items_children_length appends children]
    omega
  | .text content, n, seq, p => by
    rw [walk_items, count_nodes]
    rfl
theorem walk_items_children_length (appends : Bool) :
    ∀ (cs : List XmlNode) (n : Nat) (k : Int) (it : TreeIter),
      (walk_items_children appends n cs k it).length = count_nodes_children cs
  | [], n, k, it => by
    rw [walk_items_children, count_nodes_children]
    rfl
  | c :: cs, n, k, it => by
    rw [walk_items_children, count_nodes_children]
    by_cases hn : (c.get_name == "node") = true
    · simp only [hn, if_true, List.length_append]
      rw [walk_items_length appends c, walk_items_children_length appends cs]
    · simp only [hn]
      exact walk_items_children_length appends cs n k it
end

/-! ## Lemmas on maps -/

theorem CtMap.has_set {V : Type} (m : CtMap V) (k k' : Int) (v : V) :
    (m.set k v).has k' = (m.has k' || k == k') := by
  induction m with
  | nil => simp [CtMap.set, CtMap.has]
  | cons p rest ih =>
    obtain ⟨pk, pv⟩ := p
    simp only [CtMap.set]
    by_cases hp : pk = k
    · subst hp
      simp only [beq_self_eq_true, if_true, CtMap.has, List.any_cons]
      cases (pk == k') <;> simp
    · have hp' : (pk == k) = false := by simpa using hp
      simp only [hp', CtMap.has, List.any_cons] at ih ⊢
      simp only [Bool.false_eq_true, if_false, List.any_cons, ih, Bool.or_assoc]

theorem CtMap.find_set_self {V : Type} (m : CtMap V) (k : Int) (v : V) :
    (m.set k v).find k = some v := by
  induction m with
  | nil => simp [CtMap.set, CtMap.find]
  | cons p rest ih =>
    obtain ⟨pk, pv⟩ := p
    simp only [CtMap.set]
    by_cases hp : pk = k
    · subst hp
      simp [CtMap.find]
    · have hp' : (pk == k) = false := by simpa using hp
      simp only [hp', Bool.false_eq_true, if_false, CtMap.find, ih]

theorem CtMap.find_set_ne {V : Type} (m : CtMap V) (k k' : Int) (v : V) (hne : k' ≠ k) :
    (m.set k v).find k' = m.find k' := by
  have hne' : (k == k') = false := by simpa using fun h => hne h.symm
  induction m with
  | nil => simp [CtMap.set, CtMap.find, hne']
  | cons p rest ih =>
    obtain ⟨pk, pv⟩ := p
    simp only [CtMap.set]
    by_cases hp : pk = k
    · subst hp
      simp [CtMap.find, hne']
    · have hp' : (pk == k) = false := by simpa using hp
      simp only [hp', Bool.false_eq_true, if_false, CtMap.find, ih]

/-! ## One node element in a normal load -/

theorem read_node_data_nodeId (U : CtEnv) (el : XmlNode) (seq : Int) :
    (read_node_data U el seq (-1)).nodeId
      = U.gint64_from_gstring (el.get_attribute_value "unique_id") := by
  unfold read_node_data
  dsimp only
  split_ifs <;> simp_all

theorem read_node_data_new_id (U : CtEnv) (el : XmlNode) (seq new_id : Int)
    (h : new_id ≠ -1) : (read_node_data U el seq new_id).nodeId = new_id := by
  unfold read_node_data
  dsimp only
  split_ifs <;> simp_all

theorem read_node_data_master (U : CtEnv) (el : XmlNode) (seq new_id : Int) :
    (read_node_data U el seq new_id).sharedNodesMasterId
      = U.gint64_from_gstring (el.get_attribute_value "master_id") := by
  unfold read_node_data
  dsimp only
  split_ifs <;> simp_all

theorem read_node_data_sequence (U : CtEnv) (el : XmlNode) (seq new_id : Int) :
    (read_node_data U el seq new_id).sequence = seq := by
  unfold read_node_data
  dsimp only
  split_ifs <;> simp_all

theorem read_node_data_widgets (U : CtEnv) (el : XmlNode) (seq new_id : Int) :
    (read_node_data U el seq new_id).anchoredWidgets = [] := by
  unfold read_node_data
  dsimp only
  split_ifs <;> simp [CtNodeData.init]

theorem read_node_data_buffer (U : CtEnv) (el : XmlNode) (seq new_id : Int) :
    (read_node_data U el seq new_id).pTextBuffer = none := by
  unfold read_node_data
  dsimp only
  split_ifs <;> simp [CtNodeData.init]

theorem eager_node_data_ok (U : CtEnv) (el : XmlNode) (seq new_id : Int) (dir : String)
    (d : CtNodeData) (h : eager_node_data U el seq new_id dir = .ok d) :
    ∃ buf ws, create_buffer_and_widgets_from_xml U el [] none (-1) dir = .ok (buf, ws) ∧
      d = { read_node_data U el seq new_id with pTextBuffer := buf, anchoredWidgets := ws } := by
  unfold eager_node_data at h
  rw [read_node_data_widgets] at h
  cases hc : create_buffer_and_widgets_from_xml U el [] none (-1) dir with
  | error e => rw [hc] at h; cases h
  | ok r =>
    obtain ⟨buf, ws⟩ := r
    rw [hc] at h
    simp only [Except.ok.injEq] at h
    exact ⟨buf, ws, rfl, h.symm⟩

theorem eager_node_data_of_decodable (U : CtEnv) (el : XmlNode) (seq new_id : Int)
    (h : decodable_content U el) : ∃ d, eager_node_data U el seq new_id "" = .ok d := by
  obtain ⟨⟨buf, ws⟩, hd⟩ := h
  unfold eager_node_data
  rw [read_node_data_widgets, hd]
  exact ⟨_, rfl⟩

theorem populate_node_normal (U : CtEnv) (el : XmlNode) (seq : Int) (p : TreeIter)
    (st : PopulateState) (hth : st.thrown = none) :
    populate_node U false el seq p st =
      if st.delayed_text_buffers.has (read_node_data U el seq (-1)).nodeId then
        match eager_node_data U el seq (-1) "" with
        | .error e => ({ st with thrown := some e }, none)
        | .ok d =>
          ({ store := { st.store with rows := st.store.rows ++ [{ data := d, parent := p }] }
             delayed_text_buffers := st.delayed_text_buffers
             nodes_with_duplicated_id :=
               st.nodes_with_duplicated_id ++ [some st.store.rows.length]
             nodes_shared_non_master :=
               if 0 < (read_node_data U el seq (-1)).sharedNodesMasterId then
                 st.nodes_shared_non_master ++ [some st.store.rows.length]
               else st.nodes_shared_non_master
             thrown := none }, some st.store.rows.length)
      else
        ({ store := { st.store with rows := st.store.rows ++
              [{ data := read_node_data U el seq (-1), parent := p }] }
           delayed_text_buffers := st.delayed_text_buffers.set
             (read_node_data U el seq (-1)).nodeId (delayed_document el)
           nodes_with_duplicated_id := st.nodes_with_duplicated_id
           nodes_shared_non_master :=
             if 0 < (read_node_data U el seq (-1)).sharedNodesMasterId then
               st.nodes_shared_non_master ++ [some st.store.rows.length]
             else st.nodes_shared_non_master
           thrown := none }, some st.store.rows.length) := by
  unfold populate_node node_from_xml
  simp only [hth]
  by_cases hhas : st.delayed_text_buffers.has (read_node_data U el seq (-1)).nodeId = true
  · simp only [hhas, if_true]
    cases hE : eager_node_data U el seq (-1) "" with
    | error e => simp
    | ok d =>
      by_cases hm : (read_node_data U el seq (-1)).sharedNodesMasterId ≤ 0
      · have hm' : ¬ 0 < (read_node_data U el seq (-1)).sharedNodesMasterId := by omega
        simp [hm, hm', CtTreeStore.append_node]
      · have hm' : 0 < (read_node_data U el seq (-1)).sharedNodesMasterId := by omega
        simp [hm, hm', CtTreeStore.append_node]
  · simp only [hhas]
    by_cases hm : (read_node_data U el seq (-1)).sharedNodesMasterId ≤ 0
    · have hm' : ¬ 0 < (read_node_data U el seq (-1)).sharedNodesMasterId := by omega
      simp [hm, hm', CtTreeStore.append_node]
    · have hm' : 0 < (read_node_data U el seq (-1)).sharedNodesMasterId := by omega
      simp [hm, hm', CtTreeStore.append_node]

theorem getElem?_append_singleton {α : Type} (l : List α) (x y : α) (k : Nat)
    (h : (l ++ [x])[k]? = some y) :
    (k < l.length ∧ l[k]? = some y) ∨ (k = l.length ∧ y = x) := by
  by_cases hk : k < l.length
  · left
    rw [List.getElem?_append_left hk] at h
    exact ⟨hk, h⟩
  · right
    rw [List.getElem?_append_right (by omega)] at h
    have hk0 : k - l.length = 0 := by
      by_contra hne
      have : 1 ≤ k - l.length := by omega
      rw [List.getElem?_eq_none (by simpa using this)] at h
      cases h
    rw [hk0] at h
    simp only [List.getElem?_cons_zero, Option.some.injEq] at h
    exact ⟨by omega, h.symm⟩

theorem mem_append_singleton_some {l : List TreeIter} {n k : Nat} :
    some k ∈ l ++ [some n] ↔ some k ∈ l ∨ k = n := by
  simp [List.mem_append]

/-! ## The invariant of a normal load into an empty store -/

theorem getElem?_append_singleton_lt {α : Type} (l : List α) (x : α) (k : Nat)
    (h : k < l.length) : (l ++ [x])[k]? = l[k]? :=
  List.getElem?_append_left h

theorem getElem?_append_singleton_eq {α : Type} (l : List α) (x : α) :
    (l ++ [x])[l.length]? = some x := by
  rw [List.getElem?_append_right (Nat.le_refl _)]
  simp

theorem eager_data_nodeId (U : CtEnv) (x : WalkItem) (d : CtNodeData)
    (h : x.eager_data U = .ok d) : d.nodeId = x.read_id U := by
  obtain ⟨buf, ws, _, hd⟩ := eager_node_data_ok U _ _ _ _ _ h
  rw [hd]
  exact read_node_data_nodeId U _ _

theorem PopulateInv.populate_init (U : CtEnv) (bookmarks : List Int) :
    PopulateInv U []
      { store := { rows := [], bookmarks := bookmarks }
        delayed_text_buffers := []
        nodes_with_duplicated_id := []
        nodes_shared_non_master := []
        thrown := none } where
  thrown := rfl
  length := rfl
  ids := rfl
  rows := by intro k item row h; simp at h
  has := by intro id; simp [CtMap.has]
  dups_valid := by intro it h; simp at h
  dups_iff := by intro k item h; simp at h
  aliases_valid := by intro it h; simp at h
  aliases_mem := by intro k item h; simp at h
  delayed := by intro k item h; simp at h

theorem PopulateInv.populate_step (U : CtEnv) (items : List WalkItem) (st : PopulateState)
    (x : WalkItem) (hJ : PopulateInv U items st)
    (hwf : x.read_id U ∈ items.map (WalkItem.read_id U) → decodable_content U x.xml_element) :
    PopulateInv U (items ++ [x]) (walk_step (populate_node U false) st x) := by
  have hlen := hJ.length
  have hid : (read_node_data U x.xml_element x.sequence (-1)).nodeId = x.read_id U :=
    read_node_data_nodeId U _ _
  have hma : (read_node_data U x.xml_element x.sequence (-1)).sharedNodesMasterId
      = x.read_master_id U := read_node_data_master U _ _ _
  have hnotin : some st.store.rows.length ∉ st.nodes_with_duplicated_id := by
    intro hmem
    obtain ⟨k, hk, hlt⟩ := hJ.dups_valid _ hmem
    simp only [Option.some.injEq] at hk
    omega
  -- the aliases, whichever branch is taken
  have halias_valid : ∀ it ∈ (if 0 < x.read_master_id U then
        st.nodes_shared_non_master ++ [some st.store.rows.length]
        else st.nodes_shared_non_master),
      ∃ k item, it = some k ∧ (items ++ [x])[k]? = some item ∧ 0 < item.read_master_id U := by
    intro it hit
    have hold : it ∈ st.nodes_shared_non_master →
        ∃ k item, it = some k ∧ (items ++ [x])[k]? = some item ∧ 0 < item.read_master_id U := by
      intro h
      obtain ⟨k, item, hk, hitem, hm⟩ := hJ.aliases_valid it h
      have hklt : k < items.length := by
        by_contra hge
        rw [List.getElem?_eq_none (by omega)] at hitem
        cases hitem
      exact ⟨k, item, hk, by rw [List.getElem?_append_left hklt]; exact hitem, hm⟩
    by_cases hm : 0 < x.read_master_id U
    · simp only [hm, if_true, List.mem_append, List.mem_singleton] at hit
      rcases hit with h | h
      · exact hold h
      · exact ⟨st.store.rows.length, x, h, by rw [hlen]; exact getElem?_append_singleton_eq _ _, hm⟩
    · simp only [hm, if_false] at hit
      exact hold hit
  have halias_mem : ∀ k item, (items ++ [x])[k]? = some item → 0 < item.read_master_id U →
      some k ∈ (if 0 < x.read_master_id U then
        st.nodes_shared_non_master ++ [some st.store.rows.length]
        else st.nodes_shared_non_master) := by
    intro k item hitem hm
    rcases getElem?_append_singleton _ _ _ _ hitem with ⟨_, h⟩ | ⟨hk, hx⟩
    · have := hJ.aliases_mem k item h hm
      by_cases hm' : 0 < x.read_master_id U
      · simp only [hm', if_true, List.mem_append]
        exact Or.inl this
      · simp only [hm', if_false]
        exact this
    · subst hx
      simp only [hm, if_true, List.mem_append, List.mem_singleton]
      right
      rw [hk, hlen]
  unfold walk_step
  rw [populate_node_normal U _ _ _ _ hJ.thrown, hid, hma]
  by_cases hhas : st.delayed_text_buffers.has (x.read_id U) = true
  · -- the id is in use: the buffer is created at once and the node is listed
    have hmem : x.read_id U ∈ items.map (WalkItem.read_id U) := (hJ.has _).1 hhas
    obtain ⟨d, hd⟩ := eager_node_data_of_decodable U x.xml_element x.sequence (-1) (hwf hmem)
    have hd' : x.eager_data U = .ok d := hd
    simp only [hhas, if_true, hd]
    refine
      { thrown := rfl
        length := by simp [hlen]
        ids := by
          have := hJ.ids
          simp only [CtTreeStore.node_ids] at this ⊢
          simp [this, eager_data_nodeId U x d hd']
        rows := ?_
        has := ?_
        dups_valid := ?_
        dups_iff := ?_
        aliases_valid := halias_valid
        aliases_mem := halias_mem
        delayed := ?_ }
    · intro k item row hitem hrow
      simp only at hrow
      rcases getElem?_append_singleton _ _ _ _ hitem with ⟨hk, h⟩ | ⟨hk, hx⟩
      · rw [List.getElem?_append_left (by omega)] at hrow
        obtain ⟨hp, hcase⟩ := hJ.rows k item row h hrow
        refine ⟨hp, ?_⟩
        simp only [mem_append_singleton_some]
        rcases hcase with ⟨h1, h2⟩ | ⟨h1, h2⟩
        · left
          exact ⟨fun hc => hc.elim h1 (fun e => by omega), h2⟩
        · right
          exact ⟨Or.inl h1, h2⟩
      · subst hx
        rw [hk, ← hlen, getElem?_append_singleton_eq] at hrow
        simp only [Option.some.injEq] at hrow
        subst hrow
        refine ⟨rfl, Or.inr ⟨?_, hd'⟩⟩
        simp only [mem_append_singleton_some]
        right
        omega
    · intro id
      simp only [List.map_append, List.map_cons, List.map_nil, List.mem_append,
        List.mem_singleton]
      constructor
      · intro h
        exact Or.inl ((hJ.has id).1 h)
      · intro h
        rcases h with h | h
        · exact (hJ.has id).2 h
        · rw [h]
          exact hhas
    · intro it hit
      simp only [List.mem_append, List.mem_singleton] at hit
      rcases hit with h | h
      · obtain ⟨k, hk, hlt⟩ := hJ.dups_valid it h
        exact ⟨k, hk, by simp; omega⟩
      · exact ⟨st.store.rows.length, h, by simp; omega⟩
    · intro k item hitem
      simp only [mem_append_singleton_some]
      rcases getElem?_append_singleton _ _ _ _ hitem with ⟨hk, h⟩ | ⟨hk, hx⟩
      · rw [List.take_append_of_le_length (by omega)]
        constructor
        · intro hc
          rcases hc with hc | hc
          · exact (hJ.dups_iff k item h).1 hc
          · omega
        · intro hc
          exact Or.inl ((hJ.dups_iff k item h).2 hc)
      · subst hx
        rw [hk, List.take_left']
        · constructor
          · intro _
            exact hmem
          · intro _
            right
            omega
        · rfl
    · intro k item hitem hnd
      simp only [mem_append_singleton_some, not_or] at hnd
      rcases getElem?_append_singleton _ _ _ _ hitem with ⟨hk, h⟩ | ⟨hk, hx⟩
      · exact hJ.delayed k item h hnd.1
      · exact absurd (by omega) hnd.2
  · -- the id is new: the element is kept for later
    have hnmem : x.read_id U ∉ items.map (WalkItem.read_id U) := fun h => hhas ((hJ.has _).2 h)
    simp only [hhas, Bool.false_eq_true, if_false]
    refine
      { thrown := rfl
        length := by simp [hlen]
        ids := by
          have := hJ.ids
          simp only [CtTreeStore.node_ids] at this ⊢
          simp [this, hid]
        rows := ?_
        has := ?_
        dups_valid := ?_
        dups_iff := ?_
        aliases_valid := halias_valid
        aliases_mem := halias_mem
        delayed := ?_ }
    · intro k item row hitem hrow
      simp only at hrow
      rcases getElem?_append_singleton _ _ _ _ hitem with ⟨hk, h⟩ | ⟨hk, hx⟩
      · rw [List.getElem?_append_left (by omega)] at hrow
        exact hJ.rows k item row h hrow
      · subst hx
        rw [hk, ← hlen, getElem?_append_singleton_eq] at hrow
        simp only [Option.some.injEq] at hrow
        subst hrow
        refine ⟨rfl, Or.inl ⟨?_, rfl⟩⟩
        rw [hk, ← hlen]
        exact hnotin
    · intro id
      rw [CtMap.has_set]
      simp only [List.map_append, List.map_cons, List.map_nil, List.mem_append,
        List.mem_singleton, Bool.or_eq_true, beq_iff_eq]
      constructor
      · intro h
        rcases h with h | h
        · exact Or.inl ((hJ.has id).1 h)
        · exact Or.inr h.symm
      · intro h
        rcases h with h | h
        · exact Or.inl ((hJ.has id).2 h)
        · exact Or.inr h.symm
    · intro it hit
      obtain ⟨k, hk, hlt⟩ := hJ.dups_valid it hit
      exact ⟨k, hk, by simp; omega⟩
    · intro k item hitem
      rcases getElem?_append_singleton _ _ _ _ hitem with ⟨hk, h⟩ | ⟨hk, hx⟩
      · rw [List.take_append_of_le_length (by omega)]
        exact hJ.dups_iff k item h
      · subst hx
        rw [hk, List.take_left']
        · constructor
          · intro hc
            rw [← hlen] at hc
            exact absurd hc hnotin
          · intro hc
            exact absurd hc hnmem
        · rfl
    · intro k item hitem hnd
      rcases getElem?_append_singleton _ _ _ _ hitem with ⟨hk, h⟩ | ⟨hk, hx⟩
      · have hne : item.read_id U ≠ x.read_id U := by
          intro he
          apply hnmem
          rw [← he]
          exact List.mem_map.2 ⟨item, List.getElem?_mem h, rfl⟩
        rw [CtMap.find_set_ne _ _ _ _ hne]
        exact hJ.delayed k item h hnd
      · subst hx
        exact CtMap.find_set_self _ _ _

theorem PopulateInv.populate_foldl (U : CtEnv) (post : List WalkItem) :
    ∀ (pre : List WalkItem) (st : PopulateState), PopulateInv U pre st →
      (∀ x ∈ post, decodable_content U x.xml_element) →
      PopulateInv U (pre ++ post) (post.foldl (walk_step (populate_node U false)) st) := by
  induction post with
  | nil =>
    intro pre st hJ _
    simpa using hJ
  | cons x rest ih =>
    intro pre st hJ hwf
    have h1 := PopulateInv.populate_step U pre st x hJ
      (fun _ => hwf x (List.mem_cons_self _ _))
    have h2 := ih (pre ++ [x]) _ h1 (fun y hy => hwf y (List.mem_cons_of_mem _ hy))
    simpa [List.append_assoc] using h2

/-- When the declared ids are pairwise distinct no content is decoded during the walk,
so the invariant holds whatever the content is. -/
theorem PopulateInv.populate_foldl_nodup (U : CtEnv) (post : List WalkItem) :
    ∀ (pre : List WalkItem) (st : PopulateState), PopulateInv U pre st →
      ((pre ++ post).map (WalkItem.read_id U)).Nodup →
      PopulateInv U (pre ++ post) (post.foldl (walk_step (populate_node U false)) st) := by
  induction post with
  | nil =>
    intro pre st hJ _
    simpa using hJ
  | cons x rest ih =>
    intro pre st hJ hnd
    have hnot : x.read_id U ∉ pre.map (WalkItem.read_id U) := by
      intro hmem
      rw [List.map_append, List.map_cons] at hnd
      have := (List.nodup_append.1 hnd).2.2
      exact this hmem (List.mem_cons_self _ _)
    have h1 := PopulateInv.populate_step U pre st x hJ (fun hmem => absurd hmem hnot)
    have h2 := ih (pre ++ [x]) _ h1 (by simpa [List.append_assoc] using hnd)
    simpa [List.append_assoc] using h2

/-! ## The walk of `populate_treestore` as a fold -/

theorem populate_node_stuck (U : CtEnv) (isDryRun : Bool) (el : XmlNode) (seq : Int)
    (p : TreeIter) (st : PopulateState) (h : st.thrown ≠ none) :
    (populate_node U isDryRun el seq p st).1 = st := by
  unfold populate_node
  cases hth : st.thrown with
  | none => exact absurd hth h
  | some e => rfl

theorem populate_node_dry (U : CtEnv) (el : XmlNode) (seq : Int) (p : TreeIter)
    (st : PopulateState) (hth : st.thrown = none) :
    populate_node U true el seq p st = (st, none) := by
  unfold populate_node node_from_xml
  simp only [hth]
  by_cases hm : (read_node_data U el seq (-1)).sharedNodesMasterId ≤ 0 <;>
    simp [hm, ← hth]

theorem populate_node_progress (U : CtEnv) (isDryRun : Bool) (el : XmlNode) (seq : Int)
    (p : TreeIter) (st : PopulateState) (h : ¬ st.thrown ≠ none) :
    (populate_node U isDryRun el seq p st).1.thrown ≠ none ∨
      ((populate_node U isDryRun el seq p st).2
          = (if (!isDryRun) = true then some st.store.rows.length else none) ∧
        (populate_node U isDryRun el seq p st).1.store.rows.length
          = if (!isDryRun) = true then st.store.rows.length + 1 else st.store.rows.length) := by
  have hth : st.thrown = none := by
    by_contra hc
    exact h hc
  cases isDryRun with
  | true =>
    right
    rw [populate_node_dry U el seq p st hth]
    simp
  | false =>
    rw [populate_node_normal U el seq p st hth]
    by_cases hhas : st.delayed_text_buffers.has (read_node_data U el seq (-1)).nodeId = true
    · simp only [hhas, if_true]
      cases eager_node_data U el seq (-1) "" with
      | error e => left; simp
      | ok d => right; simp
    · simp only [hhas, Bool.false_eq_true, if_false]
      right
      simp

/-- The walk of `populate_treestore` over a list of children is the fold of the lambda
body over the node elements below them, in document order. -/
theorem f_nodes_from_xml_children_eq_foldl (U : CtEnv) (isDryRun : Bool) (cs : List XmlNode)
    (k : Int) (it : TreeIter) (st : PopulateState) :
    f_nodes_from_xml_children U isDryRun cs k it st
      = (walk_items_children (!isDryRun) st.store.rows.length cs k it).foldl
          (walk_step (populate_node U isDryRun)) st :=
  (walk_children_eq_foldl (populate_node U isDryRun) (fun st => st.thrown ≠ none)
    (fun st => st.store.rows.length) (!isDryRun)
    (fun el seq p st h => populate_node_stuck U isDryRun el seq p st h)
    (fun el seq p st h => populate_node_progress U isDryRun el seq p st h) cs k it st).1

theorem load_bookmarks_rows (U : CtEnv) (isDryRun : Bool) (root : XmlNode)
    (store : CtTreeStore) : (load_bookmarks U isDryRun root store).rows = store.rows := by
  unfold load_bookmarks
  have inner : ∀ (l : List Int) (s : CtTreeStore),
      (l.foldl (fun s nodeId => if (!isDryRun) = true then s.bookmarks_add nodeId else s) s).rows
        = s.rows := by
    intro l
    induction l with
    | nil => intro s; rfl
    | cons a rest ih =>
      intro s
      rw [List.foldl_cons, ih]
      by_cases hd : (!isDryRun) = true
      · simp only [hd, if_true, CtTreeStore.bookmarks_add]
        split <;> rfl
      · simp only [hd]
        rfl
  generalize root.get_children "bookmarks" = bs
  induction bs generalizing store with
  | nil => rfl
  | cons b rest ih =>
    rw [List.foldl_cons, ih, inner]

/-- After the walk of a well-formed document into an empty store the invariant holds of
all its node elements. -/
theorem load_bookmarks_empty (U : CtEnv) (root : XmlNode) :
    ({ rows := [], bookmarks := (load_bookmarks U false root CtTreeStore.empty).bookmarks }
      : CtTreeStore) = load_bookmarks U false root CtTreeStore.empty := by
  have hrows : (load_bookmarks U false root CtTreeStore.empty).rows = [] :=
    load_bookmarks_rows U false root CtTreeStore.empty
  cases hs : load_bookmarks U false root CtTreeStore.empty with
  | mk rows bookmarks =>
    rw [hs] at hrows
    simp only at hrows
    subst hrows
    rfl

/-- The invariant holds after the walk when it is kept by the fold over the node
elements of the document. -/
theorem populate_walk_inv_of_foldl (U : CtEnv) (root : XmlNode)
    (hfold : ∀ st, PopulateInv U [] st →
      PopulateInv U ([] ++ document_items 0 root none)
        ((document_items 0 root none).foldl (walk_step (populate_node U false)) st)) :
    PopulateInv U (document_items 0 root none)
      (f_nodes_from_xml_children U false root.get_children_all 0 none
        { store := load_bookmarks U false root CtTreeStore.empty
          delayed_text_buffers := []
          nodes_with_duplicated_id := []
          nodes_shared_non_master := []
          thrown := none }) := by
  rw [f_nodes_from_xml_children_eq_foldl]
  have hrows : (load_bookmarks U false root CtTreeStore.empty).rows = [] :=
    load_bookmarks_rows U false root CtTreeStore.empty
  have hinit := PopulateInv.populate_init U (load_bookmarks U false root CtTreeStore.empty).bookmarks
  rw [load_bookmarks_empty] at hinit
  have := hfold _ hinit
  simp only [List.nil_append] at this
  simp only [hrows, List.length_nil, Bool.not_false]
  exact this

theorem populate_walk_inv (U : CtEnv) (root : XmlNode) (hwf : well_formed_document U root) :
    PopulateInv U (document_items 0 root none)
      (f_nodes_from_xml_children U false root.get_children_all 0 none
        { store := load_bookmarks U false root CtTreeStore.empty
          delayed_text_buffers := []
          nodes_with_duplicated_id := []
          nodes_shared_non_master := []
          thrown := none }) :=
  populate_walk_inv_of_foldl U root (fun st hinit =>
    PopulateInv.populate_foldl U (document_items 0 root none) [] st hinit (by
      intro x hx
      exact hwf x.xml_element (List.mem_map.2 ⟨x, hx, rfl⟩)))

/-- The invariant also holds, whatever the content of the node elements, when they
declare pairwise distinct ids. -/
theorem populate_walk_inv_nodup (U : CtEnv) (root : XmlNode)
    (hnd : ((document_items 0 root none).map (WalkItem.read_id U)).Nodup) :
    PopulateInv U (document_items 0 root none)
      (f_nodes_from_xml_children U false root.get_children_all 0 none
        { store := load_bookmarks U false root CtTreeStore.empty
          delayed_text_buffers := []
          nodes_with_duplicated_id := []
          nodes_shared_non_master := []
          thrown := none }) :=
  populate_walk_inv_of_foldl U root (fun st hinit =>
    PopulateInv.populate_foldl_nodup U (document_items 0 root none) [] st hinit
      (by simpa using hnd))

/-! ## Lemmas on the tree store -/

theorem modify_data_getElem? (s : CtTreeStore) (k j : Nat) (f : CtNodeData → CtNodeData) :
    (s.modify_data (some k) f).rows[j]?
      = if k = j then (s.rows[j]?).map (fun r => { r with data := f r.data }) else s.rows[j]? := by
  unfold CtTreeStore.modify_data
  simp only [List.getElem?_modify]
  by_cases h : k = j
  · simp only [h, if_true]
    cases s.rows[j]? <;> rfl
  · simp only [h, if_false]
    cases s.rows[j]? <;> rfl

theorem modify_data_length (s : CtTreeStore) (it : TreeIter) (f : CtNodeData → CtNodeData) :
    (s.modify_data it f).rows.length = s.rows.length := by
  cases it with
  | none => rfl
  | some k => simp [CtTreeStore.modify_data]

theorem node_ids_getElem? (s : CtTreeStore) (j : Nat) :
    s.node_ids[j]? = (s.rows[j]?).map (fun r => r.data.nodeId) := by
  simp [CtTreeStore.node_ids]

theorem node_ids_length (s : CtTreeStore) : s.node_ids.length = s.rows.length := by
  simp [CtTreeStore.node_ids]

theorem set_node_id_ids_getElem? (s : CtTreeStore) (k j : Nat) (v : Int) :
    (s.set_node_id (some k) v).node_ids[j]?
      = if k = j then (s.node_ids[j]?).map (fun _ => v) else s.node_ids[j]? := by
  rw [node_ids_getElem?, node_ids_getElem?, CtTreeStore.set_node_id, modify_data_getElem?]
  by_cases h : k = j
  · simp only [h, if_true]
    cases s.rows[j]? <;> rfl
  · simp only [h, if_false]

/-! ## The loop that fixes the duplicated ids -/

theorem fix_duplicated_ids_length (U : CtEnv) (D : List TreeIter) :
    ∀ s : CtTreeStore, (fix_duplicated_ids U D s).rows.length = s.rows.length := by
  induction D with
  | nil => intro s; rfl
  | cons d rest ih =>
    intro s
    unfold fix_duplicated_ids at ih ⊢
    rw [List.foldl_cons, ih]
    exact modify_data_length _ _ _

/-- A row that is not listed is left alone. -/
theorem fix_duplicated_ids_frame (U : CtEnv) (D : List TreeIter) (j : Nat)
    (hj : some j ∉ D) :
    ∀ s : CtTreeStore, (fix_duplicated_ids U D s).rows[j]? = s.rows[j]? := by
  induction D with
  | nil => intro s; rfl
  | cons d rest ih =>
    intro s
    simp only [List.mem_cons, not_or] at hj
    unfold fix_duplicated_ids at ih ⊢
    rw [List.foldl_cons, ih hj.2]
    cases d with
    | none => rfl
    | some k =>
      rw [CtTreeStore.set_node_id, modify_data_getElem?]
      have : k ≠ j := fun h => hj.1 (by rw [h])
      simp only [this, if_false]

/-- A listed row changes in its node id only. -/
theorem fix_duplicated_ids_shape (U : CtEnv) (D : List TreeIter) (j : Nat) :
    ∀ (s : CtTreeStore) (r : CtTreeRow), s.rows[j]? = some r →
      ∃ id, (fix_duplicated_ids U D s).rows[j]?
        = some { r with data := { r.data with nodeId := id } } := by
  induction D with
  | nil => intro s r h; exact ⟨r.data.nodeId, h⟩
  | cons d rest ih =>
    intro s r h
    unfold fix_duplicated_ids at ih ⊢
    rw [List.foldl_cons]
    cases d with
    | none => exact ih s r h
    | some k =>
      by_cases hk : k = j
      · have h1 : (s.set_node_id (some k) (U.node_id_get s.node_ids)).rows[j]?
            = some { r with data := { r.data with nodeId := U.node_id_get s.node_ids } } := by
          rw [CtTreeStore.set_node_id, modify_data_getElem?]
          simp only [hk, if_true, h, Option.map_some']
        obtain ⟨id, hid⟩ := ih _ _ h1
        exact ⟨id, hid⟩
      · have h1 : (s.set_node_id (some k) (U.node_id_get s.node_ids)).rows[j]? = some r := by
          rw [CtTreeStore.set_node_id, modify_data_getElem?]
          simp only [hk, if_false, h]
        exact ih _ _ h1

/-- An id held by a row that is not listed is given to no listed row. -/
theorem fix_duplicated_ids_avoid (U : CtEnv) (halloc : ∀ ids, U.node_id_get ids ∉ ids)
    (v : Int) (D : List TreeIter) :
    ∀ (s : CtTreeStore) (j : Nat), some j ∉ D → s.node_ids[j]? = some v →
      ∀ k, some k ∈ D → (fix_duplicated_ids U D s).node_ids[k]? ≠ some v := by
  induction D with
  | nil => intro s j _ _ k hk; simp at hk
  | cons d rest ih =>
    intro s j hj hv k hk
    simp only [List.mem_cons, not_or] at hj
    have hfresh : U.node_id_get s.node_ids ≠ v := by
      intro he
      apply halloc s.node_ids
      rw [he]
      exact List.getElem?_mem hv
    unfold fix_duplicated_ids at ih ⊢
    rw [List.foldl_cons]
    cases d with
    | none =>
      simp only [List.mem_cons, reduceCtorEq, false_or] at hk
      exact ih s j hj.2 hv k hk
    | some d =>
      have hdj : d ≠ j := fun h => hj.1 (by rw [h])
      have hv1 : (s.set_node_id (some d) (U.node_id_get s.node_ids)).node_ids[j]? = some v := by
        rw [set_node_id_ids_getElem?]
        simp only [hdj, if_false, hv]
      by_cases hkr : some k ∈ rest
      · exact ih _ j hj.2 hv1 k hkr
      · have hkd : k = d := by
          simp only [List.mem_cons, Option.some.injEq] at hk
          rcases hk with h | h
          · exact h
          · exact absurd h hkr
        subst hkd
        have hframe := fix_duplicated_ids_frame U rest k hkr
          (s.set_node_id (some k) (U.node_id_get s.node_ids))
        unfold fix_duplicated_ids at hframe
        rw [node_ids_getElem?, hframe, ← node_ids_getElem?, set_node_id_ids_getElem?]
        simp only [if_true]
        cases s.node_ids[k]? with
        | none => simp
        | some w =>
          simp only [Option.map_some', ne_eq, Option.some.injEq]
          exact hfresh

/-- The ids are pairwise distinct when the rows that are not listed have pairwise distinct
ids and the allocator returns an id that no node has. -/
theorem fix_duplicated_ids_nodup (U : CtEnv) (halloc : ∀ ids, U.node_id_get ids ∉ ids)
    (D : List TreeIter) :
    ∀ (s : CtTreeStore),
      (∀ i j, i < j → j < s.rows.length → some i ∉ D → some j ∉ D →
        s.node_ids[i]? ≠ s.node_ids[j]?) →
      (fix_duplicated_ids U D s).node_ids.Nodup := by
  induction D with
  | nil =>
    intro s h
    rw [List.nodup_iff_getElem?_ne_getElem?]
    intro i j hij hj
    rw [node_ids_length] at hj
    exact h i j hij hj (by simp) (by simp)
  | cons d rest ih =>
    intro s h
    unfold fix_duplicated_ids at ih ⊢
    rw [List.foldl_cons]
    apply ih
    intro i j hij hj hi' hj'
    cases d with
    | none =>
      exact h i j hij hj (by simpa using hi') (by simpa using hj')
    | some d =>
      rw [CtTreeStore.set_node_id, modify_data_length] at hj
      have hfresh : ∀ (m : Nat) (w : Int), s.node_ids[m]? = some w →
          w ≠ U.node_id_get s.node_ids := by
        intro m w hw he
        apply halloc s.node_ids
        rw [← he]
        exact List.getElem?_mem hw
      have hjlt : j < s.node_ids.length := by rw [node_ids_length]; exact hj
      have hilt : i < s.node_ids.length := by omega
      obtain ⟨wi, hwi⟩ : ∃ w, s.node_ids[i]? = some w :=
        ⟨_, List.getElem?_eq_getElem hilt⟩
      obtain ⟨wj, hwj⟩ : ∃ w, s.node_ids[j]? = some w :=
        ⟨_, List.getElem?_eq_getElem hjlt⟩
      rw [set_node_id_ids_getElem?, set_node_id_ids_getElem?]
      by_cases hdi : d = i
      · have hdj : d ≠ j := by omega
        simp only [hdi, if_true, hwi, Option.map_some']
        have : ¬ i = j := by omega
        simp only [this, if_false, hwj, ne_eq, Option.some.injEq]
        exact fun he => hfresh j wj hwj he.symm
      · by_cases hdj : d = j
        · subst hdj
          have : ¬ d = i := hdi
          simp only [this, if_false, if_true, hwi, hwj, Option.map_some', ne_eq,
            Option.some.injEq]
          exact fun he => hfresh i wi hwi he
        · simp only [hdi, hdj, if_false]
          apply h i j hij hj
          · intro hc
            simp only [List.mem_cons, Option.some.injEq] at hc
            rcases hc with hc | hc
            · exact hdi hc.symm
            · exact hi' hc
          · intro hc
            simp only [List.mem_cons, Option.some.injEq] at hc
            rcases hc with hc | hc
            · exact hdj hc.symm
            · exact hj' hc

/-! ## The loop that populates the shared non-master nodes -/

/-- One turn of the loop of `populate_treestore` over `nodes_shared_non_master`. -/
theorem shared_step_getElem? (s : CtTreeStore) (i j : Nat) :
    (s.update_node_data (some i) (s.get_node_data (some i) CtNodeData.init)).rows[j]?
      = if i = j then (s.rows[j]?).map (fun r => { r with data := s.displayed_data r.data })
        else s.rows[j]? := by
  rw [CtTreeStore.update_node_data, modify_data_getElem?]
  by_cases h : i = j
  · subst h
    simp only [if_true, CtTreeStore.get_node_data, CtTreeStore.row]
    cases s.rows[i]? <;> rfl
  · simp only [h, if_false]

theorem displayed_data_nodeId (s : CtTreeStore) (d : CtNodeData) :
    (s.displayed_data d).nodeId = d.nodeId := by
  unfold CtTreeStore.displayed_data
  split
  · split <;> rfl
  · rfl

theorem displayed_data_master (s : CtTreeStore) (d : CtNodeData) :
    (s.displayed_data d).sharedNodesMasterId = d.sharedNodesMasterId := by
  unfold CtTreeStore.displayed_data
  split
  · split <;> rfl
  · rfl

theorem displayed_data_sequence (s : CtTreeStore) (d : CtNodeData) :
    (s.displayed_data d).sequence = d.sequence := by
  unfold CtTreeStore.displayed_data
  split
  · split <;> rfl
  · rfl

theorem displayed_data_owner (s : CtTreeStore) (d : CtNodeData)
    (h : d.sharedNodesMasterId ≤ 0) : s.displayed_data d = d := by
  unfold CtTreeStore.displayed_data
  have : ¬ d.sharedNodesMasterId > 0 := by omega
  simp only [this, if_false]

theorem find_index_congr (id : Int) :
    ∀ (rows rows' : List CtTreeRow) (k : Nat),
      rows.map (fun r => r.data.nodeId) = rows'.map (fun r => r.data.nodeId) →
      CtTreeStore.find_index rows id k = CtTreeStore.find_index rows' id k := by
  intro rows
  induction rows with
  | nil =>
    intro rows' k h
    cases rows' with
    | nil => rfl
    | cons r' rest' => simp at h
  | cons r rest ih =>
    intro rows' k h
    cases rows' with
    | nil => simp at h
    | cons r' rest' =>
      simp only [List.map_cons, List.cons.injEq] at h
      simp only [CtTreeStore.find_index, h.1]
      rw [ih rest' (k + 1) h.2]

theorem get_node_from_node_id_congr (s s' : CtTreeStore) (id : Int)
    (h : s.node_ids = s'.node_ids) :
    s.get_node_from_node_id id = s'.get_node_from_node_id id :=
  find_index_congr id s.rows s'.rows 0 h

theorem shared_step_node_ids (s : CtTreeStore) (it : TreeIter) :
    (s.update_node_data it (s.get_node_data it CtNodeData.init)).node_ids = s.node_ids := by
  cases it with
  | none => rfl
  | some i =>
    apply List.ext_getElem?
    intro j
    rw [node_ids_getElem?, node_ids_getElem?, shared_step_getElem?]
    by_cases h : i = j
    · simp only [h, if_true]
      cases s.rows[j]? with
      | none => rfl
      | some r => simp [displayed_data_nodeId]
    · simp only [h, if_false]

theorem shared_step_owner (s : CtTreeStore) (it : TreeIter) (j : Nat) (m : CtTreeRow)
    (hm : s.rows[j]? = some m) (ho : m.data.sharedNodesMasterId ≤ 0) :
    (s.update_node_data it (s.get_node_data it CtNodeData.init)).rows[j]? = some m := by
  cases it with
  | none => exact hm
  | some i =>
    rw [shared_step_getElem?]
    by_cases h : i = j
    · simp only [h, if_true, hm, Option.map_some', displayed_data_owner s m.data ho]
    · simp only [h, if_false, hm]

theorem alias_slot_idem (a m : CtNodeData) :
    CtTreeStore.alias_slot (CtTreeStore.alias_slot a m) m = CtTreeStore.alias_slot a m := rfl

theorem stable_master_step (s : CtTreeStore) (it : TreeIter) (M : Int)
    (h : stable_master s M) :
    stable_master (s.update_node_data it (s.get_node_data it CtNodeData.init)) M := by
  have hf := get_node_from_node_id_congr _ s M (shared_step_node_ids s it)
  rcases h with h | h | ⟨mi, m, h1, h2, h3⟩
  · exact Or.inl h
  · exact Or.inr (Or.inl (by rw [hf]; exact h))
  · exact Or.inr (Or.inr ⟨mi, m, by rw [hf]; exact h1, shared_step_owner s it mi m h2 h3, h3⟩)

theorem displayed_data_step (s : CtTreeStore) (it : TreeIter) (d : CtNodeData)
    (h : stable_master s d.sharedNodesMasterId) :
    (s.update_node_data it (s.get_node_data it CtNodeData.init)).displayed_data d
      = s.displayed_data d := by
  have hf := get_node_from_node_id_congr _ s d.sharedNodesMasterId (shared_step_node_ids s it)
  unfold CtTreeStore.displayed_data
  rw [hf]
  rcases h with h | h | ⟨mi, m, h1, h2, h3⟩
  · have : ¬ d.sharedNodesMasterId > 0 := by omega
    simp only [this, if_false]
  · simp only [h, CtTreeStore.row]
  · simp only [h1, CtTreeStore.row, h2, shared_step_owner s it mi m h2 h3]

theorem displayed_data_idem (s : CtTreeStore) (d : CtNodeData) :
    s.displayed_data (s.displayed_data d) = s.displayed_data d := by
  by_cases h : d.sharedNodesMasterId > 0
  · cases hrow : s.row (s.get_node_from_node_id d.sharedNodesMasterId) with
    | none =>
      have e : s.displayed_data d = d := by
        simp only [CtTreeStore.displayed_data, h, if_true, hrow]
      rw [e, e]
    | some m =>
      have e : s.displayed_data d = CtTreeStore.alias_slot d m.data := by
        simp only [CtTreeStore.displayed_data, h, if_true, hrow]
      rw [e]
      have h' : (CtTreeStore.alias_slot d m.data).sharedNodesMasterId > 0 := h
      have e2 : (CtTreeStore.alias_slot d m.data).sharedNodesMasterId
          = d.sharedNodesMasterId := rfl
      simp only [CtTreeStore.displayed_data, e2, hrow]
      rw [if_pos h]
      rfl
  · have h' : d.sharedNodesMasterId ≤ 0 := by omega
    rw [displayed_data_owner s d h', displayed_data_owner s d h']

theorem populate_shared_non_master_cons (a : TreeIter) (rest : List TreeIter)
    (s : CtTreeStore) :
    populate_shared_non_master (a :: rest) s
      = populate_shared_non_master rest
          (s.update_node_data a (s.get_node_data a CtNodeData.init)) := rfl

theorem populate_shared_non_master_node_ids (A : List TreeIter) :
    ∀ s : CtTreeStore, (populate_shared_non_master A s).node_ids = s.node_ids := by
  induction A with
  | nil => intro s; rfl
  | cons a rest ih =>
    intro s
    rw [populate_shared_non_master_cons, ih, shared_step_node_ids]

/-- A row whose master cannot change ends with its displayed data when it is listed, and
is left alone when it is not. -/
theorem populate_shared_non_master_row (A : List TreeIter) :
    ∀ (s : CtTreeStore) (i : Nat) (r : CtTreeRow), s.rows[i]? = some r →
      stable_master s r.data.sharedNodesMasterId →
      (populate_shared_non_master A s).rows[i]?
        = some { r with data := if some i ∈ A then s.displayed_data r.data else r.data } := by
  induction A with
  | nil =>
    intro s i r h _
    simpa using h
  | cons a rest ih =>
    intro s i r h hst
    rw [populate_shared_non_master_cons]
    have hst1 := stable_master_step s a _ hst
    by_cases ha : a = some i
    · subst ha
      have h1 : (s.update_node_data (some i) (s.get_node_data (some i) CtNodeData.init)).rows[i]?
          = some { r with data := s.displayed_data r.data } := by
        rw [shared_step_getElem?]
        simp only [if_true, h, Option.map_some']
      have hst2 : stable_master
          (s.update_node_data (some i) (s.get_node_data (some i) CtNodeData.init))
          (s.displayed_data r.data).sharedNodesMasterId := by
        rw [displayed_data_master]
        exact hst1
      rw [ih _ i _ h1 hst2]
      have hst3 : stable_master s (s.displayed_data r.data).sharedNodesMasterId := by
        rw [displayed_data_master]
        exact hst
      simp only [displayed_data_step s (some i) _ hst3, displayed_data_idem, ite_self,
        List.mem_cons, true_or, if_true]
    · have h1 : (s.update_node_data a (s.get_node_data a CtNodeData.init)).rows[i]?
          = some r := by
        cases a with
        | none => exact h
        | some k =>
          rw [shared_step_getElem?]
          have : k ≠ i := fun e => ha (by rw [e])
          simp only [this, if_false, h]
      rw [ih _ i r h1 hst1, displayed_data_step s a _ hst]
      have : (some i ∈ a :: rest) ↔ some i ∈ rest := by
        simp only [List.mem_cons]
        constructor
        · intro hc
          rcases hc with hc | hc
          · exact absurd hc.symm ha
          · exact hc
        · exact Or.inr
      simp only [this]

/-- Every row keeps its parent, its id, its master id and its sequence. -/
theorem populate_shared_non_master_shape (A : List TreeIter) :
    ∀ (s : CtTreeStore) (i : Nat) (r : CtTreeRow), s.rows[i]? = some r →
      ∃ d, (populate_shared_non_master A s).rows[i]? = some { r with data := d } ∧
        d.nodeId = r.data.nodeId ∧ d.sharedNodesMasterId = r.data.sharedNodesMasterId ∧
        d.sequence = r.data.sequence := by
  induction A with
  | nil =>
    intro s i r h
    exact ⟨r.data, h, rfl, rfl, rfl⟩
  | cons a rest ih =>
    intro s i r h
    rw [populate_shared_non_master_cons]
    have h1 : ∃ d, (s.update_node_data a (s.get_node_data a CtNodeData.init)).rows[i]?
        = some { r with data := d } ∧ d.nodeId = r.data.nodeId ∧
          d.sharedNodesMasterId = r.data.sharedNodesMasterId ∧
          d.sequence = r.data.sequence := by
      cases a with
      | none => exact ⟨r.data, h, rfl, rfl, rfl⟩
      | some k =>
        rw [shared_step_getElem?]
        by_cases hk : k = i
        · simp only [hk, if_true, h, Option.map_some']
          exact ⟨_, rfl, displayed_data_nodeId _ _, displayed_data_master _ _,
            displayed_data_sequence _ _⟩
        · simp only [hk, if_false, h]
          exact ⟨r.data, rfl, rfl, rfl, rfl⟩
    obtain ⟨d, hd, e1, e2, e3⟩ := h1
    obtain ⟨d', hd', e1', e2', e3'⟩ := ih _ i _ hd
    exact ⟨d', hd', e1'.trans e1, e2'.trans e2, e3'.trans e3⟩

theorem populate_shared_non_master_length (A : List TreeIter) :
    ∀ s : CtTreeStore, (populate_shared_non_master A s).rows.length = s.rows.length := by
  induction A with
  | nil => intro s; rfl
  | cons a rest ih =>
    intro s
    rw [populate_shared_non_master_cons, ih]
    exact modify_data_length _ _ _

/-! ## Looking a node up by its id -/

theorem find_index_none (id : Int) :
    ∀ (rows : List CtTreeRow) (k : Nat),
      CtTreeStore.find_index rows id k = none ↔ id ∉ rows.map (fun r => r.data.nodeId) := by
  intro rows
  induction rows with
  | nil => intro k; simp [CtTreeStore.find_index]
  | cons r rest ih =>
    intro k
    simp only [CtTreeStore.find_index, List.map_cons, List.mem_cons, not_or]
    by_cases h : r.data.nodeId = id
    · simp [h]
    · have h' : (r.data.nodeId == id) = false := by simpa using h
      simp only [h', Bool.false_eq_true, if_false, ih]
      constructor
      · intro hc
        exact ⟨fun e => h e.symm, hc⟩
      · intro hc
        exact hc.2

theorem find_index_first (id : Int) :
    ∀ (rows : List CtTreeRow) (k j : Nat),
      (rows[j]?).map (fun r => r.data.nodeId) = some id →
      id ∉ (rows.take j).map (fun r => r.data.nodeId) →
      CtTreeStore.find_index rows id k = some (k + j) := by
  intro rows
  induction rows with
  | nil => intro k j h; simp at h
  | cons r rest ih =>
    intro k j h hn
    cases j with
    | zero =>
      simp only [List.getElem?_cons_zero, Option.map_some', Option.some.injEq] at h
      simp [CtTreeStore.find_index, h]
    | succ j =>
      simp only [List.getElem?_cons_succ] at h
      simp only [List.take_succ_cons, List.map_cons, List.mem_cons, not_or] at hn
      have h' : (r.data.nodeId == id) = false := by simpa using fun e => hn.1 e.symm
      simp only [CtTreeStore.find_index, h', Bool.false_eq_true, if_false]
      rw [ih (k + 1) j h hn.2]
      congr 1
      omega

/-! ## The result of a normal load -/

theorem normal_walk_inv (U : CtEnv) (root : XmlNode) (hwf : well_formed_document U root) :
    PopulateInv U (document_items 0 root none) (normal_walk U root) :=
  populate_walk_inv U root hwf

/-- A normal load into an empty store whose walk ends without an exception returns true;
the store is the one of the walk after the two repair loops. -/
theorem populate_treestore_of_walk (U : CtEnv) (root : XmlNode) (file_path error : String)
    (hparse : get_parser_root_node U file_path = .ok root)
    (hth : (normal_walk U root).thrown = none) :
    populate_treestore U false CtTreeStore.empty [] file_path error
      = .ok { ret := true, error := error,
              store := populate_shared_non_master (normal_walk U root).nodes_shared_non_master
                (fix_duplicated_ids U (normal_walk U root).nodes_with_duplicated_id
                  (normal_walk U root).store),
              delayed_text_buffers := (normal_walk U root).delayed_text_buffers } := by
  unfold populate_treestore populate_from_root
  simp only [hparse]
  change (match (normal_walk U root).thrown with
    | some (.exn what) => _
    | some (.undefined what) => _
    | none => _) = _
  rw [hth]
  rfl

/-- A normal load of a well-formed document into an empty store returns true. -/
theorem populate_treestore_ok (U : CtEnv) (root : XmlNode) (file_path error : String)
    (hparse : get_parser_root_node U file_path = .ok root)
    (hwf : well_formed_document U root) :
    populate_treestore U false CtTreeStore.empty [] file_path error
      = .ok { ret := true, error := error,
              store := populate_shared_non_master (normal_walk U root).nodes_shared_non_master
                (fix_duplicated_ids U (normal_walk U root).nodes_with_duplicated_id
                  (normal_walk U root).store),
              delayed_text_buffers := (normal_walk U root).delayed_text_buffers } :=
  populate_treestore_of_walk U root file_path error hparse (normal_walk_inv U root hwf).thrown

theorem PopulateInv.row_exists {U : CtEnv} {items : List WalkItem} {st : PopulateState}
    (hJ : PopulateInv U items st) {k : Nat} {item : WalkItem} (h : items[k]? = some item) :
    ∃ row, st.store.rows[k]? = some row := by
  have hk : k < items.length := by
    by_contra hc
    rw [List.getElem?_eq_none (by omega)] at h
    cases h
  exact ⟨_, List.getElem?_eq_getElem (by rw [hJ.length]; exact hk)⟩

theorem PopulateInv.id_getElem? {U : CtEnv} {items : List WalkItem} {st : PopulateState}
    (hJ : PopulateInv U items st) (k : Nat) :
    st.store.node_ids[k]? = (items[k]?).map (WalkItem.read_id U) := by
  rw [hJ.ids, List.getElem?_map]

/-- The rows that the walk did not list have pairwise distinct ids. -/
theorem PopulateInv.unlisted_distinct {U : CtEnv} {items : List WalkItem}
    {st : PopulateState} (hJ : PopulateInv U items st) (i j : Nat) (hij : i < j)
    (hj : j < st.store.rows.length) (hj' : some j ∉ st.nodes_with_duplicated_id) :
    st.store.node_ids[i]? ≠ st.store.node_ids[j]? := by
  rw [hJ.length] at hj
  have hjs : items[j]? = some items[j] := List.getElem?_eq_getElem hj
  have his : items[i]? = some items[i] := List.getElem?_eq_getElem (by omega)
  rw [hJ.id_getElem?, hJ.id_getElem?, hjs, his]
  simp only [Option.map_some', ne_eq, Option.some.injEq]
  intro he
  apply hj'
  rw [hJ.dups_iff j _ hjs, ← he]
  apply List.mem_map.2
  refine ⟨items[i], ?_, rfl⟩
  rw [List.mem_iff_getElem?]
  exact ⟨i, by rw [List.getElem?_take_of_lt hij]; exact his⟩

/-- C3. Id uniqueness after load: for every well-formed exchange document, whatever
duplicated `unique_id` values it contains, a normal load into an empty store returns true
and the ids of the live nodes are pairwise distinct, provided each call of the id
allocator returns an id that no node of the tree has at that moment. Every node element
has become one node. -/
theorem populate_treestore_ids_pairwise_distinct (U : CtEnv) (root : XmlNode)
    (file_path error : String)
    (hparse : get_parser_root_node U file_path = .ok root)
    (hwf : well_formed_document U root)
    (halloc : ∀ ids, U.node_id_get ids ∉ ids) :
    ∃ r, populate_treestore U false CtTreeStore.empty [] file_path error = .ok r ∧
      r.ret = true ∧ r.store.node_ids.Nodup ∧
      r.store.rows.length = (node_elements root).length := by
  have hJ := normal_walk_inv U root hwf
  refine ⟨_, populate_treestore_ok U root file_path error hparse hwf, rfl, ?_, ?_⟩
  · simp only
    rw [populate_shared_non_master_node_ids]
    apply fix_duplicated_ids_nodup U halloc
    intro i j hij hj _ hj'
    exact hJ.unlisted_distinct i j hij hj hj'
  · simp only
    rw [populate_shared_non_master_length, fix_duplicated_ids_length, hJ.length]
    simp [node_elements]

theorem sample_allocator_fresh (ids : List Int) : CtEnv.sample.node_id_get ids ∉ ids := by
  have hle : ∀ (l : List Int) (a : Int), a ≤ l.foldl max a ∧ ∀ x ∈ l, x ≤ l.foldl max a := by
    intro l
    induction l with
    | nil => intro a; simp
    | cons y rest ih =>
      intro a
      simp only [List.foldl_cons, List.mem_cons, forall_eq_or_imp]
      have h1 := ih (max a y)
      refine ⟨le_trans (le_max_left a y) h1.1, le_trans (le_max_right a y) h1.1, h1.2⟩
  intro hmem
  have := (hle ids 0).2 _ hmem
  simp only [CtEnv.sample] at this
  omega

theorem sample_duplicated_document_well_formed (U : CtEnv) :
    well_formed_document U sample_duplicated_document := by
  intro el hel
  have : node_elements sample_duplicated_document
      = [sample_node_element "5" "0" "A" "a" [], sample_node_element "5" "0" "B" "b" []] := rfl
  rw [this] at hel
  simp only [List.mem_cons, List.mem_singleton, List.not_mem_nil, or_false] at hel
  rcases hel with h | h <;> subst h <;> exact ⟨_, rfl⟩

/-- C3 at a document whose two nodes both declare the id 5. -/
theorem populate_treestore_ids_pairwise_distinct_witness :
    ∃ r, populate_treestore (CtEnv.sample_with sample_duplicated_document) false
        CtTreeStore.empty [] "doc.ctd" "" = .ok r ∧
      r.ret = true ∧ r.store.node_ids.Nodup ∧
      r.store.rows.length = (node_elements sample_duplicated_document).length :=
  populate_treestore_ids_pairwise_distinct (CtEnv.sample_with sample_duplicated_document)
    sample_duplicated_document "doc.ctd" "" rfl
    (sample_duplicated_document_well_formed _) sample_allocator_fresh

/-! ## Duplicate ids and shared nodes after a normal load -/

theorem getElem?_lt_of_some {α : Type} {l : List α} {k : Nat} {a : α} (h : l[k]? = some a) :
    k < l.length := by
  by_contra hc
  rw [List.getElem?_eq_none (by omega)] at h
  cases h

theorem eager_data_master (U : CtEnv) (x : WalkItem) (d : CtNodeData)
    (h : x.eager_data U = .ok d) : d.sharedNodesMasterId = x.read_master_id U := by
  obtain ⟨buf, ws, _, hd⟩ := eager_node_data_ok U _ _ _ _ _ h
  rw [hd]
  exact read_node_data_master U _ _ _

theorem deferred_data_master (U : CtEnv) (x : WalkItem) :
    (x.deferred_data U).sharedNodesMasterId = x.read_master_id U :=
  read_node_data_master U _ _ _

theorem deferred_data_nodeId (U : CtEnv) (x : WalkItem) :
    (x.deferred_data U).nodeId = x.read_id U :=
  read_node_data_nodeId U _ _

/-- The master id of the row of an item after the walk. -/
theorem PopulateInv.row_master {U : CtEnv} {items : List WalkItem} {st : PopulateState}
    (hJ : PopulateInv U items st) {k : Nat} {item : WalkItem} {row : CtTreeRow}
    (hi : items[k]? = some item) (hr : st.store.rows[k]? = some row) :
    row.data.sharedNodesMasterId = item.read_master_id U := by
  rcases (hJ.rows k item row hi hr).2 with ⟨_, h⟩ | ⟨_, h⟩
  · rw [h]
    exact deferred_data_master U item
  · exact eager_data_master U item _ h

/-- The first element that declares an id is not listed as a duplicate. -/
theorem PopulateInv.first_unlisted {U : CtEnv} {items : List WalkItem} {st : PopulateState}
    (hJ : PopulateInv U items st) {k : Nat} {item : WalkItem} (hi : items[k]? = some item)
    (hfirst : item.read_id U ∉ (items.take k).map (WalkItem.read_id U)) :
    some k ∉ st.nodes_with_duplicated_id :=
  fun h => hfirst ((hJ.dups_iff k item hi).1 h)

/-- After the loop that fixes the duplicated ids, the first element that declares the id
`d` is the node that `get_node_from_node_id` finds for `d`. -/
theorem fix_finds_first (U : CtEnv) (halloc : ∀ ids, U.node_id_get ids ∉ ids)
    {items : List WalkItem} {st : PopulateState} (hJ : PopulateInv U items st)
    {j : Nat} {item : WalkItem} (hj : items[j]? = some item)
    (hfirst : item.read_id U ∉ (items.take j).map (WalkItem.read_id U)) :
    (fix_duplicated_ids U st.nodes_with_duplicated_id st.store).get_node_from_node_id
      (item.read_id U) = some j := by
  have hun := hJ.first_unlisted hj hfirst
  obtain ⟨rj, hrj⟩ := hJ.row_exists hj
  have hidj : st.store.node_ids[j]? = some (item.read_id U) := by
    rw [hJ.id_getElem?, hj]
    rfl
  have hframe := fix_duplicated_ids_frame U st.nodes_with_duplicated_id j hun st.store
  have h1 := find_index_first (item.read_id U)
    (fix_duplicated_ids U st.nodes_with_duplicated_id st.store).rows 0 j
    (by rw [hframe, ← node_ids_getElem?]; exact hidj)
    (by
      intro hmem
      obtain ⟨rm, hrm, hrmid⟩ := List.mem_map.1 hmem
      rw [List.mem_iff_getElem?] at hrm
      obtain ⟨m, hm⟩ := hrm
      rw [List.getElem?_take] at hm
      by_cases hmj : m < j
      · simp only [hmj, if_true] at hm
        have hm : (fix_duplicated_ids U st.nodes_with_duplicated_id st.store).node_ids[m]?
            = some (item.read_id U) := by
          rw [node_ids_getElem?, hm]
          simp only [Option.map_some', hrmid]
        by_cases hml : some m ∈ st.nodes_with_duplicated_id
        · exact fix_duplicated_ids_avoid U halloc _ _ st.store j hun hidj m hml hm
        · rw [node_ids_getElem?,
            fix_duplicated_ids_frame U st.nodes_with_duplicated_id m hml st.store,
            ← node_ids_getElem?, hJ.id_getElem?] at hm
          apply hfirst
          cases him : items[m]? with
          | none => rw [him] at hm; cases hm
          | some im =>
            rw [him] at hm
            simp only [Option.map_some', Option.some.injEq] at hm
            rw [← hm]
            apply List.mem_map.2
            refine ⟨im, ?_, rfl⟩
            rw [List.mem_iff_getElem?]
            exact ⟨m, by rw [List.getElem?_take_of_lt hmj]; exact him⟩
      · simp only [hmj, if_false] at hm
        cases hm)
  simpa [CtTreeStore.get_node_from_node_id] using h1

/-- C2, as the code has it. Duplicate-id repair: when two node elements declare the same
id `d`, the first of them in document order being the first element that declares `d`,
a normal load of the (well-formed) document into an empty store, with an allocator that
returns unused ids, yields two live nodes with distinct ids: the node of the first element
keeps the id `d` and the node of the second gets an id different from `d`. The content of
both is preserved: the element of the first is kept under `d` in the delayed-buffer map
and its node has the data read from it; the buffer of the second was created at once from
its element (for an element that owns its content, `master_id <= 0`). -/
theorem populate_treestore_duplicate_id_repair (U : CtEnv) (root : XmlNode)
    (file_path error : String) (i j : Nat) (item_i item_j : WalkItem)
    (hparse : get_parser_root_node U file_path = .ok root)
    (hwf : well_formed_document U root)
    (halloc : ∀ ids, U.node_id_get ids ∉ ids)
    (hi : (document_items 0 root none)[i]? = some item_i)
    (hj : (document_items 0 root none)[j]? = some item_j)
    (hij : i < j)
    (hsame : item_j.read_id U = item_i.read_id U)
    (hfirst : item_i.read_id U
      ∉ ((document_items 0 root none).take i).map (WalkItem.read_id U)) :
    ∃ r row_i row_j,
      populate_treestore U false CtTreeStore.empty [] file_path error = .ok r ∧
      r.ret = true ∧
      r.store.rows[i]? = some row_i ∧ r.store.rows[j]? = some row_j ∧
      row_i.data.nodeId = item_i.read_id U ∧
      row_j.data.nodeId ≠ item_i.read_id U ∧
      row_i.data.nodeId ≠ row_j.data.nodeId ∧
      r.delayed_text_buffers.find (item_i.read_id U)
        = some (delayed_document item_i.xml_element) ∧
      (item_i.read_master_id U ≤ 0 → row_i.data = item_i.deferred_data U) ∧
      (item_j.read_master_id U ≤ 0 →
        ∃ data_j, item_j.eager_data U = .ok data_j ∧
          row_j.data = { data_j with nodeId := row_j.data.nodeId }) := by
  have hJ := normal_walk_inv U root hwf
  have hok := populate_treestore_ok U root file_path error hparse hwf
  obtain ⟨ri, hri⟩ := hJ.row_exists hi
  obtain ⟨rj, hrj⟩ := hJ.row_exists hj
  have huni := hJ.first_unlisted hi hfirst
  have hlj : some j ∈ (normal_walk U root).nodes_with_duplicated_id := by
    rw [hJ.dups_iff j item_j hj, hsame]
    apply List.mem_map.2
    refine ⟨item_i, ?_, rfl⟩
    rw [List.mem_iff_getElem?]
    exact ⟨i, by rw [List.getElem?_take_of_lt hij]; exact hi⟩
  -- the two rows after the walk
  have hdi : ri.data = item_i.deferred_data U := by
    rcases (hJ.rows i item_i ri hi hri).2 with ⟨_, h⟩ | ⟨h, _⟩
    · exact h
    · exact absurd h huni
  have hdj : item_j.eager_data U = .ok rj.data := by
    rcases (hJ.rows j item_j rj hj hrj).2 with ⟨h, _⟩ | ⟨_, h⟩
    · exact absurd hlj h
    · exact h
  -- after the loop that fixes the ids
  have hfi := fix_duplicated_ids_frame U (normal_walk U root).nodes_with_duplicated_id i huni
    (normal_walk U root).store
  rw [hri] at hfi
  obtain ⟨idj, hfj⟩ := fix_duplicated_ids_shape U
    (normal_walk U root).nodes_with_duplicated_id j (normal_walk U root).store rj hrj
  have hidi : (normal_walk U root).store.node_ids[i]? = some (item_i.read_id U) := by
    rw [hJ.id_getElem?, hi]
    rfl
  have hidj : idj ≠ item_i.read_id U := by
    have := fix_duplicated_ids_avoid U halloc (item_i.read_id U) _ (normal_walk U root).store
      i huni hidi j hlj
    rw [node_ids_getElem?, hfj] at this
    simpa using this
  -- after the loop that populates the shared nodes
  obtain ⟨di, hsi, hsi1, hsi2, _⟩ := populate_shared_non_master_shape
    (normal_walk U root).nodes_shared_non_master _ i ri hfi
  obtain ⟨dj, hsj, hsj1, hsj2, _⟩ := populate_shared_non_master_shape
    (normal_walk U root).nodes_shared_non_master _ j _ hfj
  have hni : di.nodeId = item_i.read_id U := by
    rw [hsi1, hdi]
    exact deferred_data_nodeId U item_i
  have hnj : dj.nodeId = idj := hsj1
  refine ⟨_, _, _, hok, rfl, hsi, hsj, hni, ?_, ?_, ?_, ?_, ?_⟩
  · show dj.nodeId ≠ _
    rw [hnj]
    exact hidj
  · show di.nodeId ≠ dj.nodeId
    rw [hni, hnj]
    exact fun h => hidj h.symm
  · exact hJ.delayed i item_i hi huni
  · intro hm
    have hst : stable_master
        (fix_duplicated_ids U (normal_walk U root).nodes_with_duplicated_id
          (normal_walk U root).store) ri.data.sharedNodesMasterId := by
      left
      rw [hdi, deferred_data_master]
      exact hm
    have hrow := populate_shared_non_master_row
      (normal_walk U root).nodes_shared_non_master _ i ri hfi hst
    rw [hsi] at hrow
    simp only [Option.some.injEq, CtTreeRow.mk.injEq, and_true] at hrow
    show di = _
    rw [hrow, displayed_data_owner _ _ (by rw [hdi, deferred_data_master]; exact hm), ite_self,
      hdi]
  · intro hm
    refine ⟨rj.data, hdj, ?_⟩
    have hmj : rj.data.sharedNodesMasterId ≤ 0 := by
      rw [eager_data_master U item_j _ hdj]
      exact hm
    obtain ⟨rj', hrj', hrj'd⟩ : ∃ rj' : CtTreeRow,
        (fix_duplicated_ids U (normal_walk U root).nodes_with_duplicated_id
          (normal_walk U root).store).rows[j]? = some rj' ∧
        rj'.data = { rj.data with nodeId := idj } := ⟨_, hfj, rfl⟩
    have hmj' : rj'.data.sharedNodesMasterId ≤ 0 := by rw [hrj'd]; exact hmj
    have hrow := populate_shared_non_master_row
      (normal_walk U root).nodes_shared_non_master _ j rj' hrj' (Or.inl hmj')
    rw [displayed_data_owner _ _ hmj', ite_self] at hrow
    rw [hrj'] at hfj
    rw [hsj] at hrow
    simp only [Option.some.injEq] at hrow hfj
    have e1 : dj = rj'.data := by
      have := congrArg CtTreeRow.data hrow
      simpa using this
    show dj = _
    rw [e1, hrj'd]

/-- A document whose node elements declare pairwise distinct ids has no duplicate. -/
theorem PopulateInv.no_duplicates {U : CtEnv} {items : List WalkItem} {st : PopulateState}
    (hJ : PopulateInv U items st) (hnd : (items.map (WalkItem.read_id U)).Nodup) :
    st.nodes_with_duplicated_id = [] := by
  rw [List.eq_nil_iff_forall_not_mem]
  intro it hit
  obtain ⟨k, hk, hlt⟩ := hJ.dups_valid it hit
  subst hk
  have hks : items[k]? = some items[k] := List.getElem?_eq_getElem hlt
  have hmem := (hJ.dups_iff k _ hks).1 hit
  obtain ⟨im, him, hid⟩ := List.mem_map.1 hmem
  rw [List.mem_iff_getElem?] at him
  obtain ⟨m, hm⟩ := him
  rw [List.getElem?_take] at hm
  by_cases hmk : m < k
  · simp only [hmk, if_true] at hm
    rw [List.nodup_iff_getElem?_ne_getElem?] at hnd
    apply hnd m k hmk (by simpa using hlt)
    rw [List.getElem?_map, List.getElem?_map, hm, hks]
    simp only [Option.map_some', hid]
  · simp only [hmk, if_false] at hm
    cases hm

/-- C4. Shared-alias resolution on load. In a normal load of a well-formed document into
an empty store (allocator returning unused ids), let an element at any place of the
document declare `master_id = M > 0`. The load returns true and the node keeps the
master id `M`. When the first element that declares the id `M` owns its content
(`master_id <= 0`), wherever it stands relative to the alias, it is the live node `M`,
its node data is the data read from its element, its content is kept under `M` in the
delayed-buffer map, and the data of the alias is that node data in the slot of the alias
(own id, master id and sequence). When no live node has the id `M`, which is the case
when no element declares `M` in a document without duplicated ids, the alias is left as
it was decoded, unresolved: it keeps the master id `M` and carries no metadata. -/
theorem populate_treestore_shared_alias_resolution (U : CtEnv) (root : XmlNode)
    (file_path error : String) (i : Nat) (item : WalkItem)
    (hparse : get_parser_root_node U file_path = .ok root)
    (hwf : well_formed_document U root)
    (halloc : ∀ ids, U.node_id_get ids ∉ ids)
    (hi : (document_items 0 root none)[i]? = some item)
    (hM : 0 < item.read_master_id U) :
    ∃ r row,
      populate_treestore U false CtTreeStore.empty [] file_path error = .ok r ∧
      r.ret = true ∧ r.store.rows[i]? = some row ∧
      row.data.sharedNodesMasterId = item.read_master_id U ∧
      (∀ j item_j, (document_items 0 root none)[j]? = some item_j →
        item_j.read_id U = item.read_master_id U →
        item_j.read_id U ∉ ((document_items 0 root none).take j).map (WalkItem.read_id U) →
        item_j.read_master_id U ≤ 0 →
        r.store.get_node_from_node_id (item.read_master_id U) = some j ∧
        (∃ row_j, r.store.rows[j]? = some row_j ∧ row_j.data = item_j.deferred_data U) ∧
        r.delayed_text_buffers.find (item.read_master_id U)
          = some (delayed_document item_j.xml_element) ∧
        row.data = CtTreeStore.alias_slot row.data (item_j.deferred_data U)) ∧
      (r.store.get_node_from_node_id (item.read_master_id U) = none →
        row.data = { item.deferred_data U with nodeId := row.data.nodeId } ∨
        ∃ d, item.eager_data U = .ok d ∧ row.data = { d with nodeId := row.data.nodeId }) ∧
      (((document_items 0 root none).map (WalkItem.read_id U)).Nodup →
        item.read_master_id U ∉ (document_items 0 root none).map (WalkItem.read_id U) →
        r.store.get_node_from_node_id (item.read_master_id U) = none) := by
  have hJ := normal_walk_inv U root hwf
  have hok := populate_treestore_ok U root file_path error hparse hwf
  obtain ⟨ri, hri⟩ := hJ.row_exists hi
  have hmi : ri.data.sharedNodesMasterId = item.read_master_id U := hJ.row_master hi hri
  have hlisted : some i ∈ (normal_walk U root).nodes_shared_non_master :=
    hJ.aliases_mem i item hi hM
  -- the row of the alias after the loop that fixes the ids
  obtain ⟨idi, hfi⟩ := fix_duplicated_ids_shape U
    (normal_walk U root).nodes_with_duplicated_id i (normal_walk U root).store ri hri
  obtain ⟨ri', hri', hri'd⟩ : ∃ ri' : CtTreeRow,
      (fix_duplicated_ids U (normal_walk U root).nodes_with_duplicated_id
        (normal_walk U root).store).rows[i]? = some ri' ∧
      ri'.data = { ri.data with nodeId := idi } := ⟨_, hfi, rfl⟩
  have hmi' : ri'.data.sharedNodesMasterId = item.read_master_id U := by
    rw [hri'd]
    exact hmi
  obtain ⟨di, hsi, hsi1, hsi2, _⟩ := populate_shared_non_master_shape
    (normal_walk U root).nodes_shared_non_master _ i ri' hri'
  have hids := populate_shared_non_master_node_ids
    (normal_walk U root).nodes_shared_non_master
    (fix_duplicated_ids U (normal_walk U root).nodes_with_duplicated_id
      (normal_walk U root).store)
  refine ⟨_, _, hok, rfl, hsi, hsi2.trans hmi', ?_, ?_, ?_⟩
  · -- the master is there
    intro j item_j hj hjid hfirst hown
    have hunj := hJ.first_unlisted hj hfirst
    obtain ⟨rj, hrj⟩ := hJ.row_exists hj
    have hdj : rj.data = item_j.deferred_data U := by
      rcases (hJ.rows j item_j rj hj hrj).2 with ⟨_, h⟩ | ⟨h, _⟩
      · exact h
      · exact absurd h hunj
    have hfj := fix_duplicated_ids_frame U (normal_walk U root).nodes_with_duplicated_id j hunj
      (normal_walk U root).store
    rw [hrj] at hfj
    have hfind := fix_finds_first U halloc hJ hj hfirst
    rw [hjid] at hfind
    have hmj : rj.data.sharedNodesMasterId ≤ 0 := by
      rw [hdj, deferred_data_master]
      exact hown
    have hst : stable_master
        (fix_duplicated_ids U (normal_walk U root).nodes_with_duplicated_id
          (normal_walk U root).store) ri'.data.sharedNodesMasterId := by
      rw [hmi']
      exact Or.inr (Or.inr ⟨j, rj, hfind, hfj, hmj⟩)
    have hrowj := populate_shared_non_master_row
      (normal_walk U root).nodes_shared_non_master _ j rj hfj (Or.inl hmj)
    rw [displayed_data_owner _ _ hmj, ite_self] at hrowj
    have hrowi := populate_shared_non_master_row
      (normal_walk U root).nodes_shared_non_master _ i ri' hri' hst
    simp only [hlisted, if_true] at hrowi
    have hdisp : (fix_duplicated_ids U (normal_walk U root).nodes_with_duplicated_id
        (normal_walk U root).store).displayed_data ri'.data
        = CtTreeStore.alias_slot ri'.data rj.data := by
      unfold CtTreeStore.displayed_data
      simp only [hmi', hfind, CtTreeStore.row, hfj]
      rw [if_pos hM]
    rw [hdisp, hsi] at hrowi
    simp only [Option.some.injEq] at hrowi
    have e1 : di = CtTreeStore.alias_slot ri'.data rj.data := by
      have := congrArg CtTreeRow.data hrowi
      simpa using this
    refine ⟨?_, ⟨rj, hrowj, hdj⟩, ?_, ?_⟩
    · rw [get_node_from_node_id_congr _ _ _ hids]
      exact hfind
    · rw [← hjid]
      exact hJ.delayed j item_j hj hunj
    · show di = CtTreeStore.alias_slot di _
      rw [e1, ← hdj]
      rfl
  · -- no live node has the master id
    intro hnone
    rw [get_node_from_node_id_congr _ _ _ hids] at hnone
    have hst : stable_master
        (fix_duplicated_ids U (normal_walk U root).nodes_with_duplicated_id
          (normal_walk U root).store) ri'.data.sharedNodesMasterId := by
      rw [hmi']
      exact Or.inr (Or.inl hnone)
    have hrowi := populate_shared_non_master_row
      (normal_walk U root).nodes_shared_non_master _ i ri' hri' hst
    have hdisp : (fix_duplicated_ids U (normal_walk U root).nodes_with_duplicated_id
        (normal_walk U root).store).displayed_data ri'.data = ri'.data := by
      unfold CtTreeStore.displayed_data
      simp only [hmi', hnone, CtTreeStore.row, ite_self]
    rw [hdisp, ite_self, hsi] at hrowi
    simp only [Option.some.injEq] at hrowi
    have e1 : di = ri'.data := by
      have := congrArg CtTreeRow.data hrowi
      simpa using this
    show di = _ ∨ ∃ d, _ ∧ di = _
    rcases (hJ.rows i item ri hi hri).2 with ⟨_, h⟩ | ⟨_, h⟩
    · left
      rw [e1, hri'd, h]
    · right
      exact ⟨ri.data, h, by rw [e1, hri'd]⟩
  · -- a document without duplicated ids that does not declare the master id
    intro hnd hnot
    rw [get_node_from_node_id_congr _ _ _ hids, hJ.no_duplicates hnd]
    show CtTreeStore.find_index (normal_walk U root).store.rows _ 0 = none
    rw [find_index_none]
    have := hJ.ids
    simp only [CtTreeStore.node_ids] at this
    rw [this]
    exact hnot

/-- C2 fails as stated: a document whose two nodes both declare the id 5 loads into live
nodes with the ids 5 and 6; the first node still has the duplicated id. -/
theorem populate_treestore_duplicate_keeps_first_id :
    ∃ r, populate_treestore (CtEnv.sample_with sample_duplicated_document) false
        CtTreeStore.empty [] "doc.ctd" "" = .ok r ∧
      r.ret = true ∧ r.store.node_ids = [5, 6] ∧ ¬ (∀ id ∈ r.store.node_ids, id ≠ 5) :=
  ⟨_, rfl, rfl, by decide, by decide⟩

/-- The amended C2 at the document whose two nodes both declare the id 5. -/
theorem populate_treestore_duplicate_id_repair_witness :
    ∃ r row_i row_j,
      populate_treestore (CtEnv.sample_with sample_duplicated_document) false
        CtTreeStore.empty [] "doc.ctd" "" = .ok r ∧
      r.store.rows[0]? = some row_i ∧ r.store.rows[1]? = some row_j ∧
      row_i.data.nodeId = 5 ∧ row_j.data.nodeId ≠ 5 ∧
      r.delayed_text_buffers.find 5
        = some (delayed_document (sample_node_element "5" "0" "A" "a" [])) := by
  obtain ⟨r, row_i, row_j, hok, _, hi, hj, hidi, hidj, _, hdel, _, _⟩ :=
    populate_treestore_duplicate_id_repair (CtEnv.sample_with sample_duplicated_document)
      sample_duplicated_document "doc.ctd" "" 0 1
      { xml_element := sample_node_element "5" "0" "A" "a" [], sequence := 1,
        parent_iter := none }
      { xml_element := sample_node_element "5" "0" "B" "b" [], sequence := 2,
        parent_iter := none }
      rfl (sample_duplicated_document_well_formed _) sample_allocator_fresh rfl rfl
      (by decide) rfl (by decide)
  exact ⟨r, row_i, row_j, hok, hi, hj, hidi, hidj, hdel⟩

theorem sample_alias_document_well_formed (U : CtEnv) :
    well_formed_document U sample_alias_document := by
  intro el hel
  have : node_elements sample_alias_document
      = [.element "node" [("unique_id", "2"), ("master_id", "1")] [],
         sample_node_element "1" "0" "A" "a" []] := rfl
  rw [this] at hel
  simp only [List.mem_cons, List.mem_singleton, List.not_mem_nil, or_false] at hel
  rcases hel with h | h <;> subst h <;> exact ⟨_, rfl⟩

/-- C4 at a document in which the alias stands before its master: after the load the
alias, still node 2 with master id 1, carries the name of its master. -/
theorem populate_treestore_shared_alias_resolution_witness :
    ∃ r row,
      populate_treestore (CtEnv.sample_with sample_alias_document) false
        CtTreeStore.empty [] "doc.ctd" "" = .ok r ∧
      r.ret = true ∧ r.store.rows[0]? = some row ∧
      row.data.sharedNodesMasterId = 1 ∧
      r.store.get_node_from_node_id 1 = some 1 ∧
      row.data.name = "A" := by
  obtain ⟨r, row, hok, hret, hrow, hm, hres, _, _⟩ :=
    populate_treestore_shared_alias_resolution (CtEnv.sample_with sample_alias_document)
      sample_alias_document "doc.ctd" "" 0
      { xml_element := .element "node" [("unique_id", "2"), ("master_id", "1")] [],
        sequence := 1, parent_iter := none }
      rfl (sample_alias_document_well_formed _) sample_allocator_fresh rfl (by decide)
  obtain ⟨hfind, _, _, hdata⟩ := hres 1
    { xml_element := sample_node_element "1" "0" "A" "a" [], sequence := 2,
      parent_iter := none } rfl rfl (by decide) (by decide)
  refine ⟨r, row, hok, hret, hrow, hm, hfind, ?_⟩
  rw [hdata]
  rfl

/-! ## One node element in an import -/

theorem import_node_stuck (U : CtEnv) (isDryRun : Bool) (el : XmlNode) (seq : Int)
    (p : TreeIter) (st : ImportState) (h : st.thrown ≠ none) :
    (import_node U isDryRun el seq p st).1 = st := by
  unfold import_node
  cases hth : st.thrown with
  | none => exact absurd hth h
  | some e => rfl

theorem eager_node_data_nodeId (U : CtEnv) (el : XmlNode) (seq new_id : Int) (dir : String)
    (d : CtNodeData) (hne : new_id ≠ -1) (h : eager_node_data U el seq new_id dir = .ok d) :
    d.nodeId = new_id := by
  obtain ⟨buf, ws, _, hd⟩ := eager_node_data_ok U _ _ _ _ _ h
  rw [hd]
  exact read_node_data_new_id U el seq new_id hne

theorem eager_node_data_master (U : CtEnv) (el : XmlNode) (seq new_id : Int) (dir : String)
    (d : CtNodeData) (h : eager_node_data U el seq new_id dir = .ok d) :
    d.sharedNodesMasterId = U.gint64_from_gstring (el.get_attribute_value "master_id") := by
  obtain ⟨buf, ws, _, hd⟩ := eager_node_data_ok U _ _ _ _ _ h
  rw [hd]
  exact read_node_data_master U el seq new_id

/-- The lambda body of `import_nodes` in a real import, when the allocator does not return
the marker -1. -/
theorem import_node_normal (U : CtEnv) (el : XmlNode) (seq : Int) (p : TreeIter)
    (st : ImportState) (hth : st.thrown = none)
    (hne : U.node_id_get st.store.node_ids ≠ -1) :
    import_node U false el seq p st =
      match eager_node_data U el seq (U.node_id_get st.store.node_ids) "" with
      | .error e => ({ st with thrown := some e }, none)
      | .ok d =>
        ({ store := { st.store with rows := st.store.rows ++ [{ data := d, parent := p }] }
           delayed_text_buffers := st.delayed_text_buffers
           pending := st.pending ++ [PendingChange.NewNode d.nodeId]
           nodes_shared_non_master :=
             if 0 < U.gint64_from_gstring (el.get_attribute_value "master_id") then
               st.nodes_shared_non_master ++ [some st.store.rows.length]
             else st.nodes_shared_non_master
           imported_ids_remap := st.imported_ids_remap.set
             (U.gint64_from_gstring (el.get_attribute_value "unique_id"))
             (U.node_id_get st.store.node_ids)
           thrown := none }, some st.store.rows.length) := by
  unfold import_node node_from_xml
  have hne' : (U.node_id_get st.store.node_ids == -1) = false := by simpa using hne
  simp only [hth, hne', Bool.false_eq_true, if_false]
  cases hE : eager_node_data U el seq (U.node_id_get st.store.node_ids) "" with
  | error e => rfl
  | ok d =>
    have hrow : pending_new_db_node
        { rows := st.store.rows ++ [{ data := d, parent := p }], bookmarks := st.store.bookmarks }
        st.pending (some st.store.rows.length)
        = st.pending ++ [PendingChange.NewNode d.nodeId] := by
      simp [pending_new_db_node, CtTreeStore.row]
    rw [read_node_data_master]
    by_cases hm : U.gint64_from_gstring (el.get_attribute_value "master_id") ≤ 0
    · have hm' : ¬ 0 < U.gint64_from_gstring (el.get_attribute_value "master_id") := by omega
      simp [hm, hm', CtTreeStore.append_node, hrow]
    · have hm' : 0 < U.gint64_from_gstring (el.get_attribute_value "master_id") := by omega
      simp [hm, hm', CtTreeStore.append_node, hrow]

theorem import_node_progress (U : CtEnv) (isDryRun : Bool) (el : XmlNode) (seq : Int)
    (p : TreeIter) (st : ImportState) (h : ¬ st.thrown ≠ none) :
    (import_node U isDryRun el seq p st).1.thrown ≠ none ∨
      ((import_node U isDryRun el seq p st).2
          = (if (!isDryRun) = true then some st.store.rows.length else none) ∧
        (import_node U isDryRun el seq p st).1.store.rows.length
          = if (!isDryRun) = true then st.store.rows.length + 1 else st.store.rows.length) := by
  have hth : st.thrown = none := by
    by_contra hc
    exact h hc
  unfold import_node node_from_xml
  simp only [hth]
  cases isDryRun with
  | true =>
    right
    simp
  | false =>
    simp only [Bool.false_eq_true, if_false]
    by_cases hn : (U.node_id_get st.store.node_ids == -1) = true
    · simp only [hn, if_true]
      by_cases hh : CtMap.has st.delayed_text_buffers
          (read_node_data U el seq (U.node_id_get st.store.node_ids)).nodeId = true
      · simp only [hh, if_true]
        cases eager_node_data U el seq (U.node_id_get st.store.node_ids) "" with
        | error e => left; simp
        | ok d => right; simp [CtTreeStore.append_node]
      · simp only [hh]
        right
        simp [CtTreeStore.append_node]
    · simp only [hn, if_false]
      cases eager_node_data U el seq (U.node_id_get st.store.node_ids) "" with
      | error e => left; simp
      | ok d => right; simp [CtTreeStore.append_node]


/-- The walk of `import_nodes` over a list of children is the fold of the lambda body
over the node elements below them, in document order. -/
theorem import_f_nodes_from_xml_children_eq_foldl (U : CtEnv) (isDryRun : Bool)
    (cs : List XmlNode) (k : Int) (it : TreeIter) (st : ImportState) :
    import_f_nodes_from_xml_children U isDryRun cs k it st
      = (walk_items_children (!isDryRun) st.store.rows.length cs k it).foldl
          (walk_step (import_node U isDryRun)) st :=
  (walk_children_eq_foldl (import_node U isDryRun) (fun st => st.thrown ≠ none)
    (fun st => st.store.rows.length) (!isDryRun)
    (fun el seq p st h => import_node_stuck U isDryRun el seq p st h)
    (fun el seq p st h => import_node_progress U isDryRun el seq p st h) cs k it st).1

/-! ## The invariant of an import -/

theorem ImportInv.import_init (U : CtEnv) (s0 : CtTreeStore) (pending0 : List PendingChange)
    (delayed0 : CtDelayedTextBufferMap) :
    ImportInv U s0 pending0 delayed0 []
      { store := s0
        delayed_text_buffers := delayed0
        pending := pending0
        nodes_shared_non_master := []
        imported_ids_remap := []
        thrown := none } where
  thrown := rfl
  length := rfl
  old_rows := fun _ _ => rfl
  rows := by intro k item row h; simp at h
  remap_find := by intro k item row h; simp at h
  remap_keys := by intro id; simp [CtMap.has]
  aliases_nodup := List.nodup_nil
  aliases_valid := by intro it h; simp at h
  aliases_mem := by intro k item h; simp at h
  pending := by simp [CtTreeStore.node_ids]
  delayed := rfl

theorem ImportInv.import_step (U : CtEnv) (s0 : CtTreeStore) (pending0 : List PendingChange)
    (delayed0 : CtDelayedTextBufferMap) (items : List WalkItem) (st : ImportState)
    (x : WalkItem) (hK : ImportInv U s0 pending0 delayed0 items st)
    (hwf : decodable_content U x.xml_element)
    (halloc : ∀ ids, U.node_id_get ids ≠ -1) :
    ImportInv U s0 pending0 delayed0 (items ++ [x])
      (walk_step (import_node U false) st x) := by
  have hlen := hK.length
  have hidl : st.store.node_ids.length = s0.rows.length + items.length := by
    rw [node_ids_length, hlen]
  obtain ⟨d, hd⟩ := eager_node_data_of_decodable U x.xml_element x.sequence
    (U.node_id_get st.store.node_ids) hwf
  have hdid : d.nodeId = U.node_id_get st.store.node_ids :=
    eager_node_data_nodeId U _ _ _ _ d (halloc _) hd
  have hnotin : some st.store.rows.length ∉ st.nodes_shared_non_master := by
    intro hmem
    obtain ⟨k, item, hk, hitem, _⟩ := hK.aliases_valid _ hmem
    have := getElem?_lt_of_some hitem
    simp only [Option.some.injEq] at hk
    omega
  unfold walk_step
  rw [import_node_normal U _ _ _ _ hK.thrown (halloc _), hd]
  have hids' : ∀ rows' : List CtTreeRow, rows' = st.store.rows ++ [{ data := d, parent := x.parent_iter }] →
      rows'.map (fun r => r.data.nodeId) = st.store.node_ids ++ [d.nodeId] := by
    intro rows' h
    rw [h]
    simp [CtTreeStore.node_ids]
  refine
    { thrown := rfl
      length := by simp [hlen]; omega
      old_rows := ?_
      rows := ?_
      remap_find := ?_
      remap_keys := ?_
      aliases_nodup := ?_
      aliases_valid := ?_
      aliases_mem := ?_
      pending := ?_
      delayed := hK.delayed }
  · intro k hk
    simp only
    rw [List.getElem?_append_left (by omega)]
    exact hK.old_rows k hk
  · intro k item row hitem hrow
    simp only at hrow
    simp only [CtTreeStore.node_ids, List.map_append, List.map_cons, List.map_nil]
    change _ ∧ row.data.nodeId = U.node_id_get
      ((st.store.node_ids ++ [d.nodeId]).take (s0.rows.length + k)) ∧ _
    rcases getElem?_append_singleton _ _ _ _ hitem with ⟨hk, h⟩ | ⟨hk, hx⟩
    · rw [List.getElem?_append_left (by omega)] at hrow
      rw [List.take_append_of_le_length (by omega)]
      exact hK.rows k item row h hrow
    · subst hx
      have hpos : s0.rows.length + k = st.store.rows.length := by omega
      rw [hpos, getElem?_append_singleton_eq] at hrow
      simp only [Option.some.injEq] at hrow
      subst hrow
      rw [hpos, ← node_ids_length, List.take_left']
      · exact ⟨rfl, hdid, by simp only; rw [hdid]; exact hd⟩
      · rfl
  · intro k item row hitem hrow hlast
    simp only at hrow
    simp only
    rcases getElem?_append_singleton _ _ _ _ hitem with ⟨hk, h⟩ | ⟨hk, hx⟩
    · rw [List.getElem?_append_left (by omega)] at hrow
      rw [List.drop_append_of_le_length (by omega), List.map_append, List.mem_append,
        not_or] at hlast
      have hne : item.read_id U ≠ x.read_id U := by
        intro he
        apply hlast.2
        rw [he]
        exact List.mem_map.2 ⟨x, List.mem_singleton.2 rfl, rfl⟩
      have : U.gint64_from_gstring (x.xml_element.get_attribute_value "unique_id")
          = x.read_id U := rfl
      rw [this, CtMap.find_set_ne _ _ _ _ hne]
      exact hK.remap_find k item row h hrow hlast.1
    · subst hx
      have hpos : s0.rows.length + k = st.store.rows.length := by omega
      rw [hpos, getElem?_append_singleton_eq] at hrow
      simp only [Option.some.injEq] at hrow
      subst hrow
      have : U.gint64_from_gstring (item.xml_element.get_attribute_value "unique_id")
          = item.read_id U := rfl
      rw [this, CtMap.find_set_self]
      simp only [hdid]
  · intro id
    simp only
    rw [CtMap.has_set]
    simp only [List.map_append, List.map_cons, List.map_nil, List.mem_append,
      List.mem_singleton, Bool.or_eq_true, beq_iff_eq]
    constructor
    · intro h
      rcases h with h | h
      · exact Or.inl ((hK.remap_keys id).1 h)
      · exact Or.inr h.symm
    · intro h
      rcases h with h | h
      · exact Or.inl ((hK.remap_keys id).2 h)
      · exact Or.inr h.symm
  · simp only
    split
    · rw [List.nodup_append]
      refine ⟨hK.aliases_nodup, List.nodup_singleton _, ?_⟩
      intro a ha hb
      simp only [List.mem_singleton] at hb
      subst hb
      exact hnotin ha
    · exact hK.aliases_nodup
  · intro it hit
    simp only at hit
    have hold : it ∈ st.nodes_shared_non_master →
        ∃ k item, it = some (s0.rows.length + k) ∧ (items ++ [x])[k]? = some item ∧
          0 < item.read_master_id U := by
      intro h
      obtain ⟨k, item, hk, hitem, hm⟩ := hK.aliases_valid it h
      exact ⟨k, item, hk,
        by rw [List.getElem?_append_left (getElem?_lt_of_some hitem)]; exact hitem, hm⟩
    split at hit
    · rename_i hm
      simp only [List.mem_append, List.mem_singleton] at hit
      rcases hit with h | h
      · exact hold h
      · exact ⟨items.length, x, by rw [h, hlen], getElem?_append_singleton_eq _ _, hm⟩
    · exact hold hit
  · intro k item hitem hm
    simp only
    rcases getElem?_append_singleton _ _ _ _ hitem with ⟨_, h⟩ | ⟨hk, hx⟩
    · have := hK.aliases_mem k item h hm
      split
      · exact List.mem_append_left _ this
      · exact this
    · subst hx
      have hm' : 0 < U.gint64_from_gstring (item.xml_element.get_attribute_value "master_id") :=
        hm
      simp only [hm', if_true, List.mem_append, List.mem_singleton]
      right
      rw [hk, hlen]
  · simp only
    have e : (CtTreeStore.mk (st.store.rows ++ [CtTreeRow.mk d x.parent_iter])
        st.store.bookmarks).node_ids = st.store.node_ids ++ [d.nodeId] := hids' _ rfl
    rw [hK.pending, e, List.drop_append_of_le_length (by omega)]
    simp [List.append_assoc]

theorem ImportInv.import_foldl (U : CtEnv) (s0 : CtTreeStore) (pending0 : List PendingChange)
    (delayed0 : CtDelayedTextBufferMap) (halloc : ∀ ids, U.node_id_get ids ≠ -1)
    (post : List WalkItem) :
    ∀ (pre : List WalkItem) (st : ImportState), ImportInv U s0 pending0 delayed0 pre st →
      (∀ x ∈ post, decodable_content U x.xml_element) →
      ImportInv U s0 pending0 delayed0 (pre ++ post)
        (post.foldl (walk_step (import_node U false)) st) := by
  induction post with
  | nil =>
    intro pre st hK _
    simpa using hK
  | cons x rest ih =>
    intro pre st hK hwf
    have h1 := ImportInv.import_step U s0 pending0 delayed0 pre st x hK
      (hwf x (List.mem_cons_self _ _)) halloc
    have h2 := ih (pre ++ [x]) _ h1 (fun y hy => hwf y (List.mem_cons_of_mem _ hy))
    simpa [List.append_assoc] using h2

/-- When the declared ids are pairwise distinct the remap sends the declared id of every
element to the new id of its node. -/
theorem ImportInv.remap_find_nodup {U : CtEnv} {s0 : CtTreeStore}
    {pending0 : List PendingChange} {delayed0 : CtDelayedTextBufferMap}
    {items : List WalkItem} {st : ImportState}
    (hK : ImportInv U s0 pending0 delayed0 items st)
    (hnd : (items.map (WalkItem.read_id U)).Nodup) (k : Nat) (item : WalkItem)
    (row : CtTreeRow) (hitem : items[k]? = some item)
    (hrow : st.store.rows[s0.rows.length + k]? = some row) :
    st.imported_ids_remap.find (item.read_id U) = some row.data.nodeId := by
  apply hK.remap_find k item row hitem hrow
  intro hmem
  obtain ⟨y, hy, hid⟩ := List.mem_map.1 hmem
  rw [List.mem_iff_getElem?] at hy
  obtain ⟨m, hm⟩ := hy
  rw [List.getElem?_drop] at hm
  rw [List.nodup_iff_getElem?_ne_getElem?] at hnd
  have hlt : k + 1 + m < items.length := getElem?_lt_of_some hm
  apply hnd k (k + 1 + m) (by omega) (by simpa using hlt)
  rw [List.getElem?_map, List.getElem?_map, hitem, hm]
  simp only [Option.map_some', hid]

/-! ## The elements of the walk do not depend on the store -/

mutual
theorem walk_items_elements (a a' : Bool) :
    ∀ (el : XmlNode) (n n' : Nat) (seq seq' : Int) (p p' : TreeIter),
      (walk_items a n el seq p).map (fun item => item.xml_element)
        = (walk_items a' n' el seq' p').map (fun item => item.xml_element)
  | .element name attrs children, n, n', seq, seq', p, p' => by
    rw [walk_items, walk_items, List.map_cons, List.map_cons]
    rw [walk_items_children_elements a a' children _ (if a' then n' + 1 else n') 0 0
      _ (if a' then some n' else none)]
  | .text content, n, n', seq, seq', p, p' => by
    rw [walk_items, walk_items]
    rfl
theorem walk_items_children_elements (a a' : Bool) :
    ∀ (cs : List XmlNode) (n n' : Nat) (k k' : Int) (it it' : TreeIter),
      (walk_items_children a n cs k it).map (fun item => item.xml_element)
        = (walk_items_children a' n' cs k' it').map (fun item => item.xml_element)
  | [], n, n', k, k', it, it' => by
    rw [walk_items_children, walk_items_children]
  | c :: cs, n, n', k, k', it, it' => by
    rw [walk_items_children, walk_items_children]
    by_cases hn : (c.get_name == "node") = true
    · simp only [hn, if_true, List.map_append]
      rw [walk_items_elements a a' c n n' (k + 1) (k' + 1) it it',
        walk_items_children_elements a a' cs _ (if a' then n' + count_nodes c else n')
          (k + 1) (k' + 1) it it']
    · simp only [hn]
      exact walk_items_children_elements a a' cs n n' k k' it it'
end

theorem document_items_elements (n : Nat) (root : XmlNode) (p : TreeIter) :
    (document_items n root p).map (fun item => item.xml_element) = node_elements root :=
  walk_items_children_elements true true root.get_children_all n 0 0 0 p none

theorem document_items_decodable (U : CtEnv) (n : Nat) (root : XmlNode) (p : TreeIter)
    (hwf : well_formed_document U root) :
    ∀ x ∈ document_items n root p, decodable_content U x.xml_element := by
  intro x hx
  apply hwf
  rw [← document_items_elements n root p]
  exact List.mem_map.2 ⟨x, hx, rfl⟩

/-! ## The loop of `import_nodes` over the shared non-master nodes -/

theorem import_remap_shared_getElem? (remap : CtMap Int) (s : CtTreeStore) (p j : Nat) :
    (import_remap_shared remap s (some p)).rows[j]?
      = if p = j then
          (s.rows[j]?).map (fun r =>
            match remap.find r.data.sharedNodesMasterId with
            | none => r
            | some v =>
              { r with data := (CtTreeStore.displayed_data
                  (s.set_node_shared_master_id (some p) v)
                  ({ r.data with sharedNodesMasterId := v })) })
        else s.rows[j]? := by
  unfold import_remap_shared CtTreeStore.get_node_shared_master_id
  simp only [CtTreeStore.row]
  cases hr : s.rows[p]? with
  | none =>
    simp only
    cases hf : remap.find 0 with
    | none =>
      simp only
      by_cases h : p = j
      · subst h
        simp [hr]
      · simp [h]
    | some v =>
      simp only
      rw [CtTreeStore.update_node_data, modify_data_getElem?, CtTreeStore.set_node_shared_master_id,
        modify_data_getElem?]
      by_cases h : p = j
      · subst h
        simp [hr]
      · simp [h]
  | some r =>
    simp only
    cases hf : remap.find r.data.sharedNodesMasterId with
    | none =>
      simp only
      by_cases h : p = j
      · subst h
        simp [hr, hf]
      · simp [h]
    | some v =>
      simp only
      rw [CtTreeStore.update_node_data, modify_data_getElem?]
      by_cases h : p = j
      · subst h
        have h1 : (s.set_node_shared_master_id (some p) v).rows[p]?
            = some { r with data := { r.data with sharedNodesMasterId := v } } := by
          rw [CtTreeStore.set_node_shared_master_id, modify_data_getElem?]
          simp [hr]
        simp only [if_true, h1, Option.map_some', hr, hf, CtTreeStore.get_node_data,
          CtTreeStore.row]
      · simp only [h, if_false]
        rw [CtTreeStore.set_node_shared_master_id, modify_data_getElem?]
        simp [h]

theorem import_remap_shared_none (remap : CtMap Int) (s : CtTreeStore) :
    import_remap_shared remap s none = s ∨
      (import_remap_shared remap s none).rows = s.rows := by
  unfold import_remap_shared
  dsimp only
  cases h : remap.find (s.get_node_shared_master_id none) with
  | none => left; rfl
  | some v => right; rfl

theorem import_shared_foldl_cons (remap : CtMap Int) (a : TreeIter) (rest : List TreeIter)
    (s : CtTreeStore) :
    (a :: rest).foldl (import_remap_shared remap) s
      = rest.foldl (import_remap_shared remap) (import_remap_shared remap s a) := rfl

theorem import_remap_shared_other (remap : CtMap Int) (s : CtTreeStore) (a : TreeIter)
    (j : Nat) (h : a ≠ some j) : (import_remap_shared remap s a).rows[j]? = s.rows[j]? := by
  cases a with
  | none =>
    rcases import_remap_shared_none remap s with e | e <;> rw [e]
  | some p =>
    rw [import_remap_shared_getElem?]
    have : p ≠ j := fun e => h (by rw [e])
    simp [this]

/-- A row that is not listed is left alone. -/
theorem import_shared_frame (remap : CtMap Int) (A : List TreeIter) (j : Nat)
    (hj : some j ∉ A) :
    ∀ s : CtTreeStore, (A.foldl (import_remap_shared remap) s).rows[j]? = s.rows[j]? := by
  induction A with
  | nil => intro s; rfl
  | cons a rest ih =>
    intro s
    simp only [List.mem_cons, not_or] at hj
    rw [import_shared_foldl_cons, ih hj.2]
    exact import_remap_shared_other remap s a j (fun e => hj.1 e.symm)

/-- Every row keeps its parent and its id. -/
theorem import_shared_shape (remap : CtMap Int) (A : List TreeIter) (j : Nat) :
    ∀ (s : CtTreeStore) (r : CtTreeRow), s.rows[j]? = some r →
      ∃ d, (A.foldl (import_remap_shared remap) s).rows[j]? = some { r with data := d } ∧
        d.nodeId = r.data.nodeId := by
  induction A with
  | nil => intro s r h; exact ⟨r.data, h, rfl⟩
  | cons a rest ih =>
    intro s r h
    rw [import_shared_foldl_cons]
    have h1 : ∃ d, (import_remap_shared remap s a).rows[j]? = some { r with data := d } ∧
        d.nodeId = r.data.nodeId := by
      by_cases ha : a = some j
      · subst ha
        rw [import_remap_shared_getElem?]
        simp only [if_true, h, Option.map_some']
        cases remap.find r.data.sharedNodesMasterId with
        | none => exact ⟨r.data, rfl, rfl⟩
        | some v => exact ⟨_, rfl, displayed_data_nodeId _ _⟩
      · rw [import_remap_shared_other remap s a j ha]
        exact ⟨r.data, h, rfl⟩
    obtain ⟨d, hd, e⟩ := h1
    obtain ⟨d', hd', e'⟩ := ih _ _ hd
    exact ⟨d', hd', e'.trans e⟩

/-- A listed alias whose master id is in the remap ends with the remapped master id; one
whose master id is not in the remap is left alone. -/
theorem import_shared_row (remap : CtMap Int) (A : List TreeIter) (p : Nat) :
    ∀ (s : CtTreeStore) (r : CtTreeRow), A.Nodup → some p ∈ A → s.rows[p]? = some r →
      (∀ v, remap.find r.data.sharedNodesMasterId = some v →
        ∃ row, (A.foldl (import_remap_shared remap) s).rows[p]? = some row ∧
          row.data.sharedNodesMasterId = v ∧ row.data.nodeId = r.data.nodeId) ∧
      (remap.find r.data.sharedNodesMasterId = none →
        (A.foldl (import_remap_shared remap) s).rows[p]? = some r) := by
  induction A with
  | nil => intro s r _ h; simp at h
  | cons a rest ih =>
    intro s r hnd hmem hr
    rw [List.nodup_cons] at hnd
    rw [import_shared_foldl_cons]
    by_cases ha : a = some p
    · subst ha
      have hframe := import_shared_frame remap rest p hnd.1 (import_remap_shared remap s (some p))
      rw [hframe, import_remap_shared_getElem?]
      simp only [if_true, hr, Option.map_some']
      constructor
      · intro v hv
        rw [hv]
        exact ⟨_, rfl, displayed_data_master _ _, displayed_data_nodeId _ _⟩
      · intro hv
        rw [hv]
    · have hmem' : some p ∈ rest := by
        simp only [List.mem_cons] at hmem
        rcases hmem with h | h
        · exact absurd h.symm ha
        · exact h
      exact ih _ r hnd.2 hmem' (by rw [import_remap_shared_other remap s a p ha]; exact hr)

theorem import_shared_node_ids (remap : CtMap Int) (A : List TreeIter) (s : CtTreeStore) :
    (A.foldl (import_remap_shared remap) s).node_ids = s.node_ids := by
  apply List.ext_getElem?
  intro j
  rw [node_ids_getElem?, node_ids_getElem?]
  cases hr : s.rows[j]? with
  | none =>
    have : ∀ (A : List TreeIter) (s : CtTreeStore), s.rows[j]? = none →
        (A.foldl (import_remap_shared remap) s).rows[j]? = none := by
      intro A
      induction A with
      | nil => intro s h; exact h
      | cons a rest ih =>
        intro s h
        rw [import_shared_foldl_cons]
        apply ih
        by_cases ha : a = some j
        · subst ha
          rw [import_remap_shared_getElem?]
          simp [h]
        · rw [import_remap_shared_other remap s a j ha]
          exact h
    rw [this A s hr]
  | some r =>
    obtain ⟨d, hd, e⟩ := import_shared_shape remap A j s r hr
    rw [hd]
    simp [e]

/-! ## Import -/

theorem document_items_read_ids (U : CtEnv) (n : Nat) (root : XmlNode) (p : TreeIter) :
    (document_items n root p).map (WalkItem.read_id U) = declared_ids U root := by
  unfold declared_ids
  rw [← document_items_elements n root p, List.map_map]
  rfl

/-- The state of `import_nodes` after the walk. -/
theorem import_walk_inv (U : CtEnv) (root : XmlNode) (store : CtTreeStore)
    (delayed : CtDelayedTextBufferMap) (pending : List PendingChange) (parent_iter : TreeIter)
    (hwf : well_formed_document U root) (halloc : ∀ ids, U.node_id_get ids ≠ -1) :
    ImportInv U store pending delayed (document_items store.rows.length root parent_iter)
      (import_f_nodes_from_xml_children U false root.get_children_all 0 parent_iter
        { store := store
          delayed_text_buffers := delayed
          pending := pending
          nodes_shared_non_master := []
          imported_ids_remap := []
          thrown := none }) := by
  rw [import_f_nodes_from_xml_children_eq_foldl]
  have := ImportInv.import_foldl U store pending delayed halloc
    (document_items store.rows.length root parent_iter) [] _
    (ImportInv.import_init U store pending delayed)
    (document_items_decodable U _ root parent_iter hwf)
  simpa [document_items] using this

/-- C5. Import remap: when a foreign document whose node elements declare pairwise
distinct ids is imported (its content decodable, the allocator returning an id that no
node has and never the marker -1), the import completes and every node element has
become one node under the parent the walk gives it. The id of each imported node is the
value of the allocator for the tree at that moment, whatever id the element declares,
and no earlier node has it; the remap sends the declared id to this new id; and an alias
whose declared master id is the declared id of an imported element ends with the new id
of that element as its master id, whether it stands before or after it. -/
theorem import_nodes_remap (U : CtEnv) (root : XmlNode) (filepath : String)
    (store : CtTreeStore) (delayed : CtDelayedTextBufferMap) (pending : List PendingChange)
    (parent_iter : TreeIter)
    (hparse : get_parser_root_node U filepath = .ok root)
    (hwf : well_formed_document U root)
    (halloc : ∀ ids, U.node_id_get ids ∉ ids ∧ U.node_id_get ids ≠ -1)
    (hnd : (declared_ids U root).Nodup) :
    (import_nodes U false store delayed pending filepath parent_iter).thrown = none ∧
    (import_nodes U false store delayed pending filepath parent_iter).store.rows.length
      = store.rows.length + (node_elements root).length ∧
    ∀ k item, (document_items store.rows.length root parent_iter)[k]? = some item →
      ∃ row,
        (import_nodes U false store delayed pending filepath parent_iter).store.rows[
          store.rows.length + k]? = some row ∧
        row.parent = item.parent_iter ∧
        row.data.nodeId = U.node_id_get
          ((import_nodes U false store delayed pending filepath parent_iter).store.node_ids.take
            (store.rows.length + k)) ∧
        row.data.nodeId ∉
          (import_nodes U false store delayed pending filepath parent_iter).store.node_ids.take
            (store.rows.length + k) ∧
        (import_nodes U false store delayed pending filepath parent_iter).imported_ids_remap.find
          (item.read_id U) = some row.data.nodeId ∧
        (0 < item.read_master_id U →
          ∀ j item_j, (document_items store.rows.length root parent_iter)[j]? = some item_j →
            item_j.read_id U = item.read_master_id U →
            ∃ row_j,
              (import_nodes U false store delayed pending filepath parent_iter).store.rows[
                store.rows.length + j]? = some row_j ∧
              row.data.sharedNodesMasterId = row_j.data.nodeId) := by
  have hK := import_walk_inv U root store delayed pending parent_iter hwf
    (fun ids => (halloc ids).2)
  have hnd' : ((document_items store.rows.length root parent_iter).map
      (WalkItem.read_id U)).Nodup := by
    rw [document_items_read_ids]
    exact hnd
  generalize hst : import_f_nodes_from_xml_children U false root.get_children_all 0 parent_iter
      { store := store, delayed_text_buffers := delayed, pending := pending,
        nodes_shared_non_master := [], imported_ids_remap := [], thrown := none } = st at hK
  have hres : import_nodes U false store delayed pending filepath parent_iter
      = { thrown := none
          store := st.nodes_shared_non_master.foldl (import_remap_shared st.imported_ids_remap)
            st.store
          delayed_text_buffers := st.delayed_text_buffers
          pending := st.pending
          imported_ids_remap := st.imported_ids_remap } := by
    unfold import_nodes import_from_root
    simp only [hparse, hst, hK.thrown]
  rw [hres]
  have hids := import_shared_node_ids st.imported_ids_remap st.nodes_shared_non_master st.store
  have hrow_exists : ∀ k item,
      (document_items store.rows.length root parent_iter)[k]? = some item →
      ∃ row, st.store.rows[store.rows.length + k]? = some row := by
    intro k item h
    have := getElem?_lt_of_some h
    exact ⟨_, List.getElem?_eq_getElem (by rw [hK.length]; omega)⟩
  refine ⟨rfl, ?_, ?_⟩
  · simp only
    rw [← node_ids_length, hids, node_ids_length, hK.length, ← document_items_elements
      store.rows.length root parent_iter, List.length_map]
  · intro k item hitem
    simp only
    obtain ⟨rk, hrk⟩ := hrow_exists k item hitem
    obtain ⟨hpar, hid, heager⟩ := hK.rows k item rk hitem hrk
    obtain ⟨d, hd, hdid⟩ := import_shared_shape st.imported_ids_remap
      st.nodes_shared_non_master _ st.store rk hrk
    refine ⟨_, hd, hpar, ?_, ?_, ?_, ?_⟩
    · show d.nodeId = _
      rw [hdid, hids]
      exact hid
    · show d.nodeId ∉ _
      rw [hdid, hids, hid]
      exact (halloc _).1
    · show _ = some d.nodeId
      rw [hdid]
      exact hK.remap_find_nodup hnd' k item rk hitem hrk
    · intro hM j item_j hj hjid
      obtain ⟨rj, hrj⟩ := hrow_exists j item_j hj
      obtain ⟨dj, hdj, hdjid⟩ := import_shared_shape st.imported_ids_remap
        st.nodes_shared_non_master _ st.store rj hrj
      have hfind : st.imported_ids_remap.find rk.data.sharedNodesMasterId
          = some rj.data.nodeId := by
        have : rk.data.sharedNodesMasterId = item.read_master_id U :=
          eager_node_data_master U _ _ _ _ _ heager
        rw [this, ← hjid]
        exact hK.remap_find_nodup hnd' j item_j rj hj hrj
      obtain ⟨row, hrow, hm, _⟩ := (import_shared_row st.imported_ids_remap
        st.nodes_shared_non_master _ st.store rk hK.aliases_nodup
        (hK.aliases_mem k item hitem hM) hrk).1 _ hfind
      rw [hd] at hrow
      simp only [Option.some.injEq] at hrow
      refine ⟨_, hdj, ?_⟩
      show d.sharedNodesMasterId = dj.nodeId
      rw [hdjid, ← hm, ← hrow]

theorem sample_foreign_document_well_formed (U : CtEnv) :
    well_formed_document U sample_foreign_document := by
  intro el hel
  have : node_elements sample_foreign_document
      = [sample_node_element "10" "0" "M" "m" [],
         .element "node" [("unique_id", "11"), ("master_id", "10")] []] := rfl
  rw [this] at hel
  simp only [List.mem_cons, List.mem_singleton, List.not_mem_nil, or_false] at hel
  rcases hel with h | h <;> subst h <;> exact ⟨_, rfl⟩

theorem sample_allocator_not_marker (ids : List Int) : CtEnv.sample.node_id_get ids ≠ -1 := by
  have hle : ∀ (l : List Int) (a : Int), a ≤ l.foldl max a := by
    intro l
    induction l with
    | nil => intro a; simp
    | cons y rest ih =>
      intro a
      exact le_trans (le_max_left a y) (ih (max a y))
  have := hle ids 0
  simp only [CtEnv.sample]
  omega

/-- C5 at the scenario of the spec: the foreign master 10 and its alias 11 are imported
under the only node (id 99) of the local store; they become the nodes 100 and 101, the
remap is 10 -> 100, 11 -> 101, and node 101 has the master id 100. -/
theorem import_nodes_remap_witness :
    (import_nodes (CtEnv.sample_with sample_foreign_document) false sample_local_store [] []
      "foreign.ctd" (some 0)).thrown = none ∧
    (import_nodes (CtEnv.sample_with sample_foreign_document) false sample_local_store [] []
      "foreign.ctd" (some 0)).store.node_ids = [99, 100, 101] ∧
    (import_nodes (CtEnv.sample_with sample_foreign_document) false sample_local_store [] []
      "foreign.ctd" (some 0)).imported_ids_remap = [(10, 100), (11, 101)] ∧
    (import_nodes (CtEnv.sample_with sample_foreign_document) false sample_local_store [] []
      "foreign.ctd" (some 0)).store.rows.map (fun r => r.data.sharedNodesMasterId)
      = [0, 0, 100] :=
  ⟨(import_nodes_remap (CtEnv.sample_with sample_foreign_document) sample_foreign_document
      "foreign.ctd" sample_local_store [] [] (some 0) rfl
      (sample_foreign_document_well_formed _)
      (fun ids => ⟨sample_allocator_fresh ids, sample_allocator_not_marker ids⟩)
      (by decide)).1,
   by decide, by decide, by decide⟩

/-! ## Encoding a tree -/

mutual
/-- When the content of every node can be retrieved `_nodes_to_xml` returns the expected
element. -/
theorem nodes_to_xml_eq_encode (U : CtEnv) (export_type : CtExporting)
    (reassign : Option (CtMap Int)) (start_offset end_offset : Int) :
    ∀ (t : CtTreeNode), content_available t = true →
      _nodes_to_xml U export_type reassign start_offset end_offset t
        = .ok (encode_node U export_type reassign start_offset end_offset t)
  | .node data children, h => by
    rw [content_available, Bool.and_eq_true] at h
    obtain ⟨buffer, hbuf⟩ := Option.isSome_iff_exists.1 h.1
    have ih := nodes_to_xml_siblings_eq_encode U export_type reassign start_offset end_offset
      children h.2
    rw [_nodes_to_xml, encode_node]
    simp only [hbuf, Option.getD_some]
    by_cases hm : 0 < export_master_id data.nodeId data.sharedNodesMasterId export_type reassign
    · rw [node_to_xml_alias U data "" export_type reassign start_offset end_offset hm]
      simp only [hm, if_true, ih]
      split <;> simp [add_children_element]
    · rw [node_to_xml_owner U data "" export_type reassign start_offset end_offset buffer
        (by omega) hbuf]
      simp only [hm, if_false, ih]
      split <;> simp [add_children_element]
theorem nodes_to_xml_siblings_eq_encode (U : CtEnv) (export_type : CtExporting)
    (reassign : Option (CtMap Int)) (start_offset end_offset : Int) :
    ∀ (ts : List CtTreeNode), content_available_all ts = true →
      _nodes_to_xml_siblings U export_type reassign start_offset end_offset ts
        = .ok (encode_nodes U export_type reassign start_offset end_offset ts)
  | [], _ => by
    rw [_nodes_to_xml_siblings, encode_nodes]
  | t :: rest, h => by
    rw [content_available_all, Bool.and_eq_true] at h
    rw [_nodes_to_xml_siblings, encode_nodes,
      nodes_to_xml_eq_encode U export_type reassign start_offset end_offset t h.1,
      nodes_to_xml_siblings_eq_encode U export_type reassign start_offset end_offset rest h.2]
end

theorem encode_nodes_length (U : CtEnv) (export_type : CtExporting)
    (reassign : Option (CtMap Int)) (start_offset end_offset : Int) (ts : List CtTreeNode) :
    (encode_nodes U export_type reassign start_offset end_offset ts).length = ts.length := by
  induction ts with
  | nil => rw [encode_nodes]; rfl
  | cons t rest ih => rw [encode_nodes, List.length_cons, List.length_cons, ih]

theorem encode_nodes_getElem? (U : CtEnv) (export_type : CtExporting)
    (reassign : Option (CtMap Int)) (start_offset end_offset : Int) (ts : List CtTreeNode)
    (i : Nat) :
    (encode_nodes U export_type reassign start_offset end_offset ts)[i]?
      = (ts[i]?).map (encode_node U export_type reassign start_offset end_offset) := by
  induction ts generalizing i with
  | nil => rw [encode_nodes]; rfl
  | cons t rest ih =>
    rw [encode_nodes]
    cases i with
    | zero => simp
    | succ i => simp only [List.getElem?_cons_succ, ih]

theorem encode_node_name (U : CtEnv) (export_type : CtExporting)
    (reassign : Option (CtMap Int)) (start_offset end_offset : Int) (t : CtTreeNode) :
    (encode_node U export_type reassign start_offset end_offset t).get_name = "node" := by
  cases t with
  | node data children => rw [encode_node]; rfl

theorem encode_node_unique_id (U : CtEnv) (export_type : CtExporting)
    (reassign : Option (CtMap Int)) (start_offset end_offset : Int) (t : CtTreeNode) :
    (encode_node U export_type reassign start_offset end_offset t).get_attribute_value
      "unique_id" = to_string t.data.nodeId := by
  cases t with
  | node data children =>
    rw [encode_node]
    simp only [XmlNode.get_attribute_value, XmlNode.get_attributes, CtTreeNode.data]
    split <;> simp [alias_attributes, owner_attributes, XmlNode.attr_value]

theorem filter_encode_nodes_node (U : CtEnv) (export_type : CtExporting)
    (reassign : Option (CtMap Int)) (start_offset end_offset : Int) (ts : List CtTreeNode) :
    (encode_nodes U export_type reassign start_offset end_offset ts).filter
        (fun c => c.get_name == "node")
      = encode_nodes U export_type reassign start_offset end_offset ts := by
  induction ts with
  | nil => rw [encode_nodes]; rfl
  | cons t rest ih =>
    rw [encode_nodes, List.filter_cons]
    simp only [encode_node_name, beq_self_eq_true, if_true, ih]

theorem filter_encode_nodes_bookmarks (U : CtEnv) (export_type : CtExporting)
    (reassign : Option (CtMap Int)) (start_offset end_offset : Int) (ts : List CtTreeNode) :
    (encode_nodes U export_type reassign start_offset end_offset ts).filter
        (fun c => c.get_name == "bookmarks") = [] := by
  induction ts with
  | nil => rw [encode_nodes]; rfl
  | cons t rest ih =>
    rw [encode_nodes, List.filter_cons]
    have : ("node" == "bookmarks") = false := by decide
    simp only [encode_node_name, this, Bool.false_eq_true, if_false, ih]

/-! ## Claims on `save_treestore` -/

theorem nodes_to_xml_name (U : CtEnv) (export_type : CtExporting)
    (reassign : Option (CtMap Int)) (start_offset end_offset : Int) (t : CtTreeNode)
    (e : XmlNode)
    (h : _nodes_to_xml U export_type reassign start_offset end_offset t = .ok e) :
    e.get_name = "node" := by
  cases t with
  | node data children =>
    rw [_nodes_to_xml] at h
    cases hbuf : data.pTextBuffer with
    | none => simp [hbuf] at h
    | some buffer =>
      simp only [hbuf] at h
      have hp : ∃ a cs, node_to_xml U data "" export_type reassign start_offset end_offset
          = .ok (.element "node" a cs) := by
        by_cases hm : 0 < export_master_id data.nodeId data.sharedNodesMasterId export_type
            reassign
        · exact ⟨_, _, node_to_xml_alias U data "" export_type reassign start_offset end_offset hm⟩
        · exact ⟨_, _, node_to_xml_owner U data "" export_type reassign start_offset end_offset
            buffer (by omega) hbuf⟩
      obtain ⟨a, cs, hp⟩ := hp
      rw [hp] at h
      simp only at h
      split at h
      · cases hs : _nodes_to_xml_siblings U export_type reassign start_offset end_offset
            children with
        | error err => rw [hs] at h; cases h
        | ok els =>
          rw [hs] at h
          simp only [Except.ok.injEq] at h
          rw [← h]
          rfl
      · simp only [Except.ok.injEq] at h
        rw [← h]
        rfl

/-- The end of `save_treestore` once the document is built: the write decides. -/
theorem save_treestore_of_document (U : CtEnv) (win : CtMainWin) (file_path : String)
    (pending : List PendingChange) (error : String) (export_type : CtExporting)
    (reassign : Option (CtMap Int)) (start_offset end_offset : Int) (root : XmlNode)
    (hdoc : save_document U win export_type reassign start_offset end_offset = .ok root) :
    (U.write_to_file_formatted file_path root = none →
      save_treestore U win file_path pending error export_type reassign start_offset
          end_offset
        = .ok { ret := true, error := error, written := some (file_path, root) }) ∧
    (∀ what, U.write_to_file_formatted file_path root = some what →
      save_treestore U win file_path pending error export_type reassign start_offset
          end_offset
        = .ok { ret := false, error := what, written := none }) := by
  unfold save_treestore
  rw [hdoc]
  refine ⟨fun h => ?_, fun what h => ?_⟩ <;> simp only [h]

/-- A document is written only when it was built and the write did not throw. -/
theorem save_treestore_written (U : CtEnv) (win : CtMainWin) (file_path : String)
    (pending : List PendingChange) (error : String) (export_type : CtExporting)
    (reassign : Option (CtMap Int)) (start_offset end_offset : Int) (r : SaveResult)
    (path : String) (root : XmlNode)
    (hsave : save_treestore U win file_path pending error export_type reassign start_offset
      end_offset = .ok r)
    (hwritten : r.written = some (path, root)) :
    save_document U win export_type reassign start_offset end_offset = .ok root ∧
      U.write_to_file_formatted file_path root = none ∧ path = file_path ∧ r.ret = true ∧
      r.error = error := by
  unfold save_treestore at hsave
  cases hdoc : save_document U win export_type reassign start_offset end_offset with
  | error err =>
    rw [hdoc] at hsave
    cases err with
    | exn what =>
      simp only [Except.ok.injEq] at hsave
      rw [← hsave] at hwritten
      cases hwritten
    | undefined what => cases hsave
  | ok built =>
    rw [hdoc] at hsave
    simp only at hsave
    cases hwrite : U.write_to_file_formatted file_path built with
    | some what =>
      rw [hwrite] at hsave
      simp only [Except.ok.injEq] at hsave
      rw [← hsave] at hwritten
      cases hwritten
    | none =>
      rw [hwrite] at hsave
      simp only [Except.ok.injEq] at hsave
      rw [← hsave] at hwritten ⊢
      simp only [Option.some.injEq, Prod.mk.injEq] at hwritten
      obtain ⟨h1, h2⟩ := hwritten
      subst h2
      exact ⟨rfl, hwrite, h1.symm, rfl, rfl⟩

/-- The document of a whole-document save of a tree whose content can be retrieved. -/
theorem save_document_whole_available (U : CtEnv) (win : CtMainWin)
    (export_type : CtExporting) (reassign : Option (CtMap Int))
    (start_offset end_offset : Int) (hw : is_whole_document export_type = true)
    (hav : content_available_all win.tree = true) :
    save_document U win export_type reassign start_offset end_offset
      = .ok (.element U.APP_NAME []
          (bookmarks_element win.bookmarks ::
            encode_nodes U export_type reassign start_offset end_offset win.tree)) := by
  unfold save_document
  simp only [hw, if_true,
    nodes_to_xml_siblings_eq_encode U export_type reassign start_offset end_offset win.tree
      hav]
  rfl

/-- The document of a save of the current node when its content can be retrieved. -/
theorem save_document_current_available (U : CtEnv) (win : CtMainWin)
    (export_type : CtExporting) (reassign : Option (CtMap Int))
    (start_offset end_offset : Int) (t : CtTreeNode)
    (hw : is_whole_document export_type = false) (hcur : win.curr_tree_iter = some t)
    (hav : content_available t = true) :
    save_document U win export_type reassign start_offset end_offset
      = .ok (.element U.APP_NAME []
          [encode_node U export_type reassign start_offset end_offset t]) := by
  unfold save_document
  simp only [hw, Bool.false_eq_true, if_false, hcur,
    nodes_to_xml_eq_encode U export_type reassign start_offset end_offset t hav]
  rfl

/-- With a scope that is not the whole document, the document built has no `bookmarks`
element. -/
theorem save_document_no_bookmarks (U : CtEnv) (win : CtMainWin) (export_type : CtExporting)
    (reassign : Option (CtMap Int)) (start_offset end_offset : Int) (root : XmlNode)
    (hw : is_whole_document export_type = false)
    (hdoc : save_document U win export_type reassign start_offset end_offset = .ok root) :
    root.get_children "bookmarks" = [] := by
  unfold save_document at hdoc
  simp only [hw, Bool.false_eq_true, if_false] at hdoc
  cases hc : win.curr_tree_iter with
  | none =>
    rw [hc] at hdoc
    cases hdoc
  | some t =>
    rw [hc] at hdoc
    simp only at hdoc
    cases hn : _nodes_to_xml U export_type reassign start_offset end_offset t with
    | error err =>
      rw [hn] at hdoc
      cases hdoc
    | ok e =>
      rw [hn] at hdoc
      simp only [Except.ok.injEq] at hdoc
      rw [← hdoc]
      have hname := nodes_to_xml_name U export_type reassign start_offset end_offset t e hn
      simp only [XmlNode.add_child, XmlNode.get_children, XmlNode.get_children_all,
        List.nil_append, List.filter_cons, hname]
      rfl

/-- C9. Bookmarks and top-level nodes on whole-document save. With a whole-document
scope (`NONESAVE`, `NONESAVEAS`, `ALL_TREE`), for every tree whose content can be
retrieved and every bookmark list, `save_treestore` builds a root element whose children
are one `bookmarks` element, with the bookmark ids in order joined by commas as its
`list`, and then one `node` element per top-level node in display order. This is the
document it hands to `write_to_file_formatted`: when the write returns, the function
returns true and this document is written; when the write throws, it returns false with
the message of the exception. With another scope the document built has no `bookmarks`
element; the root then holds the element of the current node alone. -/
theorem save_treestore_bookmarks_and_top_level (U : CtEnv) (win : CtMainWin)
    (file_path : String) (pending : List PendingChange) (error : String)
    (export_type : CtExporting) (reassign : Option (CtMap Int))
    (start_offset end_offset : Int) :
    (is_whole_document export_type = true → content_available_all win.tree = true →
      save_document U win export_type reassign start_offset end_offset
        = .ok (.element U.APP_NAME []
            (bookmarks_element win.bookmarks ::
              encode_nodes U export_type reassign start_offset end_offset win.tree)) ∧
      (U.write_to_file_formatted file_path (.element U.APP_NAME []
            (bookmarks_element win.bookmarks ::
              encode_nodes U export_type reassign start_offset end_offset win.tree)) = none →
        save_treestore U win file_path pending error export_type reassign start_offset
            end_offset
          = .ok { ret := true, error := error,
                  written := some (file_path, .element U.APP_NAME []
                    (bookmarks_element win.bookmarks ::
                      encode_nodes U export_type reassign start_offset end_offset
                        win.tree)) }) ∧
      (∀ what, U.write_to_file_formatted file_path (.element U.APP_NAME []
            (bookmarks_element win.bookmarks ::
              encode_nodes U export_type reassign start_offset end_offset win.tree))
          = some what →
        save_treestore U win file_path pending error export_type reassign start_offset
            end_offset
          = .ok { ret := false, error := what, written := none }) ∧
      (XmlNode.element U.APP_NAME []
          (bookmarks_element win.bookmarks ::
            encode_nodes U export_type reassign start_offset end_offset win.tree)).get_children
          "bookmarks" = [.element "bookmarks" [("list", join_numbers win.bookmarks ",")] []] ∧
      (XmlNode.element U.APP_NAME []
          (bookmarks_element win.bookmarks ::
            encode_nodes U export_type reassign start_offset end_offset win.tree)).get_children
          "node" = encode_nodes U export_type reassign start_offset end_offset win.tree ∧
      (encode_nodes U export_type reassign start_offset end_offset win.tree).length
        = win.tree.length ∧
      ∀ (i : Nat) (t : CtTreeNode), win.tree[i]? = some t →
        ∃ e : XmlNode,
          (encode_nodes U export_type reassign start_offset end_offset win.tree)[i]? = some e ∧
          e.get_name = "node" ∧ e.get_attribute_value "unique_id" = to_string t.data.nodeId) ∧
    (is_whole_document export_type = false →
      (∀ t, win.curr_tree_iter = some t → content_available t = true →
        save_document U win export_type reassign start_offset end_offset
          = .ok (.element U.APP_NAME []
              [encode_node U export_type reassign start_offset end_offset t]) ∧
        (U.write_to_file_formatted file_path (.element U.APP_NAME []
              [encode_node U export_type reassign start_offset end_offset t]) = none →
          save_treestore U win file_path pending error export_type reassign start_offset
              end_offset
            = .ok { ret := true, error := error,
                    written := some (file_path, .element U.APP_NAME []
                      [encode_node U export_type reassign start_offset end_offset t]) })) ∧
      (∀ root, save_document U win export_type reassign start_offset end_offset = .ok root →
        root.get_children "bookmarks" = []) ∧
      ∀ r path root,
        save_treestore U win file_path pending error export_type reassign start_offset
            end_offset = .ok r →
        r.written = some (path, root) → root.get_children "bookmarks" = []) := by
  refine ⟨?_, ?_⟩
  · intro hw hav
    have hdoc := save_document_whole_available U win export_type reassign start_offset
      end_offset hw hav
    have hend := save_treestore_of_document U win file_path pending error export_type
      reassign start_offset end_offset _ hdoc
    refine ⟨hdoc, hend.1, hend.2, ?_, ?_, encode_nodes_length _ _ _ _ _ _, ?_⟩
    · simp only [XmlNode.get_children, XmlNode.get_children_all, List.filter_cons,
        filter_encode_nodes_bookmarks, bookmarks_element]
      rfl
    · simp only [XmlNode.get_children, XmlNode.get_children_all, List.filter_cons,
        filter_encode_nodes_node, bookmarks_element]
      rfl
    · intro i t ht
      refine ⟨_, by rw [encode_nodes_getElem?, ht]; rfl, encode_node_name _ _ _ _ _ _,
        encode_node_unique_id _ _ _ _ _ _⟩
  · intro hw
    refine ⟨?_, ?_, ?_⟩
    · intro t ht hav
      have hdoc := save_document_current_available U win export_type reassign start_offset
        end_offset t hw ht hav
      exact ⟨hdoc, (save_treestore_of_document U win file_path pending error export_type
        reassign start_offset end_offset _ hdoc).1⟩
    · intro root hdoc
      exact save_document_no_bookmarks U win export_type reassign start_offset end_offset root
        hw hdoc
    · intro r path root hsave hwritten
      exact save_document_no_bookmarks U win export_type reassign start_offset end_offset root
        hw (save_treestore_written U win file_path pending error export_type reassign
          start_offset end_offset r path root hsave hwritten).1

/-- C9 at the scenario of the spec: the nodes 1, 2 (an alias of 1) and 3 with the
bookmark 3 are saved as a `bookmarks` element with `list="3"` and three `node` elements,
the second carrying its two ids only; and the same save to a file that cannot be written
returns false with the message of the write. -/
theorem save_treestore_bookmarks_and_top_level_witness :
    save_treestore CtEnv.sample sample_main_win "doc.ctd" [] "" CtExporting.NONESAVE none 0 (-1)
      = .ok { ret := true, error := "",
              written := some ("doc.ctd", .element "cherrytree" []
                (bookmarks_element [3] ::
                  encode_nodes CtEnv.sample CtExporting.NONESAVE none 0 (-1) sample_tree)) } ∧
    save_treestore CtEnv.sample_unwritable sample_main_win "no_such_dir/doc.ctd" [] ""
        CtExporting.NONESAVE none 0 (-1)
      = .ok { ret := false, error := "Failed to write document", written := none } ∧
    bookmarks_element [3] = .element "bookmarks" [("list", "3")] [] ∧
    (encode_nodes CtEnv.sample CtExporting.NONESAVE none 0 (-1) sample_tree).length = 3 ∧
    (encode_nodes CtEnv.sample CtExporting.NONESAVE none 0 (-1) sample_tree)[1]?
      = some (.element "node" [("unique_id", "2"), ("master_id", "1")] []) :=
  ⟨((save_treestore_bookmarks_and_top_level CtEnv.sample sample_main_win "doc.ctd" [] ""
      CtExporting.NONESAVE none 0 (-1)).1 rfl rfl).2.1 rfl,
   ((save_treestore_bookmarks_and_top_level CtEnv.sample_unwritable sample_main_win
      "no_such_dir/doc.ctd" [] "" CtExporting.NONESAVE none 0 (-1)).1 rfl rfl).2.2.1 _ rfl,
   rfl,
   ((save_treestore_bookmarks_and_top_level CtEnv.sample sample_main_win "doc.ctd" [] ""
      CtExporting.NONESAVE none 0 (-1)).1 rfl rfl).2.2.2.2.2.1,
   rfl⟩

/-! ## The node elements of a document, whatever stands between them -/

theorem node_skeleton_get_name (e : XmlNode) : (node_skeleton e).get_name = e.get_name := by
  cases e with
  | element name attrs children => rw [node_skeleton]; rfl
  | text content => rw [node_skeleton]

theorem node_skeleton_get_attributes (e : XmlNode) :
    (node_skeleton e).get_attributes = e.get_attributes := by
  cases e with
  | element name attrs children => rw [node_skeleton]; rfl
  | text content => rw [node_skeleton]

theorem node_skeleton_children_eq (a b : XmlNode) (hb : ∃ n attrs cs, b = .element n attrs cs)
    (h : node_skeleton a = node_skeleton b) :
    a.get_name = b.get_name ∧
    node_skeleton_children a.get_children_all = node_skeleton_children b.get_children_all := by
  obtain ⟨n, attrs, cs, rfl⟩ := hb
  cases a with
  | element name attrs children =>
    rw [node_skeleton, node_skeleton] at h
    simp only [XmlNode.element.injEq] at h
    exact ⟨h.1, h.2.2⟩
  | text content =>
    rw [node_skeleton, node_skeleton] at h
    cases h

mutual
theorem count_nodes_skeleton : ∀ (e : XmlNode), count_nodes (node_skeleton e) = count_nodes e
  | .element name attrs children => by
    rw [node_skeleton, count_nodes, count_nodes, count_nodes_children_skeleton children]
  | .text content => by
    rw [node_skeleton]
theorem count_nodes_children_skeleton :
    ∀ (cs : List XmlNode),
      count_nodes_children (node_skeleton_children cs) = count_nodes_children cs
  | [] => by
    rw [node_skeleton_children]
  | c :: cs => by
    rw [node_skeleton_children, count_nodes_children]
    by_cases hn : (c.get_name == "node") = true
    · simp only [hn, if_true]
      rw [count_nodes_children]
      simp only [node_skeleton_get_name, hn, if_true]
      rw [count_nodes_skeleton c, count_nodes_children_skeleton cs]
    · simp only [hn]
      exact count_nodes_children_skeleton cs
end

mutual
theorem walk_items_skeleton (appends : Bool) :
    ∀ (e : XmlNode) (n : Nat) (k : Int) (p : TreeIter),
      (walk_items appends n (node_skeleton e) k p).map WalkItem.header
        = (walk_items appends n e k p).map WalkItem.header
  | .element name attrs children, n, k, p => by
    rw [node_skeleton, walk_items, walk_items, List.map_cons, List.map_cons,
      walk_items_children_skeleton appends children]
    rfl
  | .text content, n, k, p => by
    rw [node_skeleton]
theorem walk_items_children_skeleton (appends : Bool) :
    ∀ (cs : List XmlNode) (n : Nat) (k : Int) (p : TreeIter),
      (walk_items_children appends n (node_skeleton_children cs) k p).map WalkItem.header
        = (walk_items_children appends n cs k p).map WalkItem.header
  | [], n, k, p => by
    rw [node_skeleton_children]
  | c :: cs, n, k, p => by
    rw [node_skeleton_children]
    by_cases hn : (c.get_name == "node") = true
    · simp only [hn, if_true]
      rw [walk_items_children, walk_items_children]
      simp only [node_skeleton_get_name, hn, if_true, List.map_append, count_nodes_skeleton]
      rw [walk_items_skeleton appends c, walk_items_children_skeleton appends cs]
    · have hn' : (c.get_name == "node") = false := by simpa using hn
      simp only [hn', Bool.false_eq_true, if_false]
      rw [walk_items_children_skeleton appends cs]
      conv => rhs; rw [walk_items_children]
      simp only [hn', Bool.false_eq_true, if_false]
end

theorem walk_items_children_skip (appends : Bool) (pre : List XmlNode)
    (hpre : ∀ e ∈ pre, e.get_name ≠ "node") :
    ∀ (cs : List XmlNode) (n : Nat) (k : Int) (p : TreeIter),
      walk_items_children appends n (pre ++ cs) k p = walk_items_children appends n cs k p := by
  induction pre with
  | nil => intro cs n k p; rfl
  | cons c rest ih =>
    intro cs n k p
    have hc : (c.get_name == "node") = false := by
      simpa using hpre c (List.mem_cons_self _ _)
    rw [List.cons_append, walk_items_children]
    simp only [hc, Bool.false_eq_true, if_false]
    exact ih (fun e he => hpre e (List.mem_cons_of_mem _ he)) cs n k p

theorem count_nodes_children_skip (pre : List XmlNode)
    (hpre : ∀ e ∈ pre, e.get_name ≠ "node") (cs : List XmlNode) :
    count_nodes_children (pre ++ cs) = count_nodes_children cs := by
  induction pre with
  | nil => rfl
  | cons c rest ih =>
    have hc : (c.get_name == "node") = false := by
      simpa using hpre c (List.mem_cons_self _ _)
    rw [List.cons_append, count_nodes_children]
    simp only [hc, Bool.false_eq_true, if_false]
    exact ih (fun e he => hpre e (List.mem_cons_of_mem _ he))

/-! ## The node elements of a saved tree -/

theorem export_master_id_whole_document (my_node_id master_id : Int)
    (export_type : CtExporting) (reassign : Option (CtMap Int))
    (hw : is_whole_document export_type = true) :
    export_master_id my_node_id master_id export_type reassign = master_id := by
  cases export_type <;> simp [is_whole_document] at hw <;> simp [export_master_id]

theorem content_to_xml_names (U : CtEnv) (data : CtNodeData) (buffer : CtTextBuffer)
    (dir : String) (start_offset end_offset : Int)
    (hwidgets : ∀ w off d, ∀ e ∈ U.widget_to_xml w off d, e.get_name ≠ "node") :
    ∀ e ∈ content_to_xml U data buffer dir start_offset end_offset, e.get_name ≠ "node" := by
  intro e he
  unfold content_to_xml at he
  rw [List.mem_append] at he
  rcases he with he | he
  · unfold save_buffer_no_widgets_to_xml at he
    obtain ⟨span, _, rfl⟩ := List.mem_map.1 he
    simp [rich_text_to_xml, XmlNode.get_name]
  · rw [List.mem_flatMap] at he
    obtain ⟨w, _, hw⟩ := he
    exact hwidgets _ _ _ e hw

/-! ## The walk over the document of a saved tree -/

mutual
/-- In the document of a whole-document save, the walk of `populate_treestore` over the
element of a subtree makes one call per node of the subtree, in display order, with the
attributes `node_to_xml` wrote, the sibling number and the parent of the node. -/
theorem walk_items_encode_node (U : CtEnv) (export_type : CtExporting)
    (reassign : Option (CtMap Int)) (start_offset end_offset : Int)
    (hw : is_whole_document export_type = true)
    (hwidgets : ∀ w off d, ∀ e ∈ U.widget_to_xml w off d, e.get_name ≠ "node") :
    ∀ (t : CtTreeNode) (n : Nat) (k : Int) (p : TreeIter),
      (walk_items true n (encode_node U export_type reassign start_offset end_offset t) k
          p).map WalkItem.header
        = (tree_places n k p t).map CtTreePlace.header ∧
      count_nodes (encode_node U export_type reassign start_offset end_offset t)
        = tree_size t
  | .node data children, n, k, p => by
    have ih := walk_items_encode_nodes U export_type reassign start_offset end_offset hw
      hwidgets children (n + 1) 0 (some n)
    have hscope : export_type ≠ CtExporting.CURRENT_NODE ∧
        export_type ≠ CtExporting.SELECTED_TEXT := by
      cases export_type <;> simp [is_whole_document] at hw <;> simp
    have hpre : ∀ e ∈ (if 0 < data.sharedNodesMasterId then []
        else content_to_xml U data (data.pTextBuffer.getD { ops := [] }) "" start_offset
          end_offset), e.get_name ≠ "node" := by
      intro e he
      split at he
      · cases he
      · exact content_to_xml_names U data _ "" start_offset end_offset hwidgets e he
    rw [encode_node, tree_places, tree_size]
    simp only [export_master_id_whole_document _ _ _ _ hw, hscope, ne_eq, not_false_eq_true,
      and_self, if_true]
    rw [walk_items, count_nodes, walk_items_children_skip true _ hpre,
      count_nodes_children_skip _ hpre, List.map_cons, List.map_cons]
    simp only [if_true]
    rw [ih.1, ih.2]
    exact ⟨rfl, rfl⟩
theorem walk_items_encode_nodes (U : CtEnv) (export_type : CtExporting)
    (reassign : Option (CtMap Int)) (start_offset end_offset : Int)
    (hw : is_whole_document export_type = true)
    (hwidgets : ∀ w off d, ∀ e ∈ U.widget_to_xml w off d, e.get_name ≠ "node") :
    ∀ (ts : List CtTreeNode) (n : Nat) (k : Int) (p : TreeIter),
      (walk_items_children true n
          (encode_nodes U export_type reassign start_offset end_offset ts) k p).map
          WalkItem.header
        = (tree_places_all n k p ts).map CtTreePlace.header ∧
      count_nodes_children (encode_nodes U export_type reassign start_offset end_offset ts)
        = tree_size_all ts
  | [], n, k, p => by
    rw [encode_nodes, tree_places_all, tree_size_all, walk_items_children,
      count_nodes_children]
    exact ⟨rfl, rfl⟩
  | t :: rest, n, k, p => by
    have ih1 := walk_items_encode_node U export_type reassign start_offset end_offset hw
      hwidgets t n (k + 1) p
    have ih2 := walk_items_encode_nodes U export_type reassign start_offset end_offset hw
      hwidgets rest (n + tree_size t) (k + 1) p
    have hname := encode_node_name U export_type reassign start_offset end_offset t
    rw [encode_nodes, tree_places_all, tree_size_all, walk_items_children,
      count_nodes_children]
    simp only [hname, beq_self_eq_true, if_true, List.map_append]
    rw [ih1.1, ih1.2, ih2.1, ih2.2]
    exact ⟨rfl, rfl⟩
end

/-- The walk over a document that has the node elements of the document of a
whole-document save: one call per node of the tree, in display order. -/
theorem document_items_saved (U : CtEnv) (export_type : CtExporting)
    (reassign : Option (CtMap Int)) (start_offset end_offset : Int) (win : CtMainWin)
    (parsed : XmlNode)
    (hw : is_whole_document export_type = true)
    (hwidgets : ∀ w off d, ∀ e ∈ U.widget_to_xml w off d, e.get_name ≠ "node")
    (hsame : node_skeleton parsed = node_skeleton (.element U.APP_NAME []
      (bookmarks_element win.bookmarks ::
        encode_nodes U export_type reassign start_offset end_offset win.tree))) :
    parsed.get_name = U.APP_NAME ∧
    (document_items 0 parsed none).map WalkItem.header
      = win.places.map CtTreePlace.header := by
  obtain ⟨hname, hch⟩ := node_skeleton_children_eq parsed _ ⟨_, _, _, rfl⟩ hsame
  refine ⟨hname, ?_⟩
  unfold document_items CtMainWin.places
  rw [← walk_items_children_skeleton, hch, walk_items_children_skeleton]
  simp only [XmlNode.get_children_all]
  have hb : ∀ e ∈ [bookmarks_element win.bookmarks], e.get_name ≠ "node" := by
    intro e he
    rw [List.mem_singleton] at he
    subst he
    simp [bookmarks_element, XmlNode.get_name]
  have := walk_items_children_skip true [bookmarks_element win.bookmarks] hb
    (encode_nodes U export_type reassign start_offset end_offset win.tree) 0 0 none
  rw [List.singleton_append] at this
  rw [this]
  exact (walk_items_encode_nodes U export_type reassign start_offset end_offset hw hwidgets
    win.tree 0 0 none).1

/-! ## Reading back what `node_to_xml` wrote -/

theorem header_unique_id (place : CtTreePlace) :
    XmlNode.attr_value place.header.1 "unique_id" = to_string place.data.nodeId := by
  unfold CtTreePlace.header
  split <;> simp [alias_attributes, owner_attributes, XmlNode.attr_value]

theorem header_master_id (place : CtTreePlace) :
    XmlNode.attr_value place.header.1 "master_id"
      = to_string place.data.sharedNodesMasterId := by
  unfold CtTreePlace.header
  split <;> simp [alias_attributes, owner_attributes, XmlNode.attr_value]

theorem is_str_true_bool_to_string (U : CtEnv) (htrue : U.is_str_true "1" = true)
    (hfalse : U.is_str_true "0" = false) (b : Bool) :
    U.is_str_true (bool_to_string b) = b := by
  have h1 : to_string 1 = "1" := by decide
  have h0 : to_string 0 = "0" := by decide
  cases b
  · simp only [bool_to_string, Bool.false_eq_true, if_false, h0, hfalse]
  · simp only [bool_to_string, if_true, h1, htrue]

theorem to_guint32_of_lt (n : Nat) (h : n < 4294967296) : to_guint32 (n : Int) = n := by
  unfold to_guint32
  omega

/-- What `node_from_xml` reads from an element that carries the attributes `node_to_xml`
wrote for a node: the id and the master id of the node and, for a node with
`master_id <= 0`, its metadata. -/
theorem read_node_data_saved (U : CtEnv) (e : XmlNode) (seq : Int) (place : CtTreePlace)
    (hattrs : e.get_attributes = place.header.1)
    (hnum : numbers_read_back U place.data)
    (htrue : U.is_str_true "1" = true) (hfalse : U.is_str_true "0" = false) :
    (read_node_data U e seq (-1)).nodeId = place.data.nodeId ∧
    (read_node_data U e seq (-1)).sharedNodesMasterId = place.data.sharedNodesMasterId ∧
    (place.data.sharedNodesMasterId ≤ 0 →
      same_metadata (read_node_data U e seq (-1)) place.data) := by
  obtain ⟨hid, hma, hicon, hlt, hcr, hls⟩ := hnum
  have hmaster : U.gint64_from_gstring (e.get_attribute_value "master_id")
      = place.data.sharedNodesMasterId := by
    rw [XmlNode.get_attribute_value, hattrs, header_master_id, hma]
  refine ⟨?_, ?_, ?_⟩
  · rw [read_node_data_nodeId, XmlNode.get_attribute_value, hattrs, header_unique_id, hid]
  · rw [read_node_data_master, hmaster]
  · intro hm
    have hown : e.get_attributes = owner_attributes place.data place.data.sharedNodesMasterId := by
      rw [hattrs]
      unfold CtTreePlace.header
      have : ¬ 0 < place.data.sharedNodesMasterId := by omega
      simp only [this, if_false]
    have hb := is_str_true_bool_to_string U htrue hfalse
    unfold read_node_data
    simp only [hmaster, hm, if_true]
    simp only [XmlNode.get_attribute_value, hown, owner_attributes, XmlNode.attr_value]
    simp [same_metadata, hb, hicon, hcr, hls, to_guint32_of_lt _ hlt]

/-! ## Saving a tree and loading it again -/

/-- C1. Round trip. Take a tree whose node ids are pairwise distinct and whose content
can be retrieved, save it with a whole-document scope (`NONESAVE`, `NONESAVEAS`,
`ALL_TREE`), and load the file into an empty store. Assume of what the source file does
not define: `write_to_file_formatted` writes the document built without throwing, the
parser returns for the file a document with the node elements that were written
(whatever else stands between them), `gint64_from_gstring` reads the numbers of the
nodes back as `std::to_string` printed them, `is_str_true` is true of `1` and false of
`0`, and no widget writes an element called `node`. Then both calls return true and the
loaded store has as many nodes as the tree, with the same ids in display order; the node
number `i` has the id, the parent, the sibling number and the master id of the node
number `i` of the tree and, when its `master_id <= 0`, the same metadata. -/
theorem save_treestore_populate_treestore_round_trip (U : CtEnv) (win : CtMainWin)
    (file_path : String) (pending : List PendingChange) (error load_error : String)
    (export_type : CtExporting) (reassign : Option (CtMap Int))
    (start_offset end_offset : Int) (parsed : XmlNode)
    (hw : is_whole_document export_type = true)
    (hids : win.node_ids.Nodup)
    (hcontent : content_available_all win.tree = true)
    (hnum : ∀ place ∈ win.places, numbers_read_back U place.data)
    (htrue : U.is_str_true "1" = true) (hfalse : U.is_str_true "0" = false)
    (hwidgets : ∀ w off d, ∀ e ∈ U.widget_to_xml w off d, e.get_name ≠ "node")
    (hwrite : ∀ root,
      save_document U win export_type reassign start_offset end_offset = .ok root →
      U.write_to_file_formatted file_path root = none)
    (hexists : U.fs_exists file_path = true)
    (hparse : U.parse_file file_path = .ok (some { root := some parsed }))
    (hsame : ∀ (saved : SaveResult) (root : XmlNode),
      save_treestore U win file_path pending error export_type reassign start_offset
        end_offset = .ok saved →
      saved.written = some (file_path, root) → node_skeleton parsed = node_skeleton root) :
    ∃ (saved : SaveResult) (loaded : PopulateResult),
      save_treestore U win file_path pending error export_type reassign start_offset
        end_offset = .ok saved ∧
      saved.ret = true ∧
      populate_treestore U false CtTreeStore.empty [] file_path load_error = .ok loaded ∧
      loaded.ret = true ∧
      loaded.store.rows.length = win.places.length ∧
      loaded.store.node_ids = win.node_ids ∧
      ∀ (i : Nat) (place : CtTreePlace), win.places[i]? = some place →
        ∃ row : CtTreeRow, loaded.store.rows[i]? = some row ∧
          row.data.nodeId = place.data.nodeId ∧
          row.parent = place.parent ∧
          row.data.sequence = place.sequence ∧
          row.data.sharedNodesMasterId = place.data.sharedNodesMasterId ∧
          (place.data.sharedNodesMasterId ≤ 0 → same_metadata row.data place.data) := by
  -- the save
  have hsave : save_treestore U win file_path pending error export_type reassign start_offset
      end_offset
        = .ok { ret := true, error := error,
                written := some (file_path, .element U.APP_NAME []
                  (bookmarks_element win.bookmarks ::
                    encode_nodes U export_type reassign start_offset end_offset
                      win.tree)) } := by
    have hdoc := save_document_whole_available U win export_type reassign start_offset
      end_offset hw hcontent
    exact (save_treestore_of_document U win file_path pending error export_type reassign
      start_offset end_offset _ hdoc).1 (hwrite _ hdoc)
  obtain ⟨hname, hitems⟩ := document_items_saved U export_type reassign start_offset
    end_offset win parsed hw hwidgets (hsame _ _ hsave rfl)
  -- the parser
  have hroot : get_parser_root_node U file_path = .ok parsed := by
    unfold get_parser_root_node parse_file_or_fallback
    simp [hexists, hparse, hname]
  -- the calls of the walk and the nodes of the tree
  have hlen : (document_items 0 parsed none).length = win.places.length := by
    have := congrArg List.length hitems
    simpa using this
  have hpoint : ∀ (i : Nat) (place : CtTreePlace), win.places[i]? = some place →
      ∃ item, (document_items 0 parsed none)[i]? = some item ∧
        item.header = place.header := by
    intro i place hp
    have := congrArg (fun l => l[i]?) hitems
    simp only [List.getElem?_map, hp, Option.map_some'] at this
    cases hi : (document_items 0 parsed none)[i]? with
    | none => rw [hi] at this; cases this
    | some item =>
      rw [hi] at this
      simp only [Option.map_some', Option.some.injEq] at this
      exact ⟨item, rfl, this⟩
  have hidlist : (document_items 0 parsed none).map (WalkItem.read_id U) = win.node_ids := by
    have e1 : WalkItem.read_id U
        = (fun h : List (String × String) × Int × TreeIter =>
            U.gint64_from_gstring (XmlNode.attr_value h.1 "unique_id")) ∘ WalkItem.header := rfl
    rw [e1, ← List.map_map, hitems, List.map_map]
    unfold CtMainWin.node_ids
    apply List.map_congr_left
    intro place hpl
    simp only [Function.comp, header_unique_id]
    exact (hnum place hpl).1
  -- the load
  have hJ : PopulateInv U (document_items 0 parsed none) (normal_walk U parsed) :=
    populate_walk_inv_nodup U parsed (by rw [hidlist]; exact hids)
  have hdups : (normal_walk U parsed).nodes_with_duplicated_id = [] :=
    hJ.no_duplicates (by rw [hidlist]; exact hids)
  have hload := populate_treestore_of_walk U parsed file_path load_error hroot hJ.thrown
  have hfix : fix_duplicated_ids U (normal_walk U parsed).nodes_with_duplicated_id
      (normal_walk U parsed).store = (normal_walk U parsed).store := by
    rw [hdups]
    rfl
  rw [hfix] at hload
  refine ⟨_, _, hsave, rfl, hload, rfl, ?_, ?_, ?_⟩
  · simp only
    rw [populate_shared_non_master_length, hJ.length, hlen]
  · simp only
    rw [populate_shared_non_master_node_ids, hJ.ids, hidlist]
  · intro i place hp
    obtain ⟨item, hi, hh⟩ := hpoint i place hp
    have hattrs : item.xml_element.get_attributes = place.header.1 := congrArg Prod.fst hh
    have hseq : item.sequence = place.sequence := congrArg (fun h => h.2.1) hh
    have hparent : item.parent_iter = place.parent := congrArg (fun h => h.2.2) hh
    obtain ⟨row0, hr0⟩ := hJ.row_exists hi
    obtain ⟨hpar, hdata⟩ := hJ.rows i item row0 hi hr0
    have hd : row0.data = read_node_data U item.xml_element item.sequence (-1) := by
      rcases hdata with ⟨_, hd⟩ | ⟨hmem, _⟩
      · exact hd
      · rw [hdups] at hmem
        cases hmem
    obtain ⟨hrid, hrma, hrmeta⟩ := read_node_data_saved U item.xml_element item.sequence place
      hattrs (hnum place (List.getElem?_mem hp)) htrue hfalse
    obtain ⟨d, hfinal, hdid, hdm, hds⟩ := populate_shared_non_master_shape
      (normal_walk U parsed).nodes_shared_non_master (normal_walk U parsed).store i row0 hr0
    refine ⟨{ row0 with data := d }, hfinal, ?_, ?_, ?_, ?_, ?_⟩
    · simp only
      rw [hdid, hd, hrid]
    · simp only
      rw [hpar, hparent]
    · simp only
      rw [hds, hd, read_node_data_sequence, hseq]
    · simp only
      rw [hdm, hd, hrma]
    · intro hm
      have hm0 : row0.data.sharedNodesMasterId ≤ 0 := by
        rw [hd, hrma]
        exact hm
      have hrow := populate_shared_non_master_row
        (normal_walk U parsed).nodes_shared_non_master (normal_walk U parsed).store i row0 hr0
        (Or.inl hm0)
      rw [hfinal] at hrow
      simp only [Option.some.injEq, CtTreeRow.mk.injEq, and_true] at hrow
      have hdd : d = row0.data := by
        rw [hrow]
        split
        · exact displayed_data_owner _ _ hm0
        · rfl
      simp only
      rw [hdd, hd]
      exact hrmeta hm

/-- C1 at a tree with nesting: node 1 with the children 2 (an alias of 4) and 3, then the
top-level node 4, saved with `ALL_TREE` and parsed with white space between the elements.
The loaded store has the ids 1, 2, 3, 4 with the parents at the positions none, 0, 0,
none, the sibling numbers 1, 1, 2, 2 and the metadata of the nodes 1, 3 and 4; the alias 2
shows the data of its master 4. -/
theorem save_treestore_populate_treestore_round_trip_witness :
    sample_nested_win.node_ids = [1, 2, 3, 4] ∧
    sample_nested_win.places.map (fun place => place.parent) = [none, some 0, some 0, none] ∧
    (match populate_treestore (CtEnv.sample_with sample_nested_parsed) false CtTreeStore.empty
        [] "doc.ctd" "" with
      | .ok loaded =>
        loaded.store.rows.map
          (fun r => (r.data.nodeId, r.parent, r.data.sequence, r.data.name, r.data.isBold,
            r.data.tsCreation))
      | .error _ => [])
      = [(1, none, 1, "A", false, 0), (2, some 0, 1, "D", true, 1700000000),
         (3, some 0, 2, "C", false, 0), (4, none, 2, "D", true, 1700000000)] ∧
    ∃ (saved : SaveResult) (loaded : PopulateResult),
      save_treestore (CtEnv.sample_with sample_nested_parsed) sample_nested_win "doc.ctd" []
        "" CtExporting.ALL_TREE none 0 (-1) = .ok saved ∧
      saved.ret = true ∧
      populate_treestore (CtEnv.sample_with sample_nested_parsed) false CtTreeStore.empty []
        "doc.ctd" "" = .ok loaded ∧
      loaded.ret = true ∧
      loaded.store.rows.length = sample_nested_win.places.length ∧
      loaded.store.node_ids = sample_nested_win.node_ids ∧
      ∀ (i : Nat) (place : CtTreePlace), sample_nested_win.places[i]? = some place →
        ∃ row : CtTreeRow, loaded.store.rows[i]? = some row ∧
          row.data.nodeId = place.data.nodeId ∧
          row.parent = place.parent ∧
          row.data.sequence = place.sequence ∧
          row.data.sharedNodesMasterId = place.data.sharedNodesMasterId ∧
          (place.data.sharedNodesMasterId ≤ 0 → same_metadata row.data place.data) :=
  ⟨by decide, by decide, by decide,
   save_treestore_populate_treestore_round_trip (CtEnv.sample_with sample_nested_parsed)
     sample_nested_win "doc.ctd" [] "" "" CtExporting.ALL_TREE none 0 (-1)
     sample_nested_parsed rfl (by decide) rfl (by decide) rfl rfl
     (fun _ _ _ _ he => nomatch he) (fun _ _ => rfl) rfl rfl
     (fun saved root h1 h2 => by
       have hs : save_treestore (CtEnv.sample_with sample_nested_parsed) sample_nested_win
           "doc.ctd" [] "" CtExporting.ALL_TREE none 0 (-1)
             = .ok { ret := true, error := "",
                     written := some ("doc.ctd", .element "cherrytree" []
                       (bookmarks_element [3] ::
                         encode_nodes (CtEnv.sample_with sample_nested_parsed)
                           CtExporting.ALL_TREE none 0 (-1) sample_nested_tree)) } := rfl
       rw [hs] at h1
       cases h1
       cases h2
       rfl)⟩

/-! ## The parse fallbacks (`safe_parse_memory`, `get_parser`) -/

theorem try_parse_memory_ok (U : CtEnv) (text : String) (d : Option XmlDocument)
    (h : U.parse_memory text = .ok d) : try_parse_memory U text = .ok (some d) := by
  unfold try_parse_memory
  rw [h]

theorem try_parse_memory_fails (U : CtEnv) (text : String) (h : parse_attempt_fails U text) :
    try_parse_memory U text = .ok none := by
  obtain ⟨e, he, hp⟩ := h
  unfold try_parse_memory
  rw [he]
  simp only [hp, if_true]

/-- An attempt ends in one of three ways: a document, a caught parse error, or another
exception, which nobody catches. -/
theorem try_parse_memory_cases (U : CtEnv) (text : String) :
    (∃ d, U.parse_memory text = .ok d ∧ try_parse_memory U text = .ok (some d)) ∨
    (parse_attempt_fails U text ∧ try_parse_memory U text = .ok none) ∨
    (∃ e, U.parse_memory text = .error e ∧ e.is_parse_error = false ∧
      try_parse_memory U text = .error (.exn e.what)) := by
  cases h : U.parse_memory text with
  | ok d => exact Or.inl ⟨d, rfl, try_parse_memory_ok U text d h⟩
  | error e =>
    by_cases hp : e.is_parse_error = true
    · exact Or.inr (Or.inl ⟨⟨e, h, hp⟩, try_parse_memory_fails U text ⟨e, h, hp⟩⟩)
    · refine Or.inr (Or.inr ⟨e, rfl, by simpa using hp, ?_⟩)
      unfold try_parse_memory
      rw [h]
      simp only [hp, Bool.false_eq_true, if_false]

theorem missing_message_ne_parse_fail (file_path : String) :
    file_path ++ " missing" ≠ "xml parse fail" := by
  intro h
  have h1 := congrArg (fun s : String => s.data.reverse.head?) h
  simp only [String.data_append, List.reverse_append] at h1
  have h2 : ([' ', 'm', 'i', 's', 's', 'i', 'n', 'g'].reverse ++ file_path.data.reverse).head?
      = some 'g' := rfl
  rw [h2] at h1
  revert h1
  decide

/-- A report of failure by `safe_parse_memory` after an attempt that did not throw: the
parser holds no document, or a document without root. -/
theorem safe_parse_memory_false (U : CtEnv) (xml_content : String)
    (doc : Option XmlDocument) (h : safe_parse_memory U xml_content = .ok (false, doc)) :
    (parse_attempt_fails U xml_content ∧
      parse_attempt_fails U (parse_attempt_2 U xml_content) ∧
      parse_attempt_fails U (parse_attempt_3 U xml_content)) ∨
    ∃ text d, U.parse_memory text = .ok d ∧ has_document_and_root d = false := by
  unfold safe_parse_memory at h
  rcases try_parse_memory_cases U xml_content with ⟨d, hd, h1⟩ | ⟨hf1, h1⟩ | ⟨e, _, _, h1⟩
  · rw [h1] at h
    simp only [Except.ok.injEq, Prod.mk.injEq] at h
    exact Or.inr ⟨_, d, hd, h.1⟩
  · rw [h1] at h
    simp only at h
    rcases try_parse_memory_cases U (U.g_utf8_make_valid xml_content) with
      ⟨d, hd, h2⟩ | ⟨hf2, h2⟩ | ⟨e, _, _, h2⟩
    · rw [h2] at h
      simp only [Except.ok.injEq, Prod.mk.injEq] at h
      exact Or.inr ⟨_, d, hd, h.1⟩
    · rw [h2] at h
      simp only at h
      rcases try_parse_memory_cases U (U.sanitize_bad_symbols (U.g_utf8_make_valid xml_content))
        with ⟨d, hd, h3⟩ | ⟨hf3, h3⟩ | ⟨e, _, _, h3⟩
      · rw [h3] at h
        simp only [Except.ok.injEq, Prod.mk.injEq] at h
        exact Or.inr ⟨_, d, hd, h.1⟩
      · exact Or.inl ⟨hf1, hf2, hf3⟩
      · rw [h3] at h
        cases h
    · rw [h2] at h
      cases h
  · rw [h1] at h
    cases h

/-- An exception that leaves `safe_parse_memory` is an exception of `parse_memory` that is
not a parse error. -/
theorem safe_parse_memory_error (U : CtEnv) (xml_content : String) (err : CtError)
    (h : safe_parse_memory U xml_content = .error err) :
    ∃ text e, U.parse_memory text = .error e ∧ e.is_parse_error = false ∧
      err = .exn e.what := by
  unfold safe_parse_memory at h
  rcases try_parse_memory_cases U xml_content with ⟨d, _, h1⟩ | ⟨_, h1⟩ | ⟨e, he, hp, h1⟩
  · rw [h1] at h
    cases h
  · rw [h1] at h
    simp only at h
    rcases try_parse_memory_cases U (U.g_utf8_make_valid xml_content) with
      ⟨d, _, h2⟩ | ⟨_, h2⟩ | ⟨e, he, hp, h2⟩
    · rw [h2] at h
      cases h
    · rw [h2] at h
      simp only at h
      rcases try_parse_memory_cases U (U.sanitize_bad_symbols (U.g_utf8_make_valid xml_content))
        with ⟨d, _, h3⟩ | ⟨_, h3⟩ | ⟨e, he, hp, h3⟩
      · rw [h3] at h
        cases h
      · rw [h3] at h
        cases h
      · rw [h3] at h
        simp only [Except.error.injEq] at h
        exact ⟨_, e, he, hp, h.symm⟩
    · rw [h2] at h
      simp only [Except.error.injEq] at h
      exact ⟨_, e, he, hp, h.symm⟩
  · rw [h1] at h
    simp only [Except.error.injEq] at h
    exact ⟨_, e, he, hp, h.symm⟩

/-- C11. Three parse fallbacks. For every text, the result of `safe_parse_memory` is that
of the first of the three attempts that does not throw a parse error: the raw text, else
the text made valid UTF-8, else the valid text without the disallowed symbols; an attempt
after the first success does not count. When all three throw a parse error it reports a
failure. It reports a failure in that case only, provided a parse that does not throw
leaves a document with a root (the last line of the function tests this). `get_parser`,
whose `parse_file` has thrown, throws `xml parse fail` when the three attempts on the
converted content of the file fail, and, when no exception that passes through carries
this very message, in that case only. -/
theorem safe_parse_memory_three_fallbacks (U : CtEnv) (xml_content : String) :
    (∀ d, U.parse_memory xml_content = .ok d →
      safe_parse_memory U xml_content = .ok (has_document_and_root d, d)) ∧
    (parse_attempt_fails U xml_content →
      ∀ d, U.parse_memory (parse_attempt_2 U xml_content) = .ok d →
        safe_parse_memory U xml_content = .ok (has_document_and_root d, d)) ∧
    (parse_attempt_fails U xml_content →
      parse_attempt_fails U (parse_attempt_2 U xml_content) →
      ∀ d, U.parse_memory (parse_attempt_3 U xml_content) = .ok d →
        safe_parse_memory U xml_content = .ok (has_document_and_root d, d)) ∧
    (parse_attempt_fails U xml_content →
      parse_attempt_fails U (parse_attempt_2 U xml_content) →
      parse_attempt_fails U (parse_attempt_3 U xml_content) →
      safe_parse_memory U xml_content = .ok (false, none)) ∧
    ((∀ text d, U.parse_memory text = .ok d → has_document_and_root d = true) →
      ∀ doc, safe_parse_memory U xml_content = .ok (false, doc) →
        parse_attempt_fails U xml_content ∧
        parse_attempt_fails U (parse_attempt_2 U xml_content) ∧
        parse_attempt_fails U (parse_attempt_3 U xml_content)) ∧
    ∀ file_path, U.convert_if_not_utf8 (U.file_get_contents file_path) = xml_content →
      (U.fs_exists file_path = true → (∃ e, U.parse_file file_path = .error e) →
        parse_attempt_fails U xml_content →
        parse_attempt_fails U (parse_attempt_2 U xml_content) →
        parse_attempt_fails U (parse_attempt_3 U xml_content) →
        get_parser_root_node U file_path = .error (.exn "xml parse fail")) ∧
      ((∀ text d, U.parse_memory text = .ok d → has_document_and_root d = true) →
        (∀ text e, U.parse_memory text = .error e → e.is_parse_error = false →
          e.what ≠ "xml parse fail") →
        get_parser_root_node U file_path = .error (.exn "xml parse fail") →
        U.fs_exists file_path = true ∧ (∃ e, U.parse_file file_path = .error e) ∧
        parse_attempt_fails U xml_content ∧
        parse_attempt_fails U (parse_attempt_2 U xml_content) ∧
        parse_attempt_fails U (parse_attempt_3 U xml_content)) := by
  have hall : parse_attempt_fails U xml_content →
      parse_attempt_fails U (parse_attempt_2 U xml_content) →
      parse_attempt_fails U (parse_attempt_3 U xml_content) →
      safe_parse_memory U xml_content = .ok (false, none) := by
    intro h1 h2 h3
    unfold parse_attempt_2 at h2
    unfold parse_attempt_3 at h3
    unfold safe_parse_memory
    rw [try_parse_memory_fails U _ h1]
    simp only
    rw [try_parse_memory_fails U _ h2]
    simp only
    rw [try_parse_memory_fails U _ h3]
  have honly : (∀ text d, U.parse_memory text = .ok d → has_document_and_root d = true) →
      ∀ doc, safe_parse_memory U xml_content = .ok (false, doc) →
        parse_attempt_fails U xml_content ∧
        parse_attempt_fails U (parse_attempt_2 U xml_content) ∧
        parse_attempt_fails U (parse_attempt_3 U xml_content) := by
    intro hroot doc h
    rcases safe_parse_memory_false U xml_content doc h with h | ⟨text, d, hd, hno⟩
    · exact h
    · rw [hroot text d hd] at hno
      cases hno
  refine ⟨?_, ?_, ?_, hall, honly, ?_⟩
  · intro d hd
    unfold safe_parse_memory
    rw [try_parse_memory_ok U _ d hd]
  · intro h1 d hd
    unfold parse_attempt_2 at hd
    unfold safe_parse_memory
    rw [try_parse_memory_fails U _ h1]
    simp only
    rw [try_parse_memory_ok U _ d hd]
  · intro h1 h2 d hd
    unfold parse_attempt_2 at h2
    unfold parse_attempt_3 at hd
    unfold safe_parse_memory
    rw [try_parse_memory_fails U _ h1]
    simp only
    rw [try_parse_memory_fails U _ h2]
    simp only
    rw [try_parse_memory_ok U _ d hd]
  · intro file_path hcontent
    refine ⟨?_, ?_⟩
    · intro hex ⟨e, he⟩ h1 h2 h3
      unfold get_parser_root_node parse_file_or_fallback
      simp only [hex, he, hcontent, hall h1 h2 h3]
      rfl
    · intro hroot hwhat h
      unfold get_parser_root_node at h
      cases hex : U.fs_exists file_path with
      | false =>
        simp only [hex, Bool.not_false, if_true, Except.error.injEq, CtError.exn.injEq] at h
        exact absurd h (missing_message_ne_parse_fail file_path)
      | true =>
        simp only [hex, Bool.not_true, Bool.false_eq_true, if_false] at h
        unfold parse_file_or_fallback at h
        cases hpf : U.parse_file file_path with
        | ok document =>
          rw [hpf] at h
          simp only [Bool.not_true, Bool.false_eq_true, if_false] at h
          cases document with
          | none => simp at h
          | some doc =>
            simp only at h
            cases hr : doc.root with
            | none => rw [hr] at h; simp at h
            | some root =>
              rw [hr] at h
              simp only at h
              split at h <;> simp at h
        | error e =>
          rw [hpf, hcontent] at h
          simp only at h
          cases hs : safe_parse_memory U xml_content with
          | error err =>
            rw [hs] at h
            simp only [Except.error.injEq] at h
            obtain ⟨text, e', he', hp', herr⟩ := safe_parse_memory_error U xml_content err hs
            rw [herr, CtError.exn.injEq] at h
            exact absurd h (hwhat text e' he' hp')
          | ok r =>
            obtain ⟨parseOk, document⟩ := r
            rw [hs] at h
            simp only at h
            cases parseOk with
            | false => exact ⟨rfl, ⟨e, rfl⟩, honly hroot document hs⟩
            | true =>
              simp only [Bool.not_true, Bool.false_eq_true, if_false] at h
              cases document with
              | none => simp at h
              | some doc =>
                simp only at h
                cases hr : doc.root with
                | none => rw [hr] at h; simp at h
                | some root =>
                  rw [hr] at h
                  simp only at h
                  split at h <;> simp at h

/-- C11 at a file whose content `<cherrytree/!>` parses only once the symbol `!` is
stripped: the first two attempts fail, the third gives the document, and `get_parser`
returns its root instead of throwing `xml parse fail`. -/
theorem safe_parse_memory_three_fallbacks_witness :
    parse_attempt_fails CtEnv.sample_fallback "<cherrytree/!>" ∧
    parse_attempt_fails CtEnv.sample_fallback
      (parse_attempt_2 CtEnv.sample_fallback "<cherrytree/!>") ∧
    parse_attempt_3 CtEnv.sample_fallback "<cherrytree/!>" = "<cherrytree/>" ∧
    safe_parse_memory CtEnv.sample_fallback "<cherrytree/!>"
      = .ok (true, some sample_empty_document) ∧
    get_parser_root_node CtEnv.sample_fallback "doc.ctd" = .ok (.element "cherrytree" [] []) ∧
    safe_parse_memory CtEnv.sample "<cherrytree/>" = .ok (false, none) ∧
    get_parser_root_node
      { CtEnv.sample_fallback with file_get_contents := fun _ => "<cherrytree" } "doc.ctd"
      = .error (.exn "xml parse fail") :=
  ⟨⟨_, rfl, rfl⟩, ⟨_, rfl, rfl⟩, by decide,
   (safe_parse_memory_three_fallbacks CtEnv.sample_fallback "<cherrytree/!>").2.2.1
     ⟨_, rfl, rfl⟩ ⟨_, rfl, rfl⟩ _ rfl,
   rfl,
   (safe_parse_memory_three_fallbacks CtEnv.sample "<cherrytree/>").2.2.2.1
     ⟨_, rfl, rfl⟩ ⟨_, rfl, rfl⟩ ⟨_, rfl, rfl⟩,
   ((safe_parse_memory_three_fallbacks
      { CtEnv.sample_fallback with file_get_contents := fun _ => "<cherrytree" }
      "<cherrytree").2.2.2.2.2 "doc.ctd" rfl).1 rfl ⟨_, rfl⟩
     ⟨_, rfl, rfl⟩ ⟨_, rfl, rfl⟩ ⟨_, rfl, rfl⟩⟩

/-! ## A node whose content cannot be retrieved (`_nodes_to_xml`, `save_treestore`) -/

theorem node_to_xml_ok (U : CtEnv) (data : CtNodeData) (export_type : CtExporting)
    (reassign : Option (CtMap Int)) (start_offset end_offset : Int) (buffer : CtTextBuffer)
    (hbuf : data.pTextBuffer = some buffer) :
    ∃ e, node_to_xml U data "" export_type reassign start_offset end_offset = .ok e := by
  by_cases hm : 0 < export_master_id data.nodeId data.sharedNodesMasterId export_type reassign
  · exact ⟨_, node_to_xml_alias U data "" export_type reassign start_offset end_offset hm⟩
  · exact ⟨_, node_to_xml_owner U data "" export_type reassign start_offset end_offset buffer
      (by omega) hbuf⟩

mutual
/-- The visit of a subtree either finds the text buffer of every node it visits and
returns an element, or throws for the first node without text buffer. -/
theorem nodes_to_xml_cases (U : CtEnv) (export_type : CtExporting)
    (reassign : Option (CtMap Int)) (start_offset end_offset : Int) :
    ∀ (t : CtTreeNode),
      ((∀ d ∈ visited_nodes export_type t, d.pTextBuffer.isSome = true) ∧
        ∃ e, _nodes_to_xml U export_type reassign start_offset end_offset t = .ok e) ∨
      (∃ d ∈ visited_nodes export_type t, d.pTextBuffer = none ∧
        _nodes_to_xml U export_type reassign start_offset end_offset t
          = .error (.exn (content_unavailable_message d.name)))
  | .node data children => by
    rw [_nodes_to_xml, visited_nodes]
    cases hbuf : data.pTextBuffer with
    | none =>
      right
      exact ⟨data, List.mem_cons_self _ _, hbuf, rfl⟩
    | some buffer =>
      obtain ⟨e, he⟩ := node_to_xml_ok U data export_type reassign start_offset end_offset
        buffer hbuf
      simp only [he]
      by_cases hs : export_type ≠ CtExporting.CURRENT_NODE ∧
          export_type ≠ CtExporting.SELECTED_TEXT
      · simp only [hs, ne_eq, not_false_eq_true, and_self, if_true]
        rcases nodes_to_xml_siblings_cases U export_type reassign start_offset end_offset
          children with ⟨hall, es, hes⟩ | ⟨d, hd, hnone, herr⟩
        · left
          refine ⟨?_, _, by rw [hes]⟩
          intro d hd
          rcases List.mem_cons.1 hd with h | h
          · rw [h, hbuf]; rfl
          · exact hall d h
        · right
          exact ⟨d, List.mem_cons_of_mem _ hd, hnone, by rw [herr]⟩
      · left
        simp only [hs, if_false]
        refine ⟨?_, _, rfl⟩
        intro d hd
        rw [List.mem_singleton] at hd
        rw [hd, hbuf]; rfl
theorem nodes_to_xml_siblings_cases (U : CtEnv) (export_type : CtExporting)
    (reassign : Option (CtMap Int)) (start_offset end_offset : Int) :
    ∀ (ts : List CtTreeNode),
      ((∀ d ∈ visited_nodes_all export_type ts, d.pTextBuffer.isSome = true) ∧
        ∃ es, _nodes_to_xml_siblings U export_type reassign start_offset end_offset ts
          = .ok es) ∨
      (∃ d ∈ visited_nodes_all export_type ts, d.pTextBuffer = none ∧
        _nodes_to_xml_siblings U export_type reassign start_offset end_offset ts
          = .error (.exn (content_unavailable_message d.name)))
  | [] => by
    rw [_nodes_to_xml_siblings, visited_nodes_all]
    left
    exact ⟨fun d hd => absurd hd (List.not_mem_nil d), _, rfl⟩
  | t :: rest => by
    rw [_nodes_to_xml_siblings, visited_nodes_all]
    rcases nodes_to_xml_cases U export_type reassign start_offset end_offset t with
      ⟨hall, e, he⟩ | ⟨d, hd, hnone, herr⟩
    · rw [he]
      simp only
      rcases nodes_to_xml_siblings_cases U export_type reassign start_offset end_offset rest
        with ⟨hall2, es, hes⟩ | ⟨d, hd, hnone, herr⟩
      · left
        refine ⟨?_, _, by rw [hes]⟩
        intro d hd
        rcases List.mem_append.1 hd with h | h
        · exact hall d h
        · exact hall2 d h
      · right
        exact ⟨d, List.mem_append_right _ hd, hnone, by rw [herr]⟩
    · right
      exact ⟨d, List.mem_append_left _ hd, hnone, by rw [herr]⟩
end

/-- What `save_document` does with the nodes in scope. -/
theorem save_document_cases (U : CtEnv) (win : CtMainWin) (export_type : CtExporting)
    (reassign : Option (CtMap Int)) (start_offset end_offset : Int) :
    ((∀ d ∈ nodes_in_scope win export_type, d.pTextBuffer.isSome = true) ∧
      ((∃ root, save_document U win export_type reassign start_offset end_offset = .ok root) ∨
       (is_whole_document export_type = false ∧ win.curr_tree_iter = none ∧
         save_document U win export_type reassign start_offset end_offset
           = .error (.exn (content_unavailable_message ""))))) ∨
    (∃ d ∈ nodes_in_scope win export_type, d.pTextBuffer = none ∧
      save_document U win export_type reassign start_offset end_offset
        = .error (.exn (content_unavailable_message d.name))) := by
  unfold save_document nodes_in_scope
  cases hw : is_whole_document export_type with
  | true =>
    simp only [if_true]
    rcases nodes_to_xml_siblings_cases U export_type reassign start_offset end_offset win.tree
      with ⟨hall, es, hes⟩ | ⟨d, hd, hnone, herr⟩
    · left
      exact ⟨hall, Or.inl ⟨_, by rw [hes]⟩⟩
    · right
      exact ⟨d, hd, hnone, by rw [herr]⟩
  | false =>
    simp only [Bool.false_eq_true, if_false]
    cases hc : win.curr_tree_iter with
    | none =>
      left
      exact ⟨fun d hd => absurd hd (List.not_mem_nil d),
        Or.inr (by refine ⟨?_, ?_, ?_⟩ <;> first | rfl | trivial)⟩
    | some t =>
      simp only
      rcases nodes_to_xml_cases U export_type reassign start_offset end_offset t with
        ⟨hall, e, he⟩ | ⟨d, hd, hnone, herr⟩
      · left
        exact ⟨hall, Or.inl ⟨_, by rw [he]⟩⟩
      · right
        exact ⟨d, hd, hnone, by rw [herr]⟩

theorem content_unavailable_message_ne_empty (name : String) :
    content_unavailable_message name ≠ "" := by
  intro h
  have := congrArg String.length h
  simp only [content_unavailable_message, String.length_append] at this
  have h0 : "".length = 0 := by decide
  have h1 : "'".length = 1 := by decide
  rw [h0, h1] at this
  omega

mutual
/-- The encoding of a subtree does not look at the write capability. -/
theorem nodes_to_xml_write_irrelevant (U : CtEnv) (write : String → XmlNode → Option String)
    (export_type : CtExporting) (reassign : Option (CtMap Int))
    (start_offset end_offset : Int) :
    ∀ (t : CtTreeNode),
      _nodes_to_xml { U with write_to_file_formatted := write } export_type reassign
          start_offset end_offset t
        = _nodes_to_xml U export_type reassign start_offset end_offset t
  | .node data children => by
    rw [_nodes_to_xml, _nodes_to_xml,
      nodes_to_xml_siblings_write_irrelevant U write export_type reassign start_offset
        end_offset children]
    try rfl
/-- The encoding of a list of siblings does not look at the write capability. -/
theorem nodes_to_xml_siblings_write_irrelevant (U : CtEnv)
    (write : String → XmlNode → Option String)
    (export_type : CtExporting) (reassign : Option (CtMap Int))
    (start_offset end_offset : Int) :
    ∀ (ts : List CtTreeNode),
      _nodes_to_xml_siblings { U with write_to_file_formatted := write } export_type reassign
          start_offset end_offset ts
        = _nodes_to_xml_siblings U export_type reassign start_offset end_offset ts
  | [] => by
    rw [_nodes_to_xml_siblings, _nodes_to_xml_siblings]
  | t :: rest => by
    rw [_nodes_to_xml_siblings, _nodes_to_xml_siblings,
      nodes_to_xml_write_irrelevant U write export_type reassign start_offset end_offset t,
      nodes_to_xml_siblings_write_irrelevant U write export_type reassign start_offset
        end_offset rest]
end

/-- The document is built without a look at the write capability. -/
theorem save_document_write_irrelevant (U : CtEnv)
    (write : String → XmlNode → Option String) (win : CtMainWin)
    (export_type : CtExporting) (reassign : Option (CtMap Int))
    (start_offset end_offset : Int) :
    save_document { U with write_to_file_formatted := write } win export_type reassign
        start_offset end_offset
      = save_document U win export_type reassign start_offset end_offset := by
  unfold save_document
  rw [nodes_to_xml_siblings_write_irrelevant U write export_type reassign start_offset
    end_offset win.tree]
  cases hc : win.curr_tree_iter with
  | none => rfl
  | some t =>
    simp only
    rw [nodes_to_xml_write_irrelevant U write export_type reassign start_offset end_offset t]

/-- C12. ContentUnavailable aborts the save before any write. For every tree and export
scope `save_treestore` returns. When the text buffer of some node in scope (the whole
tree, or the current node with or without its descendants) cannot be retrieved, it
returns false, the error names a node without text buffer (`Failed to retrieve the
content of the node '...'`) and nothing is written: `write_to_file_formatted` is not
reached, the result is the same whatever the write would do. Whenever it returns false
nothing is written, and the cause is a node without text buffer, an invalid current
node, or a write that threw after the document was built. A document is written only
when the text buffer of every node in scope was there, the document was built and the
write did not throw, with the return value true. -/
theorem save_treestore_content_unavailable (U : CtEnv) (win : CtMainWin)
    (file_path : String) (pending : List PendingChange) (error : String)
    (export_type : CtExporting) (reassign : Option (CtMap Int))
    (start_offset end_offset : Int) :
    ((∃ d ∈ nodes_in_scope win export_type, d.pTextBuffer = none) →
      (∃ d ∈ nodes_in_scope win export_type, d.pTextBuffer = none ∧
        save_treestore U win file_path pending error export_type reassign start_offset
            end_offset
          = .ok { ret := false, error := content_unavailable_message d.name,
                  written := none }) ∧
      ∀ write : String → XmlNode → Option String,
        save_treestore { U with write_to_file_formatted := write } win file_path pending
            error export_type reassign start_offset end_offset
          = save_treestore U win file_path pending error export_type reassign start_offset
              end_offset) ∧
    (∃ r, save_treestore U win file_path pending error export_type reassign start_offset
        end_offset = .ok r ∧
      (r.ret = false → r.written = none ∧
        ((∃ d ∈ nodes_in_scope win export_type, d.pTextBuffer = none ∧
            r.error = content_unavailable_message d.name) ∨
         (is_whole_document export_type = false ∧ win.curr_tree_iter = none ∧
            r.error = content_unavailable_message "") ∨
         (∃ root what,
            save_document U win export_type reassign start_offset end_offset = .ok root ∧
            U.write_to_file_formatted file_path root = some what ∧ r.error = what))) ∧
      (r.written ≠ none →
        r.ret = true ∧ (∀ d ∈ nodes_in_scope win export_type, d.pTextBuffer.isSome = true) ∧
        ∃ root, save_document U win export_type reassign start_offset end_offset = .ok root ∧
          U.write_to_file_formatted file_path root = none ∧
          r.written = some (file_path, root))) := by
  rcases save_document_cases U win export_type reassign start_offset end_offset with
    ⟨hall, ⟨root, hroot⟩ | ⟨hw, hcur, herr⟩⟩ | ⟨d, hd, hnone, herr⟩
  · refine ⟨?_, ?_⟩
    · intro ⟨d, hd, hnone⟩
      have := hall d hd
      rw [hnone] at this
      cases this
    · have hend := save_treestore_of_document U win file_path pending error export_type
        reassign start_offset end_offset root hroot
      cases hwrite : U.write_to_file_formatted file_path root with
      | none =>
        refine ⟨_, hend.1 hwrite, ?_, ?_⟩
        · intro h
          cases h
        · intro _
          exact ⟨rfl, hall, root, hroot, hwrite, rfl⟩
      | some what =>
        refine ⟨_, hend.2 what hwrite, ?_, ?_⟩
        · intro _
          exact ⟨rfl, Or.inr (Or.inr ⟨root, what, hroot, hwrite, rfl⟩)⟩
        · intro h
          exact absurd rfl h
  · have hsave : save_treestore U win file_path pending error export_type reassign
        start_offset end_offset
          = .ok { ret := false, error := content_unavailable_message "",
                  written := none } := by
      unfold save_treestore
      rw [herr]
    refine ⟨?_, _, hsave, ?_, ?_⟩
    · intro ⟨d, hd, hnone⟩
      have := hall d hd
      rw [hnone] at this
      cases this
    · intro _
      exact ⟨rfl, Or.inr (Or.inl ⟨hw, hcur, rfl⟩)⟩
    · intro h
      exact absurd rfl h
  · have hsave : save_treestore U win file_path pending error export_type reassign
        start_offset end_offset
          = .ok { ret := false, error := content_unavailable_message d.name,
                  written := none } := by
      unfold save_treestore
      rw [herr]
    refine ⟨?_, _, hsave, ?_, ?_⟩
    · intro _
      refine ⟨⟨d, hd, hnone, hsave⟩, ?_⟩
      intro write
      rw [hsave]
      unfold save_treestore
      rw [save_document_write_irrelevant, herr]
    · intro _
      exact ⟨rfl, Or.inl ⟨d, hd, hnone, rfl⟩⟩
    · intro h
      exact absurd rfl h

/-- C12 at a tree in which the content of the node `B`, a child of the first node, cannot
be retrieved: a save of the whole tree and an export of the first node with its subnodes
return false, name `B` and write nothing, also where the write itself would throw; an
export of the first node alone does not visit `B` and writes the document. -/
theorem save_treestore_content_unavailable_witness :
    save_treestore CtEnv.sample sample_unavailable_win "doc.ctd" [] "" CtExporting.ALL_TREE
        none 0 (-1)
      = .ok { ret := false, error := "Failed to retrieve the content of the node 'B'",
              written := none } ∧
    save_treestore CtEnv.sample sample_unavailable_win "doc.ctd" [] ""
        CtExporting.CURRENT_NODE_AND_SUBNODES none 0 (-1)
      = .ok { ret := false, error := "Failed to retrieve the content of the node 'B'",
              written := none } ∧
    save_treestore CtEnv.sample_unwritable sample_unavailable_win "no_such_dir/doc.ctd" [] ""
        CtExporting.ALL_TREE none 0 (-1)
      = .ok { ret := false, error := "Failed to retrieve the content of the node 'B'",
              written := none } ∧
    (∃ r, save_treestore CtEnv.sample sample_unavailable_win "doc.ctd" [] ""
        CtExporting.CURRENT_NODE none 0 (-1) = .ok r ∧ r.ret = true ∧ r.written ≠ none) ∧
    ∃ d ∈ nodes_in_scope sample_unavailable_win CtExporting.ALL_TREE, d.pTextBuffer = none ∧
      save_treestore CtEnv.sample sample_unavailable_win "doc.ctd" [] "" CtExporting.ALL_TREE
          none 0 (-1)
        = .ok { ret := false, error := content_unavailable_message d.name, written := none } :=
  ⟨rfl, rfl, rfl, ⟨_, rfl, rfl, by simp⟩,
   ((save_treestore_content_unavailable CtEnv.sample sample_unavailable_win "doc.ctd" [] ""
      CtExporting.ALL_TREE none 0 (-1)).1
     ⟨{ sample_owner 2 "B" "b" with pTextBuffer := none }, by decide, rfl⟩).1⟩

/-! ## An image whose blob is missing (`_create_image_from_xml`) -/

theorem slots_from_xml_append (U : CtEnv) (text_insert_pos : Option Nat) (force_offset : Int)
    (multifile_dir : String) (pre rest : List XmlNode) :
    ∀ (buffer b : CtTextBuffer) (widgets w : List CtAnchoredWidget),
      slots_from_xml U text_insert_pos force_offset multifile_dir pre buffer widgets
        = .ok (false, b, w) →
      slots_from_xml U text_insert_pos force_offset multifile_dir (pre ++ rest) buffer widgets
        = slots_from_xml U text_insert_pos force_offset multifile_dir rest b w := by
  induction pre with
  | nil =>
    intro buffer b w0 w h
    simp only [slots_from_xml, Except.ok.injEq, Prod.mk.injEq, true_and] at h
    rw [List.nil_append, h.1, h.2]
  | cons x xs ih =>
    intro buffer b w0 w h
    rw [List.cons_append, slots_from_xml]
    rw [slots_from_xml] at h
    cases hx : get_text_buffer_one_slot_from_xml U buffer x w0 text_insert_pos force_offset
        multifile_dir with
    | error e => rw [hx] at h; cases h
    | ok r =>
      obtain ⟨ok, b1, w1⟩ := r
      rw [hx] at h
      cases ok with
      | false => simp at h
      | true =>
        simp only at h ⊢
        exact ih b1 b w1 w h

/-- The image of a digest that the blob store does not hold: no widget, no exception. -/
theorem create_image_missing_blob (U : CtEnv) (xml_element : XmlNode) (charOffset : Int)
    (justification multifile_dir : String)
    (hdir : multifile_dir ≠ "")
    (hanchor : xml_element.get_attribute_value "anchor" = "")
    (hlatex : xml_element.get_attribute_value "filename" ≠ U.LatexSpecialFilename)
    (hsha : xml_element.get_attribute_value "sha256sum" ≠ "")
    (hblob : U.read_blob multifile_dir (xml_element.get_attribute_value "sha256sum") = none) :
    _create_image_from_xml U xml_element charOffset justification multifile_dir = .ok none := by
  unfold _create_image_from_xml
  simp [hanchor, hlatex, hdir, hsha, hblob]

/-- The slot of such an image makes `get_text_buffer_one_slot_from_xml` return false,
with the buffer and the widgets as they were. -/
theorem one_slot_missing_blob (U : CtEnv) (buffer : CtTextBuffer) (img : XmlNode)
    (widgets : List CtAnchoredWidget) (multifile_dir : String)
    (hname : img.get_name = "encoded_png")
    (hoff : ∃ off, U.stoi (img.get_attribute_value "char_offset") = some off)
    (hdir : multifile_dir ≠ "")
    (hanchor : img.get_attribute_value "anchor" = "")
    (hlatex : img.get_attribute_value "filename" ≠ U.LatexSpecialFilename)
    (hsha : img.get_attribute_value "sha256sum" ≠ "")
    (hblob : U.read_blob multifile_dir (img.get_attribute_value "sha256sum") = none) :
    get_text_buffer_one_slot_from_xml U buffer img widgets none (-1) multifile_dir
      = .ok (false, buffer, widgets) := by
  obtain ⟨off, hoff⟩ := hoff
  unfold get_text_buffer_one_slot_from_xml
  simp only [hname, hoff]
  simp [create_image_missing_blob U img _ _ multifile_dir hdir hanchor hlatex hsha hblob]

/-- C13. The claim as amended: a missing blob stops the decoding of the content of the
node. Let a node element of the multi-file backend hold, after the slots `pre`, an image
element (`encoded_png`, no anchor, not the LaTeX special file) whose digest has no file
in the blob store. Then `_create_image_from_xml` returns no widget and throws nothing,
and `create_buffer_and_widgets_from_xml` stops at the image: it returns the null buffer,
the widget list is the one the slots before the image left, and whatever follows the
image is not decoded. `node_from_xml` with an explicit new id still appends the node,
without text buffer and with the widgets of the slots before the image. -/
theorem create_buffer_and_widgets_missing_blob (U : CtEnv) (name : String)
    (attrs : List (String × String)) (pre post : List XmlNode) (img : XmlNode)
    (widgets w : List CtAnchoredWidget) (b : CtTextBuffer) (multifile_dir : String)
    (hname : img.get_name = "encoded_png")
    (hoff : ∃ off, U.stoi (img.get_attribute_value "char_offset") = some off)
    (hdir : multifile_dir ≠ "")
    (hanchor : img.get_attribute_value "anchor" = "")
    (hlatex : img.get_attribute_value "filename" ≠ U.LatexSpecialFilename)
    (hsha : img.get_attribute_value "sha256sum" ≠ "")
    (hblob : U.read_blob multifile_dir (img.get_attribute_value "sha256sum") = none)
    (hpre : slots_from_xml U none (-1) multifile_dir pre { ops := [] } widgets
      = .ok (false, b, w)) :
    (∀ charOffset justification,
      _create_image_from_xml U img charOffset justification multifile_dir = .ok none) ∧
    create_buffer_and_widgets_from_xml U (.element name attrs (pre ++ img :: post)) widgets
      none (-1) multifile_dir = .ok (none, w) ∧
    (widgets = [] →
      ∀ (store : CtTreeStore) (sequence new_id : Int) (parent_iter : TreeIter)
        (delayed : CtDelayedTextBufferMap), new_id ≠ -1 →
        ∃ out, node_from_xml U store (.element name attrs (pre ++ img :: post)) sequence
            parent_iter new_id none none none delayed false multifile_dir = .ok out ∧
          out.delayed_text_buffers = delayed ∧
          out.store.rows = store.rows ++
            [{ data :=
                { read_node_data U (.element name attrs (pre ++ img :: post)) sequence new_id
                  with pTextBuffer := none, anchoredWidgets := w },
               parent := parent_iter }]) := by
  have hcreate : create_buffer_and_widgets_from_xml U (.element name attrs (pre ++ img :: post))
      widgets none (-1) multifile_dir = .ok (none, w) := by
    unfold create_buffer_and_widgets_from_xml
    simp only [XmlNode.get_children_all]
    rw [slots_from_xml_append U none (-1) multifile_dir pre (img :: post) _ b widgets w hpre,
      slots_from_xml,
      one_slot_missing_blob U b img w multifile_dir hname hoff hdir hanchor hlatex hsha hblob]
    rfl
  refine ⟨fun charOffset justification =>
    create_image_missing_blob U img charOffset justification multifile_dir hdir hanchor hlatex
      hsha hblob, hcreate, ?_⟩
  intro hw store sequence new_id parent_iter delayed hnew
  subst hw
  have hne : (new_id == -1) = false := by simpa using hnew
  unfold node_from_xml
  simp only [hne, Bool.false_eq_true, if_false]
  unfold eager_node_data
  rw [read_node_data_widgets, hcreate]
  simp only [CtTreeStore.append_node]
  split <;> exact ⟨_, rfl, rfl, rfl⟩

/-- C13 as stated fails: in the sample environment, whose blob store is empty, the node
element with a span, a codebox, an image of the digest `abc`, a span and a codebox is
decoded to the null buffer and the first codebox alone; the codebox after the image,
which the same element without the image yields, is not in the result. -/
theorem create_buffer_and_widgets_drops_after_missing_blob :
    create_buffer_and_widgets_from_xml CtEnv.sample sample_missing_blob_element [] none (-1)
      "dir" = .ok (none, [sample_codebox 6 "x"]) ∧
    sample_codebox 13 "y" ∉ [sample_codebox 6 "x"] ∧
    create_buffer_and_widgets_from_xml CtEnv.sample sample_no_image_element [] none (-1) "dir"
      = .ok (some { ops := [.insert none "before" [], .insert_widget (sample_codebox 6 "x"),
                            .insert none "after" [], .insert_widget (sample_codebox 13 "y")] },
             [sample_codebox 6 "x", sample_codebox 13 "y"]) :=
  ⟨rfl, by decide, rfl⟩

/-- The amended C13 at the sample node element: the decoding stops at the image. -/
theorem create_buffer_and_widgets_missing_blob_witness :
    create_buffer_and_widgets_from_xml CtEnv.sample sample_missing_blob_element [] none (-1)
      "dir" = .ok (none, [sample_codebox 6 "x"]) ∧
    ∃ out, node_from_xml CtEnv.sample CtTreeStore.empty sample_missing_blob_element 1 none 7
        none none none [] false "dir" = .ok out ∧
      out.delayed_text_buffers = [] ∧
      out.store.rows.map (fun r => (r.data.nodeId, r.data.pTextBuffer, r.data.anchoredWidgets))
        = [(7, none, [sample_codebox 6 "x"])] :=
  ⟨(create_buffer_and_widgets_missing_blob CtEnv.sample "node"
      [("unique_id", "1"), ("master_id", "0")]
      [.element "rich_text" [] [.text "before"], sample_codebox_element "6" "x"]
      [.element "rich_text" [] [.text "after"], sample_codebox_element "13" "y"]
      (.element "encoded_png" [("char_offset", "7"), ("sha256sum", "abc")] [])
      [] [sample_codebox 6 "x"] { ops := [.insert none "before" [],
        .insert_widget (sample_codebox 6 "x")] } "dir"
      rfl ⟨7, rfl⟩ (by decide) rfl (by decide) (by decide) rfl rfl).2.1,
   ⟨_, rfl, rfl, rfl⟩⟩

/-! ## An image with a file name and no digest (`_create_image_from_xml`) -/

/-- C19. The claim as amended: the constant-filename path. In the multi-file backend,
for every image element without anchor whose `sha256sum` is empty and whose file name is
not the LaTeX special file name, `_create_image_from_xml` does not consult the blob
store. When the file name is not empty and the attribute `time` is empty or read by
`std::stoll`, it returns an embedded-file widget for that file name with an empty payload
and the path of the file in the directory of the node; when the file name is empty too it
returns no widget. -/
theorem create_image_constant_filename (U : CtEnv) (xml_element : XmlNode)
    (charOffset : Int) (justification multifile_dir : String)
    (hdir : multifile_dir ≠ "")
    (hanchor : xml_element.get_attribute_value "anchor" = "")
    (hsha : xml_element.get_attribute_value "sha256sum" = "")
    (hlatex : xml_element.get_attribute_value "filename" ≠ U.LatexSpecialFilename) :
    (∀ blob_store : String → String → Option String,
      _create_image_from_xml { U with read_blob := blob_store } xml_element charOffset
          justification multifile_dir
        = _create_image_from_xml U xml_element charOffset justification multifile_dir) ∧
    (xml_element.get_attribute_value "filename" ≠ "" →
      ∀ timeInt,
        U.stoll (if xml_element.get_attribute_value "time" == "" then "0"
          else xml_element.get_attribute_value "time") = some timeInt →
        _create_image_from_xml U xml_element charOffset justification multifile_dir
          = .ok (some (.CtImageEmbFile (xml_element.get_attribute_value "filename") ""
              timeInt charOffset justification
              (U.path_join multifile_dir (xml_element.get_attribute_value "filename"))))) ∧
    (xml_element.get_attribute_value "filename" = "" →
      _create_image_from_xml U xml_element charOffset justification multifile_dir
        = .ok none) := by
  refine ⟨?_, ?_, ?_⟩
  · intro blob_store
    unfold _create_image_from_xml
    simp [hanchor, hlatex, hdir, hsha]
  · intro hfile timeInt htime
    unfold _create_image_from_xml
    simp only [beq_iff_eq] at htime
    simp [hanchor, hlatex, hdir, hsha, hfile, htime]
  · intro hfile
    have hlatex' : ¬ "" = U.LatexSpecialFilename := by rw [← hfile]; exact hlatex
    unfold _create_image_from_xml
    simp [hanchor, hlatex', hdir, hsha, hfile]

/-- C19 as stated fails at three image elements of the multi-file backend that have a
file name and no digest: the LaTeX special file name gives a LaTeX image, an anchor
gives an anchor, neither of them an embedded-file widget, and a `time` that `std::stoll`
rejects makes the function throw. -/
theorem create_image_constant_filename_exceptions :
    _create_image_from_xml CtEnv.sample
        (sample_constant_file_element "__ct_special.tex" "12") 0 "left" "dir"
      = .ok (some (.CtImageLatex "" 0 "left")) ∧
    _create_image_from_xml CtEnv.sample
        (.element "encoded_png" [("char_offset", "0"), ("anchor", "a"), ("filename", "a.txt")]
          []) 0 "left" "dir"
      = .ok (some (.CtImageAnchor "a" CtAnchorExpCollState.None 0 "left")) ∧
    _create_image_from_xml
        { CtEnv.sample with
          stoll := fun s => if s == "noon" then none else some (parse_int s) }
        (sample_constant_file_element "a.txt" "noon") 0 "left" "dir"
      = .error (.exn "stoll") :=
  ⟨rfl, rfl, rfl⟩

/-- The amended C19 at the file `a.txt` with the time 12, and at an image element with
neither file name nor digest. -/
theorem create_image_constant_filename_witness :
    _create_image_from_xml CtEnv.sample (sample_constant_file_element "a.txt" "12") 0 "left"
        "dir"
      = .ok (some (.CtImageEmbFile "a.txt" "" 12 0 "left" "dir/a.txt")) ∧
    _create_image_from_xml CtEnv.sample (.element "encoded_png" [("char_offset", "0")] []) 0
        "left" "dir" = .ok none :=
  ⟨(create_image_constant_filename CtEnv.sample (sample_constant_file_element "a.txt" "12") 0
      "left" "dir" (by decide) rfl rfl (by decide)).2.1 (by decide) 12 rfl,
   (create_image_constant_filename CtEnv.sample (.element "encoded_png" [("char_offset", "0")]
      []) 0 "left" "dir" (by decide) rfl rfl (by decide)).2.2 rfl⟩

/-! ## Materializing a deferred buffer (`get_delayed_text_buffer`) -/

theorem CtMap.has_erase_self {V : Type} (m : CtMap V) (k : Int) : (m.erase k).has k = false := by
  induction m with
  | nil => rfl
  | cons p rest ih =>
    simp only [CtMap.erase, CtMap.has] at ih ⊢
    rw [List.filter_cons]
    by_cases hp : (p.1 == k) = true
    · simp only [hp, Bool.not_true, Bool.false_eq_true, if_false]
      exact ih
    · have hp' : (p.1 == k) = false := by simpa using hp
      simp only [hp', Bool.not_false, if_true, List.any_cons, Bool.false_or]
      exact ih

theorem CtMap.find_erase_ne {V : Type} (m : CtMap V) (k k' : Int) (hne : k' ≠ k) :
    (m.erase k).find k' = m.find k' := by
  induction m with
  | nil => rfl
  | cons p rest ih =>
    obtain ⟨pk, pv⟩ := p
    simp only [CtMap.erase] at ih ⊢
    rw [List.filter_cons]
    by_cases hp : pk = k
    · subst hp
      have h1 : (pk == k') = false := by simpa using fun h => hne h.symm
      simp only [beq_self_eq_true, Bool.not_true, Bool.false_eq_true, if_false, CtMap.find, h1]
      exact ih
    · have hp' : (pk == k) = false := by simpa using hp
      simp only [hp', Bool.not_false, if_true, CtMap.find, ih]

theorem CtMap.find_none_of_has_false {V : Type} (m : CtMap V) (k : Int)
    (h : m.has k = false) : m.find k = none := by
  cases hf : m.find k with
  | none => rfl
  | some v =>
    rw [CtMap.has_of_find m k v hf] at h
    cases h

theorem get_delayed_text_buffer_absent (U : CtEnv) (delayed : CtDelayedTextBufferMap)
    (node_id : Int) (widgets : List CtAnchoredWidget) (h : delayed.has node_id = false) :
    get_delayed_text_buffer U delayed node_id widgets
      = .ok { ret_buffer := none, widgets := widgets, delayed_text_buffers := delayed } := by
  unfold get_delayed_text_buffer
  simp only [h, Bool.not_false, if_true]

/-- C15. Delayed buffers are materialized at most once. When the map keeps under
`node_id` a document whose root has the node element as first child, and the content of
that element is decoded to a buffer, `get_delayed_text_buffer` returns this buffer and
erases `node_id` from the map: the id is no longer a key, every other key keeps its
entry, and every later call with this id returns the null buffer and leaves the map as it
is. A call with an id that is not a key returns the null buffer and leaves the map
unchanged. In general the map changes only by the erasure of `node_id`, and only when a
buffer is returned. -/
theorem get_delayed_text_buffer_at_most_once (U : CtEnv) (delayed : CtDelayedTextBufferMap)
    (node_id : Int) (widgets : List CtAnchoredWidget) :
    (∀ (doc : XmlDocument) (root : XmlNode) (name : String) (attrs : List (String × String))
        (children rest : List XmlNode) (buffer : CtTextBuffer) (w : List CtAnchoredWidget),
      delayed.find node_id = some doc → doc.root = some root →
      root.get_children_all = .element name attrs children :: rest →
      create_buffer_and_widgets_from_xml U (.element name attrs children) widgets none (-1) ""
        = .ok (some buffer, w) →
      get_delayed_text_buffer U delayed node_id widgets
        = .ok { ret_buffer := some buffer, widgets := w,
                delayed_text_buffers := delayed.erase node_id } ∧
      (delayed.erase node_id).has node_id = false ∧
      (∀ k, k ≠ node_id → (delayed.erase node_id).find k = delayed.find k) ∧
      ∀ widgets2, get_delayed_text_buffer U (delayed.erase node_id) node_id widgets2
        = .ok { ret_buffer := none, widgets := widgets2,
                delayed_text_buffers := delayed.erase node_id }) ∧
    (delayed.has node_id = false →
      get_delayed_text_buffer U delayed node_id widgets
        = .ok { ret_buffer := none, widgets := widgets, delayed_text_buffers := delayed }) ∧
    (∀ out, get_delayed_text_buffer U delayed node_id widgets = .ok out →
      (out.ret_buffer ≠ none →
        delayed.has node_id = true ∧ out.delayed_text_buffers = delayed.erase node_id) ∧
      (out.ret_buffer = none → out.delayed_text_buffers = delayed)) := by
  refine ⟨?_, get_delayed_text_buffer_absent U delayed node_id widgets, ?_⟩
  · intro doc root name attrs children rest buffer w hfind hroot hchildren hcreate
    refine ⟨?_, CtMap.has_erase_self delayed node_id,
      fun k hk => CtMap.find_erase_ne delayed node_id k hk,
      fun widgets2 => get_delayed_text_buffer_absent U _ node_id widgets2
        (CtMap.has_erase_self delayed node_id)⟩
    unfold get_delayed_text_buffer
    simp only [CtMap.has_of_find delayed node_id doc hfind, Bool.not_true, Bool.false_eq_true,
      if_false, hfind, hroot, hchildren, hcreate, Option.isSome_some, if_true]
  · intro out hout
    cases hhas : delayed.has node_id with
    | false =>
      rw [get_delayed_text_buffer_absent U delayed node_id widgets hhas] at hout
      simp only [Except.ok.injEq] at hout
      rw [← hout]
      exact ⟨fun h => absurd rfl h, fun _ => rfl⟩
    | true =>
      unfold get_delayed_text_buffer at hout
      simp only [hhas, Bool.not_true, Bool.false_eq_true, if_false] at hout
      split at hout
      · cases hout
      · split at hout
        · cases hout
        · split at hout
          · cases hout
          · cases hout
          · split at hout
            · cases hout
            · simp only [Except.ok.injEq] at hout
              rw [← hout]
              rename_i ret_buffer w _
              cases ret_buffer with
              | none => exact ⟨fun h => absurd rfl h, fun _ => rfl⟩
              | some b =>
                refine ⟨fun _ => ⟨rfl, rfl⟩, fun h => ?_⟩
                cases h

/-- C15 at a map with the nodes 5 and 6: the first call for 5 returns the buffer with the
text `a` and leaves the entry of 6 alone; the second call for 5, and a call for the
unknown id 7, return the null buffer and leave the map as it is. -/
theorem get_delayed_text_buffer_at_most_once_witness :
    get_delayed_text_buffer CtEnv.sample sample_delayed_map 5 []
      = .ok { ret_buffer := some (sample_buffer "a"), widgets := [],
              delayed_text_buffers :=
                [(6, delayed_document (sample_node_element "6" "0" "B" "b" []))] } ∧
    get_delayed_text_buffer CtEnv.sample
        [(6, delayed_document (sample_node_element "6" "0" "B" "b" []))] 5 []
      = .ok { ret_buffer := none, widgets := [],
              delayed_text_buffers :=
                [(6, delayed_document (sample_node_element "6" "0" "B" "b" []))] } ∧
    get_delayed_text_buffer CtEnv.sample sample_delayed_map 7 []
      = .ok { ret_buffer := none, widgets := [], delayed_text_buffers := sample_delayed_map } :=
  ⟨((get_delayed_text_buffer_at_most_once CtEnv.sample sample_delayed_map 5 []).1
      (delayed_document (sample_node_element "5" "0" "A" "a" []))
      (.element "root" [] [sample_node_element "5" "0" "A" "a" []]) "node"
      [("unique_id", "5"), ("master_id", "0"), ("name", "A")]
      [.element "rich_text" [] [.text "a"]] [] (sample_buffer "a") [] rfl rfl rfl rfl).1,
   ((get_delayed_text_buffer_at_most_once CtEnv.sample sample_delayed_map 5 []).1
      (delayed_document (sample_node_element "5" "0" "A" "a" []))
      (.element "root" [] [sample_node_element "5" "0" "A" "a" []]) "node"
      [("unique_id", "5"), ("master_id", "0"), ("name", "A")]
      [.element "rich_text" [] [.text "a"]] [] (sample_buffer "a") [] rfl rfl rfl rfl).2.2.2 [],
   (get_delayed_text_buffer_at_most_once CtEnv.sample sample_delayed_map 7 []).2.1 rfl⟩

/-! ## Eager and deferred content (`node_from_xml`) -/

theorem CtMap.length_set_of_has_false {V : Type} (m : CtMap V) (k : Int) (v : V)
    (h : m.has k = false) : (m.set k v).length = m.length + 1 := by
  induction m with
  | nil => rfl
  | cons p rest ih =>
    obtain ⟨pk, pv⟩ := p
    simp only [CtMap.has, List.any_cons, Bool.or_eq_false_iff] at h
    simp only [CtMap.set, h.1, Bool.false_eq_true, if_false, List.length_cons]
    rw [ih (by simpa [CtMap.has] using h.2)]

/-- C16. Eager versus deferred materialization. In a decode of one node element by
`node_from_xml` that is not a dry run: when the caller passes an explicit new id, or the
declared id is a key of the delayed-buffer map, the content is decoded at once
(`create_buffer_and_widgets_from_xml`), the node is appended with the buffer and the
widgets decoded, and the map is left as it is (an exception of the decoding leaves the
function, nothing being appended). Otherwise the node is appended without text buffer
under the declared id, and the map is the old one with one more entry, under that id, a
document holding a copy of the element; the other keys keep their entries. -/
theorem node_from_xml_eager_or_deferred (U : CtEnv) (store : CtTreeStore)
    (xml_element : XmlNode) (sequence : Int) (parent_iter : TreeIter) (new_id : Int)
    (pHasDuplicatedId pIsSharedNonMaster : Option Bool) (pImportedIdsRemap : Option (CtMap Int))
    (delayed : CtDelayedTextBufferMap) (multifile_dir : String) :
    ((new_id ≠ -1 ∨
        delayed.has (U.gint64_from_gstring (xml_element.get_attribute_value "unique_id")) = true) →
      (∀ buffer widgets,
        create_buffer_and_widgets_from_xml U xml_element [] none (-1) multifile_dir
          = .ok (buffer, widgets) →
        ∃ out, node_from_xml U store xml_element sequence parent_iter new_id pHasDuplicatedId
            pIsSharedNonMaster pImportedIdsRemap delayed false multifile_dir = .ok out ∧
          out.delayed_text_buffers = delayed ∧
          out.iter = some store.rows.length ∧
          out.store.rows = store.rows ++
            [{ data := { read_node_data U xml_element sequence new_id with
                         pTextBuffer := buffer, anchoredWidgets := widgets },
               parent := parent_iter }]) ∧
      (∀ e, create_buffer_and_widgets_from_xml U xml_element [] none (-1) multifile_dir
          = .error e →
        node_from_xml U store xml_element sequence parent_iter new_id pHasDuplicatedId
          pIsSharedNonMaster pImportedIdsRemap delayed false multifile_dir = .error e)) ∧
    (new_id = -1 →
      delayed.has (U.gint64_from_gstring (xml_element.get_attribute_value "unique_id")) = false →
      ∃ out, node_from_xml U store xml_element sequence parent_iter new_id pHasDuplicatedId
          pIsSharedNonMaster pImportedIdsRemap delayed false multifile_dir = .ok out ∧
        out.iter = some store.rows.length ∧
        out.store.rows = store.rows ++
          [{ data := read_node_data U xml_element sequence (-1), parent := parent_iter }] ∧
        (read_node_data U xml_element sequence (-1)).pTextBuffer = none ∧
        (read_node_data U xml_element sequence (-1)).nodeId
          = U.gint64_from_gstring (xml_element.get_attribute_value "unique_id") ∧
        out.delayed_text_buffers
          = delayed.set (U.gint64_from_gstring (xml_element.get_attribute_value "unique_id"))
              { root := some (.element "root" [] [xml_element]) } ∧
        out.delayed_text_buffers.find
            (U.gint64_from_gstring (xml_element.get_attribute_value "unique_id"))
          = some { root := some (.element "root" [] [xml_element]) } ∧
        (∀ k, k ≠ U.gint64_from_gstring (xml_element.get_attribute_value "unique_id") →
          out.delayed_text_buffers.find k = delayed.find k) ∧
        out.delayed_text_buffers.length = delayed.length + 1) := by
  refine ⟨?_, ?_⟩
  · intro hcase
    have hbranch : node_from_xml U store xml_element sequence parent_iter new_id
        pHasDuplicatedId pIsSharedNonMaster pImportedIdsRemap delayed false multifile_dir
        = match eager_node_data U xml_element sequence new_id multifile_dir with
          | .error e => .error e
          | .ok node_data =>
            .ok { iter := (store.append_node node_data parent_iter).2,
                  pHasDuplicatedId :=
                    if new_id == -1 then pHasDuplicatedId.map (fun _ => true)
                    else pHasDuplicatedId,
                  pIsSharedNonMaster :=
                    if (read_node_data U xml_element sequence new_id).sharedNodesMasterId ≤ 0
                    then pIsSharedNonMaster else pIsSharedNonMaster.map (fun _ => true),
                  pImportedIdsRemap :=
                    if new_id == -1 then pImportedIdsRemap
                    else pImportedIdsRemap.map (fun m => m.set
                      (U.gint64_from_gstring (xml_element.get_attribute_value "unique_id"))
                      new_id),
                  delayed_text_buffers := delayed,
                  store := (store.append_node node_data parent_iter).1 } := by
      unfold node_from_xml
      simp only [Bool.false_eq_true, if_false]
      by_cases hn : new_id = -1
      · subst hn
        have hhas := hcase.resolve_left (fun h => h rfl)
        simp only [beq_self_eq_true, if_true, read_node_data_nodeId, hhas]
        try (cases eager_node_data U xml_element sequence (-1) multifile_dir <;> rfl)
      · have hne : (new_id == -1) = false := by simpa using hn
        simp only [hne, Bool.false_eq_true, if_false]
        try (cases eager_node_data U xml_element sequence new_id multifile_dir <;> rfl)
    refine ⟨?_, ?_⟩
    · intro buffer widgets hcreate
      rw [hbranch]
      unfold eager_node_data
      rw [read_node_data_widgets, hcreate]
      exact ⟨_, rfl, rfl, rfl, rfl⟩
    · intro e hcreate
      rw [hbranch]
      unfold eager_node_data
      rw [read_node_data_widgets, hcreate]
  · intro hn hhas
    subst hn
    unfold node_from_xml
    simp only [Bool.false_eq_true, if_false, beq_self_eq_true, if_true, read_node_data_nodeId,
      hhas]
    refine ⟨_, rfl, rfl, rfl, read_node_data_buffer U _ _ _, trivial, rfl,
      CtMap.find_set_self _ _ _, fun k hk => CtMap.find_set_ne _ _ _ _ hk,
      CtMap.length_set_of_has_false _ _ _ hhas⟩

/-- C16 at the element of the node 5 (`A`, text `a`): decoded into an empty map it is
appended without buffer and kept in the map under 5; decoded again with 5 in the map, or
with the explicit new id 9, it is appended with its buffer and the map stays as it is. -/
theorem node_from_xml_eager_or_deferred_witness :
    (∃ out, node_from_xml CtEnv.sample CtTreeStore.empty (sample_node_element "5" "0" "A" "a" [])
        1 none (-1) (some false) (some false) none [] false "" = .ok out ∧
      out.store.rows.map (fun r => (r.data.nodeId, r.data.pTextBuffer)) = [(5, none)] ∧
      out.delayed_text_buffers
        = [(5, { root := some (.element "root" [] [sample_node_element "5" "0" "A" "a" []]) })]) ∧
    (∃ out, node_from_xml CtEnv.sample CtTreeStore.empty (sample_node_element "5" "0" "A" "a" [])
        1 none (-1) (some false) (some false) none sample_delayed_map false "" = .ok out ∧
      out.store.rows.map (fun r => (r.data.nodeId, r.data.pTextBuffer))
        = [(5, some (sample_buffer "a"))] ∧
      out.delayed_text_buffers = sample_delayed_map) ∧
    (∃ out, node_from_xml CtEnv.sample CtTreeStore.empty (sample_node_element "5" "0" "A" "a" [])
        1 none 9 none (some false) (some []) [] false "" = .ok out ∧
      out.store.rows.map (fun r => (r.data.nodeId, r.data.pTextBuffer))
        = [(9, some (sample_buffer "a"))] ∧
      out.delayed_text_buffers = []) :=
  ⟨by
     obtain ⟨out, h1, _, h3, _, _, h6, _⟩ :=
       (node_from_xml_eager_or_deferred CtEnv.sample CtTreeStore.empty
         (sample_node_element "5" "0" "A" "a" []) 1 none (-1) (some false) (some false) none []
         "").2 rfl rfl
     exact ⟨out, h1, by rw [h3]; rfl, by rw [h6]; rfl⟩,
   by
     obtain ⟨out, h1, h2, _, h4⟩ :=
       ((node_from_xml_eager_or_deferred CtEnv.sample CtTreeStore.empty
         (sample_node_element "5" "0" "A" "a" []) 1 none (-1) (some false) (some false) none
         sample_delayed_map "").1 (Or.inr rfl)).1 (some (sample_buffer "a")) [] rfl
     exact ⟨out, h1, by rw [h4]; rfl, h2⟩,
   by
     obtain ⟨out, h1, h2, _, h4⟩ :=
       ((node_from_xml_eager_or_deferred CtEnv.sample CtTreeStore.empty
         (sample_node_element "5" "0" "A" "a" []) 1 none 9 none (some false) (some []) []
         "").1 (Or.inl (by decide))).1 (some (sample_buffer "a")) [] rfl
     exact ⟨out, h1, by rw [h4]; rfl, h2⟩⟩

/-! ## The dry run (`populate_treestore` with `_isDryRun`) -/

theorem load_bookmarks_dry (U : CtEnv) (root : XmlNode) (store : CtTreeStore) :
    load_bookmarks U true root store = store := by
  unfold load_bookmarks
  have inner : ∀ (l : List Int) (s : CtTreeStore),
      l.foldl (fun s nodeId => if (!true) = true then s.bookmarks_add nodeId else s) s = s := by
    intro l
    induction l with
    | nil => intro s; rfl
    | cons a rest ih =>
      intro s
      rw [List.foldl_cons]
      simp only [Bool.not_true, Bool.false_eq_true, if_false]
      exact ih s
  generalize root.get_children "bookmarks" = bs
  induction bs generalizing store with
  | nil => rfl
  | cons b rest ih =>
    rw [List.foldl_cons, inner]
    exact ih store

theorem dry_walk_foldl (U : CtEnv) (items : List WalkItem) (st : PopulateState)
    (hth : st.thrown = none) :
    items.foldl (walk_step (populate_node U true)) st = st := by
  induction items with
  | nil => rfl
  | cons x rest ih =>
    rw [List.foldl_cons]
    have : walk_step (populate_node U true) st x = st := by
      unfold walk_step
      rw [populate_node_dry U _ _ _ st hth]
    rw [this, ih]

/-- What `node_from_xml` does in a dry run: it reads the attributes, sets the
shared-non-master flag for a positive master id, and returns the invalid iterator before
it looks at the delayed-buffer map; the other flag, the map and the store are as they
were passed. -/
theorem node_from_xml_dry (U : CtEnv) (store : CtTreeStore) (xml_element : XmlNode)
    (sequence : Int) (parent_iter : TreeIter) (pHasDuplicatedId pIsSharedNonMaster : Option Bool)
    (delayed : CtDelayedTextBufferMap) (multifile_dir : String) :
    node_from_xml U store xml_element sequence parent_iter (-1) pHasDuplicatedId
        pIsSharedNonMaster none delayed true multifile_dir
      = .ok { iter := none, pHasDuplicatedId := pHasDuplicatedId,
              pIsSharedNonMaster :=
                if 0 < U.gint64_from_gstring (xml_element.get_attribute_value "master_id")
                then pIsSharedNonMaster.map (fun _ => true) else pIsSharedNonMaster,
              pImportedIdsRemap := none, delayed_text_buffers := delayed, store := store } := by
  unfold node_from_xml
  simp only [if_true, read_node_data_master, beq_self_eq_true]
  by_cases hm : 0 < U.gint64_from_gstring (xml_element.get_attribute_value "master_id")
  · have : ¬ U.gint64_from_gstring (xml_element.get_attribute_value "master_id") ≤ 0 := by omega
    simp only [hm, this, if_true, if_false]
  · have : U.gint64_from_gstring (xml_element.get_attribute_value "master_id") ≤ 0 := by omega
    simp only [hm, this, if_true, if_false]

/-- C17. Dry run does not mutate. For every document that `get_parser` accepts,
`populate_treestore` in dry-run mode returns true and leaves the tree store (nodes and
bookmarks) and the delayed-buffer map exactly as they were, whatever they were. Its walk
calls `node_from_xml` once for every node element of the document, in document order,
and every call returns the invalid iterator with the store and the map as they were
passed. -/
theorem populate_treestore_dry_run (U : CtEnv) (store : CtTreeStore)
    (delayed : CtDelayedTextBufferMap) (file_path error : String) (root : XmlNode)
    (hparse : get_parser_root_node U file_path = .ok root) :
    populate_treestore U true store delayed file_path error
      = .ok { ret := true, error := error, store := store, delayed_text_buffers := delayed } ∧
    (∀ st : PopulateState,
      f_nodes_from_xml_children U true root.get_children_all 0 none st
        = (walk_items_children false st.store.rows.length root.get_children_all 0 none).foldl
            (walk_step (populate_node U true)) st) ∧
    (∀ n, (walk_items_children false n root.get_children_all 0 none).map
        (fun item => item.xml_element) = node_elements root) ∧
    (∀ (n : Nat) (item : WalkItem),
      item ∈ walk_items_children false n root.get_children_all 0 none →
      ∀ (s : CtTreeStore) (m : CtDelayedTextBufferMap),
        ∃ out, node_from_xml U s item.xml_element item.sequence item.parent_iter (-1)
            (some false) (some false) none m true "" = .ok out ∧
          out.iter = none ∧ out.store = s ∧ out.delayed_text_buffers = m) := by
  refine ⟨?_, ?_, ?_, ?_⟩
  · unfold populate_treestore populate_from_root
    simp only [hparse, load_bookmarks_dry]
    rw [f_nodes_from_xml_children_eq_foldl, dry_walk_foldl U _ _ rfl]
    rfl
  · intro st
    have := f_nodes_from_xml_children_eq_foldl U true root.get_children_all 0 none st
    simpa using this
  · intro n
    exact walk_items_children_elements false true root.get_children_all n 0 0 0 none none
  · intro n item _ s m
    exact ⟨_, node_from_xml_dry U s item.xml_element item.sequence item.parent_iter _ _ m "",
      rfl, rfl, rfl⟩

/-- C17 at the document with two nodes that declare the id 5, checked against a store
with the node 99 and a map with the nodes 5 and 6: the dry run returns true and the store
and the map are what they were. -/
theorem populate_treestore_dry_run_witness :
    populate_treestore (CtEnv.sample_with sample_duplicated_document) true sample_local_store
        sample_delayed_map "doc.ctd" ""
      = .ok { ret := true, error := "", store := sample_local_store,
              delayed_text_buffers := sample_delayed_map } ∧
    (node_elements sample_duplicated_document).length = 2 :=
  ⟨(populate_treestore_dry_run (CtEnv.sample_with sample_duplicated_document)
      sample_local_store sample_delayed_map "doc.ctd" "" sample_duplicated_document rfl).1,
   by decide⟩

/-! ## The flags of `node_from_xml` in a dry run -/

/-- C20. The claim as amended: a dry run does not detect id collisions. In dry-run mode
`node_from_xml` returns before it looks at the delayed-buffer map, so the
has-duplicated-id flag comes back as the caller passed it, for every element and
whatever the map holds; a normal load sets it exactly when the declared id is a key of
the map. The shared-non-master flag is set in a dry run for every element with
`master_id > 0` and left alone otherwise, exactly as a normal load sets it. The walk of a
dry run leaves the list of nodes with a duplicated id, like the rest of the state, as it
was. -/
theorem node_from_xml_dry_run_flags (U : CtEnv) (store : CtTreeStore) (xml_element : XmlNode)
    (sequence : Int) (parent_iter : TreeIter) (pHasDuplicatedId pIsSharedNonMaster : Option Bool)
    (delayed : CtDelayedTextBufferMap) (multifile_dir : String) :
    (∃ out, node_from_xml U store xml_element sequence parent_iter (-1) pHasDuplicatedId
        pIsSharedNonMaster none delayed true multifile_dir = .ok out ∧
      out.pHasDuplicatedId = pHasDuplicatedId ∧
      out.pIsSharedNonMaster
        = if 0 < U.gint64_from_gstring (xml_element.get_attribute_value "master_id")
          then pIsSharedNonMaster.map (fun _ => true) else pIsSharedNonMaster) ∧
    (∀ out, node_from_xml U store xml_element sequence parent_iter (-1) pHasDuplicatedId
        pIsSharedNonMaster none delayed false multifile_dir = .ok out →
      out.pHasDuplicatedId
        = (if delayed.has (U.gint64_from_gstring (xml_element.get_attribute_value "unique_id"))
           then pHasDuplicatedId.map (fun _ => true) else pHasDuplicatedId) ∧
      out.pIsSharedNonMaster
        = if 0 < U.gint64_from_gstring (xml_element.get_attribute_value "master_id")
          then pIsSharedNonMaster.map (fun _ => true) else pIsSharedNonMaster) ∧
    (∀ (cs : List XmlNode) (k : Int) (it : TreeIter) (st : PopulateState),
      st.thrown = none → f_nodes_from_xml_children U true cs k it st = st) := by
  refine ⟨⟨_, node_from_xml_dry U store xml_element sequence parent_iter _ _ delayed
    multifile_dir, rfl, rfl⟩, ?_, ?_⟩
  · intro out hout
    have hshared : (if (read_node_data U xml_element sequence (-1)).sharedNodesMasterId ≤ 0
        then pIsSharedNonMaster else pIsSharedNonMaster.map (fun _ => true))
        = if 0 < U.gint64_from_gstring (xml_element.get_attribute_value "master_id")
          then pIsSharedNonMaster.map (fun _ => true) else pIsSharedNonMaster := by
      rw [read_node_data_master]
      by_cases hm : 0 < U.gint64_from_gstring (xml_element.get_attribute_value "master_id")
      · have : ¬ U.gint64_from_gstring (xml_element.get_attribute_value "master_id") ≤ 0 := by
          omega
        simp only [hm, this, if_true, if_false]
      · have : U.gint64_from_gstring (xml_element.get_attribute_value "master_id") ≤ 0 := by
          omega
        simp only [hm, this, if_true, if_false]
    unfold node_from_xml at hout
    simp only [Bool.false_eq_true, if_false, beq_self_eq_true, if_true, read_node_data_nodeId]
      at hout
    cases hhas : delayed.has (U.gint64_from_gstring (xml_element.get_attribute_value "unique_id"))
      with
    | true =>
      simp only [hhas, if_true] at hout
      cases he : eager_node_data U xml_element sequence (-1) multifile_dir with
      | error e => rw [he] at hout; cases hout
      | ok d =>
        rw [he] at hout
        simp only [Except.ok.injEq] at hout
        rw [← hout]
        exact ⟨rfl, hshared⟩
    | false =>
      simp only [hhas, Bool.false_eq_true, if_false, Except.ok.injEq] at hout
      rw [← hout]
      exact ⟨rfl, hshared⟩
  · intro cs k it st hth
    rw [f_nodes_from_xml_children_eq_foldl, dry_walk_foldl U _ st hth]

/-- C20 as stated fails at the document with two nodes that declare the id 5: a normal
load lists the second node as one with a duplicated id, the flag being set by
`node_from_xml` once 5 is a key of the map; in a dry run the call for the second element
leaves the flag false, also when 5 is a key of the map, and the walk lists no node. -/
theorem dry_run_does_not_flag_duplicated_id :
    (normal_walk CtEnv.sample sample_duplicated_document).nodes_with_duplicated_id = [some 1] ∧
    (∃ out, node_from_xml CtEnv.sample CtTreeStore.empty (sample_node_element "5" "0" "B" "b" [])
        2 none (-1) (some false) (some false) none sample_delayed_map false "" = .ok out ∧
      out.pHasDuplicatedId = some true) ∧
    (∃ out, node_from_xml CtEnv.sample CtTreeStore.empty (sample_node_element "5" "0" "B" "b" [])
        2 none (-1) (some false) (some false) none sample_delayed_map true "" = .ok out ∧
      out.pHasDuplicatedId = some false) ∧
    (f_nodes_from_xml_children CtEnv.sample true sample_duplicated_document.get_children_all 0
      none { store := CtTreeStore.empty, delayed_text_buffers := [],
             nodes_with_duplicated_id := [], nodes_shared_non_master := [],
             thrown := none }).nodes_with_duplicated_id = [] :=
  ⟨by decide, ⟨_, rfl, rfl⟩, ⟨_, rfl, rfl⟩, by decide⟩

/-- The amended C20 at an alias element (`unique_id` 5, `master_id` 1) in a dry run: the
shared-non-master flag is set, the has-duplicated-id flag is not, although 5 is a key of
the map. -/
theorem node_from_xml_dry_run_flags_witness :
    ∃ out, node_from_xml CtEnv.sample CtTreeStore.empty
        (.element "node" [("unique_id", "5"), ("master_id", "1")] []) 1 none (-1) (some false)
        (some false) none sample_delayed_map true "" = .ok out ∧
      out.pHasDuplicatedId = some false ∧ out.pIsSharedNonMaster = some true :=
  (node_from_xml_dry_run_flags CtEnv.sample CtTreeStore.empty
    (.element "node" [("unique_id", "5"), ("master_id", "1")] []) 1 none (some false)
    (some false) sample_delayed_map "").1

/-! ## An alias whose master was not imported (`import_nodes`) -/

/-- C14. Dangling alias on import is not fatal. When a foreign document whose node
elements declare pairwise distinct ids is imported (its content decodable, the allocator
returning an id that no node has and never the marker -1), the import completes and
every node element, an alias included, has become one node with a fresh id under the
parent the walk gives it. An alias whose declared master id is the id of no element of
the document is not in the remap: it keeps the master id it declared and its node data
is the data decoded from its element, untouched by the last loop. An alias whose master
is in the document still ends with the new id of its master as its master id. -/
theorem import_nodes_dangling_alias (U : CtEnv) (root : XmlNode) (filepath : String)
    (store : CtTreeStore) (delayed : CtDelayedTextBufferMap) (pending : List PendingChange)
    (parent_iter : TreeIter)
    (hparse : get_parser_root_node U filepath = .ok root)
    (hwf : well_formed_document U root)
    (halloc : ∀ ids, U.node_id_get ids ∉ ids ∧ U.node_id_get ids ≠ -1)
    (hnd : (declared_ids U root).Nodup) :
    (import_nodes U false store delayed pending filepath parent_iter).thrown = none ∧
    (import_nodes U false store delayed pending filepath parent_iter).store.rows.length
      = store.rows.length + (node_elements root).length ∧
    ∀ k item, (document_items store.rows.length root parent_iter)[k]? = some item →
      ∃ row,
        (import_nodes U false store delayed pending filepath parent_iter).store.rows[
          store.rows.length + k]? = some row ∧
        row.parent = item.parent_iter ∧
        row.data.nodeId = U.node_id_get
          ((import_nodes U false store delayed pending filepath parent_iter).store.node_ids.take
            (store.rows.length + k)) ∧
        row.data.nodeId ∉
          (import_nodes U false store delayed pending filepath parent_iter).store.node_ids.take
            (store.rows.length + k) ∧
        (0 < item.read_master_id U → item.read_master_id U ∉ declared_ids U root →
          (import_nodes U false store delayed pending filepath
            parent_iter).imported_ids_remap.find (item.read_master_id U) = none ∧
          row.data.sharedNodesMasterId = item.read_master_id U ∧
          eager_node_data U item.xml_element item.sequence row.data.nodeId "" = .ok row.data) ∧
        (0 < item.read_master_id U →
          ∀ j item_j, (document_items store.rows.length root parent_iter)[j]? = some item_j →
            item_j.read_id U = item.read_master_id U →
            ∃ row_j,
              (import_nodes U false store delayed pending filepath parent_iter).store.rows[
                store.rows.length + j]? = some row_j ∧
              row.data.sharedNodesMasterId = row_j.data.nodeId) := by
  have hK := import_walk_inv U root store delayed pending parent_iter hwf
    (fun ids => (halloc ids).2)
  have hnd' : ((document_items store.rows.length root parent_iter).map
      (WalkItem.read_id U)).Nodup := by
    rw [document_items_read_ids]
    exact hnd
  generalize hst : import_f_nodes_from_xml_children U false root.get_children_all 0 parent_iter
      { store := store, delayed_text_buffers := delayed, pending := pending,
        nodes_shared_non_master := [], imported_ids_remap := [], thrown := none } = st at hK
  have hres : import_nodes U false store delayed pending filepath parent_iter
      = { thrown := none
          store := st.nodes_shared_non_master.foldl (import_remap_shared st.imported_ids_remap)
            st.store
          delayed_text_buffers := st.delayed_text_buffers
          pending := st.pending
          imported_ids_remap := st.imported_ids_remap } := by
    unfold import_nodes import_from_root
    simp only [hparse, hst, hK.thrown]
  rw [hres]
  have hids := import_shared_node_ids st.imported_ids_remap st.nodes_shared_non_master st.store
  have hrow_exists : ∀ k item,
      (document_items store.rows.length root parent_iter)[k]? = some item →
      ∃ row, st.store.rows[store.rows.length + k]? = some row := by
    intro k item h
    have := getElem?_lt_of_some h
    exact ⟨_, List.getElem?_eq_getElem (by rw [hK.length]; omega)⟩
  refine ⟨rfl, ?_, ?_⟩
  · simp only
    rw [← node_ids_length, hids, node_ids_length, hK.length, ← document_items_elements
      store.rows.length root parent_iter, List.length_map]
  · intro k item hitem
    simp only
    obtain ⟨rk, hrk⟩ := hrow_exists k item hitem
    obtain ⟨hpar, hid, heager⟩ := hK.rows k item rk hitem hrk
    obtain ⟨d, hd, hdid⟩ := import_shared_shape st.imported_ids_remap
      st.nodes_shared_non_master _ st.store rk hrk
    have hmaster : rk.data.sharedNodesMasterId = item.read_master_id U :=
      eager_node_data_master U _ _ _ _ _ heager
    refine ⟨_, hd, hpar, ?_, ?_, ?_, ?_⟩
    · show d.nodeId = _
      rw [hdid, hids]
      exact hid
    · show d.nodeId ∉ _
      rw [hdid, hids, hid]
      exact (halloc _).1
    · intro hM hnot
      have hfind : st.imported_ids_remap.find (item.read_master_id U) = none := by
        apply CtMap.find_none_of_has_false
        cases hh : st.imported_ids_remap.has (item.read_master_id U) with
        | false => rfl
        | true =>
          have := (hK.remap_keys _).1 hh
          rw [document_items_read_ids] at this
          exact absurd this hnot
      have hsame := (import_shared_row st.imported_ids_remap st.nodes_shared_non_master _
        st.store rk hK.aliases_nodup (hK.aliases_mem k item hitem hM) hrk).2
        (by rw [hmaster]; exact hfind)
      rw [hd] at hsame
      simp only [Option.some.injEq] at hsame
      have hdd : d = rk.data := by
        have := congrArg CtTreeRow.data hsame
        simpa using this
      refine ⟨hfind, ?_, ?_⟩
      · show d.sharedNodesMasterId = _
        rw [hdd, hmaster]
      · show eager_node_data U item.xml_element item.sequence d.nodeId "" = .ok d
        rw [hdd]
        exact heager
    · intro hM j item_j hj hjid
      obtain ⟨rj, hrj⟩ := hrow_exists j item_j hj
      obtain ⟨dj, hdj, hdjid⟩ := import_shared_shape st.imported_ids_remap
        st.nodes_shared_non_master _ st.store rj hrj
      have hfind : st.imported_ids_remap.find rk.data.sharedNodesMasterId
          = some rj.data.nodeId := by
        rw [hmaster, ← hjid]
        exact hK.remap_find_nodup hnd' j item_j rj hj hrj
      obtain ⟨row, hrow, hm, _⟩ := (import_shared_row st.imported_ids_remap
        st.nodes_shared_non_master _ st.store rk hK.aliases_nodup
        (hK.aliases_mem k item hitem hM) hrk).1 _ hfind
      rw [hd] at hrow
      simp only [Option.some.injEq] at hrow
      refine ⟨_, hdj, ?_⟩
      show d.sharedNodesMasterId = dj.nodeId
      rw [hdjid, ← hm, ← hrow]

theorem sample_dangling_document_well_formed (U : CtEnv) :
    well_formed_document U sample_dangling_document := by
  intro el hel
  have : node_elements sample_dangling_document
      = [.element "node" [("unique_id", "12"), ("master_id", "77")] [],
         sample_node_element "10" "0" "M" "m" [],
         .element "node" [("unique_id", "11"), ("master_id", "10")] []] := rfl
  rw [this] at hel
  simp only [List.mem_cons, List.mem_singleton, List.not_mem_nil, or_false] at hel
  rcases hel with h | h | h <;> subst h <;> exact ⟨_, rfl⟩

/-- C14 at a foreign document with the alias 12 of an absent node 77, the master 10 and
its alias 11, imported under the only node (id 99) of the local store: the three nodes
get the ids 100, 101 and 102; the node 100 keeps the master id 77, which the remap does
not hold, and the node 102 has the master id 101. -/
theorem import_nodes_dangling_alias_witness :
    (import_nodes (CtEnv.sample_with sample_dangling_document) false sample_local_store [] []
      "foreign.ctd" (some 0)).thrown = none ∧
    (import_nodes (CtEnv.sample_with sample_dangling_document) false sample_local_store [] []
      "foreign.ctd" (some 0)).store.node_ids = [99, 100, 101, 102] ∧
    (import_nodes (CtEnv.sample_with sample_dangling_document) false sample_local_store [] []
      "foreign.ctd" (some 0)).imported_ids_remap = [(12, 100), (10, 101), (11, 102)] ∧
    (import_nodes (CtEnv.sample_with sample_dangling_document) false sample_local_store [] []
      "foreign.ctd" (some 0)).store.rows.map (fun r => r.data.sharedNodesMasterId)
      = [0, 77, 0, 101] :=
  ⟨(import_nodes_dangling_alias (CtEnv.sample_with sample_dangling_document)
      sample_dangling_document "foreign.ctd" sample_local_store [] [] (some 0) rfl
      (sample_dangling_document_well_formed _)
      (fun ids => ⟨sample_allocator_fresh ids, sample_allocator_not_marker ids⟩)
      (by decide)).1,
   by decide, by decide, by decide⟩

/-! ## Tables (`table_to_xml`, `populate_table_matrix`) -/

theorem attr_value_append_absent (a : List (String × String)) (k v k' : String)
    (h : a.any (fun p => p.1 == k) = false) :
    XmlNode.attr_value (a ++ [(k, v)]) k'
      = if k = k' then (if a.any (fun p => p.1 == k') then XmlNode.attr_value a k' else v)
        else XmlNode.attr_value a k' := by
  induction a with
  | nil =>
    simp only [List.nil_append, XmlNode.attr_value, List.any_nil, Bool.false_eq_true, if_false]
    by_cases hk : k = k' <;> simp [hk]
  | cons p rest ih =>
    obtain ⟨pk, pv⟩ := p
    simp only [List.any_cons, Bool.or_eq_false_iff] at h
    simp only [List.cons_append, XmlNode.attr_value, List.any_cons]
    by_cases hp : (pk == k') = true
    · simp [hp]
    · have hp' : (pk == k') = false := by simpa using hp
      simp only [hp', Bool.false_eq_true, if_false, Bool.false_or]
      exact ih h.2

theorem attr_value_map_replace (k v k' : String) (f : String × String → String × String)
    (hf_eq : ∀ p : String × String, p.1 = k → f p = (k, v))
    (hf_ne : ∀ p : String × String, p.1 ≠ k → f p = p) :
    ∀ l : List (String × String),
      XmlNode.attr_value (l.map f) k'
        = if k = k' then (if l.any (fun p => p.1 == k) then v else XmlNode.attr_value l k')
          else XmlNode.attr_value l k' := by
  intro l
  induction l with
  | nil => simp [XmlNode.attr_value]
  | cons p rest ih =>
    obtain ⟨pk, pv⟩ := p
    rw [List.map_cons]
    by_cases hp : pk = k
    · rw [hf_eq (pk, pv) hp]
      subst hp
      simp only [XmlNode.attr_value, List.any_cons, beq_self_eq_true, Bool.true_or, if_true]
      by_cases hk : pk = k'
      · simp [hk]
      · have hk' : (pk == k') = false := by simpa using hk
        simp only [hk', Bool.false_eq_true, if_false, hk]
        rw [ih]
        simp only [hk, if_false]
    · rw [hf_ne (pk, pv) hp]
      have hp' : (pk == k) = false := by simpa using hp
      simp only [XmlNode.attr_value, List.any_cons, hp', Bool.false_or]
      by_cases hk : (pk == k') = true
      · have hne : ¬ k = k' := by
          intro h
          subst h
          simp [hp'] at hk
        simp [hk, hne]
      · have hk' : (pk == k') = false := by simpa using hk
        simp only [hk', Bool.false_eq_true, if_false]
        exact ih

/-- The value of an attribute after `set_attribute`: the new value for the attribute
that was set, the old value for any other. -/
theorem attr_value_set_attr (a : List (String × String)) (k v k' : String) :
    XmlNode.attr_value (XmlNode.set_attr a k v) k'
      = if k = k' then v else XmlNode.attr_value a k' := by
  unfold XmlNode.set_attr
  cases hany : a.any (fun p => p.1 == k) with
  | false =>
    simp only [Bool.false_eq_true, if_false]
    rw [attr_value_append_absent a k v k' hany]
    by_cases hk : k = k'
    · subst hk
      simp [hany]
    · simp [hk]
  | true =>
    simp only [if_true]
    rw [attr_value_map_replace k v k' _ (fun p hp => by simp [hp])
      (fun p hp => by simp [hp]) a]
    simp [hany]

theorem filter_cells (tableRow : List String) :
    (tableRow.map (fun cell => XmlNode.element "cell" [] [XmlNode.text cell])).filter
        (fun c => c.get_name == "cell")
      = tableRow.map (fun cell => XmlNode.element "cell" [] [XmlNode.text cell]) := by
  induction tableRow with
  | nil => rfl
  | cons c rest ih =>
    rw [List.map_cons, List.filter_cons, ih]
    rfl

theorem row_to_xml_cells (tableRow : List String) :
    ((row_to_xml tableRow).get_children "cell").map
        (fun pNodeCell => (pNodeCell.get_child_text).getD "") = tableRow := by
  have h : (row_to_xml tableRow).get_children "cell"
      = tableRow.map (fun cell => XmlNode.element "cell" [] [XmlNode.text cell]) :=
    filter_cells tableRow
  rw [h, List.map_map]
  have : ((fun pNodeCell : XmlNode => (pNodeCell.get_child_text).getD "") ∘
      (fun cell => XmlNode.element "cell" [] [XmlNode.text cell])) = id := by
    funext cell
    rfl
  rw [this, List.map_id]

theorem filter_rows (rows : List (List String)) :
    (rows.map row_to_xml).filter (fun c => c.get_name == "row") = rows.map row_to_xml := by
  induction rows with
  | nil => rfl
  | cons r rest ih =>
    simp only [List.map_cons, List.filter_cons]
    rw [ih]
    rfl

/-- The rows `populate_table_matrix` reads from an element whose children are the
elements of `rows`. -/
theorem table_rows_from_xml_rows (name : String) (attrs : List (String × String))
    (rows : List (List String)) :
    table_rows_from_xml (.element name attrs (rows.map row_to_xml)) = rows := by
  have h : (XmlNode.element name attrs (rows.map row_to_xml)).get_children "row"
      = rows.map row_to_xml := filter_rows rows
  unfold table_rows_from_xml
  rw [h, List.map_map]
  have : ((fun pNodeRow : XmlNode => (pNodeRow.get_children "cell").map
      (fun pNodeCell => (pNodeCell.get_child_text).getD "")) ∘ row_to_xml) = id := by
    funext r
    exact row_to_xml_cells r
  rw [this, List.map_id]

/-- The element `table_to_xml` makes of a table with a header: the rows after the header
in their order, then the header. -/
theorem table_to_xml_rows (U : CtEnv) (header : List String) (rest : List (List String))
    (char_offset : Int) (justification : String) (defaultWidth : Int) (colWidths : String)
    (is_light : Bool) :
    ∃ attrs, table_to_xml U (header :: rest) char_offset justification defaultWidth colWidths
        is_light = .ok (.element "table" attrs ((rest ++ [header]).map row_to_xml)) ∧
      XmlNode.attr_value attrs "is_light"
        = if is_light then "1"
          else if U.TAG_JUSTIFICATION = "is_light" then justification else "" := by
  unfold table_to_xml
  cases is_light with
  | true =>
    refine ⟨_, by
      simp only [XmlNode.set_attribute, if_true, List.drop_one, List.tail_cons,
        add_children_element, XmlNode.add_child, List.nil_append, List.map_append,
        List.map_cons, List.map_nil]; rfl, ?_⟩
    rw [attr_value_set_attr]
    simp
  | false =>
    refine ⟨_, by
      simp only [XmlNode.set_attribute, Bool.false_eq_true, if_false, List.drop_one,
        List.tail_cons, add_children_element, XmlNode.add_child, List.nil_append,
        List.map_append, List.map_cons, List.map_nil]; rfl, ?_⟩
    simp only [attr_value_set_attr, XmlNode.attr_value, Bool.false_eq_true, if_false]
    simp

/-- C18. Table row round trip with the header stored last. For every table given header
first, `table_to_xml` emits a `table` element whose children are the rows after the
header, in their order, and then the header row; `is_light="1"` is emitted for a light
table and no `is_light` attribute for a heavy one (the name of the justification
attribute not being `is_light`). `populate_table_matrix` applied to that element returns
the rows as they were given: the header first, the others in their order, every cell text
unchanged, and the variant that was encoded (`is_str_true` being true of `1`); so does
`_create_table_from_xml` when it can read `col_max`. An element without `is_light`
attribute is decoded as heavy. -/
theorem table_to_xml_populate_table_matrix_round_trip (U : CtEnv) (header : List String)
    (rest : List (List String)) (char_offset : Int) (justification : String)
    (defaultWidth : Int) (colWidths : String) (is_light : Bool)
    (hjust : U.TAG_JUSTIFICATION ≠ "is_light") (htrue : U.is_str_true "1" = true) :
    (∃ attrs widths,
      table_to_xml U (header :: rest) char_offset justification defaultWidth colWidths is_light
        = .ok (.element "table" attrs (rest.map row_to_xml ++ [row_to_xml header])) ∧
      XmlNode.attr_value attrs "is_light" = (if is_light then "1" else "") ∧
      populate_table_matrix U []
          (.element "table" attrs (rest.map row_to_xml ++ [row_to_xml header])) [] false
        = .ok (header :: rest, widths, is_light) ∧
      ∀ colWidthDefault charOffset justification2,
        U.stoi (XmlNode.attr_value attrs "col_max") = some colWidthDefault →
        _create_table_from_xml U
            (.element "table" attrs (rest.map row_to_xml ++ [row_to_xml header])) charOffset
            justification2
          = .ok (if is_light then
              .CtTableLight (header :: rest) colWidthDefault charOffset justification2 widths
            else
              .CtTableHeavy (header :: rest) colWidthDefault charOffset justification2
                widths)) ∧
    (∀ (xml_element : XmlNode) (tableMatrix : List (List String)) (tableColWidths : List Int)
        (r : List (List String) × List Int × Bool),
      xml_element.get_attribute_value "is_light" = "" →
      populate_table_matrix U tableMatrix xml_element tableColWidths false = .ok r →
      r.2.2 = false) := by
  refine ⟨?_, ?_⟩
  · obtain ⟨attrs, hto, hattr⟩ := table_to_xml_rows U header rest char_offset justification
      defaultWidth colWidths is_light
    rw [List.map_append, List.map_cons, List.map_nil] at hto
    have hattr' : XmlNode.attr_value attrs "is_light" = (if is_light then "1" else "") := by
      rw [hattr]
      simp only [hjust, if_false]
    have hrows : table_rows_from_xml
        (.element "table" attrs (rest.map row_to_xml ++ [row_to_xml header]))
        = rest ++ [header] := by
      have := table_rows_from_xml_rows "table" attrs (rest ++ [header])
      rw [List.map_append, List.map_cons, List.map_nil] at this
      exact this
    have hlight : (if (XmlNode.attr_value attrs "is_light" != "") = true
        then U.is_str_true (XmlNode.attr_value attrs "is_light") else false) = is_light := by
      rw [hattr']
      cases is_light
      · simp
      · simp [htrue]
    have hpop : populate_table_matrix U []
        (.element "table" attrs (rest.map row_to_xml ++ [row_to_xml header])) [] false
        = .ok (header :: rest,
            (if (XmlNode.attr_value attrs "col_widths" != "") = true
              then U.gstring_split_to_int (XmlNode.attr_value attrs "col_widths") else []),
            is_light) := by
      have hlast : (rest ++ [header]).getLast? = some header := by
        rw [List.getLast?_append, List.getLast?_singleton]
        rfl
      have hdrop : (header :: (rest ++ [header])).dropLast = header :: rest := by
        rw [← List.cons_append, List.dropLast_concat]
      unfold populate_table_matrix
      simp only [List.nil_append, hrows, hlast, hdrop, XmlNode.get_attribute_value,
        XmlNode.get_attributes, hlight]
    refine ⟨attrs, _, hto, hattr', hpop, ?_⟩
    intro colWidthDefault charOffset justification2 hstoi
    unfold _create_table_from_xml
    simp only [XmlNode.get_attribute_value, XmlNode.get_attributes, hstoi]
    have hpop' := hpop
    simp only [XmlNode.get_attribute_value, XmlNode.get_attributes] at hpop'
    rw [hpop']
    cases is_light <;> rfl
  · intro xml_element tableMatrix tableColWidths r habsent hpop
    unfold populate_table_matrix at hpop
    simp only [habsent, bne_self_eq_false, Bool.false_eq_true, if_false] at hpop
    split at hpop
    · cases hpop
    · simp only [Except.ok.injEq] at hpop
      rw [← hpop]

/-- C18 at a light table with the header `h1 h2` and the rows `a b` and `c d`: the
element holds the rows `a b`, `c d`, `h1 h2` in this order and `is_light="1"`, and is
decoded to the header and the two rows, light. -/
theorem table_to_xml_populate_table_matrix_round_trip_witness :
    table_to_xml CtEnv.sample [["h1", "h2"], ["a", "b"], ["c", "d"]] 4 "left" 60 "" true
      = .ok (.element "table"
          [("char_offset", "4"), ("justification", "left"), ("col_min", "60"),
           ("col_max", "60"), ("col_widths", ""), ("is_light", "1")]
          [row_to_xml ["a", "b"], row_to_xml ["c", "d"], row_to_xml ["h1", "h2"]]) ∧
    populate_table_matrix CtEnv.sample []
        (.element "table"
          [("char_offset", "4"), ("justification", "left"), ("col_min", "60"),
           ("col_max", "60"), ("col_widths", ""), ("is_light", "1")]
          [row_to_xml ["a", "b"], row_to_xml ["c", "d"], row_to_xml ["h1", "h2"]]) [] false
      = .ok ([["h1", "h2"], ["a", "b"], ["c", "d"]], [], true) ∧
    ∃ attrs widths,
      table_to_xml CtEnv.sample [["h1", "h2"], ["a", "b"], ["c", "d"]] 4 "left" 60 "" true
        = .ok (.element "table" attrs
            ([["a", "b"], ["c", "d"]].map row_to_xml ++ [row_to_xml ["h1", "h2"]])) ∧
      populate_table_matrix CtEnv.sample []
          (.element "table" attrs
            ([["a", "b"], ["c", "d"]].map row_to_xml ++ [row_to_xml ["h1", "h2"]])) [] false
        = .ok ([["h1", "h2"], ["a", "b"], ["c", "d"]], widths, true) :=
  ⟨rfl, rfl, by
    obtain ⟨attrs, widths, h1, _, h3, _⟩ :=
      (table_to_xml_populate_table_matrix_round_trip CtEnv.sample ["h1", "h2"]
        [["a", "b"], ["c", "d"]] 4 "left" 60 "" true (by decide) rfl).1
    exact ⟨attrs, widths, h1, h3⟩⟩

/-! ## The scope of an export and the walk of `_nodes_to_xml` -/

mutual
/-- When the text buffer of every node the export visits can be retrieved,
`_nodes_to_xml` returns the expected element. -/
theorem nodes_to_xml_visited_eq_encode (U : CtEnv) (export_type : CtExporting)
    (reassign : Option (CtMap Int)) (start_offset end_offset : Int) :
    ∀ (t : CtTreeNode),
      (∀ d ∈ visited_nodes export_type t, d.pTextBuffer.isSome = true) →
      _nodes_to_xml U export_type reassign start_offset end_offset t
        = .ok (encode_node U export_type reassign start_offset end_offset t)
  | .node data children, h => by
    rw [visited_nodes] at h
    obtain ⟨buffer, hbuf⟩ := Option.isSome_iff_exists.1 (h data (List.mem_cons_self _ _))
    rw [_nodes_to_xml, encode_node]
    simp only [hbuf, Option.getD_some]
    by_cases hs : export_type ≠ CtExporting.CURRENT_NODE ∧
        export_type ≠ CtExporting.SELECTED_TEXT
    · have ih := nodes_to_xml_siblings_visited_eq_encode U export_type reassign start_offset
        end_offset children (fun d hd => h d (by
          simp only [hs, ne_eq, not_false_eq_true, and_self, if_true]
          exact List.mem_cons_of_mem _ hd))
      by_cases hm : 0 < export_master_id data.nodeId data.sharedNodesMasterId export_type
          reassign
      · rw [node_to_xml_alias U data "" export_type reassign start_offset end_offset hm]
        simp only [hm, hs, ne_eq, not_false_eq_true, and_self, if_true, ih,
          add_children_element]
      · rw [node_to_xml_owner U data "" export_type reassign start_offset end_offset buffer
          (by omega) hbuf]
        simp only [hm, hs, ne_eq, not_false_eq_true, and_self, if_true, if_false, ih,
          add_children_element]
    · by_cases hm : 0 < export_master_id data.nodeId data.sharedNodesMasterId export_type
          reassign
      · rw [node_to_xml_alias U data "" export_type reassign start_offset end_offset hm]
        simp only [hm, hs, if_true, if_false, List.append_nil]
      · rw [node_to_xml_owner U data "" export_type reassign start_offset end_offset buffer
          (by omega) hbuf]
        simp only [hm, hs, if_false, List.append_nil]
theorem nodes_to_xml_siblings_visited_eq_encode (U : CtEnv) (export_type : CtExporting)
    (reassign : Option (CtMap Int)) (start_offset end_offset : Int) :
    ∀ (ts : List CtTreeNode),
      (∀ d ∈ visited_nodes_all export_type ts, d.pTextBuffer.isSome = true) →
      _nodes_to_xml_siblings U export_type reassign start_offset end_offset ts
        = .ok (encode_nodes U export_type reassign start_offset end_offset ts)
  | [], _ => by
    rw [_nodes_to_xml_siblings, encode_nodes]
  | t :: rest, h => by
    rw [visited_nodes_all] at h
    rw [_nodes_to_xml_siblings, encode_nodes,
      nodes_to_xml_visited_eq_encode U export_type reassign start_offset end_offset t
        (fun d hd => h d (List.mem_append_left _ hd)),
      nodes_to_xml_siblings_visited_eq_encode U export_type reassign start_offset end_offset
        rest (fun d hd => h d (List.mem_append_right _ hd))]
end

theorem node_skeleton_children_skip (pre : List XmlNode)
    (hpre : ∀ e ∈ pre, e.get_name ≠ "node") (cs : List XmlNode) :
    node_skeleton_children (pre ++ cs) = node_skeleton_children cs := by
  induction pre with
  | nil => rfl
  | cons c rest ih =>
    have hc : (c.get_name == "node") = false := by
      simpa using hpre c (List.mem_cons_self _ _)
    rw [List.cons_append, node_skeleton_children]
    simp only [hc, Bool.false_eq_true, if_false]
    exact ih (fun e he => hpre e (List.mem_cons_of_mem _ he))

theorem node_skeleton_children_nil (pre : List XmlNode)
    (hpre : ∀ e ∈ pre, e.get_name ≠ "node") : node_skeleton_children pre = [] := by
  have := node_skeleton_children_skip pre hpre []
  rw [List.append_nil] at this
  rw [this, node_skeleton_children]

theorem encode_node_content_names (U : CtEnv) (data : CtNodeData) (export_type : CtExporting)
    (reassign : Option (CtMap Int)) (start_offset end_offset : Int)
    (hwidgets : ∀ w off d, ∀ e ∈ U.widget_to_xml w off d, e.get_name ≠ "node") :
    ∀ e ∈ (if 0 < export_master_id data.nodeId data.sharedNodesMasterId export_type reassign
        then []
        else content_to_xml U data (data.pTextBuffer.getD { ops := [] }) "" start_offset
          end_offset), e.get_name ≠ "node" := by
  intro e he
  split at he
  · cases he
  · exact content_to_xml_names U data _ "" start_offset end_offset hwidgets e he

mutual
theorem node_skeleton_encode_node (U : CtEnv) (export_type : CtExporting)
    (reassign : Option (CtMap Int)) (start_offset end_offset : Int)
    (hs : export_type ≠ CtExporting.CURRENT_NODE ∧ export_type ≠ CtExporting.SELECTED_TEXT)
    (hwidgets : ∀ w off d, ∀ e ∈ U.widget_to_xml w off d, e.get_name ≠ "node") :
    ∀ (t : CtTreeNode),
      node_skeleton (encode_node U export_type reassign start_offset end_offset t)
        = tree_skeleton export_type reassign t
  | .node data children => by
    rw [encode_node, tree_skeleton, node_skeleton]
    simp only [hs, ne_eq, not_false_eq_true, and_self, if_true]
    rw [node_skeleton_children_skip _ (encode_node_content_names U data export_type reassign
        start_offset end_offset hwidgets),
      node_skeleton_encode_nodes U export_type reassign start_offset end_offset hs hwidgets
        children]
    rfl
theorem node_skeleton_encode_nodes (U : CtEnv) (export_type : CtExporting)
    (reassign : Option (CtMap Int)) (start_offset end_offset : Int)
    (hs : export_type ≠ CtExporting.CURRENT_NODE ∧ export_type ≠ CtExporting.SELECTED_TEXT)
    (hwidgets : ∀ w off d, ∀ e ∈ U.widget_to_xml w off d, e.get_name ≠ "node") :
    ∀ (ts : List CtTreeNode),
      node_skeleton_children (encode_nodes U export_type reassign start_offset end_offset ts)
        = tree_skeleton_all export_type reassign ts
  | [] => by
    rw [encode_nodes, tree_skeleton_all, node_skeleton_children]
  | t :: rest => by
    rw [encode_nodes, tree_skeleton_all, node_skeleton_children]
    simp only [encode_node_name, beq_self_eq_true, if_true]
    rw [node_skeleton_encode_node U export_type reassign start_offset end_offset hs hwidgets t,
      node_skeleton_encode_nodes U export_type reassign start_offset end_offset hs hwidgets
        rest]
end

theorem tree_skeleton_name (export_type : CtExporting) (reassign : Option (CtMap Int))
    (t : CtTreeNode) : (tree_skeleton export_type reassign t).get_name = "node" := by
  cases t with
  | node data children => rw [tree_skeleton]; rfl

mutual
theorem count_nodes_tree_skeleton (export_type : CtExporting) (reassign : Option (CtMap Int)) :
    ∀ (t : CtTreeNode), count_nodes (tree_skeleton export_type reassign t) = tree_size t
  | .node data children => by
    rw [tree_skeleton, count_nodes, tree_size,
      count_nodes_tree_skeleton_all export_type reassign children]
theorem count_nodes_tree_skeleton_all (export_type : CtExporting)
    (reassign : Option (CtMap Int)) :
    ∀ (ts : List CtTreeNode),
      count_nodes_children (tree_skeleton_all export_type reassign ts) = tree_size_all ts
  | [] => by
    rw [tree_skeleton_all, count_nodes_children, tree_size_all]
  | t :: rest => by
    rw [tree_skeleton_all, count_nodes_children, tree_size_all]
    simp only [tree_skeleton_name, beq_self_eq_true, if_true]
    rw [count_nodes_tree_skeleton export_type reassign t,
      count_nodes_tree_skeleton_all export_type reassign rest]
end

/-- C21. Export scope decides the walk. Let the text buffer of every node the export
visits be there, and no widget write an element called `node`. With the scope
`CURRENT_NODE` or `SELECTED_TEXT`, `_nodes_to_xml` visits the node alone and returns one
`node` element with no `node` element in it. With every other scope it returns one `node`
element per node of the subtree: the `node` children of the element of a node are the
elements of its children in sibling order, so that the element, reduced to its `node`
elements, is the tree itself, and the number of `node` elements is the number of nodes of
the subtree. -/
theorem nodes_to_xml_scope_decides_walk (U : CtEnv) (export_type : CtExporting)
    (reassign : Option (CtMap Int)) (start_offset end_offset : Int) (t : CtTreeNode)
    (havail : ∀ d ∈ visited_nodes export_type t, d.pTextBuffer.isSome = true)
    (hwidgets : ∀ w off d, ∀ e ∈ U.widget_to_xml w off d, e.get_name ≠ "node") :
    ∃ e, _nodes_to_xml U export_type reassign start_offset end_offset t = .ok e ∧
      e.get_name = "node" ∧
      ((export_type = CtExporting.CURRENT_NODE ∨ export_type = CtExporting.SELECTED_TEXT) →
        visited_nodes export_type t = [t.data] ∧
        e.get_children "node" = [] ∧
        node_skeleton e = .element "node" (encoded_attributes t.data export_type reassign) [] ∧
        count_nodes e = 1) ∧
      ((export_type ≠ CtExporting.CURRENT_NODE ∧ export_type ≠ CtExporting.SELECTED_TEXT) →
        e.get_children "node"
          = encode_nodes U export_type reassign start_offset end_offset t.children ∧
        (e.get_children "node").length = t.children.length ∧
        node_skeleton e = tree_skeleton export_type reassign t ∧
        count_nodes e = tree_size t) := by
  refine ⟨_, nodes_to_xml_visited_eq_encode U export_type reassign start_offset end_offset t
    havail, encode_node_name _ _ _ _ _ _, ?_, ?_⟩
  · intro hsingle
    have hs : ¬ (export_type ≠ CtExporting.CURRENT_NODE ∧
        export_type ≠ CtExporting.SELECTED_TEXT) := by
      rcases hsingle with h | h <;> simp [h]
    cases t with
    | node data children =>
      have hpre := encode_node_content_names U data export_type reassign start_offset
        end_offset hwidgets
      have hskel : node_skeleton (encode_node U export_type reassign start_offset end_offset
          (.node data children))
          = .element "node" (encoded_attributes data export_type reassign) [] := by
        rw [encode_node, node_skeleton]
        simp only [hs, if_false, List.append_nil]
        rw [node_skeleton_children_nil _ hpre]
        rfl
      refine ⟨?_, ?_, hskel, ?_⟩
      · rw [visited_nodes]
        simp only [hs, if_false]
        rfl
      · rw [encode_node]
        simp only [hs, if_false, List.append_nil, XmlNode.get_children,
          XmlNode.get_children_all]
        rw [List.filter_eq_nil_iff]
        intro e he
        simpa using hpre e he
      · rw [← count_nodes_skeleton, hskel, count_nodes, count_nodes_children]
  · intro hs
    cases t with
    | node data children =>
      have hpre := encode_node_content_names U data export_type reassign start_offset
        end_offset hwidgets
      have hskel := node_skeleton_encode_node U export_type reassign start_offset end_offset hs
        hwidgets (.node data children)
      have hchildren : (encode_node U export_type reassign start_offset end_offset
          (.node data children)).get_children "node"
          = encode_nodes U export_type reassign start_offset end_offset children := by
        rw [encode_node]
        simp only [hs, ne_eq, not_false_eq_true, and_self, if_true, XmlNode.get_children,
          XmlNode.get_children_all, List.filter_append]
        have h1 : List.filter (fun c : XmlNode => c.get_name == "node")
            (if 0 < export_master_id data.nodeId data.sharedNodesMasterId export_type reassign
              then []
              else content_to_xml U data (data.pTextBuffer.getD { ops := [] }) ""
                start_offset end_offset) = [] := by
          rw [List.filter_eq_nil_iff]
          intro e he
          simpa using hpre e he
        rw [h1, List.nil_append, filter_encode_nodes_node]
      refine ⟨hchildren, ?_, hskel, ?_⟩
      · rw [hchildren, encode_nodes_length]
        rfl
      · rw [← count_nodes_skeleton, hskel, count_nodes_tree_skeleton]

/-- C21 at the node 1 with its two children: exported alone it gives one `node` element
without `node` children; exported with its subnodes it gives three `node` elements, two
of them the children of the first. -/
theorem nodes_to_xml_scope_decides_walk_witness :
    (∃ e, _nodes_to_xml CtEnv.sample CtExporting.CURRENT_NODE none 0 (-1) sample_nested_node
        = .ok e ∧ e.get_children "node" = [] ∧ count_nodes e = 1) ∧
    (∃ e, _nodes_to_xml CtEnv.sample CtExporting.CURRENT_NODE_AND_SUBNODES none 0 (-1)
        sample_nested_node = .ok e ∧ (e.get_children "node").length = 2 ∧ count_nodes e = 3) :=
  ⟨by
     obtain ⟨e, h1, _, h3, _⟩ := nodes_to_xml_scope_decides_walk CtEnv.sample
       CtExporting.CURRENT_NODE none 0 (-1) sample_nested_node (by decide)
       (fun _ _ _ _ he => nomatch he)
     exact ⟨e, h1, (h3 (Or.inl rfl)).2.1, (h3 (Or.inl rfl)).2.2.2⟩,
   by
     obtain ⟨e, h1, _, _, h4⟩ := nodes_to_xml_scope_decides_walk CtEnv.sample
       CtExporting.CURRENT_NODE_AND_SUBNODES none 0 (-1) sample_nested_node (by decide)
       (fun _ _ _ _ he => nomatch he)
     have h := h4 ⟨by decide, by decide⟩
     exact ⟨e, h1, h.2.1, h.2.2.2⟩⟩

/-! ## The metadata `node_from_xml` reads -/

theorem attr_value_of_not_any (a : List (String × String)) (k : String)
    (h : a.any (fun p => p.1 == k) = false) : XmlNode.attr_value a k = "" := by
  induction a with
  | nil => rfl
  | cons p rest ih =>
    obtain ⟨pk, pv⟩ := p
    simp only [List.any_cons, Bool.or_eq_false_iff] at h
    simp only [XmlNode.attr_value, h.1, Bool.false_eq_true, if_false]
    exact ih h.2

theorem read_node_data_alias (U : CtEnv) (el : XmlNode) (seq new_id : Int)
    (h : 0 < U.gint64_from_gstring (el.get_attribute_value "master_id")) :
    read_node_data U el seq new_id
      = { CtNodeData.init with
          nodeId := if new_id == -1 then
              U.gint64_from_gstring (el.get_attribute_value "unique_id") else new_id
          sharedNodesMasterId := U.gint64_from_gstring (el.get_attribute_value "master_id")
          sequence := seq } := by
  have h' : ¬ U.gint64_from_gstring (el.get_attribute_value "master_id") ≤ 0 := by omega
  unfold read_node_data
  simp only [h', if_false]

theorem read_node_data_owner (U : CtEnv) (el : XmlNode) (seq new_id : Int)
    (h : U.gint64_from_gstring (el.get_attribute_value "master_id") ≤ 0) :
    read_node_data U el seq new_id
      = { CtNodeData.init with
          nodeId := if new_id == -1 then
              U.gint64_from_gstring (el.get_attribute_value "unique_id") else new_id
          sharedNodesMasterId := U.gint64_from_gstring (el.get_attribute_value "master_id")
          sequence := seq
          name := el.get_attribute_value "name"
          syntaxHighlighting := el.get_attribute_value "prog_lang"
          tags := el.get_attribute_value "tags"
          isReadOnly := U.is_str_true (el.get_attribute_value "readonly")
          excludeMeFromSearch := U.is_str_true (el.get_attribute_value "nosearch_me")
          excludeChildrenFromSearch := U.is_str_true (el.get_attribute_value "nosearch_ch")
          customIconId :=
            to_guint32 (U.gint64_from_gstring (el.get_attribute_value "custom_icon_id"))
          isBold := U.is_str_true (el.get_attribute_value "is_bold")
          foregroundRgb24 := el.get_attribute_value "foreground"
          tsCreation := U.gint64_from_gstring (el.get_attribute_value "ts_creation")
          tsLastSave := U.gint64_from_gstring (el.get_attribute_value "ts_lastsave") } := by
  unfold read_node_data
  simp only [h, if_true]

/-- The row `node_from_xml` appends when it is not a dry run: the data it read, with the
buffer and the widgets it may have decoded. -/
theorem node_from_xml_appends (U : CtEnv) (store : CtTreeStore) (el : XmlNode)
    (seq : Int) (parent_iter : TreeIter) (new_id : Int)
    (pHasDuplicatedId pIsSharedNonMaster : Option Bool) (remap : Option (CtMap Int))
    (delayed : CtDelayedTextBufferMap) (multifile_dir : String) (out : NodeFromXmlOut)
    (h : node_from_xml U store el seq parent_iter new_id pHasDuplicatedId pIsSharedNonMaster
      remap delayed false multifile_dir = .ok out) :
    ∃ buffer widgets, out.store.rows = store.rows ++
      [{ data := { read_node_data U el seq new_id with
                   pTextBuffer := buffer, anchoredWidgets := widgets },
         parent := parent_iter }] := by
  have heager : ∀ d, eager_node_data U el seq new_id multifile_dir = .ok d →
      ∃ buffer widgets, d = { read_node_data U el seq new_id with
        pTextBuffer := buffer, anchoredWidgets := widgets } := by
    intro d hd
    obtain ⟨buf, ws, _, hd'⟩ := eager_node_data_ok U el seq new_id multifile_dir d hd
    exact ⟨buf, ws, hd'⟩
  unfold node_from_xml at h
  simp only [Bool.false_eq_true, if_false] at h
  split at h
  · split at h
    · cases he : eager_node_data U el seq new_id multifile_dir with
      | error e => rw [he] at h; cases h
      | ok d =>
        rw [he] at h
        simp only [Except.ok.injEq] at h
        obtain ⟨buf, ws, hd⟩ := heager d he
        rw [← h, hd]
        exact ⟨buf, ws, rfl⟩
    · simp only [Except.ok.injEq] at h
      rw [← h]
      refine ⟨none, [], ?_⟩
      simp only [CtTreeStore.append_node]
      rw [← read_node_data_buffer U el seq new_id, ← read_node_data_widgets U el seq new_id]
  · cases he : eager_node_data U el seq new_id multifile_dir with
    | error e => rw [he] at h; cases h
    | ok d =>
      rw [he] at h
      simp only [Except.ok.injEq] at h
      obtain ⟨buf, ws, hd⟩ := heager d he
      rw [← h, hd]
      exact ⟨buf, ws, rfl⟩

/-- The shared-non-master flag `node_from_xml` leaves, in a dry run or not. -/
theorem node_from_xml_shared_flag (U : CtEnv) (store : CtTreeStore) (el : XmlNode)
    (seq : Int) (parent_iter : TreeIter) (new_id : Int)
    (pHasDuplicatedId pIsSharedNonMaster : Option Bool) (remap : Option (CtMap Int))
    (delayed : CtDelayedTextBufferMap) (isDryRun : Bool) (multifile_dir : String)
    (out : NodeFromXmlOut)
    (h : node_from_xml U store el seq parent_iter new_id pHasDuplicatedId pIsSharedNonMaster
      remap delayed isDryRun multifile_dir = .ok out) :
    out.pIsSharedNonMaster
      = if 0 < U.gint64_from_gstring (el.get_attribute_value "master_id")
        then pIsSharedNonMaster.map (fun _ => true) else pIsSharedNonMaster := by
  have hshared : (if (read_node_data U el seq new_id).sharedNodesMasterId ≤ 0
      then pIsSharedNonMaster else pIsSharedNonMaster.map (fun _ => true))
      = if 0 < U.gint64_from_gstring (el.get_attribute_value "master_id")
        then pIsSharedNonMaster.map (fun _ => true) else pIsSharedNonMaster := by
    rw [read_node_data_master]
    by_cases hm : 0 < U.gint64_from_gstring (el.get_attribute_value "master_id")
    · have : ¬ U.gint64_from_gstring (el.get_attribute_value "master_id") ≤ 0 := by omega
      simp only [hm, this, if_true, if_false]
    · have : U.gint64_from_gstring (el.get_attribute_value "master_id") ≤ 0 := by omega
      simp only [hm, this, if_true, if_false]
  unfold node_from_xml at h
  simp only at h
  split at h
  · simp only [Except.ok.injEq] at h
    rw [← h]
    exact hshared
  · split at h
    · split at h
      · cases he : eager_node_data U el seq new_id multifile_dir with
        | error e => rw [he] at h; cases h
        | ok d =>
          rw [he] at h
          simp only [Except.ok.injEq] at h
          rw [← h]
          exact hshared
      · simp only [Except.ok.injEq] at h
        rw [← h]
        exact hshared
    · cases he : eager_node_data U el seq new_id multifile_dir with
      | error e => rw [he] at h; cases h
      | ok d =>
        rw [he] at h
        simp only [Except.ok.injEq] at h
        rw [← h]
        exact hshared

/-- C22. Alias decode carries no local metadata. For a node element whose `master_id` is
read as a positive number, the node data `node_from_xml` fills in has its metadata at
the default values of `CtNodeData`, whatever attributes the element carries, with the own
id of the node (the declared id, or the new id passed), its sequence and the master id;
the shared-non-master flag is set. When `master_id` is read as a number `<= 0`, the eleven
metadata fields are read from the attributes of the element and the flag is left as it
was passed. An element without `master_id` attribute gives the reader the empty string.
Unless it is a dry run the node is appended with this data under the parent passed. -/
theorem node_from_xml_alias_metadata (U : CtEnv) (store : CtTreeStore) (el : XmlNode)
    (seq : Int) (parent_iter : TreeIter) (new_id : Int)
    (pHasDuplicatedId pIsSharedNonMaster : Option Bool) (remap : Option (CtMap Int))
    (delayed : CtDelayedTextBufferMap) (isDryRun : Bool) (multifile_dir : String) :
    (0 < U.gint64_from_gstring (el.get_attribute_value "master_id") →
      same_metadata (read_node_data U el seq new_id) CtNodeData.init ∧
      (read_node_data U el seq new_id).nodeId
        = (if new_id == -1 then U.gint64_from_gstring (el.get_attribute_value "unique_id")
           else new_id) ∧
      (read_node_data U el seq new_id).sequence = seq ∧
      (read_node_data U el seq new_id).sharedNodesMasterId
        = U.gint64_from_gstring (el.get_attribute_value "master_id")) ∧
    (U.gint64_from_gstring (el.get_attribute_value "master_id") ≤ 0 →
      (read_node_data U el seq new_id).name = el.get_attribute_value "name" ∧
      (read_node_data U el seq new_id).syntaxHighlighting
        = el.get_attribute_value "prog_lang" ∧
      (read_node_data U el seq new_id).tags = el.get_attribute_value "tags" ∧
      (read_node_data U el seq new_id).isReadOnly
        = U.is_str_true (el.get_attribute_value "readonly") ∧
      (read_node_data U el seq new_id).excludeMeFromSearch
        = U.is_str_true (el.get_attribute_value "nosearch_me") ∧
      (read_node_data U el seq new_id).excludeChildrenFromSearch
        = U.is_str_true (el.get_attribute_value "nosearch_ch") ∧
      (read_node_data U el seq new_id).customIconId
        = to_guint32 (U.gint64_from_gstring (el.get_attribute_value "custom_icon_id")) ∧
      (read_node_data U el seq new_id).isBold
        = U.is_str_true (el.get_attribute_value "is_bold") ∧
      (read_node_data U el seq new_id).foregroundRgb24 = el.get_attribute_value "foreground" ∧
      (read_node_data U el seq new_id).tsCreation
        = U.gint64_from_gstring (el.get_attribute_value "ts_creation") ∧
      (read_node_data U el seq new_id).tsLastSave
        = U.gint64_from_gstring (el.get_attribute_value "ts_lastsave")) ∧
    (el.get_attributes.any (fun a => a.1 == "master_id") = false →
      el.get_attribute_value "master_id" = "") ∧
    (∀ out, node_from_xml U store el seq parent_iter new_id pHasDuplicatedId
        pIsSharedNonMaster remap delayed isDryRun multifile_dir = .ok out →
      out.pIsSharedNonMaster
        = (if 0 < U.gint64_from_gstring (el.get_attribute_value "master_id")
           then pIsSharedNonMaster.map (fun _ => true) else pIsSharedNonMaster) ∧
      (isDryRun = false →
        ∃ row, out.store.rows = store.rows ++ [row] ∧ row.parent = parent_iter ∧
          same_metadata row.data (read_node_data U el seq new_id) ∧
          row.data.nodeId = (read_node_data U el seq new_id).nodeId ∧
          row.data.sequence = seq ∧
          row.data.sharedNodesMasterId
            = U.gint64_from_gstring (el.get_attribute_value "master_id"))) := by
  refine ⟨?_, ?_, ?_, ?_⟩
  · intro hm
    rw [read_node_data_alias U el seq new_id hm]
    exact ⟨⟨rfl, rfl, rfl, rfl, rfl, rfl, rfl, rfl, rfl, rfl, rfl⟩, rfl, rfl, rfl⟩
  · intro hm
    rw [read_node_data_owner U el seq new_id hm]
    exact ⟨rfl, rfl, rfl, rfl, rfl, rfl, rfl, rfl, rfl, rfl, rfl⟩
  · intro habsent
    exact attr_value_of_not_any _ _ habsent
  · intro out hout
    refine ⟨node_from_xml_shared_flag U store el seq parent_iter new_id _ _ remap delayed
      isDryRun multifile_dir out hout, ?_⟩
    intro hdry
    subst hdry
    obtain ⟨buffer, widgets, hrows⟩ := node_from_xml_appends U store el seq parent_iter new_id
      _ _ remap delayed multifile_dir out hout
    exact ⟨_, hrows, rfl, ⟨rfl, rfl, rfl, rfl, rfl, rfl, rfl, rfl, rfl, rfl, rfl⟩, rfl,
      read_node_data_sequence U el seq new_id, read_node_data_master U el seq new_id⟩

/-- C22 at an alias element that carries a name, and at the same element without
`master_id` attribute: the alias is appended with the empty default name and the flag
set, the other with the name `N` and the flag not set. -/
theorem node_from_xml_alias_metadata_witness :
    (∃ out, node_from_xml CtEnv.sample CtTreeStore.empty
        (.element "node" [("unique_id", "2"), ("master_id", "1"), ("name", "N"),
          ("is_bold", "1")] []) 3 none (-1) (some false) (some false) none [] false ""
        = .ok out ∧
      out.pIsSharedNonMaster = some true ∧
      out.store.rows.map (fun r => (r.data.nodeId, r.data.sharedNodesMasterId,
          r.data.sequence, r.data.name, r.data.isBold))
        = [(2, 1, 3, "", false)]) ∧
    (∃ out, node_from_xml CtEnv.sample CtTreeStore.empty
        (.element "node" [("unique_id", "2"), ("name", "N"), ("is_bold", "1")] []) 3 none (-1)
        (some false) (some false) none [] false "" = .ok out ∧
      out.pIsSharedNonMaster = some false ∧
      out.store.rows.map (fun r => (r.data.nodeId, r.data.sharedNodesMasterId,
          r.data.sequence, r.data.name, r.data.isBold))
        = [(2, 0, 3, "N", true)]) :=
  ⟨by
     refine ⟨_, rfl, ?_, rfl⟩
     exact ((node_from_xml_alias_metadata CtEnv.sample CtTreeStore.empty
       (.element "node" [("unique_id", "2"), ("master_id", "1"), ("name", "N"),
         ("is_bold", "1")] []) 3 none (-1) (some false) (some false) none [] false "").2.2.2
       _ (by rfl)).1,
   by
     refine ⟨_, rfl, ?_, rfl⟩
     exact ((node_from_xml_alias_metadata CtEnv.sample CtTreeStore.empty
       (.element "node" [("unique_id", "2"), ("name", "N"), ("is_bold", "1")] []) 3 none (-1)
       (some false) (some false) none [] false "").2.2.2 _ (by rfl)).1⟩

/-! ## Sequence numbers and parents in the walk -/

theorem walk_items_head (appends : Bool) (n : Nat) (el : XmlNode) (seq : Int) (p : TreeIter) :
    (walk_items appends n el seq p)[0]?
      = some { xml_element := el, sequence := seq, parent_iter := p } := by
  cases el with
  | element name attrs children => rw [walk_items]; simp
  | text content => rw [walk_items]; simp

theorem count_nodes_pos (el : XmlNode) : 0 < count_nodes el := by
  cases el with
  | element name attrs children => rw [count_nodes]; omega
  | text content => rw [count_nodes]; omega

/-- The child number `j` (from 0) among the children called `node` of a list of children
is visited with the sequence number `j + 1` after the start value, under the parent of
the loop, after the calls for the children before it and their descendants. -/
theorem walk_items_children_child :
    ∀ (cs : List XmlNode) (n : Nat) (k0 : Int) (p : TreeIter) (j : Nat) (c : XmlNode),
      (cs.filter (fun x => x.get_name == "node"))[j]? = some c →
      (walk_items_children true n cs k0 p)[
          count_nodes_children ((cs.filter (fun x => x.get_name == "node")).take j)]?
        = some { xml_element := c, sequence := k0 + (j + 1), parent_iter := p } := by
  intro cs
  induction cs with
  | nil =>
    intro n k0 p j c h
    simp at h
  | cons c0 rest ih =>
    intro n k0 p j c h
    rw [walk_items_children]
    by_cases hn : (c0.get_name == "node") = true
    · have hf : (c0 :: rest).filter (fun x => x.get_name == "node")
          = c0 :: rest.filter (fun x => x.get_name == "node") := by
        simp [List.filter_cons, hn]
      rw [hf] at h ⊢
      simp only [hn, if_true]
      cases j with
      | zero =>
        simp only [List.getElem?_cons_zero, Option.some.injEq] at h
        subst h
        rw [List.take_zero, count_nodes_children,
          List.getElem?_append_left (by rw [walk_items_length]; exact count_nodes_pos _),
          walk_items_head]
        simp
      | succ j =>
        rw [List.getElem?_cons_succ] at h
        rw [List.take_succ_cons, count_nodes_children]
        simp only [hn, if_true]
        rw [List.getElem?_append_right (by rw [walk_items_length]; omega), walk_items_length,
          Nat.add_sub_cancel_left, ih _ (k0 + 1) p j c h]
        simp only [Option.some.injEq, WalkItem.mk.injEq, true_and, and_true]
        push_cast
        omega
    · have hn' : (c0.get_name == "node") = false := by simpa using hn
      have hf : (c0 :: rest).filter (fun x => x.get_name == "node")
          = rest.filter (fun x => x.get_name == "node") := by
        simp [List.filter_cons, hn']
      rw [hf] at h ⊢
      simp only [hn', Bool.false_eq_true, if_false]
      exact ih n k0 p j c h

mutual
/-- In the walk of one element, the child number `j` of the element of any call is
visited with the sequence number `j + 1` under the row of that call. -/
theorem walk_items_nested :
    ∀ (el : XmlNode) (n : Nat) (seq : Int) (p : TreeIter) (i : Nat) (item : WalkItem),
      (walk_items true n el seq p)[i]? = some item →
      ∀ (j : Nat) (c : XmlNode), (item.xml_element.get_children "node")[j]? = some c →
        (walk_items true n el seq p)[i + 1 + child_offset item.xml_element j]?
          = some { xml_element := c, sequence := (j : Int) + 1, parent_iter := some (n + i) }
  | .element name attrs children, n, seq, p, i, item, hitem, j, c, hc => by
    rw [walk_items] at hitem ⊢
    simp only [if_true] at hitem ⊢
    cases i with
    | zero =>
      simp only [List.getElem?_cons_zero, Option.some.injEq] at hitem
      subst hitem
      have := walk_items_children_child children (n + 1) 0 (some n) j c hc
      rw [show 0 + 1 + child_offset (XmlNode.element name attrs children) j
        = child_offset (XmlNode.element name attrs children) j + 1 by omega,
        List.getElem?_cons_succ]
      rw [child_offset]
      simp only [XmlNode.get_children, XmlNode.get_children_all]
      rw [this]
      simp
    | succ i =>
      rw [List.getElem?_cons_succ] at hitem
      have := walk_items_children_nested children (n + 1) 0 (some n) i item hitem j c hc
      rw [show i + 1 + 1 + child_offset item.xml_element j
        = (i + 1 + child_offset item.xml_element j) + 1 by omega, List.getElem?_cons_succ,
        this]
      simp only [Option.some.injEq, WalkItem.mk.injEq, true_and]
      omega
  | .text content, n, seq, p, i, item, hitem, j, c, hc => by
    rw [walk_items] at hitem
    cases i with
    | zero =>
      simp only [List.getElem?_cons_zero, Option.some.injEq] at hitem
      subst hitem
      simp [XmlNode.get_children, XmlNode.get_children_all] at hc
    | succ i => simp at hitem
theorem walk_items_children_nested :
    ∀ (cs : List XmlNode) (n : Nat) (k0 : Int) (p : TreeIter) (i : Nat) (item : WalkItem),
      (walk_items_children true n cs k0 p)[i]? = some item →
      ∀ (j : Nat) (c : XmlNode), (item.xml_element.get_children "node")[j]? = some c →
        (walk_items_children true n cs k0 p)[i + 1 + child_offset item.xml_element j]?
          = some { xml_element := c, sequence := (j : Int) + 1, parent_iter := some (n + i) }
  | [], n, k0, p, i, item, hitem, j, c, hc => by
    rw [walk_items_children] at hitem
    simp at hitem
  | c0 :: rest, n, k0, p, i, item, hitem, j, c, hc => by
    rw [walk_items_children] at hitem ⊢
    by_cases hn : (c0.get_name == "node") = true
    · simp only [hn, if_true] at hitem ⊢
      by_cases hi : i < count_nodes c0
      · rw [List.getElem?_append_left (by rw [walk_items_length]; exact hi)] at hitem
        have := walk_items_nested c0 n (k0 + 1) p i item hitem j c hc
        have hlt := getElem?_lt_of_some this
        rw [List.getElem?_append_left hlt]
        exact this
      · rw [List.getElem?_append_right (by rw [walk_items_length]; omega), walk_items_length]
          at hitem
        have := walk_items_children_nested rest (n + count_nodes c0) (k0 + 1) p
          (i - count_nodes c0) item hitem j c hc
        rw [List.getElem?_append_right (by rw [walk_items_length]; omega), walk_items_length,
          show i + 1 + child_offset item.xml_element j - count_nodes c0
            = i - count_nodes c0 + 1 + child_offset item.xml_element j by omega, this]
        simp only [Option.some.injEq, WalkItem.mk.injEq, true_and]
        omega
    · have hn' : (c0.get_name == "node") = false := by simpa using hn
      simp only [hn', Bool.false_eq_true, if_false] at hitem ⊢
      exact walk_items_children_nested rest n k0 p i item hitem j c hc
end

/-! ## The place of every loaded and imported node -/

theorem document_items_child (n : Nat) (root : XmlNode) (p : TreeIter) (j : Nat) (c : XmlNode)
    (hc : (root.get_children "node")[j]? = some c) :
    (document_items n root p)[child_offset root j]?
      = some { xml_element := c, sequence := (j : Int) + 1, parent_iter := p } := by
  have := walk_items_children_child root.get_children_all n 0 p j c hc
  unfold document_items child_offset XmlNode.get_children
  rw [this]
  simp

theorem document_items_nested (n : Nat) (root : XmlNode) (p : TreeIter) (i : Nat)
    (item : WalkItem) (hitem : (document_items n root p)[i]? = some item) (j : Nat)
    (c : XmlNode) (hc : (item.xml_element.get_children "node")[j]? = some c) :
    (document_items n root p)[i + 1 + child_offset item.xml_element j]?
      = some { xml_element := c, sequence := (j : Int) + 1, parent_iter := some (n + i) } :=
  walk_items_children_nested root.get_children_all n 0 p i item hitem j c hc

theorem eager_node_data_sequence (U : CtEnv) (el : XmlNode) (seq new_id : Int) (dir : String)
    (d : CtNodeData) (h : eager_node_data U el seq new_id dir = .ok d) : d.sequence = seq := by
  obtain ⟨buf, ws, _, hd⟩ := eager_node_data_ok U _ _ _ _ _ h
  rw [hd]
  exact read_node_data_sequence U _ _ _

/-- Every row keeps its parent and its sequence number in the last loop of the import. -/
theorem import_shared_place (remap : CtMap Int) (A : List TreeIter) (j : Nat) :
    ∀ (s : CtTreeStore) (r : CtTreeRow), s.rows[j]? = some r →
      ∃ d, (A.foldl (import_remap_shared remap) s).rows[j]? = some { r with data := d } ∧
        d.nodeId = r.data.nodeId ∧ d.sequence = r.data.sequence := by
  induction A with
  | nil => intro s r h; exact ⟨r.data, h, rfl, rfl⟩
  | cons a rest ih =>
    intro s r h
    rw [import_shared_foldl_cons]
    have h1 : ∃ d, (import_remap_shared remap s a).rows[j]? = some { r with data := d } ∧
        d.nodeId = r.data.nodeId ∧ d.sequence = r.data.sequence := by
      by_cases ha : a = some j
      · subst ha
        rw [import_remap_shared_getElem?]
        simp only [if_true, h, Option.map_some']
        cases remap.find r.data.sharedNodesMasterId with
        | none => exact ⟨r.data, rfl, rfl, rfl⟩
        | some v => exact ⟨_, rfl, displayed_data_nodeId _ _, displayed_data_sequence _ _⟩
      · rw [import_remap_shared_other remap s a j ha]
        exact ⟨r.data, h, rfl, rfl⟩
    obtain ⟨d, hd, e, e2⟩ := h1
    obtain ⟨d', hd', e', e2'⟩ := ih _ _ hd
    exact ⟨d', hd', e'.trans e, e2'.trans e2⟩

/-- The result of an import whose walk ends without an exception. -/
theorem import_nodes_of_walk (U : CtEnv) (root : XmlNode) (filepath : String)
    (store : CtTreeStore) (delayed : CtDelayedTextBufferMap) (pending : List PendingChange)
    (parent_iter : TreeIter) (st : ImportState)
    (hparse : get_parser_root_node U filepath = .ok root)
    (hst : import_f_nodes_from_xml_children U false root.get_children_all 0 parent_iter
      { store := store, delayed_text_buffers := delayed, pending := pending,
        nodes_shared_non_master := [], imported_ids_remap := [], thrown := none } = st)
    (hth : st.thrown = none) :
    import_nodes U false store delayed pending filepath parent_iter
      = { thrown := none
          store := st.nodes_shared_non_master.foldl (import_remap_shared st.imported_ids_remap)
            st.store
          delayed_text_buffers := st.delayed_text_buffers
          pending := st.pending
          imported_ids_remap := st.imported_ids_remap } := by
  unfold import_nodes import_from_root
  simp only [hparse, hst, hth]

/-- After an import, the node of every call of the walk stands under the parent of the
call and has the sequence number of the call. -/
theorem import_nodes_row_place (U : CtEnv) (root : XmlNode) (filepath : String)
    (store : CtTreeStore) (delayed : CtDelayedTextBufferMap) (pending : List PendingChange)
    (parent_iter : TreeIter)
    (hparse : get_parser_root_node U filepath = .ok root)
    (hwf : well_formed_document U root) (halloc : ∀ ids, U.node_id_get ids ≠ -1)
    (k : Nat) (item : WalkItem)
    (hitem : (document_items store.rows.length root parent_iter)[k]? = some item) :
    ∃ row, (import_nodes U false store delayed pending filepath parent_iter).store.rows[
        store.rows.length + k]? = some row ∧
      row.parent = item.parent_iter ∧ row.data.sequence = item.sequence := by
  have hK := import_walk_inv U root store delayed pending parent_iter hwf halloc
  generalize hst : import_f_nodes_from_xml_children U false root.get_children_all 0 parent_iter
      { store := store, delayed_text_buffers := delayed, pending := pending,
        nodes_shared_non_master := [], imported_ids_remap := [], thrown := none } = st at hK
  rw [import_nodes_of_walk U root filepath store delayed pending parent_iter st hparse hst
    hK.thrown]
  have hlt := getElem?_lt_of_some hitem
  obtain ⟨rk, hrk⟩ : ∃ row, st.store.rows[store.rows.length + k]? = some row :=
    ⟨_, List.getElem?_eq_getElem (by rw [hK.length]; omega)⟩
  obtain ⟨hpar, _, heager⟩ := hK.rows k item rk hitem hrk
  obtain ⟨d, hd, _, hseq⟩ := import_shared_place st.imported_ids_remap
    st.nodes_shared_non_master _ st.store rk hrk
  refine ⟨_, hd, hpar, ?_⟩
  show d.sequence = _
  rw [hseq]
  exact eager_node_data_sequence U _ _ _ _ _ heager

/-- After a normal load, the node of every call of the walk stands under the parent of
the call and has the sequence number of the call. -/
theorem populate_row_place (U : CtEnv) (root : XmlNode) (hwf : well_formed_document U root)
    (k : Nat) (item : WalkItem) (hitem : (document_items 0 root none)[k]? = some item) :
    ∃ row, (populate_shared_non_master (normal_walk U root).nodes_shared_non_master
        (fix_duplicated_ids U (normal_walk U root).nodes_with_duplicated_id
          (normal_walk U root).store)).rows[k]? = some row ∧
      row.parent = item.parent_iter ∧ row.data.sequence = item.sequence := by
  have hJ := normal_walk_inv U root hwf
  obtain ⟨r0, hr0⟩ := hJ.row_exists hitem
  obtain ⟨hpar, hdata⟩ := hJ.rows k item r0 hitem hr0
  have hseq0 : r0.data.sequence = item.sequence := by
    rcases hdata with ⟨_, h⟩ | ⟨_, h⟩
    · rw [h]
      exact read_node_data_sequence U _ _ _
    · exact eager_node_data_sequence U _ _ _ _ _ h
  obtain ⟨id, hfix⟩ := fix_duplicated_ids_shape U (normal_walk U root).nodes_with_duplicated_id
    k _ r0 hr0
  obtain ⟨d, hd, _, _, hseq⟩ := populate_shared_non_master_shape
    (normal_walk U root).nodes_shared_non_master _ k _ hfix
  refine ⟨_, hd, hpar, ?_⟩
  show d.sequence = _
  rw [hseq]
  exact hseq0

/-! ## The pending changes of an import -/

/-- C23. Import records a creation change per node: when a foreign document with `n`
node elements is imported (not a dry run, its content decodable, the allocator never
returning the marker -1), the import completes, the rows the store had are left alone
and exactly `n` rows are appended; the pending changes are the ones before the import
followed by one `NewNode` for every appended node, in order, each with the id the node
ends with; every node child of the root stands under the chosen parent, and every other
node under the parent its call of the walk was given. -/
theorem import_nodes_records_new_nodes (U : CtEnv) (root : XmlNode) (filepath : String)
    (store : CtTreeStore) (delayed : CtDelayedTextBufferMap) (pending : List PendingChange)
    (parent_iter : TreeIter)
    (hparse : get_parser_root_node U filepath = .ok root)
    (hwf : well_formed_document U root)
    (halloc : ∀ ids, U.node_id_get ids ≠ -1) :
    ∃ res, import_nodes U false store delayed pending filepath parent_iter = res ∧
      res.thrown = none ∧
      res.store.rows.length = store.rows.length + (node_elements root).length ∧
      (∀ k, k < store.rows.length → res.store.rows[k]? = store.rows[k]?) ∧
      res.pending
        = pending ++ (res.store.node_ids.drop store.rows.length).map PendingChange.NewNode ∧
      res.pending.length = pending.length + (node_elements root).length ∧
      (∀ j c, (root.get_children "node")[j]? = some c →
        ∃ row, res.store.rows[store.rows.length + child_offset root j]? = some row ∧
          row.parent = parent_iter) ∧
      (∀ k item, (document_items store.rows.length root parent_iter)[k]? = some item →
        ∃ row, res.store.rows[store.rows.length + k]? = some row ∧
          row.parent = item.parent_iter ∧
          res.pending[pending.length + k]? = some (PendingChange.NewNode row.data.nodeId)) := by
  refine ⟨_, rfl, ?_⟩
  have hplace := import_nodes_row_place U root filepath store delayed pending parent_iter
    hparse hwf halloc
  have hK := import_walk_inv U root store delayed pending parent_iter hwf halloc
  generalize hst : import_f_nodes_from_xml_children U false root.get_children_all 0 parent_iter
      { store := store, delayed_text_buffers := delayed, pending := pending,
        nodes_shared_non_master := [], imported_ids_remap := [], thrown := none } = st at hK
  rw [import_nodes_of_walk U root filepath store delayed pending parent_iter st hparse hst
    hK.thrown] at hplace ⊢
  simp only at hplace ⊢
  have hids := import_shared_node_ids st.imported_ids_remap st.nodes_shared_non_master st.store
  have hlen : (document_items store.rows.length root parent_iter).length
      = (node_elements root).length := by
    rw [← document_items_elements store.rows.length root parent_iter, List.length_map]
  have hpend : st.pending = pending ++ ((st.nodes_shared_non_master.foldl
      (import_remap_shared st.imported_ids_remap) st.store).node_ids.drop
        store.rows.length).map PendingChange.NewNode := by
    rw [hids]
    exact hK.pending
  refine ⟨by first | trivial | rfl, ?_, ?_, hpend, ?_, ?_, ?_⟩
  · rw [← node_ids_length, hids, node_ids_length, hK.length, hlen]
  · intro k hk
    rw [import_shared_frame st.imported_ids_remap st.nodes_shared_non_master k ?_ st.store]
    · exact hK.old_rows k hk
    · intro hmem
      obtain ⟨k', item, he, _, _⟩ := hK.aliases_valid _ hmem
      simp only [Option.some.injEq] at he
      omega
  · rw [hK.pending, List.length_append, List.length_map, List.length_drop, node_ids_length,
      hK.length, hlen]
    omega
  · intro j c hc
    obtain ⟨row, hrow, hpar, _⟩ := hplace _ _
      (document_items_child store.rows.length root parent_iter j c hc)
    exact ⟨row, hrow, hpar⟩
  · intro k item hitem
    obtain ⟨row, hrow, hpar, _⟩ := hplace k item hitem
    refine ⟨row, hrow, hpar, ?_⟩
    rw [hpend, List.getElem?_append_right (by omega), Nat.add_sub_cancel_left,
      List.getElem?_map, List.getElem?_drop, node_ids_getElem?, hrow]
    rfl

/-- C23 at the scenario of the foreign master 10 and its alias 11 imported under the only
node of the local store: two rows are appended and the pending changes end as the
creation of the nodes 100 and 101. -/
theorem import_nodes_records_new_nodes_witness :
    (∃ res, import_nodes (CtEnv.sample_with sample_foreign_document) false sample_local_store
        [] [PendingChange.BookmarksChanged] "foreign.ctd" (some 0) = res ∧
      res.thrown = none ∧
      res.store.rows.length
        = sample_local_store.rows.length + (node_elements sample_foreign_document).length ∧
      (∀ k, k < sample_local_store.rows.length →
        res.store.rows[k]? = sample_local_store.rows[k]?) ∧
      res.pending = [PendingChange.BookmarksChanged]
        ++ (res.store.node_ids.drop sample_local_store.rows.length).map
          PendingChange.NewNode ∧
      res.pending.length
        = [PendingChange.BookmarksChanged].length
          + (node_elements sample_foreign_document).length ∧
      (∀ j c, (sample_foreign_document.get_children "node")[j]? = some c →
        ∃ row, res.store.rows[sample_local_store.rows.length
            + child_offset sample_foreign_document j]? = some row ∧
          row.parent = some 0) ∧
      (∀ k item, (document_items sample_local_store.rows.length sample_foreign_document
          (some 0))[k]? = some item →
        ∃ row, res.store.rows[sample_local_store.rows.length + k]? = some row ∧
          row.parent = item.parent_iter ∧
          res.pending[[PendingChange.BookmarksChanged].length + k]?
            = some (PendingChange.NewNode row.data.nodeId))) ∧
    (import_nodes (CtEnv.sample_with sample_foreign_document) false sample_local_store
        [] [PendingChange.BookmarksChanged] "foreign.ctd" (some 0)).pending
      = [PendingChange.BookmarksChanged, PendingChange.NewNode 100,
          PendingChange.NewNode 101] ∧
    (import_nodes (CtEnv.sample_with sample_foreign_document) false sample_local_store
        [] [PendingChange.BookmarksChanged] "foreign.ctd" (some 0)).store.rows.map
        (fun r => r.parent) = [none, some 0, some 0] :=
  ⟨import_nodes_records_new_nodes (CtEnv.sample_with sample_foreign_document)
      sample_foreign_document "foreign.ctd" sample_local_store [] _ (some 0) rfl
      (sample_foreign_document_well_formed _)
      (fun ids => sample_allocator_not_marker ids),
   by decide, by decide⟩

/-! ## The sequence number and the parent of a decoded node -/

/-- C25. Sequence is the 1-based sibling position. In a normal load by
`populate_treestore` and in an import by `import_nodes` of a document whose content can
be decoded, the child number `j` (from 0, in document order) among the children called
`node` of the root is the element of the call of the walk that appends the row
`child_offset root j` (after the rows the store had), with the sequence number `j + 1`
and the parent the caller chose (none in a load); and the child number `j` of the
element of the call that appended the row `i` is the element of the call that appends
the row `i + 1 + child_offset item.xml_element j`, with the sequence number `j + 1` and
the row `i` as its parent. The row ends with this sequence number and this parent. No
attribute of the element is read for it. -/
theorem sequence_is_sibling_position (U : CtEnv) (root : XmlNode) (file_path : String)
    (hparse : get_parser_root_node U file_path = .ok root)
    (hwf : well_formed_document U root) :
    (∀ error, ∃ loaded,
      populate_treestore U false CtTreeStore.empty [] file_path error = .ok loaded ∧
      (∀ (j : Nat) (c : XmlNode), (root.get_children "node")[j]? = some c →
        (document_items 0 root none)[child_offset root j]?
          = some { xml_element := c, sequence := (j : Int) + 1, parent_iter := none } ∧
        ∃ row, loaded.store.rows[child_offset root j]? = some row ∧
          row.data.sequence = (j : Int) + 1 ∧ row.parent = none) ∧
      (∀ (i : Nat) (item : WalkItem), (document_items 0 root none)[i]? = some item →
        ∀ (j : Nat) (c : XmlNode), (item.xml_element.get_children "node")[j]? = some c →
          (document_items 0 root none)[i + 1 + child_offset item.xml_element j]?
            = some { xml_element := c, sequence := (j : Int) + 1, parent_iter := some i } ∧
          ∃ row, loaded.store.rows[i + 1 + child_offset item.xml_element j]? = some row ∧
            row.data.sequence = (j : Int) + 1 ∧ row.parent = some i)) ∧
    ((∀ ids, U.node_id_get ids ≠ -1) →
      ∀ (store : CtTreeStore) (delayed : CtDelayedTextBufferMap)
        (pending : List PendingChange) (parent_iter : TreeIter),
      ∃ res, import_nodes U false store delayed pending file_path parent_iter = res ∧
        res.thrown = none ∧
        (∀ (j : Nat) (c : XmlNode), (root.get_children "node")[j]? = some c →
          (document_items store.rows.length root parent_iter)[child_offset root j]?
            = some { xml_element := c, sequence := (j : Int) + 1,
                     parent_iter := parent_iter } ∧
          ∃ row, res.store.rows[store.rows.length + child_offset root j]? = some row ∧
            row.data.sequence = (j : Int) + 1 ∧ row.parent = parent_iter) ∧
        (∀ (i : Nat) (item : WalkItem),
          (document_items store.rows.length root parent_iter)[i]? = some item →
          ∀ (j : Nat) (c : XmlNode), (item.xml_element.get_children "node")[j]? = some c →
            (document_items store.rows.length root parent_iter)[
                i + 1 + child_offset item.xml_element j]?
              = some { xml_element := c, sequence := (j : Int) + 1,
                       parent_iter := some (store.rows.length + i) } ∧
            ∃ row, res.store.rows[store.rows.length
                + (i + 1 + child_offset item.xml_element j)]? = some row ∧
              row.data.sequence = (j : Int) + 1 ∧
              row.parent = some (store.rows.length + i))) := by
  refine ⟨?_, ?_⟩
  · intro error
    refine ⟨_, populate_treestore_ok U root file_path error hparse hwf, ?_, ?_⟩
    · intro j c hc
      have hitem := document_items_child 0 root none j c hc
      obtain ⟨row, hrow, hpar, hseq⟩ := populate_row_place U root hwf _ _ hitem
      exact ⟨hitem, row, hrow, hseq, hpar⟩
    · intro i item hi j c hc
      have hitem := document_items_nested 0 root none i item hi j c hc
      rw [Nat.zero_add] at hitem
      obtain ⟨row, hrow, hpar, hseq⟩ := populate_row_place U root hwf _ _ hitem
      exact ⟨hitem, row, hrow, hseq, hpar⟩
  · intro halloc store delayed pending parent_iter
    have hplace := import_nodes_row_place U root file_path store delayed pending parent_iter
      hparse hwf halloc
    refine ⟨_, rfl, ?_, ?_, ?_⟩
    · have hK := import_walk_inv U root store delayed pending parent_iter hwf halloc
      rw [import_nodes_of_walk U root file_path store delayed pending parent_iter _ hparse rfl
        hK.thrown]
    · intro j c hc
      have hitem := document_items_child store.rows.length root parent_iter j c hc
      obtain ⟨row, hrow, hpar, hseq⟩ := hplace _ _ hitem
      exact ⟨hitem, row, hrow, hseq, hpar⟩
    · intro i item hi j c hc
      have hitem := document_items_nested store.rows.length root parent_iter i item hi j c hc
      obtain ⟨row, hrow, hpar, hseq⟩ := hplace _ _ hitem
      exact ⟨hitem, row, hrow, hseq, hpar⟩

theorem sample_family_document_well_formed (U : CtEnv) :
    well_formed_document U sample_family_document := by
  intro el hel
  have : node_elements sample_family_document
      = [sample_node_element "7" "0" "A" "a"
           [sample_node_element "9" "0" "B" "b" [],
            sample_node_element "3" "0" "C" "c" [sample_node_element "8" "0" "E" "e" []]],
         sample_node_element "9" "0" "B" "b" [],
         sample_node_element "3" "0" "C" "c" [sample_node_element "8" "0" "E" "e" []],
         sample_node_element "8" "0" "E" "e" [],
         sample_node_element "1" "0" "D" "d" []] := rfl
  rw [this] at hel
  simp only [List.mem_cons, List.mem_singleton, List.not_mem_nil, or_false] at hel
  rcases hel with h | h | h | h | h <;> subst h <;> exact ⟨_, rfl⟩

/-- C25 at a document with the node `A` (children `B` and `C`, `C` with the child `E`)
and the node `D`, loaded into an empty store and imported under the only node of a
store: the sequence numbers are 1, 1, 2, 1, 2, whatever the ids the elements declare. -/
theorem sequence_is_sibling_position_witness :
    (∀ (j : Nat) (c : XmlNode), (sample_family_document.get_children "node")[j]? = some c →
      ∃ row, (import_nodes (CtEnv.sample_with sample_family_document) false
          sample_local_store [] [] "doc.ctd" (some 0)).store.rows[
            sample_local_store.rows.length + child_offset sample_family_document j]?
          = some row ∧
        row.data.sequence = (j : Int) + 1 ∧ row.parent = some 0) ∧
    (match populate_treestore (CtEnv.sample_with sample_family_document) false
        CtTreeStore.empty [] "doc.ctd" "" with
      | .ok loaded => loaded.store.rows.map (fun r => (r.data.name, r.data.sequence, r.parent))
      | .error _ => [])
      = [("A", 1, none), ("B", 1, some 0), ("C", 2, some 0), ("E", 1, some 2),
         ("D", 2, none)] ∧
    ((import_nodes (CtEnv.sample_with sample_family_document) false sample_local_store [] []
        "doc.ctd" (some 0)).store.rows.drop 1).map
        (fun r => (r.data.name, r.data.sequence, r.parent))
      = [("A", 1, some 0), ("B", 1, some 1), ("C", 2, some 1),
         ("E", 1, some 3), ("D", 2, some 0)] :=
  ⟨fun j c hc =>
    match (sequence_is_sibling_position (CtEnv.sample_with sample_family_document)
      sample_family_document "doc.ctd" rfl (sample_family_document_well_formed _)).2
      (fun ids => sample_allocator_not_marker ids) sample_local_store [] [] (some 0) with
    | ⟨_, hres, _, htop, _⟩ => hres ▸ (htop j c hc).2,
   by decide, by decide⟩

/-! ## The encoding of a span of text (`save_buffer_no_widgets_to_xml`) -/

theorem set_attr_fresh (attrs : List (String × String)) (k v : String)
    (h : ∀ a ∈ attrs, a.1 ≠ k) : XmlNode.set_attr attrs k v = attrs ++ [(k, v)] := by
  unfold XmlNode.set_attr
  have : attrs.any (fun p => p.1 == k) = false := by
    rw [List.any_eq_false]
    intro a ha
    simpa using h a ha
  rw [this]
  rfl

/-- The attributes the serializer sets from a map (one entry per key): the entries with
a value that is not empty, in the order of the map. -/
theorem span_attributes_foldl (l : List (String × String)) :
    ∀ (acc : List (String × String)), (l.map Prod.fst).Nodup →
      (∀ kv ∈ l, ∀ a ∈ acc, a.1 ≠ kv.1) →
      l.foldl (fun a kv => if kv.2 != "" then XmlNode.set_attr a kv.1 kv.2 else a) acc
        = acc ++ l.filter (fun kv => kv.2 != "") := by
  induction l with
  | nil => intro acc _ _; simp
  | cons kv rest ih =>
    intro acc hnd hdisj
    rw [List.map_cons, List.nodup_cons] at hnd
    rw [List.foldl_cons]
    by_cases hv : (kv.2 != "") = true
    · simp only [hv, if_true]
      rw [set_attr_fresh acc kv.1 kv.2 (fun a ha => hdisj kv (List.mem_cons_self _ _) a ha),
        ih _ hnd.2, List.filter_cons, hv]
      · simp
      · intro kv' hkv' a ha
        rw [List.mem_append, List.mem_singleton] at ha
        rcases ha with ha | ha
        · exact hdisj kv' (List.mem_cons_of_mem _ hkv') a ha
        · rw [ha]
          intro he
          exact hnd.1 (by rw [show kv.1 = kv'.1 from he]; exact List.mem_map_of_mem _ hkv')
    · have hv' : (kv.2 != "") = false := by simpa using hv
      simp only [hv', Bool.false_eq_true, if_false]
      rw [ih _ hnd.2 (fun kv' hkv' a ha => hdisj kv' (List.mem_cons_of_mem _ hkv') a ha),
        List.filter_cons, hv']
      simp

theorem rich_text_to_xml_eq (U : CtEnv) (change_case : Char)
    (span : String × List (String × String)) (hmap : (span.2.map Prod.fst).Nodup) :
    rich_text_to_xml U change_case span
      = .element "rich_text" (span.2.filter (fun kv => kv.2 != ""))
          [.text (if change_case = 'l' then U.lowercase span.1
            else if change_case = 'u' then U.uppercase span.1
            else if change_case = 't' then U.swapcase span.1
            else span.1)] := by
  unfold rich_text_to_xml
  have hattrs := span_attributes_foldl span.2 [] hmap (fun _ _ a ha => absurd ha (List.not_mem_nil a))
  rw [List.nil_append] at hattrs
  simp only [hattrs]
  by_cases hn : change_case = 'n'
  · subst hn
    simp
  · simp [hn]

/-- C24. Text-span encoding. For every buffer whose spans carry their attributes in a map
(one entry per key) and every case mode, `save_buffer_no_widgets_to_xml` adds one
`rich_text` element per span handed to the serializer, in order; its attributes are
exactly the attributes of the span whose value is not empty, and its only child is the
text of the span, in lowercase for `l`, in uppercase for `u`, with swapped case for `t`,
unchanged for `n` (and for any other mode). The buffer is read only: the elements are
all the function yields. `node_to_xml` asks for the mode `n`: the element of a node that
carries its content holds the spans with the text of the buffer, then the elements of
the widgets. -/
theorem save_buffer_span_encoding (U : CtEnv) (rBuffer : CtTextBuffer)
    (start_offset end_offset : Int)
    (hmap : ∀ span ∈ U.generic_process_slot start_offset end_offset rBuffer,
      (span.2.map Prod.fst).Nodup) :
    (∀ change_case : Char,
      save_buffer_no_widgets_to_xml U rBuffer start_offset end_offset change_case
        = (U.generic_process_slot start_offset end_offset rBuffer).map (fun span =>
            XmlNode.element "rich_text" (span.2.filter (fun kv => kv.2 != ""))
              [XmlNode.text (if change_case = 'l' then U.lowercase span.1
                else if change_case = 'u' then U.uppercase span.1
                else if change_case = 't' then U.swapcase span.1
                else span.1)])) ∧
    save_buffer_no_widgets_to_xml U rBuffer start_offset end_offset 'n'
      = (U.generic_process_slot start_offset end_offset rBuffer).map (fun span =>
          XmlNode.element "rich_text" (span.2.filter (fun kv => kv.2 != ""))
            [XmlNode.text span.1]) ∧
    (∀ (data : CtNodeData) (multifile_dir : String) (export_type : CtExporting)
        (reassign : Option (CtMap Int)),
      export_master_id data.nodeId data.sharedNodesMasterId export_type reassign ≤ 0 →
      data.pTextBuffer = some rBuffer →
      node_to_xml U data multifile_dir export_type reassign start_offset end_offset
        = .ok (.element "node" (owner_attributes data
            (export_master_id data.nodeId data.sharedNodesMasterId export_type reassign))
            ((U.generic_process_slot start_offset end_offset rBuffer).map (fun span =>
                XmlNode.element "rich_text" (span.2.filter (fun kv => kv.2 != ""))
                  [XmlNode.text span.1]) ++
              (U.get_anchored_widgets data.anchoredWidgets start_offset end_offset).flatMap
                (fun pAnchoredWidget =>
                  U.widget_to_xml pAnchoredWidget
                    (if start_offset > 0 then -start_offset else 0) multifile_dir)))) := by
  have h1 : ∀ change_case : Char,
      save_buffer_no_widgets_to_xml U rBuffer start_offset end_offset change_case
        = (U.generic_process_slot start_offset end_offset rBuffer).map (fun span =>
            XmlNode.element "rich_text" (span.2.filter (fun kv => kv.2 != ""))
              [XmlNode.text (if change_case = 'l' then U.lowercase span.1
                else if change_case = 'u' then U.uppercase span.1
                else if change_case = 't' then U.swapcase span.1
                else span.1)]) := by
    intro change_case
    unfold save_buffer_no_widgets_to_xml
    exact List.map_congr_left (fun span hspan =>
      rich_text_to_xml_eq U change_case span (hmap span hspan))
  have h2 : save_buffer_no_widgets_to_xml U rBuffer start_offset end_offset 'n'
      = (U.generic_process_slot start_offset end_offset rBuffer).map (fun span =>
          XmlNode.element "rich_text" (span.2.filter (fun kv => kv.2 != ""))
            [XmlNode.text span.1]) := by
    rw [h1 'n']
    exact List.map_congr_left (fun span _ => by simp)
  refine ⟨h1, h2, ?_⟩
  intro data multifile_dir export_type reassign hm hbuf
  rw [node_to_xml_owner U data multifile_dir export_type reassign start_offset end_offset
    rBuffer hm hbuf, content_to_xml, h2]

/-- C24 at a buffer of two spans, `Hello ` with a weight and an empty style and `World`
without attributes, in uppercase and as `node_to_xml` writes them. -/
theorem save_buffer_span_encoding_witness :
    save_buffer_no_widgets_to_xml CtEnv.sample_spans (sample_buffer "Hello World") 0 (-1) 'u'
      = [.element "rich_text" [("weight", "heavy")] [.text "HELLO "],
         .element "rich_text" [] [.text "WORLD"]] ∧
    save_buffer_no_widgets_to_xml CtEnv.sample_spans (sample_buffer "Hello World") 0 (-1) 'l'
      = [.element "rich_text" [("weight", "heavy")] [.text "hello "],
         .element "rich_text" [] [.text "world"]] ∧
    (node_to_xml CtEnv.sample_spans (sample_owner 1 "A" "Hello World") "" CtExporting.NONESAVE
        none 0 (-1)).toOption.map XmlNode.get_children_all
      = some [.element "rich_text" [("weight", "heavy")] [.text "Hello "],
         .element "rich_text" [] [.text "World"]] :=
  ⟨((save_buffer_span_encoding CtEnv.sample_spans (sample_buffer "Hello World") 0 (-1)
      (by decide)).1 'u').trans rfl,
   ((save_buffer_span_encoding CtEnv.sample_spans (sample_buffer "Hello World") 0 (-1)
      (by decide)).1 'l').trans rfl,
   (congrArg (fun r => r.toOption.map XmlNode.get_children_all)
     ((save_buffer_span_encoding CtEnv.sample_spans (sample_buffer "Hello World") 0 (-1)
      (by decide)).2.2 (sample_owner 1 "A" "Hello World") "" CtExporting.NONESAVE none
        (by decide) rfl)).trans rfl⟩

/-! ## The variants of an image element (`_create_image_from_xml`) -/

/-- Without anchor and LaTeX file name, the widget is decided by the payload, the file
name and the time. -/
theorem create_image_of_payload (U : CtEnv) (xml_element : XmlNode)
    (charOffset : Int) (justification multifile_dir : String)
    (hanchor : xml_element.get_attribute_value "anchor" = "")
    (hlatex : xml_element.get_attribute_value "filename" ≠ U.LatexSpecialFilename) :
    _create_image_from_xml U xml_element charOffset justification multifile_dir
      = match image_payload U xml_element multifile_dir with
        | none => .ok none
        | some rawBlob =>
          if xml_element.get_attribute_value "filename" != "" then
            match U.stoll (if xml_element.get_attribute_value "time" == "" then "0"
                else xml_element.get_attribute_value "time") with
            | none => .error (.exn "stoll")
            | some timeInt =>
              .ok (some (.CtImageEmbFile (xml_element.get_attribute_value "filename") rawBlob
                timeInt charOffset justification
                (U.path_join multifile_dir (xml_element.get_attribute_value "filename"))))
          else
            .ok (some (.CtImagePng rawBlob (xml_element.get_attribute_value "link")
              charOffset justification)) := by
  cases hp : image_payload U xml_element multifile_dir with
  | none =>
    unfold image_payload at hp
    unfold _create_image_from_xml
    simp only [hanchor, bne_self_eq_false, Bool.false_eq_true, if_false, beq_iff_eq, hlatex]
    simp only [beq_iff_eq] at hp
    rw [hp]
  | some rawBlob =>
    unfold image_payload at hp
    unfold _create_image_from_xml
    simp only [hanchor, bne_self_eq_false, Bool.false_eq_true, if_false, beq_iff_eq, hlatex]
    simp only [beq_iff_eq] at hp
    rw [hp]
    try (first
      | rfl
      | (cases hst : U.stoll (if xml_element.get_attribute_value "time" = "" then "0"
            else xml_element.get_attribute_value "time") <;>
          by_cases hfile : xml_element.get_attribute_value "filename" = "" <;>
          simp [hfile]))

/-- C26. The claim as amended: the precedence of the variants of an image element. For
every `encoded_png` element, a non-empty `anchor` gives an anchor, whatever the other
attributes, whose state is `Collapsed` exactly when the name is a header anchor name and
`state` is `coll`, `Expanded` for any other header anchor name, `None` otherwise; without
anchor, the LaTeX special file name gives a LaTeX image; otherwise, when the payload is
not resolved, no widget; and once the payload is resolved, a non-empty file name gives an
embedded file when the attribute `time` is empty or read by `std::stoll` (the function
throws when it is not), and an empty file name gives a plain image. -/
theorem create_image_variant_precedence (U : CtEnv) (xml_element : XmlNode)
    (charOffset : Int) (justification multifile_dir : String) :
    (xml_element.get_attribute_value "anchor" ≠ "" →
      ∃ state,
        _create_image_from_xml U xml_element charOffset justification multifile_dir
          = .ok (some (.CtImageAnchor (xml_element.get_attribute_value "anchor") state
              charOffset justification)) ∧
        (state = CtAnchorExpCollState.Collapsed ↔
          (U.is_header_anchor_name (xml_element.get_attribute_value "anchor") = true ∧
            xml_element.get_attribute_value "state" = "coll")) ∧
        (state = CtAnchorExpCollState.Expanded ↔
          (U.is_header_anchor_name (xml_element.get_attribute_value "anchor") = true ∧
            xml_element.get_attribute_value "state" ≠ "coll")) ∧
        (state = CtAnchorExpCollState.None ↔
          U.is_header_anchor_name (xml_element.get_attribute_value "anchor") = false)) ∧
    (xml_element.get_attribute_value "anchor" = "" →
      xml_element.get_attribute_value "filename" = U.LatexSpecialFilename →
      _create_image_from_xml U xml_element charOffset justification multifile_dir
        = .ok (some (.CtImageLatex ((xml_element.get_child_text).getD "") charOffset
            justification))) ∧
    (xml_element.get_attribute_value "anchor" = "" →
      xml_element.get_attribute_value "filename" ≠ U.LatexSpecialFilename →
      image_payload U xml_element multifile_dir = none →
      _create_image_from_xml U xml_element charOffset justification multifile_dir
        = .ok none) ∧
    (xml_element.get_attribute_value "anchor" = "" →
      xml_element.get_attribute_value "filename" ≠ U.LatexSpecialFilename →
      ∀ rawBlob, image_payload U xml_element multifile_dir = some rawBlob →
        (xml_element.get_attribute_value "filename" ≠ "" →
          (∀ timeInt,
            U.stoll (if xml_element.get_attribute_value "time" == "" then "0"
              else xml_element.get_attribute_value "time") = some timeInt →
            _create_image_from_xml U xml_element charOffset justification multifile_dir
              = .ok (some (.CtImageEmbFile (xml_element.get_attribute_value "filename")
                  rawBlob timeInt charOffset justification
                  (U.path_join multifile_dir
                    (xml_element.get_attribute_value "filename"))))) ∧
          (U.stoll (if xml_element.get_attribute_value "time" == "" then "0"
              else xml_element.get_attribute_value "time") = none →
            _create_image_from_xml U xml_element charOffset justification multifile_dir
              = .error (.exn "stoll"))) ∧
        (xml_element.get_attribute_value "filename" = "" →
          _create_image_from_xml U xml_element charOffset justification multifile_dir
            = .ok (some (.CtImagePng rawBlob (xml_element.get_attribute_value "link")
                charOffset justification)))) := by
  refine ⟨?_, ?_, ?_, ?_⟩
  · intro hanchor
    unfold _create_image_from_xml
    simp only [bne_iff_ne, ne_eq, hanchor, not_false_eq_true, if_true]
    refine ⟨_, rfl, ?_, ?_, ?_⟩
    · cases hh : U.is_header_anchor_name (xml_element.get_attribute_value "anchor") <;>
        by_cases hs : xml_element.get_attribute_value "state" = "coll" <;> simp [hs]
    · cases hh : U.is_header_anchor_name (xml_element.get_attribute_value "anchor") <;>
        by_cases hs : xml_element.get_attribute_value "state" = "coll" <;> simp [hs]
    · cases hh : U.is_header_anchor_name (xml_element.get_attribute_value "anchor") <;>
        by_cases hs : xml_element.get_attribute_value "state" = "coll" <;> simp [hs]
  · intro hanchor hlatex
    unfold _create_image_from_xml
    simp [hanchor, hlatex]
  · intro hanchor hlatex hpay
    rw [create_image_of_payload U xml_element charOffset justification multifile_dir hanchor
      hlatex, hpay]
  · intro hanchor hlatex rawBlob hpay
    rw [create_image_of_payload U xml_element charOffset justification multifile_dir hanchor
      hlatex, hpay]
    refine ⟨fun hfile => ⟨?_, ?_⟩, ?_⟩
    · intro timeInt htime
      simp only [bne_iff_ne, ne_eq, hfile, not_false_eq_true, if_true, htime]
    · intro htime
      simp only [bne_iff_ne, ne_eq, hfile, not_false_eq_true, if_true, htime]
    · intro hfile
      simp only [hfile, bne_self_eq_false, Bool.false_eq_true, if_false]

/-- C26 as stated fails at an image element of the single-file backend with a payload,
the file name `a.txt` and the time `noon`: there is no anchor, the file name is not the
LaTeX special file name, the payload is resolved and the file name is not empty, and
`_create_image_from_xml` throws instead of returning an embedded file. -/
theorem create_image_embedded_file_time_throws :
    (sample_file_element "a.txt" "noon").get_attribute_value "anchor" = "" ∧
    (sample_file_element "a.txt" "noon").get_attribute_value "filename"
      ≠ CtEnv.sample_strict.LatexSpecialFilename ∧
    (sample_file_element "a.txt" "noon").get_attribute_value "filename" ≠ "" ∧
    image_payload CtEnv.sample_strict (sample_file_element "a.txt" "noon") ""
      = some "cGF5bG9hZA==" ∧
    _create_image_from_xml CtEnv.sample_strict (sample_file_element "a.txt" "noon") 0 "left" ""
      = .error (.exn "stoll") ∧
    ¬ ∃ widget, _create_image_from_xml CtEnv.sample_strict
        (sample_file_element "a.txt" "noon") 0 "left" "" = .ok widget :=
  ⟨rfl, by decide, by decide, rfl, rfl, fun ⟨_, h⟩ => nomatch h⟩

/-- The amended C26 at four elements: an anchor that also has a file name, the LaTeX
special file name, a file with the time 12, and an image without file name. -/
theorem create_image_variant_precedence_witness :
    _create_image_from_xml CtEnv.sample
        (.element "encoded_png" [("char_offset", "0"), ("anchor", "a"), ("filename", "a.txt")]
          [.text "cGF5bG9hZA=="]) 0 "left" ""
      = .ok (some (.CtImageAnchor "a" CtAnchorExpCollState.None 0 "left")) ∧
    _create_image_from_xml CtEnv.sample (sample_file_element "__ct_special.tex" "12") 0 "left"
        "" = .ok (some (.CtImageLatex "cGF5bG9hZA==" 0 "left")) ∧
    _create_image_from_xml CtEnv.sample (sample_file_element "a.txt" "12") 0 "left" ""
      = .ok (some (.CtImageEmbFile "a.txt" "cGF5bG9hZA==" 12 0 "left" "/a.txt")) ∧
    _create_image_from_xml CtEnv.sample
        (.element "encoded_png" [("char_offset", "0"), ("link", "webs x")]
          [.text "cGF5bG9hZA=="]) 0 "left" ""
      = .ok (some (.CtImagePng "cGF5bG9hZA==" "webs x" 0 "left")) :=
  ⟨match (create_image_variant_precedence CtEnv.sample
      (.element "encoded_png" [("char_offset", "0"), ("anchor", "a"), ("filename", "a.txt")]
        [.text "cGF5bG9hZA=="]) 0 "left" "").1 (by decide) with
    | ⟨_, h, _, _, hnone⟩ => (hnone.2 rfl) ▸ h,
   (create_image_variant_precedence CtEnv.sample (sample_file_element "__ct_special.tex" "12")
      0 "left" "").2.1 rfl rfl,
   (((create_image_variant_precedence CtEnv.sample (sample_file_element "a.txt" "12") 0 "left"
      "").2.2.2 rfl (by decide) _ rfl).1 (by decide)).1 12 rfl,
   ((create_image_variant_precedence CtEnv.sample
      (.element "encoded_png" [("char_offset", "0"), ("link", "webs x")]
        [.text "cGF5bG9hZA=="]) 0 "left" "").2.2.2 rfl (by decide) _ rfl).2 rfl⟩

/-! ## The pending changes and the save (`save_treestore`) -/

/-- The document of a save with a whole-document scope whose content can be retrieved. -/
theorem save_document_whole (U : CtEnv) (win : CtMainWin) (export_type : CtExporting)
    (reassign : Option (CtMap Int)) (start_offset end_offset : Int)
    (hw : is_whole_document export_type = true)
    (havail : ∀ d ∈ nodes_in_scope win export_type, d.pTextBuffer.isSome = true) :
    save_document U win export_type reassign start_offset end_offset
      = .ok (.element U.APP_NAME []
          (bookmarks_element win.bookmarks ::
            encode_nodes U export_type reassign start_offset end_offset win.tree)) := by
  unfold nodes_in_scope at havail
  simp only [hw, if_true] at havail
  unfold save_document
  simp only [hw, if_true]
  rw [nodes_to_xml_siblings_visited_eq_encode U export_type reassign start_offset end_offset
    win.tree havail]
  rfl

/-- The document of a save of the current node whose content can be retrieved. -/
theorem save_document_current (U : CtEnv) (win : CtMainWin) (export_type : CtExporting)
    (reassign : Option (CtMap Int)) (start_offset end_offset : Int) (t : CtTreeNode)
    (hw : is_whole_document export_type = false) (hcur : win.curr_tree_iter = some t)
    (havail : ∀ d ∈ nodes_in_scope win export_type, d.pTextBuffer.isSome = true) :
    save_document U win export_type reassign start_offset end_offset
      = .ok (.element U.APP_NAME []
          [encode_node U export_type reassign start_offset end_offset t]) := by
  unfold nodes_in_scope at havail
  simp only [hw, Bool.false_eq_true, if_false, hcur] at havail
  unfold save_document
  simp only [hw, Bool.false_eq_true, if_false, hcur]
  rw [nodes_to_xml_visited_eq_encode U export_type reassign start_offset end_offset t havail]
  rfl

/-- C27. The save of the XML backend does not depend on the pending changes. For every
tree, export scope and offsets, two calls of `save_treestore` that differ in the
`CtStorageSyncPending` argument only (an empty one included) have the same result: the
same document written to the same path, the same return value, the same error text. The
whole scope is rewritten whatever the pending changes are: when the content of the nodes
in scope can be retrieved, the document built and handed to `write_to_file_formatted`
holds the bookmarks and the element of every top-level node with its descendants for a
whole-document scope, and the element of the current node (with its descendants unless
the scope is a single node) otherwise; it is written, with the return value true, when
the write returns, and the function returns false with the message of the write when it
throws. -/
theorem save_treestore_ignores_pending (U : CtEnv) (win : CtMainWin) (file_path : String)
    (error : String) (export_type : CtExporting) (reassign : Option (CtMap Int))
    (start_offset end_offset : Int) :
    (∀ pending1 pending2 : List PendingChange,
      save_treestore U win file_path pending1 error export_type reassign start_offset
          end_offset
        = save_treestore U win file_path pending2 error export_type reassign start_offset
            end_offset) ∧
    (∀ pending : List PendingChange,
      save_treestore U win file_path pending error export_type reassign start_offset
          end_offset
        = save_treestore U win file_path [] error export_type reassign start_offset
            end_offset) ∧
    (∀ pending : List PendingChange,
      (∀ d ∈ nodes_in_scope win export_type, d.pTextBuffer.isSome = true) →
      (is_whole_document export_type = true →
        save_document U win export_type reassign start_offset end_offset
          = .ok (.element U.APP_NAME []
              (bookmarks_element win.bookmarks ::
                encode_nodes U export_type reassign start_offset end_offset win.tree)) ∧
        (U.write_to_file_formatted file_path (.element U.APP_NAME []
              (bookmarks_element win.bookmarks ::
                encode_nodes U export_type reassign start_offset end_offset win.tree))
            = none →
          save_treestore U win file_path pending error export_type reassign start_offset
              end_offset
            = .ok { ret := true, error := error,
                    written := some (file_path, .element U.APP_NAME []
                      (bookmarks_element win.bookmarks ::
                        encode_nodes U export_type reassign start_offset end_offset
                          win.tree)) }) ∧
        (∀ what, U.write_to_file_formatted file_path (.element U.APP_NAME []
              (bookmarks_element win.bookmarks ::
                encode_nodes U export_type reassign start_offset end_offset win.tree))
            = some what →
          save_treestore U win file_path pending error export_type reassign start_offset
              end_offset
            = .ok { ret := false, error := what, written := none })) ∧
      (is_whole_document export_type = false →
        ∀ t, win.curr_tree_iter = some t →
          save_document U win export_type reassign start_offset end_offset
            = .ok (.element U.APP_NAME []
                [encode_node U export_type reassign start_offset end_offset t]) ∧
          (U.write_to_file_formatted file_path (.element U.APP_NAME []
                [encode_node U export_type reassign start_offset end_offset t]) = none →
            save_treestore U win file_path pending error export_type reassign start_offset
                end_offset
              = .ok { ret := true, error := error,
                      written := some (file_path, .element U.APP_NAME []
                        [encode_node U export_type reassign start_offset end_offset t]) }) ∧
          (∀ what, U.write_to_file_formatted file_path (.element U.APP_NAME []
                [encode_node U export_type reassign start_offset end_offset t])
              = some what →
            save_treestore U win file_path pending error export_type reassign start_offset
                end_offset
              = .ok { ret := false, error := what, written := none }))) := by
  refine ⟨fun _ _ => rfl, fun _ => rfl, ?_⟩
  intro pending havail
  refine ⟨?_, ?_⟩
  · intro hw
    have hdoc := save_document_whole U win export_type reassign start_offset end_offset hw
      havail
    have hend := save_treestore_of_document U win file_path pending error export_type
      reassign start_offset end_offset _ hdoc
    exact ⟨hdoc, hend.1, hend.2⟩
  · intro hw t hcur
    have hdoc := save_document_current U win export_type reassign start_offset end_offset t
      hw hcur havail
    have hend := save_treestore_of_document U win file_path pending error export_type
      reassign start_offset end_offset _ hdoc
    exact ⟨hdoc, hend.1, hend.2⟩

/-- C27 at the sample tree: a save with the pending creation of the node 3 and the
pending removal of the node 7 writes the document of a save without pending changes,
with all three nodes; and to a file that cannot be written both saves return false with
the message of the write. -/
theorem save_treestore_ignores_pending_witness :
    save_treestore CtEnv.sample sample_main_win "doc.ctd"
        [PendingChange.NewNode 3, PendingChange.RemovedNodes [7]] "" CtExporting.NONESAVE
        none 0 (-1)
      = save_treestore CtEnv.sample sample_main_win "doc.ctd" [] "" CtExporting.NONESAVE
          none 0 (-1) ∧
    save_treestore CtEnv.sample sample_main_win "doc.ctd" [PendingChange.NodeProps 1] ""
        CtExporting.NONESAVE none 0 (-1)
      = .ok { ret := true, error := "",
              written := some ("doc.ctd", .element "cherrytree" []
                (bookmarks_element [3] ::
                  encode_nodes CtEnv.sample CtExporting.NONESAVE none 0 (-1) sample_tree)) } ∧
    save_treestore CtEnv.sample_unwritable sample_main_win "no_such_dir/doc.ctd"
        [PendingChange.NodeProps 1] "" CtExporting.NONESAVE none 0 (-1)
      = .ok { ret := false, error := "Failed to write document", written := none } ∧
    (encode_nodes CtEnv.sample CtExporting.NONESAVE none 0 (-1) sample_tree).length = 3 :=
  ⟨(save_treestore_ignores_pending CtEnv.sample sample_main_win "doc.ctd" ""
      CtExporting.NONESAVE none 0 (-1)).1 _ _,
   (((save_treestore_ignores_pending CtEnv.sample sample_main_win "doc.ctd" ""
      CtExporting.NONESAVE none 0 (-1)).2.2 [PendingChange.NodeProps 1]
      (by decide)).1 rfl).2.1 rfl,
   (((save_treestore_ignores_pending CtEnv.sample_unwritable sample_main_win
      "no_such_dir/doc.ctd" "" CtExporting.NONESAVE none 0 (-1)).2.2
      [PendingChange.NodeProps 1] (by decide)).1 rfl).2.2 _ rfl,
   rfl⟩

/-! ## The table codec on empty and non-empty tables -/

theorem table_rows_from_xml_length (xml_element : XmlNode) :
    (table_rows_from_xml xml_element).length = (xml_element.get_children "row").length := by
  unfold table_rows_from_xml
  rw [List.length_map]

/-- The result of `populate_table_matrix` when the matrix is not empty after the loop. -/
theorem populate_table_matrix_ok (U : CtEnv) (tableMatrix : List (List String))
    (xml_element : XmlNode) (tableColWidths : List Int) (is_light : Bool)
    (h : tableMatrix ++ table_rows_from_xml xml_element ≠ []) :
    ∃ matrix widths light,
      populate_table_matrix U tableMatrix xml_element tableColWidths is_light
        = .ok (matrix, widths, light) ∧
      matrix.length = tableMatrix.length + (xml_element.get_children "row").length := by
  cases hl : (tableMatrix ++ table_rows_from_xml xml_element).getLast? with
  | none => exact absurd (List.getLast?_eq_none_iff.1 hl) h
  | some last =>
    refine ⟨(last :: (tableMatrix ++ table_rows_from_xml xml_element)).dropLast,
      (if xml_element.get_attribute_value "col_widths" != "" then
        U.gstring_split_to_int (xml_element.get_attribute_value "col_widths")
       else tableColWidths),
      (if xml_element.get_attribute_value "is_light" != "" then
        U.is_str_true (xml_element.get_attribute_value "is_light") else is_light), ?_, ?_⟩
    · unfold populate_table_matrix
      simp only [hl]
    · rw [List.length_dropLast, List.length_cons, List.length_append,
        table_rows_from_xml_length]
      omega

/-- C28. The table codec is safe only on non-empty tables. With a row list that is not
empty, `table_to_xml` reads `rows[0]` of a vector that has it and returns a `table`
element with exactly as many `row` children as the list has rows, and no other child;
with the empty row list the read of `rows[0]` is undefined. With an element that has at
least one `row` child, `populate_table_matrix` reads the back of a matrix that has one
and returns as many rows as the matrix had plus one per `row` child, that is as many as
the element has `row` children for the empty matrix its caller passes; with an element
without `row` child and an empty matrix, `back()` has no element to return. -/
theorem table_codec_non_empty (U : CtEnv) :
    (∀ (rows : List (List String)) (char_offset : Int) (justification : String)
        (defaultWidth : Int) (colWidths : String) (is_light : Bool),
      rows ≠ [] →
      ∃ el, table_to_xml U rows char_offset justification defaultWidth colWidths is_light
          = .ok el ∧
        el.get_name = "table" ∧
        (el.get_children "row").length = rows.length ∧
        el.get_children_all = el.get_children "row") ∧
    (∀ (char_offset : Int) (justification : String) (defaultWidth : Int)
        (colWidths : String) (is_light : Bool),
      table_to_xml U [] char_offset justification defaultWidth colWidths is_light
        = .error (.undefined "rows[0] of an empty vector")) ∧
    (∀ (tableMatrix : List (List String)) (xml_element : XmlNode)
        (tableColWidths : List Int) (is_light : Bool),
      xml_element.get_children "row" ≠ [] →
      ∃ matrix widths light,
        populate_table_matrix U tableMatrix xml_element tableColWidths is_light
          = .ok (matrix, widths, light) ∧
        matrix.length = tableMatrix.length + (xml_element.get_children "row").length) ∧
    (∀ (xml_element : XmlNode) (tableColWidths : List Int) (is_light : Bool),
      xml_element.get_children "row" ≠ [] →
      ∃ matrix widths light,
        populate_table_matrix U [] xml_element tableColWidths is_light
          = .ok (matrix, widths, light) ∧
        matrix.length = (xml_element.get_children "row").length) ∧
    (∀ (xml_element : XmlNode) (tableColWidths : List Int) (is_light : Bool),
      xml_element.get_children "row" = [] →
      populate_table_matrix U [] xml_element tableColWidths is_light
        = .error (.undefined "back() of an empty table matrix")) := by
  have hpop : ∀ (tableMatrix : List (List String)) (xml_element : XmlNode)
      (tableColWidths : List Int) (is_light : Bool),
      xml_element.get_children "row" ≠ [] →
      ∃ matrix widths light,
        populate_table_matrix U tableMatrix xml_element tableColWidths is_light
          = .ok (matrix, widths, light) ∧
        matrix.length = tableMatrix.length + (xml_element.get_children "row").length := by
    intro tableMatrix xml_element tableColWidths is_light hrows
    apply populate_table_matrix_ok
    intro he
    have hlen := congrArg List.length he
    rw [List.length_append, table_rows_from_xml_length, List.length_nil] at hlen
    have : (xml_element.get_children "row").length ≠ 0 :=
      fun h0 => hrows (List.length_eq_zero.1 h0)
    omega
  refine ⟨?_, ?_, hpop, ?_, ?_⟩
  · intro rows char_offset justification defaultWidth colWidths is_light hrows
    cases rows with
    | nil => exact absurd rfl hrows
    | cons header rest =>
      obtain ⟨attrs, hel, _⟩ := table_to_xml_rows U header rest char_offset justification
        defaultWidth colWidths is_light
      have hf : (XmlNode.element "table" attrs ((rest ++ [header]).map row_to_xml)).get_children
          "row" = (rest ++ [header]).map row_to_xml := filter_rows (rest ++ [header])
      refine ⟨_, hel, rfl, ?_, ?_⟩
      · rw [hf, List.length_map, List.length_append, List.length_cons]
        simp
      · rw [hf]
        rfl
  · intro char_offset justification defaultWidth colWidths is_light
    rfl
  · intro xml_element tableColWidths is_light hrows
    obtain ⟨matrix, widths, light, h, hlen⟩ := hpop [] xml_element tableColWidths is_light
      hrows
    exact ⟨matrix, widths, light, h, by rw [hlen, List.length_nil, Nat.zero_add]⟩
  · intro xml_element tableColWidths is_light hrows
    unfold populate_table_matrix
    have : table_rows_from_xml xml_element = [] := by
      unfold table_rows_from_xml
      rw [hrows]
      rfl
    rw [List.nil_append, this]
    rfl

/-- C28 at a table of three rows and at the empty table: three `row` elements are
written, with the header last, and three rows are read back from them; the empty row
list and a `table` element without rows end in undefined behaviour. -/
theorem table_codec_non_empty_witness :
    (∃ el, table_to_xml CtEnv.sample [["h1", "h2"], ["a", "b"], ["c", "d"]] 4 "left" 60 ""
        false = .ok el ∧ el.get_name = "table" ∧
      (el.get_children "row").length = [["h1", "h2"], ["a", "b"], ["c", "d"]].length ∧
      el.get_children_all = el.get_children "row") ∧
    table_to_xml CtEnv.sample [] 4 "left" 60 "" false
      = .error (.undefined "rows[0] of an empty vector") ∧
    (∃ matrix widths light,
      populate_table_matrix CtEnv.sample []
          (.element "table" [] [row_to_xml ["a", "b"], .text " ", row_to_xml ["h1", "h2"]])
          [] false = .ok (matrix, widths, light) ∧
        matrix.length = ((XmlNode.element "table" []
          [row_to_xml ["a", "b"], .text " ", row_to_xml ["h1", "h2"]]).get_children
            "row").length) ∧
    populate_table_matrix CtEnv.sample [] (.element "table" [] [.text " "]) [] false
      = .error (.undefined "back() of an empty table matrix") :=
  ⟨(table_codec_non_empty CtEnv.sample).1 _ 4 "left" 60 "" false (by decide),
   (table_codec_non_empty CtEnv.sample).2.1 4 "left" 60 "" false,
   (table_codec_non_empty CtEnv.sample).2.2.2.1 _ [] false (fun h => nomatch h),
   (table_codec_non_empty CtEnv.sample).2.2.2.2 _ [] false rfl⟩

end CherryTree
